import Mathlib

/-!
# Vertex-buffer packing, index-buffer construction and cell explosion

A shallow embedding of `Rendering/OpenGL2/vtkglVBOHelper.cxx` together with
the properties its callers rely on.

Conventions of the embedding

* A raw C++ pointer `T*` is a read function `Nat → T` on element offsets.
* A `std::vector<T>` is a `List T`; `v[i] = x` is `List.set`, `v.resize(n)`
  is `resize`.
* A value kept in an `unsigned int` is a natural number reduced modulo `2^32`
  at the place where the C++ code converts or computes in that type.
* Point ids (`vtkIdType`) of a cell array are natural numbers and a
  `vtkCellArray` is the list of its cells in traversal order.
-/

namespace vtkgl

/-! ## Machine-level helpers -/

/-- Conversion to (or arithmetic in) `unsigned int`: reduction modulo `2^32`. -/
def u32 (x : Nat) : Nat := x % 2 ^ 32

/-- The value of `sizeof(float)`. -/
def sizeofFloat : Nat := 4

/-- The value of `sizeof(unsigned int)`. -/
def sizeofUInt : Nat := 4

/-- Behaviour of `std::vector::resize(n, fill)`: truncate or pad with `fill`. -/
def resize {α : Type} (v : List α) (n : Nat) (fill : α) : List α :=
  v.take n ++ List.replicate (n - v.length) fill

/-! ## Vertex buffer layout and packing (`TemplatedCreateVBO3`, `CreateVBO`) -/

/-- The layout descriptor `VBOLayout` filled in by the packing functions. -/
structure VBOLayout where
  VertexCount : Nat
  Stride : Nat
  VertexOffset : Nat
  NormalOffset : Nat
  TCoordOffset : Nat
  TCoordComponents : Nat
  ColorOffset : Nat
  ColorComponents : Nat
deriving DecidableEq, Repr

/-- One `float`-sized slot of the packed buffer: either a float value or four
colour bytes stored through `reinterpret_cast<float *>`. -/
inductive VBOWord (F : Type) where
  | val (x : F)
  | rgba (b0 b1 b2 b3 : Nat)
deriving DecidableEq, Repr

/-- The vector `packedVBO` together with the write iterator `it`. -/
structure Packed (F : Type) where
  buf : List (VBOWord F)
  it : Nat

/-- The statement `*(it++) = w`. -/
def Packed.put {F : Type} (s : Packed F) (w : VBOWord F) : Packed F :=
  ⟨s.buf.set s.it w, s.it + 1⟩

/-- Element offset of `pointPtr` and `normalPtr` for output vertex `i`
(lines 79-90): `(cellPointMap[i]-1)*3` is computed in `unsigned int`,
`i*3` in `vtkIdType`. -/
def pointOffset (cellPointMap : Option (Nat → Nat)) (i : Nat) : Nat :=
  match cellPointMap with
  | some m => if m i > 0 then u32 ((m i - 1) * 3) else i * 3
  | none => i * 3

/-- Element offset of `tcoordPtr` for output vertex `i` (lines 79-90). -/
def tcoordOffset (cellPointMap : Option (Nat → Nat)) (textureComponents : Nat)
    (i : Nat) : Nat :=
  match cellPointMap with
  | some m =>
    if m i > 0 then u32 ((m i - 1) * textureComponents) else i * textureComponents
  | none => i * textureComponents

/-- Byte offset of `colorPtr` for output vertex `i` (lines 110-117):
`pointCellMap[i]*colorComponents` is computed in `unsigned int`. -/
def colorOffset (pointCellMap : Option (Nat → Nat)) (colorComponents : Nat)
    (i : Nat) : Nat :=
  match pointCellMap with
  | some m => u32 (m i * colorComponents)
  | none => i * colorComponents

/-- Body of the packing loop of `TemplatedCreateVBO3` (lines 79-127) for output
vertex `i`. -/
def packVertex {T T2 T3 F : Type} (cvtP : T → F) (cvtN : T2 → F) (cvtT : T3 → F)
    (points : Nat → T) (normals : Option (Nat → T2))
    (tcoords : Option (Nat → T3)) (textureComponents : Nat)
    (colors : Option (Nat → Nat)) (colorComponents : Nat)
    (cellPointMap pointCellMap : Option (Nat → Nat))
    (s : Packed F) (i : Nat) : Packed F :=
  let pointPtr := pointOffset cellPointMap i
  let normalPtr := pointOffset cellPointMap i
  let tcoordPtr := tcoordOffset cellPointMap textureComponents i
  -- Vertices
  let s := s.put (.val (cvtP (points pointPtr)))
  let s := s.put (.val (cvtP (points (pointPtr + 1))))
  let s := s.put (.val (cvtP (points (pointPtr + 2))))
  let s :=
    match normals with
    | some nrm =>
      let s := s.put (.val (cvtN (nrm normalPtr)))
      let s := s.put (.val (cvtN (nrm (normalPtr + 1))))
      s.put (.val (cvtN (nrm (normalPtr + 2))))
    | none => s
  let s :=
    match tcoords with
    | some tc =>
      (List.range textureComponents).foldl
        (fun s j => s.put (.val (cvtT (tc (tcoordPtr + j))))) s
    | none => s
  match colors with
  | some col =>
    let colorPtr := colorOffset pointCellMap colorComponents i
    if colorComponents = 4 then
      s.put (.rgba (col colorPtr) (col (colorPtr + 1)) (col (colorPtr + 2))
        (col (colorPtr + 3)))
    else
      s.put (.rgba (col colorPtr) (col (colorPtr + 1)) (col (colorPtr + 2)) 255)
  | none => s

/-- The `blockSize` (number of float slots per vertex) and the layout fields
computed at lines 37-63 of `TemplatedCreateVBO3`. -/
def blockLayout (hasNormals hasTCoords : Bool) (textureComponents : Nat)
    (hasColors : Bool) (colorComponents : Nat) : Nat × VBOLayout :=
  let layout : VBOLayout :=
    { VertexCount := 0, Stride := 0, VertexOffset := 0, NormalOffset := 0,
      TCoordOffset := 0, TCoordComponents := 0, ColorOffset := 0,
      ColorComponents := 0 }
  let blockSize := 3
  let (blockSize, layout) :=
    if hasNormals then
      (blockSize + 3, { layout with NormalOffset := sizeofFloat * blockSize })
    else (blockSize, layout)
  let (blockSize, layout) :=
    if hasTCoords then
      (blockSize + textureComponents,
        { layout with TCoordOffset := sizeofFloat * blockSize,
                      TCoordComponents := textureComponents })
    else (blockSize, layout)
  let (blockSize, layout) :=
    if hasColors then
      (blockSize + 1,
        { layout with ColorComponents := colorComponents,
                      ColorOffset := sizeofFloat * blockSize })
    else (blockSize, layout)
  (blockSize, { layout with Stride := sizeofFloat * blockSize })

/-- The function `TemplatedCreateVBO3`: returns the layout and the contents
handed to `vertexBuffer.Upload`.  `cvtP`, `cvtN`, `cvtT` are the implicit
conversions of the template element types `T`, `T2`, `T3` to `float`. -/
def TemplatedCreateVBO3 {T T2 T3 F : Type} [Zero F]
    (cvtP : T → F) (cvtN : T2 → F) (cvtT : T3 → F)
    (points : Nat → T) (normals : Option (Nat → T2)) (numPts : Nat)
    (tcoords : Option (Nat → T3)) (textureComponents : Nat)
    (colors : Option (Nat → Nat)) (colorComponents : Nat)
    (cellPointMap pointCellMap : Option (Nat → Nat)) :
    VBOLayout × List (VBOWord F) :=
  let bl := blockLayout normals.isSome tcoords.isSome textureComponents
    colors.isSome colorComponents
  let blockSize := bl.1
  let layout := bl.2
  -- packedVBO.resize(blockSize * numPts)
  let packedVBO : List (VBOWord F) := resize [] (blockSize * numPts) (.val 0)
  let s := (List.range numPts).foldl
    (packVertex cvtP cvtN cvtT points normals tcoords textureComponents
      colors colorComponents cellPointMap pointCellMap) ⟨packedVBO, 0⟩
  ({ layout with VertexCount := numPts }, s.buf)

/-- Scalar type tag returned by `GetDataType()`, as far as the dispatch macros
distinguish it: `VTK_FLOAT`, `VTK_DOUBLE`, or another type code. -/
inductive VTKType where
  | VTK_FLOAT
  | VTK_DOUBLE
  | VTK_OTHER (code : Nat)
deriving DecidableEq, Repr

/-- A `vtkDataArray` (or the array of a `vtkPoints`) as the packing code sees
it: its scalar type, its number of components and the element read through
`GetVoidPointer(0)`. -/
structure DataArray (V : Type) where
  dataType : VTKType
  numberOfComponents : Nat
  data : Nat → V

/-- What `CreateVBO` uses from headers outside these sources: the conversion of
an element of a given scalar type to `float` (the identity copy for
`VTK_FLOAT`), the further scalar types that `vtkTemplateMacro` dispatches on
besides `VTK_DOUBLE` and `VTK_FLOAT`, and the value of `VBOLayout()`. -/
structure Env (V F : Type) where
  toFloat : VTKType → V → F
  templateMacro : Nat → Bool
  emptyLayout : VBOLayout

/-- The function `TemplatedCreateVBO2` (lines 135-170): dispatch on the scalar
type of the texture coordinates with `vtkFloatDoubleTemplateMacro`.  The second
component is `none` when nothing is uploaded. -/
def TemplatedCreateVBO2 {V F : Type} [Zero F] (env : Env V F)
    (cvtP cvtN : V → F) (points : Nat → V) (normals : Option (Nat → V))
    (numPts : Nat) (tcoords : Option (DataArray V))
    (colors : Option (Nat → Nat)) (colorComponents : Nat)
    (cellPointMap pointCellMap : Option (Nat → Nat)) :
    VBOLayout × Option (List (VBOWord F)) :=
  match tcoords with
  | some tc =>
    match tc.dataType with
    | .VTK_DOUBLE =>
      let r := TemplatedCreateVBO3 cvtP cvtN (env.toFloat .VTK_DOUBLE) points normals
        numPts (some tc.data) tc.numberOfComponents colors colorComponents
        cellPointMap pointCellMap
      (r.1, some r.2)
    | .VTK_FLOAT =>
      let r := TemplatedCreateVBO3 cvtP cvtN (env.toFloat .VTK_FLOAT) points normals
        numPts (some tc.data) tc.numberOfComponents colors colorComponents
        cellPointMap pointCellMap
      (r.1, some r.2)
    | .VTK_OTHER _ => (env.emptyLayout, none)
  | none =>
    let r := TemplatedCreateVBO3 cvtP cvtN (env.toFloat .VTK_FLOAT) points normals
      numPts (none : Option (Nat → V)) 0 colors colorComponents
      cellPointMap pointCellMap
    (r.1, some r.2)

/-- The function `TemplatedCreateVBO` (lines 174-208): dispatch on the scalar
type of the normals with `vtkFloatDoubleTemplateMacro`. -/
def TemplatedCreateVBO {V F : Type} [Zero F] (env : Env V F)
    (cvtP : V → F) (points : Nat → V) (normals : Option (DataArray V))
    (numPts : Nat) (tcoords : Option (DataArray V))
    (colors : Option (Nat → Nat)) (colorComponents : Nat)
    (cellPointMap pointCellMap : Option (Nat → Nat)) :
    VBOLayout × Option (List (VBOWord F)) :=
  match normals with
  | some nrm =>
    match nrm.dataType with
    | .VTK_DOUBLE =>
      TemplatedCreateVBO2 env cvtP (env.toFloat .VTK_DOUBLE) points (some nrm.data)
        numPts tcoords colors colorComponents cellPointMap pointCellMap
    | .VTK_FLOAT =>
      TemplatedCreateVBO2 env cvtP (env.toFloat .VTK_FLOAT) points (some nrm.data)
        numPts tcoords colors colorComponents cellPointMap pointCellMap
    | .VTK_OTHER _ => (env.emptyLayout, none)
  | none =>
    TemplatedCreateVBO2 env cvtP (env.toFloat .VTK_FLOAT) points none
      numPts tcoords colors colorComponents cellPointMap pointCellMap

/-- The function `CreateVBO` (lines 215-252).  `numPts` is the `unsigned int`
argument; the element count `numPts*3` of the fast path is computed in
`unsigned int`. -/
def CreateVBO {V F : Type} [Zero F] (env : Env V F)
    (points : DataArray V) (numPts : Nat)
    (normals tcoords : Option (DataArray V))
    (colors : Option (Nat → Nat)) (colorComponents : Nat)
    (cellPointMap pointCellMap : Option (Nat → Nat)) :
    VBOLayout × Option (List (VBOWord F)) :=
  -- fast path
  if tcoords.isNone ∧ normals.isNone ∧ colors.isNone
      ∧ points.dataType = .VTK_FLOAT then
    let blockSize := 3
    let layout : VBOLayout :=
      { VertexCount := numPts, Stride := sizeofFloat * blockSize, VertexOffset := 0,
        NormalOffset := 0, TCoordOffset := 0, TCoordComponents := 0,
        ColorOffset := 0, ColorComponents := 0 }
    (layout, some ((List.range (u32 (numPts * 3))).map
      (fun j => .val (env.toFloat .VTK_FLOAT (points.data j)))))
  else
    -- slower path
    match points.dataType with
    | .VTK_DOUBLE =>
      TemplatedCreateVBO env (env.toFloat .VTK_DOUBLE) points.data normals numPts
        tcoords colors colorComponents cellPointMap pointCellMap
    | .VTK_FLOAT =>
      TemplatedCreateVBO env (env.toFloat .VTK_FLOAT) points.data normals numPts
        tcoords colors colorComponents cellPointMap pointCellMap
    | .VTK_OTHER code =>
      if env.templateMacro code then
        TemplatedCreateVBO env (env.toFloat (.VTK_OTHER code)) points.data normals
          numPts tcoords colors colorComponents cellPointMap pointCellMap
      else (env.emptyLayout, none)

/-! ## Index buffers (`CreateTriangleIndexBuffer`, `CreateMultiIndexBuffer`) -/

/-- The traversal loop of `CreateTriangleIndexBuffer` (lines 288-329) with the
vector `indexArray` as accumulator.  `Triangulate` stands for
`polygon->Initialize(npts, indices, points); polygon->Triangulate(tris)` and
returns the id list `tris`; `Except.error (-1)` is the call `exit(-1)`.  A
position of `indices` outside the cell (possible only through `tris`) reads 0. -/
def triangleLoop (Triangulate : List Nat → List Nat) :
    List (List Nat) → List Nat → Except Int (List Nat)
  | [], indexArray => .ok indexArray
  | indices :: rest, indexArray =>
    let npts := indices.length
    if npts < 3 then
      .error (-1)
    else if npts > 3 then
      -- special case for quads
      if npts = 4 then
        triangleLoop Triangulate rest
          (indexArray ++ [u32 (indices.getD 0 0), u32 (indices.getD 1 0),
            u32 (indices.getD 2 0), u32 (indices.getD 0 0), u32 (indices.getD 2 0),
            u32 (indices.getD 3 0)])
      else
        triangleLoop Triangulate rest
          (indexArray ++ (Triangulate indices).map (fun t => u32 (indices.getD t 0)))
    else
      triangleLoop Triangulate rest
        (indexArray ++ [u32 (indices.getD 0 0), u32 (indices.getD 1 0),
          u32 (indices.getD 2 0)])

/-- The function `CreateTriangleIndexBuffer` (lines 278-337): on normal return
the uploaded index array and the returned `indexArray.size()`. -/
def CreateTriangleIndexBuffer (Triangulate : List Nat → List Nat)
    (cells : List (List Nat)) : Except Int (List Nat × Nat) :=
  match triangleLoop Triangulate cells [] with
  | .ok indexArray => .ok (indexArray, indexArray.length)
  | .error code => .error code

/-- The triangles named by the claim for one cell: `(a,b,c)` for a triangle and
`(a,b,c),(a,c,d)` for a quad. -/
def trianglesOf : List Nat → List Nat
  | [a, b, c] => [a, b, c]
  | [a, b, c, d] => [a, b, c, a, c, d]
  | _ => []

/-- The vectors `indexArray`, `memoryOffsetArray`, `elementCountArray` and the
counter `count` of `CreateMultiIndexBuffer`. -/
structure MultiIndex where
  indexArray : List Nat
  memoryOffsetArray : List Nat
  elementCountArray : List Nat
  count : Nat
deriving DecidableEq, Repr

/-- The statements `indexArray.push_back(static_cast<unsigned int>(x)); count++`. -/
def MultiIndex.push (st : MultiIndex) (x : Nat) : MultiIndex :=
  { st with indexArray := st.indexArray ++ [u32 x], count := u32 (st.count + 1) }

/-- The loop `for (int j = start; j >= 0; j--)` of lines 381-385 for a start
value `j >= 0`; it pushes `pts[j*2]`.  A position outside the cell reads 0. -/
def evenLoop (pts : List Nat) : Nat → MultiIndex → MultiIndex
  | 0, st => st.push (pts.getD (0 * 2) 0)
  | j + 1, st => evenLoop pts j (st.push (pts.getD ((j + 1) * 2) 0))

/-- The loop `for (int j = 1; j < bound; j += 2)` of lines 386-390, started at
`j`; the first argument after `bound` bounds the number of iterations. -/
def oddLoop (pts : List Nat) (bound : Nat) : Nat → Nat → MultiIndex → MultiIndex
  | 0, _, st => st
  | fuel + 1, j, st =>
    if j < bound then oddLoop pts bound fuel (j + 2) (st.push (pts.getD j 0)) else st

/-- Body of the traversal loop of `CreateMultiIndexBuffer` (lines 373-393) for
the cell `pts`.  The start `(npts-1)/2` of the second loop is the truncating
C++ division on the signed `vtkIdType`. -/
def multiCell (wireframeTriStrips : Bool) (st : MultiIndex) (pts : List Nat) :
    MultiIndex :=
  let npts := pts.length
  let st := { st with
    memoryOffsetArray := st.memoryOffsetArray ++ [st.count * sizeofUInt] }
  let st := (List.range npts).foldl (fun st j => st.push (pts.getD j 0)) st
  if wireframeTriStrips then
    let start : Int := ((npts : Int) - 1).tdiv 2
    let st := if 0 ≤ start then evenLoop pts start.toNat st else st
    let st := oddLoop pts ((npts / 2) * 2) ((npts / 2) * 2) 1 st
    { st with elementCountArray := st.elementCountArray ++ [u32 (npts * 2)] }
  else
    { st with elementCountArray := st.elementCountArray ++ [u32 npts] }

/-- Result of `CreateMultiIndexBuffer`: the uploaded index array, the two output
vectors and the returned `indexArray.size()`. -/
structure MultiIndexBuffer where
  indexArray : List Nat
  memoryOffsetArray : List Nat
  elementCountArray : List Nat
  size : Nat
deriving DecidableEq, Repr

/-- The function `CreateMultiIndexBuffer` (lines 359-397). -/
def CreateMultiIndexBuffer (cells : List (List Nat)) (wireframeTriStrips : Bool) :
    MultiIndexBuffer :=
  let st := cells.foldl (multiCell wireframeTriStrips) ⟨[], [], [], 0⟩
  ⟨st.indexArray, st.memoryOffsetArray, st.elementCountArray, st.indexArray.length⟩

/-- The even-position vertices of a strip in reverse order,
`p[2*floor((n-1)/2)], ..., p[2], p[0]`. -/
def evensReversed (p : List Nat) : List Nat :=
  ((List.range ((p.length - 1) / 2 + 1)).map (fun j => p.getD (2 * j) 0)).reverse

/-- The vertices of a strip at the odd positions `1, 3, 5, ...` below `n`, in
forward order. -/
def oddsForward (p : List Nat) : List Nat :=
  ((List.range p.length).filter (fun j => j % 2 = 1)).map (fun j => p.getD j 0)

/-- The values pushed for one cell by the three loops of `multiCell`, before
their conversion to `unsigned int`. -/
def cellValues (wireframeTriStrips : Bool) (pts : List Nat) : List Nat :=
  (List.range pts.length).map (fun j => pts.getD j 0)
  ++ (if wireframeTriStrips then
        (List.range ((((pts.length : Int) - 1).tdiv 2).toNat + 1)).reverse.map
          (fun j => pts.getD (j * 2) 0)
        ++ (List.range (pts.length / 2)).map (fun t => pts.getD (2 * t + 1) 0)
      else [])

/-- Byte offsets recorded for the cells when `start` indices precede them. -/
def cellOffsets (wireframeTriStrips : Bool) : Nat → List (List Nat) → List Nat
  | _, [] => []
  | start, c :: cs =>
    u32 start * 4
      :: cellOffsets wireframeTriStrips (start + (cellValues wireframeTriStrips c).length) cs

/-! ## Cell explosion (`CreateCellSupportArrays`) -/

/-- A `vtkCellArray` as `CreateCellSupportArrays` reads it: its cells in
traversal order and the value of `GetSize()`, the allocated size of its id
storage. -/
structure CellArray where
  cells : List (List Nat)
  size : Nat
deriving DecidableEq, Repr

/-- The vectors `cellPointMap`, `pointCellMap` and the counters `nextId`,
`cellCount` of `CreateCellSupportArrays`. -/
structure CellSupport where
  cellPointMap : List Nat
  pointCellMap : List Nat
  nextId : Nat
  cellCount : Nat
deriving DecidableEq, Repr

/-- Body of the loop over the points of a cell (lines 437-457) for the point id
`idx`; the second component is the id passed to `InsertCellPoint`.
`nextId*1.5` converted to a size is `nextId*3/2`.  A read outside a vector
yields 0 and a write outside leaves it unchanged. -/
def supportPoint (st : CellSupport) (idx : Nat) : CellSupport × Nat :=
  -- point not used yet?
  if st.cellPointMap.getD idx 0 = 0 then
    ({ st with cellPointMap := st.cellPointMap.set idx (u32 (idx + 1)),
               pointCellMap := st.pointCellMap.set idx st.cellCount }, idx)
  else
    -- might be beyond the current allocation
    let st :=
      if st.nextId ≥ st.cellPointMap.length then
        { st with cellPointMap := resize st.cellPointMap (st.nextId * 3 / 2) 0,
                  pointCellMap := resize st.pointCellMap (st.nextId * 3 / 2) 0 }
      else st
    ({ st with cellPointMap := st.cellPointMap.set st.nextId (u32 (idx + 1)),
               pointCellMap := st.pointCellMap.set st.nextId st.cellCount,
               nextId := u32 (st.nextId + 1) }, st.nextId)

/-- The loop `for (int i=0; i < npts; ++i)` over the points of one cell; returns
the point ids of the new cell. -/
def supportPoints : CellSupport → List Nat → CellSupport × List Nat
  | st, [] => (st, [])
  | st, idx :: rest =>
    let r := supportPoint st idx
    let rs := supportPoints r.1 rest
    (rs.1, r.2 :: rs.2)

/-- The traversal of one cell array (lines 431-460): each cell is rewritten and
`cellCount` is incremented after it; returns the cells of the new array. -/
def supportCells : CellSupport → List (List Nat) → CellSupport × List (List Nat)
  | st, [] => (st, [])
  | st, indices :: rest =>
    let r := supportPoints st indices
    let st1 := { r.1 with cellCount := u32 (r.1.cellCount + 1) }
    let rs := supportCells st1 rest
    (rs.1, r.2 :: rs.2)

/-- Outputs of `CreateCellSupportArrays`: the four rewritten cell arrays
`prims[0..3]` and the two maps. -/
structure SupportArrays where
  verts : List (List Nat)
  lines : List (List Nat)
  polys : List (List Nat)
  strips : List (List Nat)
  cellPointMap : List Nat
  pointCellMap : List Nat
deriving DecidableEq, Repr

/-- The state before the traversal (lines 407-427): both vectors are resized to
`total`, the sum of the four `GetSize()` values, and to `nextId` if that is
larger; `nextId` starts at the number of points and `cellCount` at 0. -/
def supportInit (numberOfPoints total : Nat) (cellPointMap pointCellMap : List Nat) :
    CellSupport :=
  let cellPointMap := resize cellPointMap total 0
  let pointCellMap := resize pointCellMap total 0
  let nextId := u32 numberOfPoints
  -- make sure we have at least Num Points entries
  if cellPointMap.length < nextId then
    ⟨resize cellPointMap nextId 0, resize pointCellMap nextId 0, nextId, 0⟩
  else ⟨cellPointMap, pointCellMap, nextId, 0⟩

/-- The function `CreateCellSupportArrays` (lines 401-467).  `numberOfPoints` is
`poly->GetPoints()->GetNumberOfPoints()`, the four cell arrays are
`prims[0..3]` and the last two arguments are the vectors as passed in. -/
def CreateCellSupportArrays (numberOfPoints : Nat)
    (verts lines polys strips : CellArray)
    (cellPointMap pointCellMap : List Nat) : SupportArrays :=
  let st := supportInit numberOfPoints
    (verts.size + lines.size + polys.size + strips.size) cellPointMap pointCellMap
  let r0 := supportCells st verts.cells
  let r1 := supportCells r0.1 lines.cells
  let r2 := supportCells r1.1 polys.cells
  let r3 := supportCells r2.1 strips.cells
  let st := r3.1
  ⟨r0.2, r1.2, r2.2, r3.2, resize st.cellPointMap st.nextId 0,
    resize st.pointCellMap st.nextId 0⟩

/-- The four rewritten cell arrays in the order of the traversal. -/
def SupportArrays.allCells (r : SupportArrays) : List (List Nat) :=
  r.verts ++ r.lines ++ r.polys ++ r.strips

/-- Number of connectivity entries of a cell list: one count entry and the point
ids of every cell. -/
def connectivityEntries (cells : List (List Nat)) : Nat :=
  (cells.map (fun c => c.length + 1)).sum

/-- Invariant of the state of `CreateCellSupportArrays` for a mesh with `N`
points: the two maps have the same length, the ids `N ≤ e < nextId` are the
allocated new ids, `nextId` does not exceed the length of the maps, and no id
from `nextId` on is mapped. -/
structure SupportInv (N : Nat) (st : CellSupport) : Prop where
  len_eq : st.pointCellMap.length = st.cellPointMap.length
  n_le : N ≤ st.nextId
  next_le : st.nextId ≤ st.cellPointMap.length
  zero_above : ∀ e, st.nextId ≤ e → st.cellPointMap.getD e 0 = 0

/-- Relation between the state `st` before and `st1` after the point references
`ins` have been processed with inserted ids `outs`. -/
structure Reach (st st1 : CellSupport) (ins outs : List Nat) : Prop where
  next_mono : st.nextId ≤ st1.nextId
  next_le : st1.nextId ≤ st.nextId + ins.length
  len_mono : st.cellPointMap.length ≤ st1.cellPointMap.length
  fresh : ∀ e ∈ outs, e < st1.nextId ∧ st.cellPointMap.getD e 0 = 0
    ∧ st1.cellPointMap.getD e 0 ≠ 0
  nodup : outs.Nodup
  frame : ∀ e, st.cellPointMap.getD e 0 ≠ 0 →
    st1.cellPointMap.getD e 0 = st.cellPointMap.getD e 0
    ∧ st1.pointCellMap.getD e 0 = st.pointCellMap.getD e 0
  covered : ∀ e, st1.cellPointMap.getD e 0 ≠ 0 →
    st.cellPointMap.getD e 0 ≠ 0 ∨ e ∈ outs
  counts : ∀ P, st1.cellPointMap.count (P + 1)
    = st.cellPointMap.count (P + 1) + ins.count P
  resolve : outs.map (fun e => st1.cellPointMap.getD e 0) = ins.map (fun i => i + 1)

/-! ## Buffer refresh (`CreatePointIndexBuffer`, `vtkOpenGLPolyDataMapper::UpdateVBO`) -/

/-- The function `CreatePointIndexBuffer` (lines 340-356): the uploaded index
array, every id converted to `unsigned int`, and the returned
`indexArray.size()`. -/
def CreatePointIndexBuffer (cells : List (List Nat)) : List Nat × Nat :=
  let indexArray := cells.foldl
    (fun indexArray indices =>
      indices.foldl (fun indexArray idx => indexArray ++ [u32 idx]) indexArray) []
  (indexArray, indexArray.length)

/-- Representation of the actor property (`GetRepresentation()`): the three
values `VTK_POINTS`, `VTK_WIREFRAME`, `VTK_SURFACE` to which the property clamps
it. -/
inductive Representation where
  | VTK_POINTS
  | VTK_WIREFRAME
  | VTK_SURFACE
deriving DecidableEq, Repr

/-- Interpolation of the actor property (`GetInterpolation()`). -/
inductive Interpolation where
  | VTK_FLAT
  | VTK_GOURAUD
  | VTK_PHONG
deriving DecidableEq, Repr

/-- Values of the mapper field `ScalarMode` that `UpdateVBO` distinguishes;
`VTK_SCALAR_MODE_OTHER` stands for every further value of the `int`. -/
inductive ScalarMode where
  | VTK_SCALAR_MODE_DEFAULT
  | VTK_SCALAR_MODE_USE_POINT_DATA
  | VTK_SCALAR_MODE_USE_CELL_DATA
  | VTK_SCALAR_MODE_USE_POINT_FIELD_DATA
  | VTK_SCALAR_MODE_USE_CELL_FIELD_DATA
  | VTK_SCALAR_MODE_USE_FIELD_DATA
  | VTK_SCALAR_MODE_OTHER (code : Nat)
deriving DecidableEq, Repr

/-- Values of the mapper field `ScalarMaterialMode` that `BuildShader`
distinguishes; `VTK_MATERIALMODE_OTHER` stands for every further value of the
`int` (such as `VTK_MATERIALMODE_AMBIENT_AND_DIFFUSE`). -/
inductive MaterialMode where
  | VTK_MATERIALMODE_DEFAULT
  | VTK_MATERIALMODE_AMBIENT
  | VTK_MATERIALMODE_DIFFUSE
  | VTK_MATERIALMODE_OTHER (code : Nat)
deriving DecidableEq, Repr

/-- What the mapper reads from `actor->GetProperty()`; `D` is the type of the
`double` values, compared but never computed with. -/
structure Property (D : Type) where
  Representation : Representation
  Interpolation : Interpolation
  Lighting : Bool
  Ambient : D
  Diffuse : D
  NumberOfTextures : Nat

/-- What the mapper reads from the actor: its property, whether `GetTexture()`
is non-null, and `GetMTime()`. -/
structure Actor (D : Type) where
  Property : Property D
  Texture : Bool
  MTime : Nat

/-- What `UpdateVBO` and `GetNeedToRebuildShader` read from the input
`vtkPolyData`: the point array and point count, the point-data normals, texture
coordinates and whether point scalars exist, the four cell arrays and
`GetMTime()`. -/
structure PolyData (V : Type) where
  Points : DataArray V
  NumberOfPoints : Nat
  Normals : Option (DataArray V)
  TCoords : Option (DataArray V)
  Scalars : Bool
  Verts : CellArray
  Lines : CellArray
  Polys : CellArray
  Strips : CellArray
  MTime : Nat

/-- The colour array `this->Colors`: its bytes and its number of components. -/
structure ScalarColors where
  data : Nat → Nat
  numberOfComponents : Nat

/-- The mapper fields that the call `this->MapScalars(...)` (superclass code
outside these sources) leaves behind. -/
structure MappedScalars (V : Type) where
  Colors : Option ScalarColors
  ColorCoordinates : Option (DataArray V)
  ColorTextureMap : Bool

/-- One primitive slot `vtkgl::CellBO` as the mapper uses it: the cached program
(a pointer, `none` for null), the two time stamps, the index count, the
contents uploaded to `ibo`, and the per-cell offsets and element counts. -/
structure CellBO where
  CachedProgram : Option Nat
  ShaderSourceTime : Nat
  attributeUpdateTime : Nat
  indexCount : Nat
  ibo : List Nat
  offsetArray : List Nat
  elementsArray : List Nat
deriving DecidableEq, Repr

/-- The four primitive slots of the mapper. -/
inductive Slot where
  | points
  | lines
  | tris
  | triStrips
deriving DecidableEq, Repr

/-- The fields of `vtkOpenGLPolyDataMapper` that the modelled methods read or
write.  `VBO` is the content uploaded to the vertex buffer object, `none` before
the first upload. -/
structure Mapper (F : Type) where
  points : CellBO
  lines : CellBO
  tris : CellBO
  triStrips : CellBO
  layout : VBOLayout
  VBO : Option (List (VBOWord F))
  ScalarVisibility : Bool
  ScalarMode : ScalarMode
  ScalarMaterialMode : MaterialMode
  InterpolateScalarsBeforeMapping : Bool
  InternalColorTexture : Bool
  LastLightComplexity : Int
  LastSelectionState : Bool
  LastDepthPeeling : Int
  LightComplexityChanged : Nat
  SelectionStateChanged : Nat
  DepthPeelingChanged : Nat
  OpenGLUpdateTime : Nat
  lastBoundBO : Option Slot
  MTime : Nat

/-- The decision `cellScalars` of `UpdateVBO` (lines 1056-1069). -/
def cellScalars {F V : Type} (m : Mapper F) (poly : PolyData V) (colors : Bool) : Bool :=
  if m.ScalarVisibility then
    if (m.ScalarMode = .VTK_SCALAR_MODE_USE_CELL_DATA
          ∨ m.ScalarMode = .VTK_SCALAR_MODE_USE_CELL_FIELD_DATA
          ∨ m.ScalarMode = .VTK_SCALAR_MODE_USE_FIELD_DATA
          ∨ ¬ poly.Scalars)
        ∧ m.ScalarMode ≠ .VTK_SCALAR_MODE_USE_POINT_FIELD_DATA
        ∧ colors then
      true
    else false
  else false

/-- The cell arrays `prims[0..3]` and the two maps after lines 1073-1083 of
`UpdateVBO`: the rewritten arrays and the maps of `CreateCellSupportArrays`
when `cellScalars` holds, the arrays of the mesh and empty maps otherwise. -/
def explodedPrims {V : Type} (poly : PolyData V) (cellScalars : Bool) : SupportArrays :=
  if cellScalars then
    CreateCellSupportArrays poly.NumberOfPoints poly.Verts poly.Lines poly.Polys
      poly.Strips [] []
  else
    ⟨poly.Verts.cells, poly.Lines.cells, poly.Polys.cells, poly.Strips.cells, [], []⟩

/-- The texture coordinate array chosen at lines 1085-1102 of `UpdateVBO`. -/
def chosenTCoords {F V D : Type} (m : Mapper F) (mapped : MappedScalars V)
    (poly : PolyData V) (act : Actor D) : Option (DataArray V) :=
  let haveTextures := mapped.ColorTextureMap || act.Texture
    || decide (act.Property.NumberOfTextures ≠ 0)
  if haveTextures then
    if m.InterpolateScalarsBeforeMapping ∧ mapped.ColorCoordinates.isSome then
      mapped.ColorCoordinates
    else poly.TCoords
  else none

/-- The call of `CreateVBO` at lines 1106-1115 of `UpdateVBO`, with the maps
`prims.cellPointMap` and `prims.pointCellMap` passed as pointers to their first
elements when they are not empty; the point count argument is converted to
`unsigned int`. -/
def packVertices {F V D : Type} [Zero F] (env : Env V F) (m : Mapper F)
    (mapped : MappedScalars V) (poly : PolyData V) (act : Actor D)
    (prims : SupportArrays) : VBOLayout × Option (List (VBOWord F)) :=
  CreateVBO env poly.Points
    (u32 (if prims.cellPointMap.length > 0 then prims.cellPointMap.length
      else poly.NumberOfPoints))
    (if act.Property.Interpolation ≠ .VTK_FLAT then poly.Normals else none)
    (chosenTCoords m mapped poly act)
    (mapped.Colors.map (fun c => c.data))
    (match mapped.Colors with
      | some c => c.numberOfComponents
      | none => 0)
    (if prims.cellPointMap.length > 0 then
      some (fun i => prims.cellPointMap.getD i 0) else none)
    (if prims.pointCellMap.length > 0 then
      some (fun i => prims.pointCellMap.getD i 0) else none)

/-- The method `vtkOpenGLPolyDataMapper::UpdateVBO` (lines 1029-1169).  `poly`
is `this->GetInput()` (`none` for null) and `mapped` the result of
`MapScalars`; `Except.error (-1)` is the `exit(-1)` of
`CreateTriangleIndexBuffer`. -/
def UpdateVBO {F V D : Type} [Zero F] (env : Env V F)
    (Triangulate : List Nat → List Nat) (m : Mapper F) (mapped : MappedScalars V)
    (poly : Option (PolyData V)) (act : Actor D) : Except Int (Mapper F) :=
  match poly with
  | none => .ok m
  | some poly =>
    -- If we are coloring by texture, then load the texture map.
    let m := if mapped.ColorTextureMap then { m with InternalColorTexture := true } else m
    let prims := explodedPrims poly (cellScalars m poly mapped.Colors.isSome)
    let vbo := packVertices env m mapped poly act prims
    let uploaded := match vbo.2 with
      | some buf => some buf
      | none => m.VBO
    let m := { m with layout := vbo.1, VBO := uploaded }
    -- create the IBOs
    let pts := CreatePointIndexBuffer prims.verts
    let points : CellBO := { m.points with indexCount := pts.2, ibo := pts.1 }
    let m := { m with points := points }
    if act.Property.Representation = .VTK_POINTS then
      let ln := CreatePointIndexBuffer prims.lines
      let tr := CreatePointIndexBuffer prims.polys
      let st := CreatePointIndexBuffer prims.strips
      let lines : CellBO := { m.lines with indexCount := ln.2, ibo := ln.1 }
      let tris : CellBO := { m.tris with indexCount := tr.2, ibo := tr.1 }
      let triStrips : CellBO := { m.triStrips with indexCount := st.2, ibo := st.1 }
      .ok { m with lines := lines, tris := tris, triStrips := triStrips }
    else
      -- WIREFRAME OR SURFACE
      let ln := CreateMultiIndexBuffer prims.lines false
      let lines : CellBO := { m.lines with
        indexCount := ln.size, ibo := ln.indexArray,
        offsetArray := ln.memoryOffsetArray, elementsArray := ln.elementCountArray }
      let m := { m with lines := lines }
      if act.Property.Representation = .VTK_WIREFRAME then
        let tr := CreateMultiIndexBuffer prims.polys false
        let st := CreateMultiIndexBuffer prims.strips true
        let tris : CellBO := { m.tris with
          indexCount := tr.size, ibo := tr.indexArray,
          offsetArray := tr.memoryOffsetArray, elementsArray := tr.elementCountArray }
        let triStrips : CellBO := { m.triStrips with
          indexCount := st.size, ibo := st.indexArray,
          offsetArray := st.memoryOffsetArray, elementsArray := st.elementCountArray }
        .ok { m with tris := tris, triStrips := triStrips }
      else
        -- SURFACE
        match CreateTriangleIndexBuffer Triangulate prims.polys with
        | .error code => .error code
        | .ok tr =>
          let st := CreateMultiIndexBuffer prims.strips false
          let tris : CellBO := { m.tris with indexCount := tr.2, ibo := tr.1 }
          let triStrips : CellBO := { m.triStrips with
            indexCount := st.size, ibo := st.indexArray,
            offsetArray := st.memoryOffsetArray, elementsArray := st.elementCountArray }
          .ok { m with tris := tris, triStrips := triStrips }

/-- Scalar type of an optional array as the dispatch of `TemplatedCreateVBO` and
`TemplatedCreateVBO2` sees it: the type of the array, and `float` for the null
pointer `(float *)NULL`. -/
def arrayType {V : Type} (a : Option (DataArray V)) : VTKType :=
  match a with
  | some x => x.dataType
  | none => .VTK_FLOAT

/-- Number of components passed on for an optional array: `GetNumberOfComponents()`
of the array, and 0 for a null pointer. -/
def arrayComponents {V : Type} (a : Option (DataArray V)) : Nat :=
  match a with
  | some x => x.numberOfComponents
  | none => 0

/-- Record number `e` of a packed buffer with the given layout: the `Stride/4`
slots from slot `e * (Stride/4)` on. -/
def recordOfVertex {F : Type} (buf : List (VBOWord F)) (layout : VBOLayout) (e : Nat) :
    List (VBOWord F) :=
  (buf.drop (e * (layout.Stride / 4))).take (layout.Stride / 4)

/-- Source index of claim form: `cellPointMap[i] - 1` when a map is supplied and
`cellPointMap[i] > 0`, and `i` otherwise. -/
def srcIndex (cellPointMap : Option (Nat → Nat)) (i : Nat) : Nat :=
  match cellPointMap with
  | some m => if m i > 0 then m i - 1 else i
  | none => i

/-- Colour tuple index of output vertex `i`: `pointCellMap[i]` when a
point-to-cell map is supplied and `i` otherwise. -/
def colorIndex (pointCellMap : Option (Nat → Nat)) (i : Nat) : Nat :=
  match pointCellMap with
  | some m => m i
  | none => i

/-- The colour slot written for the colour bytes starting at byte offset `off`
(lines 118-126). -/
def colorWord {F : Type} (col : Nat → Nat) (colorComponents off : Nat) : VBOWord F :=
  if colorComponents = 4 then
    .rgba (col off) (col (off + 1)) (col (off + 2)) (col (off + 3))
  else
    .rgba (col off) (col (off + 1)) (col (off + 2)) 255

/-- The words of one packed record, given the element offsets of the position
(and normal) triple, of the texture tuple and the byte offset of the colour
tuple: position, then normal, then texture coordinates, then colour. -/
def recordAt {T T2 T3 F : Type} (cvtP : T → F) (cvtN : T2 → F) (cvtT : T3 → F)
    (points : Nat → T) (normals : Option (Nat → T2))
    (tcoords : Option (Nat → T3)) (textureComponents : Nat)
    (colors : Option (Nat → Nat)) (colorComponents : Nat)
    (pOff tOff cOff : Nat) : List (VBOWord F) :=
  [.val (cvtP (points pOff)), .val (cvtP (points (pOff + 1))),
    .val (cvtP (points (pOff + 2)))]
  ++ (match normals with
      | some nrm => [.val (cvtN (nrm pOff)), .val (cvtN (nrm (pOff + 1))),
          .val (cvtN (nrm (pOff + 2)))]
      | none => [])
  ++ (match tcoords with
      | some tc => (List.range textureComponents).map
          (fun j => .val (cvtT (tc (tOff + j))))
      | none => [])
  ++ (match colors with
      | some col => [colorWord col colorComponents cOff]
      | none => [])

/-- The record that carries the position (and normal and texture coordinates)
of the original point `P` and the colour tuple of the cell with index `c`. -/
def recordOfPointAndCell {V F : Type} (env : Env V F) (points : DataArray V)
    (normals tcoords : Option (DataArray V)) (col : ScalarColors) (P c : Nat) :
    List (VBOWord F) :=
  recordAt (env.toFloat points.dataType) (env.toFloat (arrayType normals))
    (env.toFloat (arrayType tcoords)) points.data (normals.map (fun a => a.data))
    (tcoords.map (fun a => a.data)) (arrayComponents tcoords)
    (some col.data) col.numberOfComponents
    (P * 3) (P * arrayComponents tcoords) (c * col.numberOfComponents)

/-- Indicator of a present optional block. -/
def present {α : Type} (o : Option α) : Nat := if o.isSome then 1 else 0

/-! ### Shader cache (`vtkOpenGLShaderCache.cxx`) -/

/-- An entry `CachedShaderProgram` as the cache reads and writes it: the sources
set on the three stages, the flag `Compiled` and the key `md5Hash`. -/
structure CachedShaderProgram where
  VS : List Char
  FS : List Char
  GS : List Char
  Compiled : Bool
  md5Hash : List Char
deriving DecidableEq

/-- Calls made on the cache and from the cache on the shader objects of an entry,
in the order they happen.  The argument is the entry the call is made on or for;
`Error` is `vtkErrorMacro`. -/
inductive CacheCall where
  | GetShader
  | CompileShader (shader : Nat)
  | BindShader (shader : Nat)
  | CompileVS (shader : Nat)
  | CompileFS (shader : Nat)
  | AttachVS (shader : Nat)
  | AttachFS (shader : Nat)
  | Link (shader : Nat)
  | Error (shader : Nat)
  | Release (shader : Nat)
  | Bind (shader : Nat)
deriving DecidableEq

/-- State of a `vtkOpenGLShaderCache`.  `heap` holds the entries allocated with
`new`, and a non-null `CachedShaderProgram *` is the position of its entry in
`heap`; `ShaderPrograms` is the map from hash to entry pointer, a new pair being put
in front; `LastShaderBound` is `none` for `NULL`; `calls` records the calls made so
far. -/
structure ShaderCache where
  heap : List CachedShaderProgram
  ShaderPrograms : List (List Char × Nat)
  LastShaderBound : Option Nat
  calls : List CacheCall

/-- The cache after construction: no entry, `LastShaderBound = NULL`. -/
def ShaderCache.new : ShaderCache := ⟨[], [], none, []⟩

/-- Append one call to the record of calls. -/
def ShaderCache.call (c : ShaderCache) (e : CacheCall) : ShaderCache :=
  { c with calls := c.calls ++ [e] }

/-- The results of the five back-end steps of one `CompileShader`: `Compile()` of
the vertex and of the fragment stage, `AttachShader` of either, and `Link()`. -/
structure CompileOutcome where
  vsCompile : Bool
  fsCompile : Bool
  attachVS : Bool
  attachFS : Bool
  link : Bool
deriving DecidableEq

/-- The hash `ComputeMD5` (lines 49-66): the digest, as hexadecimal text, of the
three texts appended in order.  The digest function `md5` of `vtksys/MD5.h` is a
parameter. -/
def ComputeMD5 (md5 : List Char → List Char) (content content2 content3 : List Char) :
    List Char :=
  md5 (content ++ content2 ++ content3)

/-- The method `GetShader` (lines 132-166).  The three arguments are non-null texts
(`ComputeMD5` applies `strlen` to each), so the test `geometryCode != NULL` holds. -/
def GetShader (md5 : List Char → List Char) (c : ShaderCache)
    (vertexCode fragmentCode geometryCode : List Char) : ShaderCache × Nat :=
  let c0 := c.call .GetShader
  let result := ComputeMD5 md5 vertexCode fragmentCode geometryCode
  match c0.ShaderPrograms.lookup result with
  | none =>
    let sps : CachedShaderProgram :=
      ⟨vertexCode, fragmentCode, geometryCode, false, result⟩
    ({ c0 with heap := c0.heap ++ [sps],
               ShaderPrograms := (result, c0.heap.length) :: c0.ShaderPrograms },
      c0.heap.length)
  | some found => (c0, found)

/-- The method `CompileShader` (lines 169-199); `none` when `shader` points to no
entry. -/
def CompileShader (gl : CompileOutcome) (c : ShaderCache) (shader : Nat) :
    Option (ShaderCache × Int) :=
  match c.heap[shader]? with
  | none => none
  | some sps =>
    let c0 := c.call (.CompileShader shader)
    let c1 := c0.call (.CompileVS shader)
    if !gl.vsCompile then some (c1.call (.Error shader), 0)
    else
      let c2 := c1.call (.CompileFS shader)
      if !gl.fsCompile then some (c2.call (.Error shader), 0)
      else
        let c3 := c2.call (.AttachVS shader)
        if !gl.attachVS then some (c3.call (.Error shader), 0)
        else
          let c4 := c3.call (.AttachFS shader)
          if !gl.attachFS then some (c4.call (.Error shader), 0)
          else
            let c5 := c4.call (.Link shader)
            if !gl.link then some (c5.call (.Error shader), 0)
            else
              some ({ c5 with heap := c5.heap.set shader { sps with Compiled := true } }, 1)

/-- The method `BindShader` (lines 202-217). -/
def BindShader (c : ShaderCache) (shader : Nat) : ShaderCache × Int :=
  let c0 := c.call (.BindShader shader)
  if c0.LastShaderBound = some shader then (c0, 1)
  else
    let c1 := match c0.LastShaderBound with
      | some last => c0.call (.Release last)
      | none => c0
    let c2 := c1.call (.Bind shader)
    ({ c2 with LastShaderBound := some shader }, 1)

/-- The overload `ReadyShader(CachedShaderProgram *shader)` (lines 114-130) for a
non-null pointer; the result is the cache and the returned pointer (`none` for
`NULL`), and there is no result when `shader` points to no entry. -/
def ReadyShaderCached (gl : CompileOutcome) (c : ShaderCache) (shader : Nat) :
    Option (ShaderCache × Option Nat) :=
  match c.heap[shader]? with
  | none => none
  | some sps =>
    match (if sps.Compiled then some (c, (1 : Int)) else CompileShader gl c shader) with
    | none => none
    | some (c1, compiled) =>
      if compiled = 0 then some (c1, none)
      else
        let (c2, bound) := BindShader c1 shader
        if bound = 0 then some (c2, none) else some (c2, some shader)

/-- The overload `ReadyShader(vertexCode, fragmentCode, geometryCode)` (lines
87-111).  `GetShader` returns a non-null pointer, so the test `!shader` fails. -/
def ReadyShader (md5 : List Char → List Char) (gl : CompileOutcome) (c : ShaderCache)
    (vertexCode fragmentCode geometryCode : List Char) :
    Option (ShaderCache × Option Nat) :=
  let (c0, shader) := GetShader md5 c vertexCode fragmentCode geometryCode
  match c0.heap[shader]? with
  | none => none
  | some sps =>
    match (if sps.Compiled then some (c0, (1 : Int)) else CompileShader gl c0 shader) with
    | none => none
    | some (c1, compiled) =>
      if compiled = 0 then some (c1, none)
      else
        let (c2, bound) := BindShader c1 shader
        if bound = 0 then some (c2, none) else some (c2, some shader)

/-- Every pointer stored in the map points to an entry of the heap. -/
def ShaderCache.validPointers (c : ShaderCache) : Bool :=
  c.ShaderPrograms.all (fun e => decide (e.2 < c.heap.length))

/-- The cache `c2` keeps what `c1` holds: every key of `c1` is a key of `c2` for
the same pointer, and every entry of `c1` is at the same pointer in `c2` with the
same sources and hash, and compiled if it was. -/
def ShaderCache.Keeps (c1 c2 : ShaderCache) : Prop :=
  (∀ (key : List Char) (p : Nat), c1.ShaderPrograms.lookup key = some p → c2.ShaderPrograms.lookup key = some p)
  ∧ (∀ (p : Nat) (e : CachedShaderProgram), c1.heap[p]? = some e →
      ∃ e2 : CachedShaderProgram, c2.heap[p]? = some e2 ∧ e2.VS = e.VS ∧ e2.FS = e.FS ∧ e2.GS = e.GS
        ∧ e2.md5Hash = e.md5Hash ∧ (e.Compiled = true → e2.Compiled = true))

/-- All five back-end steps of a `CompileShader` succeed. -/
def CompileOutcome.ok (gl : CompileOutcome) : Bool :=
  gl.vsCompile && gl.fsCompile && gl.attachVS && gl.attachFS && gl.link

/-- A call of `CompileShader`, or one of the back-end steps that it makes. -/
def CacheCall.isCompile : CacheCall → Bool
  | .CompileShader _ => true
  | .CompileVS _ => true
  | .CompileFS _ => true
  | .AttachVS _ => true
  | .AttachFS _ => true
  | .Link _ => true
  | _ => false

/-- A back-end `Release()` or `Bind()` of a program. -/
def CacheCall.isBindOrRelease : CacheCall → Bool
  | .Release _ => true
  | .Bind _ => true
  | _ => false

/-! ### Shader source (`replace` of `vtkglVBOHelper.cxx`, `BuildShader`) -/

/-- The text `s` begins with the text `search`. -/
def startsWith : List Char → List Char → Bool
  | _, [] => true
  | [], _ :: _ => false
  | c :: s, d :: t => decide (c = d) && startsWith s t

/-- The call `source.find(search, 0)` of `std::string`: the position of the first
occurrence of `search`, `none` for `npos`. -/
def find (search : List Char) : List Char → Option Nat
  | [] => if search = [] then some 0 else none
  | c :: s =>
    if startsWith (c :: s) search then some 0
    else (find search s).map (fun pos => pos + 1)

/-- The loop of `replace` (lines 260-272), one iteration per unit of fuel; `none`
when the fuel runs out before the loop ends.  `source.replace(pos, n, replace)`
puts `replace` in the place of the `n` characters from `pos` on.  The assignment
`pos += search.length()` is not modelled: `pos` is overwritten by the next
`find` before it is read. -/
def replaceLoop (search replace : List Char) (all : Bool) :
    Nat → Bool → List Char → Option (List Char)
  | 0, _, _ => none
  | fuel + 1, first, source =>
    match find search source with
    | none => some source
    | some pos =>
      let source1 := source.take pos ++ replace ++ source.drop (pos + search.length)
      if first then
        if !all then some source1
        else replaceLoop search replace all fuel false source1
      else replaceLoop search replace all fuel first source1

/-- The function `vtkgl::replace` (lines 255-274). -/
def replace (fuel : Nat) (source search replace : List Char) (all : Bool) :
    Option (List Char) :=
  replaceLoop search replace all fuel true source

/-- Number of positions at which the text has two slashes in a row. -/
def dslash : List Char → Nat
  | [] => 0
  | c :: s => (if c = '/' ∧ s.head? = some '/' then 1 else 0) + dslash s

/-- A replacement text that cannot form two slashes in a row: not empty, no slash
at either end and no two slashes in a row inside. -/
def Tame (r : List Char) : Bool :=
  decide (r ≠ [] ∧ r.head? ≠ some '/' ∧ r.getLast? ≠ some '/' ∧ dslash r = 0)

/-- What the headers that are not part of the sources declare: the six shader
templates included at lines 51-58, and the default value of the parameter `all`
of `replace`, which every call in `BuildShader` uses. -/
structure ShaderHeaders where
  vtkglPolyDataVSNoLighting : List Char
  vtkglPolyDataFS : List Char
  vtkglPolyDataVSFragmentLit : List Char
  vtkglPolyDataFSHeadlight : List Char
  vtkglPolyDataFSLightKit : List Char
  vtkglPolyDataFSPositionalLights : List Char
  all : Bool

/-- Values of `GetLightType()` that the mapper distinguishes. -/
inductive LightType where
  | VTK_LIGHT_TYPE_HEADLIGHT
  | VTK_LIGHT_TYPE_OTHER (code : Nat)
deriving DecidableEq, Repr

/-- What `GetNeedToRebuildShader` reads from one `vtkLight`; `Positional` is
whether `GetPositional()` is non-zero. -/
structure Light (D : Type) where
  Switch : Int
  Intensity : D
  LightType : LightType
  Positional : Bool

/-- What the mapper reads from the renderer: the lights in traversal order,
`GetIsPicking()` of the renderer and of its render window, whether
`GetSelector()` is non-null, and `GetLastRenderingUsedDepthPeeling()`. -/
structure Renderer (D : Type) where
  Lights : List (Light D)
  IsPicking : Bool
  RenderWindowIsPicking : Bool
  Selector : Bool
  LastRenderingUsedDepthPeeling : Int

/-- The `switch` of `BuildShader` (lines 105-123): the pair of templates for the
light complexity; for a value outside 0..3 no case applies and the texts stay. -/
def baseSources (h : ShaderHeaders) (VSSource FSSource : List Char)
    (lightComplexity : Int) : List Char × List Char :=
  if lightComplexity = 0 then (h.vtkglPolyDataVSNoLighting, h.vtkglPolyDataFS)
  else if lightComplexity = 1 then
    (h.vtkglPolyDataVSFragmentLit, h.vtkglPolyDataFSHeadlight)
  else if lightComplexity = 2 then
    (h.vtkglPolyDataVSFragmentLit, h.vtkglPolyDataFSLightKit)
  else if lightComplexity = 3 then
    (h.vtkglPolyDataVSFragmentLit, h.vtkglPolyDataFSPositionalLights)
  else (VSSource, FSSource)

/-- The colour substitutions of `BuildShader` (lines 126-156). -/
def colorStage {F D : Type} [LT D] [LE D] [DecidableRel (fun a b : D => a < b)]
    [DecidableRel (fun a b : D => a ≤ b)] (h : ShaderHeaders) (fuel : Nat)
    (m : Mapper F) (actor : Actor D) (VSSource FSSource : List Char) :
    Option (List Char × List Char) :=
  if m.layout.ColorComponents ≠ 0 then do
    let VSSource ← replace fuel VSSource "//VTK::Color::Dec".toList
      "attribute vec4 scalarColor; varying vec4 vertexColor;".toList h.all
    let VSSource ← replace fuel VSSource "//VTK::Color::Impl".toList
      "vertexColor =  scalarColor;".toList h.all
    let FSSource ← replace fuel FSSource "//VTK::Color::Dec".toList
      "varying vec4 vertexColor;".toList h.all
    if m.ScalarMaterialMode = .VTK_MATERIALMODE_AMBIENT
        ∨ (m.ScalarMaterialMode = .VTK_MATERIALMODE_DEFAULT
          ∧ actor.Property.Ambient > actor.Property.Diffuse) then do
      let FSSource ← replace fuel FSSource "//VTK::Color::Impl".toList
        "vec3 ambientColor = vertexColor.rgb; vec3 diffuseColor = diffuseColorUniform.rgb; float opacity = vertexColor.a;".toList
        h.all
      pure (VSSource, FSSource)
    else if m.ScalarMaterialMode = .VTK_MATERIALMODE_DIFFUSE
        ∨ (m.ScalarMaterialMode = .VTK_MATERIALMODE_DEFAULT
          ∧ actor.Property.Ambient ≤ actor.Property.Diffuse) then do
      let FSSource ← replace fuel FSSource "//VTK::Color::Impl".toList
        "vec3 diffuseColor = vertexColor.rgb; vec3 ambientColor = ambientColorUniform; float opacity = vertexColor.a;".toList
        h.all
      pure (VSSource, FSSource)
    else do
      let FSSource ← replace fuel FSSource "//VTK::Color::Impl".toList
        "vec3 diffuseColor = vertexColor.rgb; vec3 ambientColor = vertexColor.rgb; float opacity = vertexColor.a;".toList
        h.all
      pure (VSSource, FSSource)
  else do
    let FSSource ← replace fuel FSSource "//VTK::Color::Impl".toList
      "vec3 ambientColor = ambientColorUniform; vec3 diffuseColor = diffuseColorUniform; float opacity = opacityUniform;".toList
      h.all
    pure (VSSource, FSSource)

/-- The normal substitutions of `BuildShader` (lines 157-193). -/
def normalStage {F D : Type} (h : ShaderHeaders) (fuel : Nat) (m : Mapper F)
    (actor : Actor D) (VSSource FSSource : List Char) : Option (List Char × List Char) :=
  if m.layout.NormalOffset ≠ 0 then do
    let VSSource ← replace fuel VSSource "//VTK::Normal::Dec".toList
      "attribute vec3 normalMC; varying vec3 normalVCVarying;".toList h.all
    let VSSource ← replace fuel VSSource "//VTK::Normal::Impl".toList
      "normalVCVarying = normalMatrix * normalMC;".toList h.all
    let FSSource ← replace fuel FSSource "//VTK::Normal::Dec".toList
      "varying vec3 normalVCVarying;".toList h.all
    let FSSource ← replace fuel FSSource "//VTK::Normal::Impl".toList
      "vec3 normalVC; if (!gl_FrontFacing) \x7b normalVC = -normalVCVarying; \x7d else \x7b normalVC = normalVCVarying; \x7d".toList
      h.all
    pure (VSSource, FSSource)
  else if actor.Property.Representation = .VTK_WIREFRAME then do
    let FSSource ← replace fuel FSSource "//VTK::Normal::Impl".toList
      ("vec3 normalVC;\n"
        ++ "if (abs(dot(dFdx(vertexVC.xyz),vec3(1,1,1))) > abs(dot(dFdy(vertexVC.xyz),vec3(1,1,1))))\n"
        ++ " \x7b normalVC = normalize(cross(cross(dFdx(vertexVC.xyz), vec3(0,0,1)), dFdx(vertexVC.xyz))); \x7d\n"
        ++ "else \x7b normalVC = normalize(cross(cross(dFdy(vertexVC.xyz), vec3(0,0,1)), dFdy(vertexVC.xyz)));\x7d").toList
      h.all
    pure (VSSource, FSSource)
  else do
    let FSSource ← replace fuel FSSource "//VTK::Normal::Impl".toList
      ("vec3 normalVC = normalize(cross(dFdx(vertexVC.xyz), dFdy(vertexVC.xyz)));\n"
        ++ "if (normalVC.z < 0) \x7b normalVC = -1.0*normalVC; \x7d").toList
      h.all
    pure (VSSource, FSSource)

/-- The texture-coordinate substitutions of `BuildShader` (lines 194-227). -/
def tcoordStage {F : Type} (h : ShaderHeaders) (fuel : Nat) (m : Mapper F)
    (VSSource FSSource : List Char) : Option (List Char × List Char) :=
  if m.layout.TCoordComponents ≠ 0 then
    if m.layout.TCoordComponents = 1 then do
      let VSSource ← replace fuel VSSource "//VTK::TCoord::Dec".toList
        "attribute float tcoordMC; varying float tcoordVC;".toList h.all
      let VSSource ← replace fuel VSSource "//VTK::TCoord::Impl".toList
        "tcoordVC = tcoordMC;".toList h.all
      let FSSource ← replace fuel FSSource "//VTK::TCoord::Dec".toList
        "varying float tcoordVC; uniform sampler2D texture1;".toList h.all
      let FSSource ← replace fuel FSSource "//VTK::TCoord::Impl".toList
        "gl_FragColor = gl_FragColor*texture2D(texture1, vec2(tcoordVC,0));".toList h.all
      pure (VSSource, FSSource)
    else do
      let VSSource ← replace fuel VSSource "//VTK::TCoord::Dec".toList
        "attribute vec2 tcoordMC; varying vec2 tcoordVC;".toList h.all
      let VSSource ← replace fuel VSSource "//VTK::TCoord::Impl".toList
        "tcoordVC = tcoordMC;".toList h.all
      let FSSource ← replace fuel FSSource "//VTK::TCoord::Dec".toList
        "varying vec2 tcoordVC; uniform sampler2D texture1;".toList h.all
      let FSSource ← replace fuel FSSource "//VTK::TCoord::Impl".toList
        "gl_FragColor = gl_FragColor*texture2D(texture1, tcoordVC.st);".toList h.all
      pure (VSSource, FSSource)
  else pure (VSSource, FSSource)

/-- The picking substitutions of `BuildShader` (lines 230-245). -/
def pickingStage {D : Type} (h : ShaderHeaders) (fuel : Nat) (ren : Renderer D)
    (FSSource : List Char) : Option (List Char) :=
  let picking := ren.RenderWindowIsPicking || ren.Selector
  if picking then do
    let FSSource ← replace fuel FSSource "//VTK::Picking::Dec".toList
      "uniform vec3 mapperIndex;".toList h.all
    let FSSource ← replace fuel FSSource "//VTK::Picking::Impl".toList
      ("if (mapperIndex == vec3(0,0,0))  \x7b "
        ++ "  int idx = gl_PrimitiveID + 1;"
        ++ "  gl_FragColor = vec4((idx%256)/255.0, ((idx/256)%256)/255.0, (idx/65536)/255.0, 1.0);"
        ++ "  \x7d "
        ++ "else \x7b "
        ++ "  gl_FragColor = vec4(mapperIndex,1.0);"
        ++ "  \x7d").toList
      h.all
    pure FSSource
  else pure FSSource

/-- The depth-peeling substitutions of `BuildShader` (lines 247-260). -/
def depthPeelingStage {D : Type} (h : ShaderHeaders) (fuel : Nat) (ren : Renderer D)
    (FSSource : List Char) : Option (List Char) :=
  if ren.LastRenderingUsedDepthPeeling ≠ 0 then do
    let FSSource ← replace fuel FSSource "//VTK::DepthPeeling::Dec".toList
      ("uniform sampler2DRect opaqueZTexture;"
        ++ "uniform sampler2DRect translucentZTexture;").toList
      h.all
    let FSSource ← replace fuel FSSource "//VTK::DepthPeeling::Impl".toList
      ("float odepth = texture2DRect(opaqueZTexture, gl_FragCoord.xy).r; "
        ++ "if (gl_FragCoord.z >= odepth) \x7b discard; \x7d "
        ++ "float tdepth = texture2DRect(translucentZTexture, gl_FragCoord.xy).r; "
        ++ "if (gl_FragCoord.z <= tdepth) \x7b discard; \x7d ").toList
      h.all
    pure FSSource
  else pure FSSource

/-- The method `BuildShader` (lines 100-264): the texts that it leaves in its
reference parameters `VSSource`, `FSSource` and `GSSource`, given the contents of
the first two on entry (`GSSource` is cleared, so its content on entry plays no
part); `none` when a `replace` runs out of fuel. -/
def BuildShader {F D : Type} [LT D] [LE D] [DecidableRel (fun a b : D => a < b)]
    [DecidableRel (fun a b : D => a ≤ b)] (h : ShaderHeaders) (fuel : Nat)
    (m : Mapper F) (VSSource FSSource : List Char) (lightComplexity : Int)
    (ren : Renderer D) (actor : Actor D) : Option (List Char × List Char × List Char) := do
  let base := baseSources h VSSource FSSource lightComplexity
  let GSSource : List Char := []
  let colored ← colorStage h fuel m actor base.1 base.2
  let normals ← normalStage h fuel m actor colored.1 colored.2
  let tcoords ← tcoordStage h fuel m normals.1 normals.2
  let picked ← pickingStage h fuel ren tcoords.2
  let peeled ← depthPeelingStage h fuel ren picked
  pure (tcoords.1, peeled, GSSource)

/-- The ambient colour formula (line 139): the vertex colour is the ambient colour. -/
def ambientColorImpl : List Char :=
  "vec3 ambientColor = vertexColor.rgb; vec3 diffuseColor = diffuseColorUniform.rgb; float opacity = vertexColor.a;".toList

/-- The diffuse colour formula (line 145): the vertex colour is the diffuse colour. -/
def diffuseColorImpl : List Char :=
  "vec3 diffuseColor = vertexColor.rgb; vec3 ambientColor = ambientColorUniform; float opacity = vertexColor.a;".toList

/-- The colour formula of line 150: the vertex colour is both the ambient and the
diffuse colour. -/
def bothColorImpl : List Char :=
  "vec3 diffuseColor = vertexColor.rgb; vec3 ambientColor = vertexColor.rgb; float opacity = vertexColor.a;".toList

/-- The colour formula of line 155, from the uniforms. -/
def uniformColorImpl : List Char :=
  "vec3 ambientColor = ambientColorUniform; vec3 diffuseColor = diffuseColorUniform; float opacity = opacityUniform;".toList

/-! ### Shader update (`GetNeedToRebuildShader`, `UpdateShader`) -/

/-- The slot of the mapper that a `vtkgl::CellBO &` argument refers to. -/
def Mapper.slot {F : Type} (m : Mapper F) : Slot → CellBO
  | .points => m.points
  | .lines => m.lines
  | .tris => m.tris
  | .triStrips => m.triStrips

/-- Write through a `vtkgl::CellBO &` argument. -/
def Mapper.setSlot {F : Type} (m : Mapper F) (slot : Slot) (b : CellBO) : Mapper F :=
  match slot with
  | .points => { m with points := b }
  | .lines => { m with lines := b }
  | .tris => { m with tris := b }
  | .triStrips => { m with triStrips := b }

/-- The four methods that upload shader parameters. -/
inductive Setter where
  | SetMapperShaderParameters
  | SetPropertyShaderParameters
  | SetCameraShaderParameters
  | SetLightingShaderParameters
deriving DecidableEq, Repr

/-- Calls of the mapper that are recorded: `BuildShader` for a slot, the call
`ReadyShader(cellBO.CachedProgram)` with a null pointer, and each evaluation of
`cellBO.CachedProgram->Program` in a parameter method, with the pointer
evaluated (`none` for null). -/
inductive MapperCall where
  | BuildShader (slot : Slot)
  | ReadyNull (slot : Slot)
  | Program (setter : Setter) (program : Option Nat)
deriving DecidableEq, Repr

/-- Modelled from the spec: the time stamps (`vtkTimeStamp`, not part of the
sources) are monotonically increasing counters; `clock` is the last value handed
out, and `Modified()` hands out the next one.  Together with the clock: the
mapper, the shader cache of the render window, and the recorded mapper calls. -/
structure RenderState (F : Type) where
  clock : Nat
  mapper : Mapper F
  cache : ShaderCache
  calls : List MapperCall

/-- Append one call to the record of mapper calls. -/
def RenderState.call {F : Type} (s : RenderState F) (e : MapperCall) : RenderState F :=
  { s with calls := s.calls ++ [e] }

/-- The decision `needLighting` of `GetNeedToRebuildShader` (lines 275-286). -/
def needLighting {V D : Type} (poly : PolyData V) (slot : Slot) (actor : Actor D) : Bool :=
  let haveNormals := poly.Normals.isSome
  if actor.Property.Representation = .VTK_POINTS then
    decide (actor.Property.Interpolation ≠ .VTK_FLAT) && haveNormals
  else
    let isTrisOrStrips := decide (slot = .tris ∨ slot = .triStrips)
    isTrisOrStrips
      || (!isTrisOrStrips && decide (actor.Property.Interpolation ≠ .VTK_FLAT)
          && haveNormals)

/-- The loop over the lights (lines 299-322), from the current `lightComplexity`
and `numberOfLights`; the result is the final `lightComplexity`.  The count of
lights is a natural number (an `int` in the source, which a collection of fewer
than 2^31 lights does not overflow). -/
def lightLoop {D : Type} [One D] [DecidableEq D] :
    List (Light D) → Int → Nat → Int
  | [], lightComplexity, _ => lightComplexity
  | light :: rest, lightComplexity, numberOfLights =>
    let numberOfLights := if light.Switch > 0 then numberOfLights + 1 else numberOfLights
    let lightComplexity :=
      if lightComplexity = 1
          ∧ (numberOfLights > 1 ∨ light.Intensity ≠ 1
            ∨ light.LightType ≠ .VTK_LIGHT_TYPE_HEADLIGHT) then 2
      else lightComplexity
    if lightComplexity < 3 ∧ light.Positional then 3
    else lightLoop rest lightComplexity numberOfLights

/-- The value of `lightComplexity` that `GetNeedToRebuildShader` computes (lines
269-322). -/
def computeLightComplexity {V D : Type} [One D] [DecidableEq D] (poly : PolyData V)
    (slot : Slot) (ren : Renderer D) (actor : Actor D) : Int :=
  if actor.Property.Lighting && needLighting poly slot actor then
    lightLoop ren.Lights 1 0
  else 0

/-- The method `GetNeedToRebuildShader` (lines 267-361) for the slot `slot` and the
input `poly`: the state after the call and the result. -/
def GetNeedToRebuildShader {F V D : Type} [One D] [DecidableEq D] (s : RenderState F)
    (poly : PolyData V) (slot : Slot) (ren : Renderer D) (actor : Actor D) :
    RenderState F × Bool :=
  let lightComplexity := computeLightComplexity poly slot ren actor
  let s1 : RenderState F :=
    if s.mapper.LastLightComplexity ≠ lightComplexity then
      { s with clock := s.clock + 1,
               mapper := { s.mapper with LightComplexityChanged := s.clock + 1,
                                         LastLightComplexity := lightComplexity } }
    else s
  let s2 : RenderState F :=
    if s1.mapper.LastDepthPeeling ≠ ren.LastRenderingUsedDepthPeeling then
      { s1 with clock := s1.clock + 1,
                mapper := { s1.mapper with
                  DepthPeelingChanged := s1.clock + 1,
                  LastDepthPeeling := ren.LastRenderingUsedDepthPeeling } }
    else s1
  let picking := ren.IsPicking || ren.Selector
  let s3 : RenderState F :=
    if s2.mapper.LastSelectionState ≠ picking then
      { s2 with clock := s2.clock + 1,
                mapper := { s2.mapper with SelectionStateChanged := s2.clock + 1,
                                           LastSelectionState := picking } }
    else s2
  let ShaderSourceTime := (s3.mapper.slot slot).ShaderSourceTime
  (s3, decide (ShaderSourceTime < s3.mapper.MTime
    ∨ ShaderSourceTime < actor.MTime
    ∨ ShaderSourceTime < poly.MTime
    ∨ ShaderSourceTime < s3.mapper.SelectionStateChanged
    ∨ ShaderSourceTime < s3.mapper.DepthPeelingChanged
    ∨ ShaderSourceTime < s3.mapper.LightComplexityChanged))

/-- One evaluation of `cellBO.CachedProgram->Program` in a parameter method. -/
def useProgram {F : Type} (s : RenderState F) (setter : Setter) (slot : Slot) :
    RenderState F :=
  s.call (.Program setter (s.mapper.slot slot).CachedProgram)

/-- The method `SetMapperShaderParameters` (lines 406-506): the uses of the
slot's program and the update of `attributeUpdateTime`; the values uploaded are
not modelled. -/
def SetMapperShaderParameters {F D : Type} (s : RenderState F) (slot : Slot)
    (ren : Renderer D) : RenderState F :=
  let layout := s.mapper.layout
  let s1 : RenderState F :=
    if (s.mapper.slot slot).indexCount ≠ 0
        ∧ s.mapper.OpenGLUpdateTime > (s.mapper.slot slot).attributeUpdateTime then
      let a := useProgram s .SetMapperShaderParameters slot
      let a := if layout.NormalOffset ≠ 0 ∧ s.mapper.LastLightComplexity > 0 then
          useProgram a .SetMapperShaderParameters slot
        else a
      let a := if layout.TCoordComponents ≠ 0 then
          useProgram a .SetMapperShaderParameters slot
        else a
      let a := if layout.ColorComponents ≠ 0 then
          useProgram a .SetMapperShaderParameters slot
        else a
      { a with clock := a.clock + 1,
               mapper := a.mapper.setSlot slot
                 { a.mapper.slot slot with attributeUpdateTime := a.clock + 1 } }
    else s
  let s2 := if layout.TCoordComponents ≠ 0 then
      useProgram s1 .SetMapperShaderParameters slot
    else s1
  let s3 := if ren.LastRenderingUsedDepthPeeling ≠ 0 then
      useProgram (useProgram s2 .SetMapperShaderParameters slot)
        .SetMapperShaderParameters slot
    else s2
  if s3.mapper.LastSelectionState then useProgram s3 .SetMapperShaderParameters slot
  else s3

/-- The method `SetPropertyShaderParameters` (lines 658-686): it evaluates
`cellBO.CachedProgram->Program` first; the values uploaded are not modelled. -/
def SetPropertyShaderParameters {F : Type} (s : RenderState F) (slot : Slot) :
    RenderState F :=
  useProgram s .SetPropertyShaderParameters slot

/-- The method `SetCameraShaderParameters` (lines 601-655): it evaluates
`cellBO.CachedProgram->Program` first; the values uploaded are not modelled. -/
def SetCameraShaderParameters {F : Type} (s : RenderState F) (slot : Slot) :
    RenderState F :=
  useProgram s .SetCameraShaderParameters slot

/-- The method `SetLightingShaderParameters` (lines 508-598): it returns at once
when `LastLightComplexity < 2` and evaluates `cellBO.CachedProgram->Program`
otherwise; the values uploaded are not modelled. -/
def SetLightingShaderParameters {F : Type} (s : RenderState F) (slot : Slot) :
    RenderState F :=
  if s.mapper.LastLightComplexity < 2 then s
  else useProgram s .SetLightingShaderParameters slot

/-- Lines 383-390 of `UpdateShader`: the program returned by `ReadyShader` is
stored in the slot when it differs from the one the slot holds (the reset of the
vertex array object is not modelled), and `ShaderSourceTime` is modified. -/
def storeProgram {F : Type} (s : RenderState F) (slot : Slot) (newShader : Option Nat) :
    RenderState F :=
  let newBO : CellBO := { s.mapper.slot slot with CachedProgram := newShader }
  let changed : RenderState F :=
    if newShader ≠ (s.mapper.slot slot).CachedProgram then
      { s with mapper := s.mapper.setSlot slot newBO }
    else s
  let stamped : CellBO :=
    { changed.mapper.slot slot with ShaderSourceTime := changed.clock + 1 }
  { changed with clock := changed.clock + 1,
                 mapper := changed.mapper.setSlot slot stamped }

/-- The branch of `UpdateShader` that rebuilds (lines 370-391): `BuildShader` on
three empty strings with `this->LastLightComplexity`, `ReadyShader` on the three
texts, and `storeProgram`; `none` when a `replace` runs out of fuel or the cache is
handed a pointer to no entry. -/
def rebuildShader {F D : Type} [LT D] [LE D] [DecidableRel (fun a b : D => a < b)]
    [DecidableRel (fun a b : D => a ≤ b)]
    (h : ShaderHeaders) (md5 : List Char → List Char) (fuel : Nat) (gl : CompileOutcome)
    (s : RenderState F) (slot : Slot) (ren : Renderer D) (actor : Actor D) :
    Option (RenderState F) := do
  let built := s.call (.BuildShader slot)
  let sources ← BuildShader h fuel built.mapper [] [] built.mapper.LastLightComplexity
    ren actor
  let ready ← ReadyShader md5 gl built.cache sources.1 sources.2.1 sources.2.2
  pure (storeProgram { built with cache := ready.1 } slot ready.2)

/-- The branch of `UpdateShader` that does not rebuild (line 395):
`ReadyShader(cellBO.CachedProgram)`, whose result is not used.  A null pointer
handed to `ReadyShader` is recorded and the model goes on. -/
def readyCachedProgram {F : Type} (gl : CompileOutcome) (s : RenderState F)
    (slot : Slot) : Option (RenderState F) :=
  match (s.mapper.slot slot).CachedProgram with
  | some shader => do
    let ready ← ReadyShaderCached gl s.cache shader
    pure { s with cache := ready.1 }
  | none => pure (s.call (.ReadyNull slot))

/-- Lines 398-403 of `UpdateShader`: the four parameter methods in order, and
`lastBoundBO = &cellBO` (the binding of the vertex array object is not
modelled). -/
def uploadParameters {F D : Type} (s : RenderState F) (slot : Slot) (ren : Renderer D) :
    RenderState F :=
  let s3 := SetMapperShaderParameters s slot ren
  let s4 := SetPropertyShaderParameters s3 slot
  let s5 := SetCameraShaderParameters s4 slot
  let s6 := SetLightingShaderParameters s5 slot
  { s6 with mapper := { s6.mapper with lastBoundBO := some slot } }

/-- The method `UpdateShader` (lines 364-404) for the slot `slot`.  `gl` holds the
back-end results in case the cache compiles.  A null `cellBO.CachedProgram` that
is passed to `ReadyShader` or evaluated in a parameter method is recorded and the
model goes on; `none` when a `replace` runs out of fuel or the cache is handed a
pointer to no entry. -/
def UpdateShader {F V D : Type} [LT D] [LE D] [DecidableRel (fun a b : D => a < b)]
    [DecidableRel (fun a b : D => a ≤ b)] [One D] [DecidableEq D]
    (h : ShaderHeaders) (md5 : List Char → List Char) (fuel : Nat) (gl : CompileOutcome)
    (s : RenderState F) (poly : PolyData V) (slot : Slot) (ren : Renderer D)
    (actor : Actor D) : Option (RenderState F) := do
  let need := GetNeedToRebuildShader s poly slot ren actor
  let s2 ←
    if need.2 then rebuildShader h md5 fuel gl need.1 slot ren actor
    else readyCachedProgram gl need.1 slot
  pure (uploadParameters s2 slot ren)

/-- A recorded call of `BuildShader`. -/
def MapperCall.isBuildShader : MapperCall → Bool
  | .BuildShader _ => true
  | _ => false

/-- A recorded call of `GetShader`. -/
def CacheCall.isGetShader : CacheCall → Bool
  | .GetShader => true
  | _ => false

/-- The state `s2` differs from `s1` at most in the clock, which has not gone
back, in `attributeUpdateTime` of the slots, in `lastBoundBO` and in recorded
evaluations of a slot's program: the cache, the mapper's `MTime`, layout and
`OpenGLUpdateTime`, the three `Last...` fields, the three change stamps, and
program, `ShaderSourceTime` and index count of every slot are the same, and no
call of `BuildShader` is added. -/
def RenderState.Framed {F : Type} (s1 s2 : RenderState F) : Prop :=
  s2.cache = s1.cache
  ∧ s1.clock ≤ s2.clock
  ∧ s2.mapper.MTime = s1.mapper.MTime
  ∧ s2.mapper.layout = s1.mapper.layout
  ∧ s2.mapper.OpenGLUpdateTime = s1.mapper.OpenGLUpdateTime
  ∧ s2.mapper.LastLightComplexity = s1.mapper.LastLightComplexity
  ∧ s2.mapper.LastDepthPeeling = s1.mapper.LastDepthPeeling
  ∧ s2.mapper.LastSelectionState = s1.mapper.LastSelectionState
  ∧ s2.mapper.LightComplexityChanged = s1.mapper.LightComplexityChanged
  ∧ s2.mapper.DepthPeelingChanged = s1.mapper.DepthPeelingChanged
  ∧ s2.mapper.SelectionStateChanged = s1.mapper.SelectionStateChanged
  ∧ (∀ sl, (s2.mapper.slot sl).CachedProgram = (s1.mapper.slot sl).CachedProgram)
  ∧ (∀ sl, (s2.mapper.slot sl).ShaderSourceTime = (s1.mapper.slot sl).ShaderSourceTime)
  ∧ (∀ sl, (s2.mapper.slot sl).indexCount = (s1.mapper.slot sl).indexCount)
  ∧ s2.calls.countP MapperCall.isBuildShader = s1.calls.countP MapperCall.isBuildShader

/-! ### Drawing an index sequence as lines -/

/-- The segments that the OpenGL primitive `GL_LINE_STRIP` draws for an index
sequence: one from each index to the next. -/
def lineStripSegments (s : List Nat) : List (Nat × Nat) :=
  s.zip s.tail

/-- The segments that the OpenGL primitive `GL_LINE_LOOP` draws for an index
sequence: those of the line strip and one from the last index back to the
first. -/
def lineLoopSegments (s : List Nat) : List (Nat × Nat) :=
  match s with
  | [] => []
  | a :: rest => (a :: rest).zip (rest ++ [a])

/-- Number of segments that join `x` and `y`, in either direction. -/
def visits (segments : List (Nat × Nat)) (x y : Nat) : Nat :=
  segments.countP (fun e => decide ((e.1 = x ∧ e.2 = y) ∨ (e.1 = y ∧ e.2 = x)))

/-- Every pair of the map points to an entry whose `md5Hash` is the key of the
pair. -/
def ShaderCache.keyedByHash (c : ShaderCache) : Bool :=
  c.ShaderPrograms.all (fun e =>
    match c.heap[e.2]? with
    | some sps => decide (sps.md5Hash = e.1)
    | none => false)

/-- Modelled from the spec: the digest function of `vtksys/MD5.h` is not part of
the sources; the spec calls the key a content hash and expects texts that differ
to get distinct hashes.  `NoCollision md5 a b` says this of the two texts `a` and
`b`: their digests are equal only if the texts are. -/
def NoCollision (md5 : List Char → List Char) (a b : List Char) : Prop :=
  md5 a = md5 b → a = b

/-- The normal formula of lines 190-191, from the screen-space derivatives of
the vertex position, which `BuildShader` uses when the layout has no normals and
the representation is not wireframe. -/
def derivativeNormalImpl : List Char :=
  ("vec3 normalVC = normalize(cross(dFdx(vertexVC.xyz), dFdy(vertexVC.xyz)));\n"
    ++ "if (normalVC.z < 0) \x7b normalVC = -1.0*normalVC; \x7d").toList

/-- The method `RenderPieceDraw` (lines 759-879): `UpdateShader` for each slot
whose index count is not zero, in the order points, lines, triangles, strips;
the draw calls are not modelled.  `gl` holds the back-end results for the
`UpdateShader` of each slot. -/
def RenderPieceDraw {F V D : Type} [LT D] [LE D] [DecidableRel (fun a b : D => a < b)]
    [DecidableRel (fun a b : D => a ≤ b)] [One D] [DecidableEq D]
    (h : ShaderHeaders) (md5 : List Char → List Char) (fuel : Nat)
    (gl : Slot → CompileOutcome) (s : RenderState F) (poly : PolyData V)
    (ren : Renderer D) (actor : Actor D) : Option (RenderState F) := do
  -- draw points
  let s1 ←
    if s.mapper.points.indexCount ≠ 0 then
      UpdateShader h md5 fuel (gl .points) s poly .points ren actor
    else pure s
  -- draw lines
  let s2 ←
    if s1.mapper.lines.indexCount ≠ 0 then
      UpdateShader h md5 fuel (gl .lines) s1 poly .lines ren actor
    else pure s1
  -- draw polygons
  let s3 ←
    if s2.mapper.tris.indexCount ≠ 0 then
      UpdateShader h md5 fuel (gl .tris) s2 poly .tris ren actor
    else pure s2
  -- draw strips
  if s3.mapper.triStrips.indexCount ≠ 0 then
    UpdateShader h md5 fuel (gl .triStrips) s3 poly .triStrips ren actor
  else pure s3

/-- Position in a strip of `n` points of the `k`-th index that the three loops of
`multiCell` push with wireframe doubling on: the positions `0, ..., n-1`, then the
even positions downwards from `2*((n-1)/2)`, then the odd positions upwards. -/
def stripPosition (n k : Nat) : Nat :=
  if k < n then k
  else if k < n + ((n - 1) / 2 + 1) then 2 * ((n - 1) / 2 - (k - n))
  else 2 * (k - n - ((n - 1) / 2 + 1)) + 1

/-- The ids that the cell explosion gives to the point references `refs`, taken in
traversal order, when `next` is the next new id and `seen` holds the points
referenced before: a reference to a point that is not in `seen` keeps the id of the
point, and a reference to a point in `seen` gets the next new id. -/
def explodedIds : Nat → List Nat → List Nat → List Nat
  | _, _, [] => []
  | next, seen, i :: rest =>
    if i ∈ seen then next :: explodedIds (next + 1) seen rest
    else i :: explodedIds next (i :: seen) rest

/-- Number of the references `refs` that are to a point referenced before, `seen`
holding the points referenced before the first of them. -/
def laterReferences : List Nat → List Nat → Nat
  | _, [] => 0
  | seen, i :: rest =>
    if i ∈ seen then laterReferences seen rest + 1 else laterReferences (i :: seen) rest

/-- The points referenced once the references `refs` have been added to `seen`. -/
def seenAfter : List Nat → List Nat → List Nat
  | seen, [] => seen
  | seen, i :: rest => if i ∈ seen then seenAfter seen rest else seenAfter (i :: seen) rest

/-- The element accesses `cellPointMap[...]` and `pointCellMap[...]` that the body
of the point loop makes for the point id `idx` (lines 440-455), in order: each is
the position accessed and the length of the vector at that moment.  The first is
the read of `cellPointMap[indices[i]]`, the other two are the writes of the
branch taken, after the `resize` calls of the second branch. -/
def supportPointAccesses (st : CellSupport) (idx : Nat) : List (Nat × Nat) :=
  (idx, st.cellPointMap.length) ::
    (if st.cellPointMap.getD idx 0 = 0 then
      [(idx, st.cellPointMap.length), (idx, st.pointCellMap.length)]
    else
      let st :=
        if st.nextId ≥ st.cellPointMap.length then
          { st with cellPointMap := resize st.cellPointMap (st.nextId * 3 / 2) 0,
                    pointCellMap := resize st.pointCellMap (st.nextId * 3 / 2) 0 }
        else st
      [(st.nextId, st.cellPointMap.length), (st.nextId, st.pointCellMap.length)])

/-- The element accesses of the loop over the points of one cell. -/
def supportPointsAccesses : CellSupport → List Nat → List (Nat × Nat)
  | _, [] => []
  | st, idx :: rest =>
    supportPointAccesses st idx ++ supportPointsAccesses (supportPoint st idx).1 rest

/-- The element accesses of the traversal of one cell array. -/
def supportCellsAccesses : CellSupport → List (List Nat) → List (Nat × Nat)
  | _, [] => []
  | st, indices :: rest =>
    let r := supportPoints st indices
    let st1 := { r.1 with cellCount := u32 (r.1.cellCount + 1) }
    supportPointsAccesses st indices ++ supportCellsAccesses st1 rest

/-- The element accesses that `CreateCellSupportArrays` makes in its loop over the
four cell arrays (lines 429-463). -/
def CreateCellSupportArraysAccesses (numberOfPoints : Nat)
    (verts lines polys strips : CellArray)
    (cellPointMap pointCellMap : List Nat) : List (Nat × Nat) :=
  let st := supportInit numberOfPoints
    (verts.size + lines.size + polys.size + strips.size) cellPointMap pointCellMap
  let r0 := supportCells st verts.cells
  let r1 := supportCells r0.1 lines.cells
  let r2 := supportCells r1.1 polys.cells
  supportCellsAccesses st verts.cells ++ supportCellsAccesses r0.1 lines.cells
    ++ supportCellsAccesses r1.1 polys.cells ++ supportCellsAccesses r2.1 strips.cells

/-- One pass over a text from left to right, used to describe the result of
`replace`: at a position where the text starts with the marker `m` the replacement
`r` is put and the marker is skipped; `skip` is the number of characters still to
skip, `active` is whether occurrences are still replaced, and after the first
replacement it is `all`. -/
def substFrom (m r : List Char) (all : Bool) : Nat → Bool → List Char → List Char
  | _, _, [] => []
  | skip + 1, active, _ :: t => substFrom m r all skip active t
  | 0, active, c :: t =>
    if active && startsWith (c :: t) m then r ++ substFrom m r all (m.length - 1) all t
    else c :: substFrom m r all 0 active t

/-- The text with the replacement `r` in the place of the occurrences of the marker
`m` met in one pass from the left: of all of them, or of the first one only. -/
def subst (m r : List Char) (all : Bool) (s : List Char) : List Char :=
  substFrom m r all 0 true s

/-- A marker that starts with two slashes, goes on, and has no further slash. -/
def CleanMarker (m : List Char) : Bool :=
  decide (m.take 2 = ['/', '/'] ∧ m.drop 2 ≠ [] ∧ '/' ∉ m.drop 2)

/-- Two markers of which neither is the start of the other. -/
def Apart (m1 m2 : List Char) : Bool :=
  !startsWith m1 m2 && !startsWith m2 m1

/-- A replacement text that cannot make an occurrence of the marker `m`: it is
`Tame`, so it brings no two slashes in a row, and it neither starts with an end
piece of the marker nor is the start of one, so it cannot complete a marker begun
in the text before it. -/
def Inert (m r : List Char) : Bool :=
  Tame r && (List.range m.length).all
    (fun k => !startsWith r (m.drop k) && !startsWith (m.drop k) r)

/-- The substitution groups of `BuildShader` (lines 126-260). -/
inductive Group where
  | color
  | normal
  | tcoord
  | picking
  | depthPeeling
deriving DecidableEq, Repr

/-- One substitution group of `BuildShader` applied to the pair of vertex and
fragment source. -/
def applyGroup {F D : Type} [LT D] [LE D] [DecidableRel (fun a b : D => a < b)]
    [DecidableRel (fun a b : D => a ≤ b)] (h : ShaderHeaders) (fuel : Nat)
    (m : Mapper F) (ren : Renderer D) (actor : Actor D) :
    Group → List Char × List Char → Option (List Char × List Char)
  | .color, src => colorStage h fuel m actor src.1 src.2
  | .normal, src => normalStage h fuel m actor src.1 src.2
  | .tcoord, src => tcoordStage h fuel m src.1 src.2
  | .picking, src => (pickingStage h fuel ren src.2).map (fun fs => (src.1, fs))
  | .depthPeeling, src => (depthPeelingStage h fuel ren src.2).map (fun fs => (src.1, fs))

/-- The substitution groups applied in the order of a list. -/
def applyGroups {F D : Type} [LT D] [LE D] [DecidableRel (fun a b : D => a < b)]
    [DecidableRel (fun a b : D => a ≤ b)] (h : ShaderHeaders) (fuel : Nat)
    (m : Mapper F) (ren : Renderer D) (actor : Actor D) :
    List Group → List Char × List Char → Option (List Char × List Char)
  | [], src => some src
  | g :: rest, src =>
    (applyGroup h fuel m ren actor g src).bind (applyGroups h fuel m ren actor rest)

/-- The order in which `BuildShader` applies the groups. -/
def buildOrder : List Group := [.color, .normal, .tcoord, .picking, .depthPeeling]

/-- The markers that the `replace` calls of a group search for. -/
def groupMarkers : Group → List (List Char)
  | .color => ["//VTK::Color::Dec".toList, "//VTK::Color::Impl".toList]
  | .normal => ["//VTK::Normal::Dec".toList, "//VTK::Normal::Impl".toList]
  | .tcoord => ["//VTK::TCoord::Dec".toList, "//VTK::TCoord::Impl".toList]
  | .picking => ["//VTK::Picking::Dec".toList, "//VTK::Picking::Impl".toList]
  | .depthPeeling =>
    ["//VTK::DepthPeeling::Dec".toList, "//VTK::DepthPeeling::Impl".toList]

/-- The markers that the `replace` calls of `BuildShader` search for. -/
def markers : List (List Char) := buildOrder.flatMap groupMarkers

/-- The replacement texts of the `replace` calls of `BuildShader`, in the order of
the source. -/
def insertedTexts : List (List Char) :=
  ["attribute vec4 scalarColor; varying vec4 vertexColor;".toList,
    "vertexColor =  scalarColor;".toList,
    "varying vec4 vertexColor;".toList,
    "vec3 ambientColor = vertexColor.rgb; vec3 diffuseColor = diffuseColorUniform.rgb; float opacity = vertexColor.a;".toList,
    "vec3 diffuseColor = vertexColor.rgb; vec3 ambientColor = ambientColorUniform; float opacity = vertexColor.a;".toList,
    "vec3 diffuseColor = vertexColor.rgb; vec3 ambientColor = vertexColor.rgb; float opacity = vertexColor.a;".toList,
    "vec3 ambientColor = ambientColorUniform; vec3 diffuseColor = diffuseColorUniform; float opacity = opacityUniform;".toList,
    "attribute vec3 normalMC; varying vec3 normalVCVarying;".toList,
    "normalVCVarying = normalMatrix * normalMC;".toList,
    "varying vec3 normalVCVarying;".toList,
    "vec3 normalVC; if (!gl_FrontFacing) \x7b normalVC = -normalVCVarying; \x7d else \x7b normalVC = normalVCVarying; \x7d".toList,
    ("vec3 normalVC;\n"
      ++ "if (abs(dot(dFdx(vertexVC.xyz),vec3(1,1,1))) > abs(dot(dFdy(vertexVC.xyz),vec3(1,1,1))))\n"
      ++ " \x7b normalVC = normalize(cross(cross(dFdx(vertexVC.xyz), vec3(0,0,1)), dFdx(vertexVC.xyz))); \x7d\n"
      ++ "else \x7b normalVC = normalize(cross(cross(dFdy(vertexVC.xyz), vec3(0,0,1)), dFdy(vertexVC.xyz)));\x7d").toList,
    ("vec3 normalVC = normalize(cross(dFdx(vertexVC.xyz), dFdy(vertexVC.xyz)));\n"
      ++ "if (normalVC.z < 0) \x7b normalVC = -1.0*normalVC; \x7d").toList,
    "attribute float tcoordMC; varying float tcoordVC;".toList,
    "tcoordVC = tcoordMC;".toList,
    "varying float tcoordVC; uniform sampler2D texture1;".toList,
    "gl_FragColor = gl_FragColor*texture2D(texture1, vec2(tcoordVC,0));".toList,
    "attribute vec2 tcoordMC; varying vec2 tcoordVC;".toList,
    "varying vec2 tcoordVC; uniform sampler2D texture1;".toList,
    "gl_FragColor = gl_FragColor*texture2D(texture1, tcoordVC.st);".toList,
    "uniform vec3 mapperIndex;".toList,
    ("if (mapperIndex == vec3(0,0,0))  \x7b "
      ++ "  int idx = gl_PrimitiveID + 1;"
      ++ "  gl_FragColor = vec4((idx%256)/255.0, ((idx/256)%256)/255.0, (idx/65536)/255.0, 1.0);"
      ++ "  \x7d "
      ++ "else \x7b "
      ++ "  gl_FragColor = vec4(mapperIndex,1.0);"
      ++ "  \x7d").toList,
    ("uniform sampler2DRect opaqueZTexture;"
      ++ "uniform sampler2DRect translucentZTexture;").toList,
    ("float odepth = texture2DRect(opaqueZTexture, gl_FragCoord.xy).r; "
      ++ "if (gl_FragCoord.z >= odepth) \x7b discard; \x7d "
      ++ "float tdepth = texture2DRect(translucentZTexture, gl_FragCoord.xy).r; "
      ++ "if (gl_FragCoord.z <= tdepth) \x7b discard; \x7d ").toList]

/-- The pairs of marker and replacement text of the `replace` calls that a group
makes on the vertex source, in their order. -/
def vsRules {F : Type} (m : Mapper F) : Group → List (List Char × List Char)
  | .color =>
    if m.layout.ColorComponents ≠ 0 then
      [("//VTK::Color::Dec".toList,
          "attribute vec4 scalarColor; varying vec4 vertexColor;".toList),
        ("//VTK::Color::Impl".toList, "vertexColor =  scalarColor;".toList)]
    else []
  | .normal =>
    if m.layout.NormalOffset ≠ 0 then
      [("//VTK::Normal::Dec".toList,
          "attribute vec3 normalMC; varying vec3 normalVCVarying;".toList),
        ("//VTK::Normal::Impl".toList, "normalVCVarying = normalMatrix * normalMC;".toList)]
    else []
  | .tcoord =>
    if m.layout.TCoordComponents ≠ 0 then
      if m.layout.TCoordComponents = 1 then
        [("//VTK::TCoord::Dec".toList,
            "attribute float tcoordMC; varying float tcoordVC;".toList),
          ("//VTK::TCoord::Impl".toList, "tcoordVC = tcoordMC;".toList)]
      else
        [("//VTK::TCoord::Dec".toList,
            "attribute vec2 tcoordMC; varying vec2 tcoordVC;".toList),
          ("//VTK::TCoord::Impl".toList, "tcoordVC = tcoordMC;".toList)]
    else []
  | .picking => []
  | .depthPeeling => []

/-- The pairs of marker and replacement text of the `replace` calls that a group
makes on the fragment source, in their order. -/
def fsRules {F D : Type} [LT D] [LE D] [DecidableRel (fun a b : D => a < b)]
    [DecidableRel (fun a b : D => a ≤ b)] (m : Mapper F) (ren : Renderer D)
    (actor : Actor D) : Group → List (List Char × List Char)
  | .color =>
    if m.layout.ColorComponents ≠ 0 then
      [("//VTK::Color::Dec".toList, "varying vec4 vertexColor;".toList),
        ("//VTK::Color::Impl".toList,
          if m.ScalarMaterialMode = .VTK_MATERIALMODE_AMBIENT
              ∨ (m.ScalarMaterialMode = .VTK_MATERIALMODE_DEFAULT
                ∧ actor.Property.Ambient > actor.Property.Diffuse) then
            "vec3 ambientColor = vertexColor.rgb; vec3 diffuseColor = diffuseColorUniform.rgb; float opacity = vertexColor.a;".toList
          else if m.ScalarMaterialMode = .VTK_MATERIALMODE_DIFFUSE
              ∨ (m.ScalarMaterialMode = .VTK_MATERIALMODE_DEFAULT
                ∧ actor.Property.Ambient ≤ actor.Property.Diffuse) then
            "vec3 diffuseColor = vertexColor.rgb; vec3 ambientColor = ambientColorUniform; float opacity = vertexColor.a;".toList
          else
            "vec3 diffuseColor = vertexColor.rgb; vec3 ambientColor = vertexColor.rgb; float opacity = vertexColor.a;".toList)]
    else
      [("//VTK::Color::Impl".toList,
        "vec3 ambientColor = ambientColorUniform; vec3 diffuseColor = diffuseColorUniform; float opacity = opacityUniform;".toList)]
  | .normal =>
    if m.layout.NormalOffset ≠ 0 then
      [("//VTK::Normal::Dec".toList, "varying vec3 normalVCVarying;".toList),
        ("//VTK::Normal::Impl".toList,
          "vec3 normalVC; if (!gl_FrontFacing) \x7b normalVC = -normalVCVarying; \x7d else \x7b normalVC = normalVCVarying; \x7d".toList)]
    else if actor.Property.Representation = .VTK_WIREFRAME then
      [("//VTK::Normal::Impl".toList,
        ("vec3 normalVC;\n"
          ++ "if (abs(dot(dFdx(vertexVC.xyz),vec3(1,1,1))) > abs(dot(dFdy(vertexVC.xyz),vec3(1,1,1))))\n"
          ++ " \x7b normalVC = normalize(cross(cross(dFdx(vertexVC.xyz), vec3(0,0,1)), dFdx(vertexVC.xyz))); \x7d\n"
          ++ "else \x7b normalVC = normalize(cross(cross(dFdy(vertexVC.xyz), vec3(0,0,1)), dFdy(vertexVC.xyz)));\x7d").toList)]
    else
      [("//VTK::Normal::Impl".toList,
        ("vec3 normalVC = normalize(cross(dFdx(vertexVC.xyz), dFdy(vertexVC.xyz)));\n"
          ++ "if (normalVC.z < 0) \x7b normalVC = -1.0*normalVC; \x7d").toList)]
  | .tcoord =>
    if m.layout.TCoordComponents ≠ 0 then
      if m.layout.TCoordComponents = 1 then
        [("//VTK::TCoord::Dec".toList,
            "varying float tcoordVC; uniform sampler2D texture1;".toList),
          ("//VTK::TCoord::Impl".toList,
            "gl_FragColor = gl_FragColor*texture2D(texture1, vec2(tcoordVC,0));".toList)]
      else
        [("//VTK::TCoord::Dec".toList,
            "varying vec2 tcoordVC; uniform sampler2D texture1;".toList),
          ("//VTK::TCoord::Impl".toList,
            "gl_FragColor = gl_FragColor*texture2D(texture1, tcoordVC.st);".toList)]
    else []
  | .picking =>
    if (ren.RenderWindowIsPicking || ren.Selector) = true then
      [("//VTK::Picking::Dec".toList, "uniform vec3 mapperIndex;".toList),
        ("//VTK::Picking::Impl".toList,
          ("if (mapperIndex == vec3(0,0,0))  \x7b "
            ++ "  int idx = gl_PrimitiveID + 1;"
            ++ "  gl_FragColor = vec4((idx%256)/255.0, ((idx/256)%256)/255.0, (idx/65536)/255.0, 1.0);"
            ++ "  \x7d "
            ++ "else \x7b "
            ++ "  gl_FragColor = vec4(mapperIndex,1.0);"
            ++ "  \x7d").toList)]
    else []
  | .depthPeeling =>
    if ren.LastRenderingUsedDepthPeeling ≠ 0 then
      [("//VTK::DepthPeeling::Dec".toList,
          ("uniform sampler2DRect opaqueZTexture;"
            ++ "uniform sampler2DRect translucentZTexture;").toList),
        ("//VTK::DepthPeeling::Impl".toList,
          ("float odepth = texture2DRect(opaqueZTexture, gl_FragCoord.xy).r; "
            ++ "if (gl_FragCoord.z >= odepth) \x7b discard; \x7d "
            ++ "float tdepth = texture2DRect(translucentZTexture, gl_FragCoord.xy).r; "
            ++ "if (gl_FragCoord.z <= tdepth) \x7b discard; \x7d ").toList)]
    else []

/-- The `replace` calls for a list of pairs of marker and replacement text, made one
after the other on a text. -/
def applyRules (fuel : Nat) (all : Bool) :
    List (List Char × List Char) → List Char → Option (List Char)
  | [], s => some s
  | rule :: rest, s => (replace fuel s rule.1 rule.2 all).bind (applyRules fuel all rest)

/-- The one-pass substitutions for a list of pairs of marker and replacement text,
made one after the other on a text. -/
def substRules (all : Bool) (rules : List (List Char × List Char)) (s : List Char) :
    List Char :=
  rules.foldl (fun s rule => subst rule.1 rule.2 all s) s

/-- The one-pass substitutions of a group on the pair of vertex and fragment
source. -/
def substGroup {F D : Type} [LT D] [LE D] [DecidableRel (fun a b : D => a < b)]
    [DecidableRel (fun a b : D => a ≤ b)] (h : ShaderHeaders) (m : Mapper F)
    (ren : Renderer D) (actor : Actor D) (src : List Char × List Char) (g : Group) :
    List Char × List Char :=
  (substRules h.all (vsRules m g) src.1, substRules h.all (fsRules m ren actor g) src.2)

/-! ### Sample data -/

/-- A back end over integers: conversion to `float` is the identity, every further
scalar type is dispatched on, the zeroed layout. -/
def sampleEnv : Env Int Int := ⟨fun _ x => x, fun _ => true, ⟨0, 0, 0, 0, 0, 0, 0, 0⟩⟩

/-- A mapper as constructed, with scalar visibility on and cell data as scalar
mode. -/
def sampleCellDataMapper : Mapper Int :=
  ⟨⟨none, 0, 0, 0, [], [], []⟩, ⟨none, 0, 0, 0, [], [], []⟩,
    ⟨none, 0, 0, 0, [], [], []⟩, ⟨none, 0, 0, 0, [], [], []⟩,
    ⟨0, 0, 0, 0, 0, 0, 0, 0⟩, none, true, .VTK_SCALAR_MODE_USE_CELL_DATA,
    .VTK_MATERIALMODE_DEFAULT, false, false, -1, false, 0, 0, 0, 0, 0, none, 1⟩

/-- Four points and the two triangles `(0,1,2)` and `(0,2,3)`, which share the
points 0 and 2. -/
def sampleTwoTriangles : PolyData Int :=
  ⟨⟨.VTK_FLOAT, 3, fun j => (j : Int)⟩, 4, none, none, false,
    ⟨[], 0⟩, ⟨[], 0⟩, ⟨[[0, 1, 2], [0, 2, 3]], 8⟩, ⟨[], 0⟩, 1⟩

/-- One RGBA colour per cell: byte `i` of the colour array is `i`. -/
def sampleCellColors : ScalarColors := ⟨fun i => i, 4⟩

/-- A surface actor with Gouraud interpolation and no texture. -/
def sampleActor : Actor Int := ⟨⟨.VTK_SURFACE, .VTK_GOURAUD, true, 0, 1, 0⟩, false, 1⟩

/-- A cache that holds one entry, not compiled, for the sources `v`, `f` and the
empty geometry source under the key `vf`; nothing is bound. -/
def sampleCache : ShaderCache :=
  ⟨[⟨['v'], ['f'], [], false, ['v', 'f']⟩], [(['v', 'f'], 0)], none, []⟩

/-- Small templates with colour and normal insertion points, and `all = true`. -/
def sampleHeaders : ShaderHeaders :=
  ⟨"//VTK::Color::Dec\nvoid main() \x7b //VTK::Color::Impl\n \x7d".toList,
    "//VTK::Color::Dec\nvoid main() \x7b //VTK::Color::Impl\n //VTK::Normal::Impl\n \x7d".toList,
    "//VTK::Normal::Dec\nvoid main() \x7b //VTK::Normal::Impl\n \x7d".toList,
    "//VTK::Color::Dec\nvoid main() \x7b //VTK::Color::Impl\n //VTK::Normal::Impl\n \x7d".toList,
    "//VTK::Color::Dec\nvoid main() \x7b //VTK::Color::Impl\n //VTK::Normal::Impl\n \x7d".toList,
    "//VTK::Color::Dec\nvoid main() \x7b //VTK::Color::Impl\n //VTK::Normal::Impl\n \x7d".toList,
    true⟩

/-- A renderer without lights, picking, selector or depth peeling. -/
def sampleRenderer : Renderer Int := ⟨[], false, false, false, 0⟩

/-- The sample mapper with a layout that has four colour components. -/
def sampleColoredMapper : Mapper Int :=
  { sampleCellDataMapper with layout := ⟨4, 16, 0, 0, 0, 0, 12, 4⟩ }

/-- A render state at clock 10 with the sample mapper (all of its stamps at most
1) and an empty shader cache. -/
def sampleRenderState : RenderState Int := ⟨10, sampleCellDataMapper, ShaderCache.new, []⟩

/-- The sample render state after one `UpdateShader` on the triangle slot, every
back-end step succeeding. -/
def sampleAfterUpdate : RenderState Int :=
  (UpdateShader sampleHeaders id 8 ⟨true, true, true, true, true⟩ sampleRenderState
    sampleTwoTriangles .tris sampleRenderer sampleActor).getD sampleRenderState

/-- A triangulation routine that returns the fan `(0,1,2), (0,2,3), ...` of local
indices. -/
def sampleFan (c : List Nat) : List Nat :=
  (List.range (c.length - 2)).flatMap (fun i => [0, i + 1, i + 2])

/-- The unit quad: four points and the polygon cell `(0,1,2,3)`, no normals,
texture coordinates or scalars. -/
def sampleQuad : PolyData Int :=
  ⟨⟨.VTK_FLOAT, 3, fun j => (j : Int)⟩, 4, none, none, false,
    ⟨[], 0⟩, ⟨[], 0⟩, ⟨[[0, 1, 2, 3]], 5⟩, ⟨[], 0⟩, 1⟩

/-- A surface actor with lighting switched off. -/
def sampleUnlitActor : Actor Int := ⟨⟨.VTK_SURFACE, .VTK_GOURAUD, false, 0, 1, 0⟩, false, 1⟩

/-- The sample mapper after `UpdateVBO` on the unit quad without mapped colours. -/
def sampleQuadMapper : Mapper Int :=
  match UpdateVBO sampleEnv (fun _ => []) sampleCellDataMapper ⟨none, none, false⟩
    (some sampleQuad) sampleUnlitActor with
  | .ok m => m
  | .error _ => sampleCellDataMapper

/-- A switched-on headlight of intensity 1. -/
def sampleHeadlight : Light Int := ⟨1, 1, .VTK_LIGHT_TYPE_HEADLIGHT, false⟩

/-- A switched-off positional scene light. -/
def sampleOffPositional : Light Int := ⟨0, 1, .VTK_LIGHT_TYPE_OTHER 2, true⟩

/-- The sample mapper with the index buffer of the two sample triangles in the
triangle slot, uploaded at time 5. -/
def sampleTrianglesMapper : Mapper Int :=
  { sampleCellDataMapper with
    tris := ⟨none, 0, 0, 6, [0, 1, 2, 0, 2, 3], [], []⟩, OpenGLUpdateTime := 5 }

/-- A render state at clock 10 with `sampleTrianglesMapper` and an empty shader
cache. -/
def sampleDrawState : RenderState Int := ⟨10, sampleTrianglesMapper, ShaderCache.new, []⟩

/-- The state `sampleDrawState` after `UpdateShader` on the triangle slot when
the compilation of the vertex stage fails. -/
def sampleAfterFailure : RenderState Int :=
  (UpdateShader sampleHeaders id 8 ⟨false, true, true, true, true⟩ sampleDrawState
    sampleTwoTriangles .tris sampleRenderer sampleActor).getD sampleDrawState

/-- Three points, the line `(0,1)` and the triangle `(0,1,2)`, no normals. -/
def sampleLineAndTriangle : PolyData Int :=
  ⟨⟨.VTK_FLOAT, 3, fun j => (j : Int)⟩, 3, none, none, false,
    ⟨[], 0⟩, ⟨[[0, 1]], 3⟩, ⟨[[0, 1, 2]], 4⟩, ⟨[], 0⟩, 1⟩

/-- A render state at clock 10 whose mapper holds the index buffers of
`sampleLineAndTriangle` in the line slot and the triangle slot, and an empty
shader cache. -/
def sampleMixedState : RenderState Int :=
  ⟨10, { sampleCellDataMapper with
      lines := ⟨none, 0, 0, 2, [0, 1], [0], [2]⟩,
      tris := ⟨none, 0, 0, 3, [0, 1, 2], [], []⟩, OpenGLUpdateTime := 5 },
    ShaderCache.new, []⟩

/-- A renderer whose only light is the sample headlight. -/
def sampleHeadlightRenderer : Renderer Int := ⟨[sampleHeadlight], false, false, false, 0⟩

/-- A renderer without lights, with a selector and with depth peeling used in the
last rendering. -/
def samplePeelingRenderer : Renderer Int := ⟨[], false, false, true, 1⟩

/-- A vertex template with the insertion points of the colours, the normals and the
texture coordinates. -/
def sampleTemplateVS : List Char :=
  "//VTK::Color::Dec\n//VTK::Normal::Dec\n//VTK::TCoord::Dec\nvoid main() \x7b //VTK::Color::Impl\n //VTK::Normal::Impl\n //VTK::TCoord::Impl\n \x7d".toList

/-- A fragment template with the insertion points of the five groups. -/
def sampleTemplateFS : List Char :=
  "//VTK::Color::Dec\n//VTK::Picking::Dec\n//VTK::DepthPeeling::Dec\nvoid main() \x7b //VTK::DepthPeeling::Impl\n //VTK::Color::Impl\n //VTK::Normal::Impl\n //VTK::Picking::Impl\n \x7d".toList

/-! ## Properties -/

/-- C1: the layout returned by the general packing path has `VertexOffset = 0`,
stride `12 + 12*n + 4*k*t + 4*c`, each present block at the sum of the sizes of
the blocks before it, every absent block with offset and component count 0, and
`VertexCount` equal to the requested point count. -/
theorem C1_general_path_layout {T T2 T3 F : Type} [Zero F]
    (cvtP : T → F) (cvtN : T2 → F) (cvtT : T3 → F)
    (points : Nat → T) (normals : Option (Nat → T2)) (numPts : Nat)
    (tcoords : Option (Nat → T3)) (k : Nat)
    (colors : Option (Nat → Nat)) (colorComponents : Nat)
    (cellPointMap pointCellMap : Option (Nat → Nat)) :
    (TemplatedCreateVBO3 cvtP cvtN cvtT points normals numPts tcoords k colors
        colorComponents cellPointMap pointCellMap).1 =
      { VertexCount := numPts
        Stride := 12 + 12 * present normals + 4 * k * present tcoords
          + 4 * present colors
        VertexOffset := 0
        NormalOffset := if normals.isSome then 12 else 0
        TCoordOffset := if tcoords.isSome then 12 + 12 * present normals else 0
        TCoordComponents := if tcoords.isSome then k else 0
        ColorOffset :=
          if colors.isSome then 12 + 12 * present normals + 4 * k * present tcoords
          else 0
        ColorComponents := if colors.isSome then colorComponents else 0 } := by
  cases normals <;> cases tcoords <;> cases colors <;>
    simp [TemplatedCreateVBO3, blockLayout, present, sizeofFloat] <;> omega

/-! ### Sequential writes into the zero-filled buffer -/

theorem resize_nil {α : Type} (n : Nat) (z : α) : resize [] n z = List.replicate n z := by
  simp [resize]

theorem put_fill {F : Type} (pre : List (VBOWord F)) (m : Nat) (z w : VBOWord F) :
    Packed.put ⟨pre ++ List.replicate (m + 1) z, pre.length⟩ w
      = ⟨(pre ++ [w]) ++ List.replicate m z, (pre ++ [w]).length⟩ := by
  simp [Packed.put, List.replicate_succ]

theorem foldl_put_fill {F : Type} (z : VBOWord F) (ws : List (VBOWord F)) :
    ∀ (pre : List (VBOWord F)) (m : Nat), ws.length ≤ m →
      ws.foldl Packed.put ⟨pre ++ List.replicate m z, pre.length⟩
        = ⟨(pre ++ ws) ++ List.replicate (m - ws.length) z, (pre ++ ws).length⟩ := by
  induction ws with
  | nil => intro pre m _; simp
  | cons w ws ih =>
    intro pre m hm
    obtain ⟨m, rfl⟩ : ∃ k, m = k + 1 := ⟨m - 1, by simp at hm; omega⟩
    have hlen : ws.length ≤ m := by simpa using hm
    rw [List.foldl_cons, put_fill, ih _ _ hlen]
    simp

theorem packVertex_eq_foldl {T T2 T3 F : Type} (cvtP : T → F) (cvtN : T2 → F)
    (cvtT : T3 → F) (points : Nat → T) (normals : Option (Nat → T2))
    (tcoords : Option (Nat → T3)) (k : Nat)
    (colors : Option (Nat → Nat)) (cc : Nat)
    (cellPointMap pointCellMap : Option (Nat → Nat)) (s : Packed F) (i : Nat) :
    packVertex cvtP cvtN cvtT points normals tcoords k colors cc
        cellPointMap pointCellMap s i
      = (recordAt cvtP cvtN cvtT points normals tcoords k colors cc
          (pointOffset cellPointMap i) (tcoordOffset cellPointMap k i)
          (colorOffset pointCellMap cc i)).foldl Packed.put s := by
  cases normals <;> cases tcoords <;> cases colors <;>
    simp [packVertex, recordAt, colorWord, List.foldl_append, List.foldl_map] <;>
    split <;> rfl

theorem recordAt_length {T T2 T3 F : Type} (cvtP : T → F) (cvtN : T2 → F)
    (cvtT : T3 → F) (points : Nat → T) (normals : Option (Nat → T2))
    (tcoords : Option (Nat → T3)) (k : Nat)
    (colors : Option (Nat → Nat)) (cc : Nat) (pOff tOff cOff : Nat) :
    (recordAt cvtP cvtN cvtT points normals tcoords k colors cc pOff tOff cOff).length
      = (blockLayout normals.isSome tcoords.isSome k colors.isSome cc).1 := by
  cases normals <;> cases tcoords <;> cases colors <;>
    simp [recordAt, blockLayout] <;> omega

/-! ### Concatenation of equally long records -/

theorem length_flatMap_range {α : Type} (f : Nat → List α) (b : Nat) :
    ∀ n : Nat, (∀ i < n, (f i).length = b) → ((List.range n).flatMap f).length = n * b := by
  intro n
  induction n with
  | zero => intro _; simp
  | succ n ih =>
    intro h
    rw [List.range_succ, List.flatMap_append, List.length_append,
      ih (fun i hi => h i (Nat.lt_succ_of_lt hi)), List.flatMap_singleton,
      h n (Nat.lt_succ_self n), Nat.succ_mul]

theorem slice_flatMap_range {α : Type} (f : Nat → List α) (b : Nat) :
    ∀ n : Nat, (∀ i < n, (f i).length = b) → ∀ i < n,
      (((List.range n).flatMap f).drop (i * b)).take b = f i := by
  intro n
  induction n with
  | zero => intro _ i hi; omega
  | succ n ih =>
    intro h i hi
    have hn : ∀ j < n, (f j).length = b := fun j hj => h j (Nat.lt_succ_of_lt hj)
    have hlen := length_flatMap_range f b n hn
    rw [List.range_succ, List.flatMap_append, List.flatMap_singleton]
    rcases Nat.lt_succ_iff_lt_or_eq.mp hi with hlt | rfl
    · have h1 : i * b + b ≤ ((List.range n).flatMap f).length := by
        rw [hlen, ← Nat.succ_mul]; exact Nat.mul_le_mul_right b hlt
      rw [List.drop_append_of_le_length (by omega),
        List.take_append_of_le_length (by rw [List.length_drop]; omega)]
      exact ih hn i hlt
    · rw [← hlen, List.drop_left, ← h i (Nat.lt_succ_self i), List.take_length]

/-! ### The packing loop -/

theorem packLoop_eq {T T2 T3 F : Type} [Zero F] (cvtP : T → F) (cvtN : T2 → F)
    (cvtT : T3 → F) (points : Nat → T) (normals : Option (Nat → T2))
    (tcoords : Option (Nat → T3)) (k : Nat)
    (colors : Option (Nat → Nat)) (cc : Nat)
    (cellPointMap pointCellMap : Option (Nat → Nat)) (N : Nat) :
    ∀ n : Nat, n ≤ N →
      (List.range n).foldl
        (packVertex cvtP cvtN cvtT points normals tcoords k colors cc
          cellPointMap pointCellMap)
        ⟨List.replicate
          ((blockLayout normals.isSome tcoords.isSome k colors.isSome cc).1 * N)
          (.val 0), 0⟩
      = ⟨(List.range n).flatMap (fun i =>
            recordAt cvtP cvtN cvtT points normals tcoords k colors cc
              (pointOffset cellPointMap i) (tcoordOffset cellPointMap k i)
              (colorOffset pointCellMap cc i))
          ++ List.replicate
            ((blockLayout normals.isSome tcoords.isSome k colors.isSome cc).1 * (N - n))
            (.val 0),
          ((List.range n).flatMap (fun i =>
            recordAt cvtP cvtN cvtT points normals tcoords k colors cc
              (pointOffset cellPointMap i) (tcoordOffset cellPointMap k i)
              (colorOffset pointCellMap cc i))).length⟩ := by
  intro n
  induction n with
  | zero => intro _; simp
  | succ n ih =>
    intro hn
    rw [List.range_succ, List.foldl_append, ih (Nat.le_of_succ_le hn)]
    simp only [List.foldl_cons, List.foldl_nil]
    rw [packVertex_eq_foldl, foldl_put_fill]
    · rw [recordAt_length, List.flatMap_append, List.flatMap_singleton]
      have : (blockLayout normals.isSome tcoords.isSome k colors.isSome cc).1 * (N - n)
          - (blockLayout normals.isSome tcoords.isSome k colors.isSome cc).1
          = (blockLayout normals.isSome tcoords.isSome k colors.isSome cc).1
            * (N - (n + 1)) := by
        rw [Nat.sub_succ, Nat.mul_pred]
      rw [this]
    · rw [recordAt_length]
      exact Nat.le_mul_of_pos_right _ (by omega)

/-- The buffer uploaded by `TemplatedCreateVBO3` is the concatenation of the
records written for the output vertices `0 .. numPts-1`, each at the offsets
the loop computes. -/
theorem TemplatedCreateVBO3_buffer {T T2 T3 F : Type} [Zero F] (cvtP : T → F)
    (cvtN : T2 → F) (cvtT : T3 → F) (points : Nat → T) (normals : Option (Nat → T2))
    (numPts : Nat) (tcoords : Option (Nat → T3)) (k : Nat)
    (colors : Option (Nat → Nat)) (cc : Nat)
    (cellPointMap pointCellMap : Option (Nat → Nat)) :
    (TemplatedCreateVBO3 cvtP cvtN cvtT points normals numPts tcoords k colors cc
        cellPointMap pointCellMap).2
      = (List.range numPts).flatMap (fun i =>
          recordAt cvtP cvtN cvtT points normals tcoords k colors cc
            (pointOffset cellPointMap i) (tcoordOffset cellPointMap k i)
            (colorOffset pointCellMap cc i)) := by
  simp only [TemplatedCreateVBO3, resize_nil]
  rw [packLoop_eq _ _ _ _ _ _ _ _ _ _ _ numPts numPts (Nat.le_refl _)]
  simp

theorem TemplatedCreateVBO3_stride {T T2 T3 F : Type} [Zero F] (cvtP : T → F)
    (cvtN : T2 → F) (cvtT : T3 → F) (points : Nat → T) (normals : Option (Nat → T2))
    (numPts : Nat) (tcoords : Option (Nat → T3)) (k : Nat)
    (colors : Option (Nat → Nat)) (cc : Nat)
    (cellPointMap pointCellMap : Option (Nat → Nat)) :
    (TemplatedCreateVBO3 cvtP cvtN cvtT points normals numPts tcoords k colors cc
        cellPointMap pointCellMap).1.Stride / 4
      = (blockLayout normals.isSome tcoords.isSome k colors.isSome cc).1 := by
  cases normals <;> cases tcoords <;> cases colors <;>
    simp [TemplatedCreateVBO3, blockLayout, sizeofFloat]

theorem pointOffset_eq (cellPointMap : Option (Nat → Nat)) (i : Nat)
    (h : ∀ m, cellPointMap = some m → (m i - 1) * 3 < 2 ^ 32) :
    pointOffset cellPointMap i = srcIndex cellPointMap i * 3 := by
  cases cellPointMap with
  | none => rfl
  | some m =>
    have := h m rfl
    simp only [pointOffset, srcIndex, u32]
    split
    · exact Nat.mod_eq_of_lt this
    · rfl

theorem tcoordOffset_eq (cellPointMap : Option (Nat → Nat)) (k i : Nat)
    (h : ∀ m, cellPointMap = some m → (m i - 1) * k < 2 ^ 32) :
    tcoordOffset cellPointMap k i = srcIndex cellPointMap i * k := by
  cases cellPointMap with
  | none => rfl
  | some m =>
    have := h m rfl
    simp only [tcoordOffset, srcIndex, u32]
    split
    · exact Nat.mod_eq_of_lt this
    · rfl

theorem colorOffset_eq (pointCellMap : Option (Nat → Nat)) (cc i : Nat)
    (h : ∀ m, pointCellMap = some m → m i * cc < 2 ^ 32) :
    colorOffset pointCellMap cc i = colorIndex pointCellMap i * cc := by
  cases pointCellMap with
  | none => rfl
  | some m => exact Nat.mod_eq_of_lt (h m rfl)

/-- C2: the buffer uploaded by the general packing path has `N * (Stride/4)`
slots and is the concatenation of the records of the output vertices `0..N-1`;
record `i` holds the three position components, then the three normal
components, then the `k` texture components, then one colour slot, with
position, normal and texture values read at source index
`s(i) = cellPointMap[i] - 1` when a map is supplied and `cellPointMap[i] > 0`,
and `s(i) = i` otherwise.  The offsets `(cellPointMap[i]-1)*3` and
`(cellPointMap[i]-1)*k` are assumed to fit the `unsigned int` they are computed
in. -/
theorem C2_general_path_records {T T2 T3 F : Type} [Zero F] (cvtP : T → F)
    (cvtN : T2 → F) (cvtT : T3 → F) (points : Nat → T) (normals : Option (Nat → T2))
    (N : Nat) (tcoords : Option (Nat → T3)) (k : Nat)
    (colors : Option (Nat → Nat)) (cc : Nat)
    (cellPointMap pointCellMap : Option (Nat → Nat))
    (hfit : ∀ m, cellPointMap = some m →
      ∀ i < N, (m i - 1) * 3 < 2 ^ 32 ∧ (m i - 1) * k < 2 ^ 32) :
    (TemplatedCreateVBO3 cvtP cvtN cvtT points normals N tcoords k colors cc
        cellPointMap pointCellMap).2.length
      = N * ((TemplatedCreateVBO3 cvtP cvtN cvtT points normals N tcoords k colors cc
          cellPointMap pointCellMap).1.Stride / 4)
    ∧ (TemplatedCreateVBO3 cvtP cvtN cvtT points normals N tcoords k colors cc
        cellPointMap pointCellMap).2
      = (List.range N).flatMap (fun i =>
          recordAt cvtP cvtN cvtT points normals tcoords k colors cc
            (srcIndex cellPointMap i * 3) (srcIndex cellPointMap i * k)
            (colorOffset pointCellMap cc i))
    ∧ ∀ i < N,
        (((TemplatedCreateVBO3 cvtP cvtN cvtT points normals N tcoords k colors cc
            cellPointMap pointCellMap).2.drop
          (i * ((TemplatedCreateVBO3 cvtP cvtN cvtT points normals N tcoords k colors cc
            cellPointMap pointCellMap).1.Stride / 4))).take
          ((TemplatedCreateVBO3 cvtP cvtN cvtT points normals N tcoords k colors cc
            cellPointMap pointCellMap).1.Stride / 4))
        = recordAt cvtP cvtN cvtT points normals tcoords k colors cc
            (srcIndex cellPointMap i * 3) (srcIndex cellPointMap i * k)
            (colorOffset pointCellMap cc i) := by
  have hbuf : (TemplatedCreateVBO3 cvtP cvtN cvtT points normals N tcoords k colors cc
        cellPointMap pointCellMap).2
      = (List.range N).flatMap (fun i =>
          recordAt cvtP cvtN cvtT points normals tcoords k colors cc
            (srcIndex cellPointMap i * 3) (srcIndex cellPointMap i * k)
            (colorOffset pointCellMap cc i)) := by
    rw [TemplatedCreateVBO3_buffer]
    apply List.flatMap_congr
    intro i hi
    have hi := List.mem_range.mp hi
    rw [pointOffset_eq cellPointMap i (fun m hm => (hfit m hm i hi).1),
      tcoordOffset_eq cellPointMap k i (fun m hm => (hfit m hm i hi).2)]
  rw [hbuf, TemplatedCreateVBO3_stride]
  refine ⟨?_, rfl, ?_⟩
  · exact length_flatMap_range _ _ N (fun i _ => recordAt_length ..)
  · exact slice_flatMap_range _ _ N (fun i _ => recordAt_length ..)

/-- Witness for C2: two output vertices, normals, two texture components and
three-component colours, with an explosion map sending vertex 0 to source
point 1 and leaving vertex 1 unmapped. -/
theorem C2_general_path_records_witness :
    (TemplatedCreateVBO3 (F := Int) (fun x : Nat => (x : Int)) (fun x : Nat => (x : Int))
        (fun x : Nat => (x : Int)) (fun j => j) (some (fun j => 100 + j)) 2
        (some (fun j => 200 + j)) 2 (some (fun j => 10 + j)) 3
        (some (fun i => if i = 0 then 2 else 0)) none).2
      = [.val 3, .val 4, .val 5, .val 103, .val 104, .val 105, .val 202, .val 203,
          .rgba 10 11 12 255,
         .val 3, .val 4, .val 5, .val 103, .val 104, .val 105, .val 202, .val 203,
          .rgba 13 14 15 255] := by
  have h := (C2_general_path_records (F := Int) (fun x : Nat => (x : Int))
    (fun x : Nat => (x : Int)) (fun x : Nat => (x : Int)) (fun j => j)
    (some (fun j => 100 + j)) 2 (some (fun j => 200 + j)) 2 (some (fun j => 10 + j)) 3
    (some (fun i => if i = 0 then 2 else 0)) none
    (by
      intro m hm i hi
      cases hm
      interval_cases i <;> simp)).2.1
  rw [h]
  decide

theorem getElem?_slice {α : Type} (l : List α) (a b j : Nat) (hj : j < b) :
    l[a + j]? = ((l.drop a).take b)[j]? := by
  rw [List.getElem?_take_of_lt hj, List.getElem?_drop]

theorem recordAt_color {T T2 T3 F : Type} (cvtP : T → F) (cvtN : T2 → F)
    (cvtT : T3 → F) (points : Nat → T) (normals : Option (Nat → T2))
    (tcoords : Option (Nat → T3)) (k : Nat)
    (col : Nat → Nat) (cc : Nat) (pOff tOff cOff : Nat) :
    (recordAt cvtP cvtN cvtT points normals tcoords k (some col) cc pOff tOff cOff)[
        (blockLayout normals.isSome tcoords.isSome k true cc).2.ColorOffset / 4]?
      = some (colorWord col cc cOff) := by
  have key : ∀ (pre : List (VBOWord F)) (w : VBOWord F) (n : Nat),
      n = pre.length → (pre ++ [w])[n]? = some w := by
    intro pre w n hn
    subst hn
    simp
  cases normals <;> cases tcoords <;> simp only [recordAt] <;>
    apply key <;> simp [blockLayout, sizeofFloat] <;> omega

theorem colorSlot_lt_blockSize (hn ht : Bool) (k cc : Nat) :
    (blockLayout hn ht k true cc).2.ColorOffset / 4 < (blockLayout hn ht k true cc).1 := by
  cases hn <;> cases ht <;> simp [blockLayout, sizeofFloat]

theorem TemplatedCreateVBO3_colorSlot {T T2 T3 F : Type} [Zero F] (cvtP : T → F)
    (cvtN : T2 → F) (cvtT : T3 → F) (points : Nat → T) (normals : Option (Nat → T2))
    (N : Nat) (tcoords : Option (Nat → T3)) (k : Nat)
    (col : Nat → Nat) (cc : Nat)
    (cellPointMap pointCellMap : Option (Nat → Nat)) (i : Nat) (hi : i < N) :
    (TemplatedCreateVBO3 cvtP cvtN cvtT points normals N tcoords k (some col) cc
        cellPointMap pointCellMap).2[
      i * ((TemplatedCreateVBO3 cvtP cvtN cvtT points normals N tcoords k (some col) cc
          cellPointMap pointCellMap).1.Stride / 4)
      + (TemplatedCreateVBO3 cvtP cvtN cvtT points normals N tcoords k (some col) cc
          cellPointMap pointCellMap).1.ColorOffset / 4]?
      = some (colorWord col cc (colorOffset pointCellMap cc i)) := by
  have hco : (TemplatedCreateVBO3 cvtP cvtN cvtT points normals N tcoords k (some col) cc
        cellPointMap pointCellMap).1.ColorOffset
      = (blockLayout normals.isSome tcoords.isSome k true cc).2.ColorOffset := rfl
  rw [TemplatedCreateVBO3_stride, hco,
    getElem?_slice _ _ (blockLayout normals.isSome tcoords.isSome k true cc).1 _
      (colorSlot_lt_blockSize _ _ _ _),
    TemplatedCreateVBO3_buffer]
  have hs := slice_flatMap_range (fun i =>
      recordAt cvtP cvtN cvtT points normals tcoords k (some col) cc
        (pointOffset cellPointMap i) (tcoordOffset cellPointMap k i)
        (colorOffset pointCellMap cc i))
    (blockLayout normals.isSome tcoords.isSome k true cc).1 N
    (fun i _ => recordAt_length ..) i hi
  simp only [Option.isSome_some] at hs ⊢
  rw [hs, recordAt_color]

/-- C4: with colours present, the colour slot of output vertex `i` (at slot
`i * (Stride/4) + ColorOffset/4` of the uploaded buffer) holds the four bytes of
the colour tuple at index `pointCellMap[i]` when a point-to-cell map is supplied
and at index `i` otherwise; a 4-component tuple is copied byte for byte and a
3-component tuple `(r,g,b)` is stored as `(r,g,b,255)`.  The byte offset
`pointCellMap[i]*colorComponents` is assumed to fit the `unsigned int` it is
computed in. -/
theorem C4_color_unit {T T2 T3 F : Type} [Zero F] (cvtP : T → F)
    (cvtN : T2 → F) (cvtT : T3 → F) (points : Nat → T) (normals : Option (Nat → T2))
    (N : Nat) (tcoords : Option (Nat → T3)) (k : Nat)
    (col : Nat → Nat) (cc : Nat)
    (cellPointMap pointCellMap : Option (Nat → Nat))
    (hfit : ∀ m, pointCellMap = some m → ∀ i < N, m i * cc < 2 ^ 32) :
    ∀ i < N,
      (cc = 4 →
        (TemplatedCreateVBO3 cvtP cvtN cvtT points normals N tcoords k (some col) cc
            cellPointMap pointCellMap).2[
          i * ((TemplatedCreateVBO3 cvtP cvtN cvtT points normals N tcoords k (some col)
              cc cellPointMap pointCellMap).1.Stride / 4)
          + (TemplatedCreateVBO3 cvtP cvtN cvtT points normals N tcoords k (some col) cc
              cellPointMap pointCellMap).1.ColorOffset / 4]?
        = some (.rgba (col (colorIndex pointCellMap i * 4))
            (col (colorIndex pointCellMap i * 4 + 1))
            (col (colorIndex pointCellMap i * 4 + 2))
            (col (colorIndex pointCellMap i * 4 + 3))))
      ∧ (cc = 3 →
        (TemplatedCreateVBO3 cvtP cvtN cvtT points normals N tcoords k (some col) cc
            cellPointMap pointCellMap).2[
          i * ((TemplatedCreateVBO3 cvtP cvtN cvtT points normals N tcoords k (some col)
              cc cellPointMap pointCellMap).1.Stride / 4)
          + (TemplatedCreateVBO3 cvtP cvtN cvtT points normals N tcoords k (some col) cc
              cellPointMap pointCellMap).1.ColorOffset / 4]?
        = some (.rgba (col (colorIndex pointCellMap i * 3))
            (col (colorIndex pointCellMap i * 3 + 1))
            (col (colorIndex pointCellMap i * 3 + 2)) 255)) := by
  intro i hi
  have hslot := TemplatedCreateVBO3_colorSlot cvtP cvtN cvtT points normals N tcoords k
    col cc cellPointMap pointCellMap i hi
  rw [colorOffset_eq pointCellMap cc i (fun m hm => hfit m hm i hi)] at hslot
  constructor
  · intro h4
    subst h4
    rw [hslot]
    simp [colorWord]
  · intro h3
    subst h3
    rw [hslot]
    simp [colorWord]

/-- Witness for C4: three exploded vertices coloured from two 3-component cell
colours through the point-to-cell map `[1, 0, 1]`. -/
theorem C4_color_unit_witness :
    (TemplatedCreateVBO3 (F := Int) (fun x : Nat => (x : Int)) (fun x : Nat => (x : Int))
        (fun x : Nat => (x : Int)) (fun j => j) (none : Option (Nat → Nat)) 3
        (none : Option (Nat → Nat)) 0 (some (fun j => 10 + j)) 3
        none (some (fun i => [1, 0, 1].getD i 0))).2[2 * (16 / 4) + 12 / 4]?
      = some (.rgba 13 14 15 255) := by
  have h := ((C4_color_unit (F := Int) (fun x : Nat => (x : Int))
    (fun x : Nat => (x : Int)) (fun x : Nat => (x : Int)) (fun j => j)
    (none : Option (Nat → Nat)) 3 (none : Option (Nat → Nat)) 0 (fun j => 10 + j) 3
    none (some (fun i => [1, 0, 1].getD i 0))
    (by
      intro m hm i hi
      cases hm
      interval_cases i <;> simp)) 2 (by decide)).2 rfl
  exact h

/-- C3: for a position array of 32-bit floats with `N` points and no normals,
texture coordinates or colours, `CreateVBO` takes the fast path: it uploads
exactly the `3N` raw position values in their original order and returns a
layout with stride 12, `VertexOffset = 0`, all other offsets and component
counts 0 and `VertexCount = N`.  The element count `3N` is assumed to fit the
`unsigned int` it is computed in. -/
theorem C3_fast_path {V F : Type} [Zero F] (env : Env V F)
    (points : DataArray V) (N : Nat) (colorComponents : Nat)
    (cellPointMap pointCellMap : Option (Nat → Nat))
    (hfloat : points.dataType = .VTK_FLOAT) (hfit : N * 3 < 2 ^ 32) :
    CreateVBO env points N none none none colorComponents cellPointMap pointCellMap
      = ({ VertexCount := N, Stride := 12, VertexOffset := 0, NormalOffset := 0,
           TCoordOffset := 0, TCoordComponents := 0, ColorOffset := 0,
           ColorComponents := 0 },
         some ((List.range (3 * N)).map
           (fun j => .val (env.toFloat .VTK_FLOAT (points.data j))))) := by
  have h3 : u32 (N * 3) = 3 * N := by
    rw [u32, Nat.mod_eq_of_lt hfit, Nat.mul_comm]
  simp [CreateVBO, hfloat, h3, sizeofFloat]

/-- Witness for C3: two float points. -/
theorem C3_fast_path_witness :
    CreateVBO (F := Int) ⟨fun _ x => x, fun _ => true, ⟨0, 0, 0, 0, 0, 0, 0, 0⟩⟩
        ⟨.VTK_FLOAT, 3, fun j => (7 : Int) + j⟩ 2 none none none 0 none none
      = (⟨2, 12, 0, 0, 0, 0, 0, 0⟩,
         some [.val 7, .val 8, .val 9, .val 10, .val 11, .val 12]) := by
  have h := C3_fast_path (F := Int) ⟨fun _ x => x, fun _ => true, ⟨0, 0, 0, 0, 0, 0, 0, 0⟩⟩
    ⟨.VTK_FLOAT, 3, fun j => (7 : Int) + j⟩ 2 0 none none rfl (by decide)
  rw [h]
  decide

/-! ### Triangle index buffer -/

theorem u32_of_lt {a : Nat} (h : a < 2 ^ 32) : u32 a = a := Nat.mod_eq_of_lt h

theorem triangleLoop_tri_quad (Triangulate : List Nat → List Nat) :
    ∀ (cells : List (List Nat)) (acc : List Nat),
      (∀ c ∈ cells, c.length = 3 ∨ c.length = 4) →
      (∀ c ∈ cells, ∀ a ∈ c, a < 2 ^ 32) →
      triangleLoop Triangulate cells acc = .ok (acc ++ cells.flatMap trianglesOf) := by
  intro cells
  induction cells with
  | nil => intro acc _ _; simp [triangleLoop]
  | cons c rest ih =>
    intro acc hlen hfit
    have hrest := fun acc => ih acc (fun c hc => hlen c (List.mem_cons_of_mem _ hc))
      (fun c hc => hfit c (List.mem_cons_of_mem _ hc))
    have hc := hfit c (List.mem_cons_self _ _)
    rcases hlen c (List.mem_cons_self _ _) with h3 | h4
    · match c, h3, hc with
      | [x, y, z], _, hc =>
        have hx := u32_of_lt (hc x (by simp))
        have hy := u32_of_lt (hc y (by simp))
        have hz := u32_of_lt (hc z (by simp))
        simp [triangleLoop, hrest, trianglesOf, hx, hy, hz]
    · match c, h4, hc with
      | [x, y, z, w], _, hc =>
        have hx := u32_of_lt (hc x (by simp))
        have hy := u32_of_lt (hc y (by simp))
        have hz := u32_of_lt (hc z (by simp))
        have hw := u32_of_lt (hc w (by simp))
        simp [triangleLoop, hrest, trianglesOf, hx, hy, hz, hw]

theorem length_flatMap_trianglesOf :
    ∀ cells : List (List Nat), (∀ c ∈ cells, c.length = 3 ∨ c.length = 4) →
      (cells.flatMap trianglesOf).length
        = 3 * cells.countP (fun c => c.length = 3)
          + 6 * cells.countP (fun c => c.length = 4) := by
  intro cells
  induction cells with
  | nil => intro _; simp
  | cons c rest ih =>
    intro hlen
    have hrest := ih (fun c hc => hlen c (List.mem_cons_of_mem _ hc))
    rcases hlen c (List.mem_cons_self _ _) with h3 | h4
    · match c, h3 with
      | [x, y, z], _ =>
        simp [List.flatMap_cons, trianglesOf, hrest, List.countP_cons]
        omega
    · match c, h4 with
      | [x, y, z, w], _ =>
        simp [List.flatMap_cons, trianglesOf, hrest, List.countP_cons]
        omega

/-- C5: for a polygon list whose cells all have 3 or 4 vertices (with ids that
fit an `unsigned int`), `CreateTriangleIndexBuffer` uploads the concatenation
in traversal order of `(a,b,c)` for each triangle `(a,b,c)` and
`(a,b,c,a,c,d)` for each quad `(a,b,c,d)`, and returns `3*T + 6*Q` where `T`
and `Q` count the triangle and quad cells. -/
theorem C5_triangles_and_quads (Triangulate : List Nat → List Nat)
    (cells : List (List Nat))
    (hlen : ∀ c ∈ cells, c.length = 3 ∨ c.length = 4)
    (hfit : ∀ c ∈ cells, ∀ a ∈ c, a < 2 ^ 32) :
    CreateTriangleIndexBuffer Triangulate cells
      = .ok (cells.flatMap trianglesOf,
          3 * cells.countP (fun c => c.length = 3)
            + 6 * cells.countP (fun c => c.length = 4)) := by
  simp only [CreateTriangleIndexBuffer, triangleLoop_tri_quad Triangulate cells [] hlen hfit,
    List.nil_append, length_flatMap_trianglesOf cells hlen]

/-- Witness for C5: the quad cell `(0,1,2,3)` yields exactly the triangles
`(0,1,2),(0,2,3)` and index count 6. -/
theorem C5_triangles_and_quads_witness :
    CreateTriangleIndexBuffer (fun _ => []) [[0, 1, 2, 3]]
      = .ok ([0, 1, 2, 0, 2, 3], 6) :=
  C5_triangles_and_quads (fun _ => []) [[0, 1, 2, 3]] (by decide) (by decide)

theorem triangleLoop_exit (Triangulate : List Nat → List Nat) :
    ∀ (cells : List (List Nat)) (acc : List Nat),
      (∃ c ∈ cells, c.length < 3) →
      triangleLoop Triangulate cells acc = .error (-1) := by
  intro cells
  induction cells with
  | nil => intro acc h; simp at h
  | cons c rest ih =>
    intro acc h
    by_cases hc : c.length < 3
    · simp [triangleLoop, hc]
    · have hrest : ∃ c ∈ rest, c.length < 3 := by
        obtain ⟨d, hd, hdl⟩ := h
        rcases List.mem_cons.mp hd with rfl | hd
        · exact absurd hdl hc
        · exact ⟨d, hd, hdl⟩
      simp only [triangleLoop, hc, if_false]
      split
      · split <;> exact ih _ hrest
      · exact ih _ hrest

/-- C6: when the polygon list contains a cell with fewer than 3 vertices,
`CreateTriangleIndexBuffer` ends in `exit(-1)`: it returns no index count and
uploads no index buffer, whatever cells precede or follow that cell. -/
theorem C6_degenerate_cell_aborts (Triangulate : List Nat → List Nat)
    (before after : List (List Nat)) (bad : List Nat) (hbad : bad.length < 3) :
    CreateTriangleIndexBuffer Triangulate (before ++ bad :: after) = .error (-1) := by
  simp only [CreateTriangleIndexBuffer,
    triangleLoop_exit Triangulate (before ++ bad :: after) []
      ⟨bad, by simp, hbad⟩]

/-- Witness for C6: a two-point cell between a triangle and a quad. -/
theorem C6_degenerate_cell_aborts_witness :
    CreateTriangleIndexBuffer (fun _ => []) ([[0, 1, 2]] ++ [0, 1] :: [[0, 1, 2, 3]])
      = .error (-1) :=
  C6_degenerate_cell_aborts (fun _ => []) [[0, 1, 2]] [[0, 1, 2, 3]] [0, 1] (by decide)

/-! ### Multi index buffer -/

theorem u32_add_u32 (a b : Nat) : u32 (u32 a + b) = u32 (a + b) := by
  simp [u32, Nat.add_mod]

theorem foldl_push (xs : List Nat) :
    ∀ st : MultiIndex, st.count = u32 st.indexArray.length →
      xs.foldl MultiIndex.push st
        = ⟨st.indexArray ++ xs.map u32, st.memoryOffsetArray, st.elementCountArray,
            u32 (st.indexArray.length + xs.length)⟩ := by
  induction xs with
  | nil => intro st h; cases st; simp_all
  | cons x xs ih =>
    intro st h
    rw [List.foldl_cons, ih]
    · simp [MultiIndex.push, Nat.add_assoc, Nat.add_comm 1]
    · simp [MultiIndex.push, h, u32_add_u32]

theorem evenLoop_eq (pts : List Nat) :
    ∀ (j : Nat) (st : MultiIndex),
      evenLoop pts j st
        = ((List.range (j + 1)).reverse.map (fun i => pts.getD (i * 2) 0)).foldl
            MultiIndex.push st := by
  intro j
  induction j with
  | zero => intro st; rfl
  | succ j ih =>
    intro st
    rw [evenLoop, ih, List.range_succ (j + 1)]
    simp

theorem oddLoop_eq (pts : List Nat) (h : Nat) :
    ∀ (fuel a : Nat) (st : MultiIndex), h - a ≤ fuel →
      oddLoop pts (h * 2) fuel (2 * a + 1) st
        = ((List.range' a (h - a)).map (fun t => pts.getD (2 * t + 1) 0)).foldl
            MultiIndex.push st := by
  intro fuel
  induction fuel with
  | zero =>
    intro a st hf
    have : h - a = 0 := by omega
    simp [oddLoop, this]
  | succ fuel ih =>
    intro a st hf
    by_cases hlt : a < h
    · have hj : 2 * a + 1 < h * 2 := by omega
      obtain ⟨d, hd⟩ : ∃ d, h - a = d + 1 := ⟨h - a - 1, by omega⟩
      have hd2 : h - (a + 1) = d := by omega
      rw [oddLoop, if_pos hj, show 2 * a + 1 + 2 = 2 * (a + 1) + 1 by ring,
        ih (a + 1) _ (by omega), hd, hd2, List.range'_succ]
      simp
    · have hj : ¬ 2 * a + 1 < h * 2 := by omega
      have : h - a = 0 := by omega
      simp [oddLoop, hj, this]

theorem multiCell_eq (wire : Bool) (st : MultiIndex) (pts : List Nat)
    (hc : st.count = u32 st.indexArray.length) :
    multiCell wire st pts
      = ⟨st.indexArray ++ (cellValues wire pts).map u32,
          st.memoryOffsetArray ++ [u32 st.indexArray.length * 4],
          st.elementCountArray ++ [u32 (if wire then pts.length * 2 else pts.length)],
          u32 (st.indexArray.length + (cellValues wire pts).length)⟩ := by
  have hstart : (0 : Int) ≤ ((pts.length : Int) - 1).tdiv 2 := by
    rcases Nat.eq_zero_or_pos pts.length with h0 | hpos
    · rw [h0]; decide
    · exact Int.tdiv_nonneg (by omega) (by decide)
  cases wire
  · simp only [multiCell, cellValues, Bool.false_eq_true, if_false, List.append_nil]
    rw [← List.foldl_map, foldl_push _ ⟨st.indexArray,
      st.memoryOffsetArray ++ [st.count * sizeofUInt], st.elementCountArray, st.count⟩ hc]
    simp [sizeofUInt, hc]
  · simp only [multiCell, cellValues, if_true, hstart]
    rw [← List.foldl_map, evenLoop_eq, ← List.foldl_append]
    have h1 := oddLoop_eq pts (pts.length / 2) (pts.length / 2 * 2) 0
    simp only [Nat.mul_zero, Nat.zero_add, Nat.sub_zero] at h1
    rw [h1 _ (by omega), ← List.foldl_append, ← List.range_eq_range', foldl_push _ ⟨st.indexArray,
      st.memoryOffsetArray ++ [st.count * sizeofUInt], st.elementCountArray, st.count⟩ hc]
    simp [sizeofUInt, hc, Nat.add_assoc]

theorem foldl_multiCell (wire : Bool) :
    ∀ (cells : List (List Nat)) (st : MultiIndex),
      st.count = u32 st.indexArray.length →
      cells.foldl (multiCell wire) st
        = ⟨st.indexArray ++ (cells.flatMap (cellValues wire)).map u32,
            st.memoryOffsetArray ++ cellOffsets wire st.indexArray.length cells,
            st.elementCountArray
              ++ cells.map (fun c => u32 (if wire then c.length * 2 else c.length)),
            u32 (st.indexArray.length + (cells.flatMap (cellValues wire)).length)⟩ := by
  intro cells
  induction cells with
  | nil => intro st h; cases st; simp_all [cellOffsets]
  | cons c cs ih =>
    intro st h
    rw [List.foldl_cons, multiCell_eq wire st c h, ih]
    · simp [cellOffsets, Nat.add_assoc]
    · simp

theorem CreateMultiIndexBuffer_eq (cells : List (List Nat)) (wire : Bool) :
    CreateMultiIndexBuffer cells wire
      = ⟨(cells.flatMap (cellValues wire)).map u32, cellOffsets wire 0 cells,
          cells.map (fun c => u32 (if wire then c.length * 2 else c.length)),
          (cells.flatMap (cellValues wire)).length⟩ := by
  simp [CreateMultiIndexBuffer, foldl_multiCell wire cells ⟨[], [], [], 0⟩ (by simp [u32])]

theorem map_getD_range (l : List Nat) :
    (List.range l.length).map (fun j => l.getD j 0) = l := by
  apply List.ext_getElem
  · simp
  · intro n h1 h2
    simp only [List.length_map, List.length_range] at h1
    simp [List.getElem?_eq_getElem h2]

theorem filter_odd_range (n : Nat) :
    (List.range n).filter (fun j => j % 2 = 1)
      = (List.range (n / 2)).map (fun t => 2 * t + 1) := by
  induction n with
  | zero => rfl
  | succ n ih =>
    rw [List.range_succ, List.filter_append, ih]
    rcases Nat.mod_two_eq_zero_or_one n with h0 | h1
    · have hdiv : (n + 1) / 2 = n / 2 := by omega
      simp [hdiv, h0]
    · have hdiv : (n + 1) / 2 = n / 2 + 1 := by omega
      have hn : 2 * (n / 2) + 1 = n := by omega
      simp [hdiv, h1, List.range_succ, hn]

theorem stripStart_toNat (n : Nat) (hn : 1 ≤ n) :
    (((n : Int) - 1).tdiv 2).toNat = (n - 1) / 2 := by
  rw [Int.tdiv_eq_ediv (by omega) (by decide)]
  omega

theorem cellValues_wire (p : List Nat) (hn : 1 ≤ p.length) :
    cellValues true p = p ++ evensReversed p ++ oddsForward p := by
  have hstart := stripStart_toNat p.length hn
  simp only [cellValues, if_true, map_getD_range, hstart, evensReversed, oddsForward,
    filter_odd_range, List.map_map, List.map_reverse, List.append_assoc]
  congr 2
  congr 1
  apply List.map_congr_left
  intro j _
  rw [Nat.mul_comm]

theorem length_cellValues_wire (p : List Nat) (hn : 1 ≤ p.length) :
    (cellValues true p).length = 2 * p.length := by
  have hstart := stripStart_toNat p.length hn
  simp only [cellValues, if_true, hstart, List.length_append, List.length_map,
    List.length_range, List.length_reverse]
  omega

theorem length_cellValues_plain (p : List Nat) :
    (cellValues false p).length = p.length := by
  simp [cellValues]

theorem cellValues_plain (p : List Nat) : cellValues false p = p := by
  simp only [cellValues, Bool.false_eq_true, if_false, List.append_nil, map_getD_range]

theorem getD_lt_of_forall (p : List Nat) (hid : ∀ a ∈ p, a < 2 ^ 32) (j : Nat) :
    p.getD j 0 < 2 ^ 32 := by
  by_cases hj : j < p.length
  · rw [List.getD_eq_getElem _ _ hj]
    exact hid _ (List.getElem_mem _)
  · rw [List.getD_eq_default _ _ (by omega)]
    decide

theorem map_u32_cellValues (wire : Bool) (p : List Nat) (hid : ∀ a ∈ p, a < 2 ^ 32) :
    (cellValues wire p).map u32 = cellValues wire p := by
  have hall : ∀ a ∈ cellValues wire p, u32 a = a := by
    intro a ha
    apply u32_of_lt
    simp only [cellValues, List.mem_append, List.mem_map] at ha
    rcases ha with ⟨j, _, rfl⟩ | ha
    · exact getD_lt_of_forall p hid j
    · cases wire
      · simp at ha
      · simp only [if_true, List.mem_append, List.mem_map] at ha
        rcases ha with ⟨j, _, rfl⟩ | ⟨j, _, rfl⟩
        · exact getD_lt_of_forall p hid _
        · exact getD_lt_of_forall p hid _
  rw [List.map_congr_left hall, List.map_id']

theorem length_cellOffsets (wire : Bool) :
    ∀ (cells : List (List Nat)) (start : Nat),
      (cellOffsets wire start cells).length = cells.length := by
  intro cells
  induction cells with
  | nil => intro _; rfl
  | cons c cs ih => intro start; simp [cellOffsets, ih]

theorem cellOffsets_append (wire : Bool) :
    ∀ (a b : List (List Nat)) (start : Nat),
      cellOffsets wire start (a ++ b)
        = cellOffsets wire start a
          ++ cellOffsets wire (start + (a.flatMap (cellValues wire)).length) b := by
  intro a
  induction a with
  | nil => intro b start; simp [cellOffsets]
  | cons c cs ih =>
    intro b start
    simp [cellOffsets, ih, Nat.add_assoc]

theorem length_flatMap_le_of_append (wire : Bool) (pre post : List (List Nat))
    (p : List Nat) :
    (pre.flatMap (cellValues wire)).length + (cellValues wire p).length
      ≤ ((pre ++ p :: post).flatMap (cellValues wire)).length := by
  simp [List.flatMap_append, List.flatMap_cons]

/-- C7: for a strip cell `p` with `n >= 1` points and wireframe doubling on,
`CreateMultiIndexBuffer` records element count `2n` for the cell and emits for
it, starting at the recorded byte offset, `p[0..n-1]`, then the
`floor((n-1)/2)+1` even-position vertices in reverse order, then the vertices at
the odd positions below `n` in forward order: exactly `2n` indices.  The ids of
the cell and the returned index count are assumed to fit an `unsigned int`. -/
theorem C7_wireframe_strip_doubling (pre post : List (List Nat)) (p : List Nat)
    (hn : 1 ≤ p.length) (hid : ∀ a ∈ p, a < 2 ^ 32)
    (hcount : (CreateMultiIndexBuffer (pre ++ p :: post) true).size < 2 ^ 32) :
    (p ++ evensReversed p ++ oddsForward p).length = 2 * p.length
    ∧ (evensReversed p).length = (p.length - 1) / 2 + 1
    ∧ (CreateMultiIndexBuffer (pre ++ p :: post) true).elementCountArray[pre.length]?
        = some (2 * p.length)
    ∧ ∃ off,
        (CreateMultiIndexBuffer (pre ++ p :: post) true).memoryOffsetArray[pre.length]?
          = some (4 * off)
        ∧ (((CreateMultiIndexBuffer (pre ++ p :: post) true).indexArray.drop off).take
            (2 * p.length))
          = p ++ evensReversed p ++ oddsForward p := by
  rw [CreateMultiIndexBuffer_eq] at hcount ⊢
  simp only at hcount ⊢
  have hle := length_flatMap_le_of_append true pre post p
  have hlen := length_cellValues_wire p hn
  have hpre : (pre.flatMap (cellValues true)).length < 2 ^ 32 := by omega
  refine ⟨?_, ?_, ?_, (pre.flatMap (cellValues true)).length, ?_, ?_⟩
  · rw [← cellValues_wire p hn, hlen]
  · simp [evensReversed]
  · rw [List.map_append, List.getElem?_append_right (by simp)]
    simp only [List.length_map, Nat.sub_self, List.map_cons, List.getElem?_cons_zero,
      if_true]
    rw [u32_of_lt (by omega), Nat.mul_comm]
  · rw [cellOffsets_append, List.getElem?_append_right (by rw [length_cellOffsets]),
      length_cellOffsets, Nat.sub_self]
    simp only [cellOffsets, Nat.zero_add, List.getElem?_cons_zero]
    rw [u32_of_lt hpre, Nat.mul_comm]
  · rw [List.flatMap_append, List.flatMap_cons, List.map_append, List.map_append,
      map_u32_cellValues true p hid]
    have h1 : (pre.flatMap (cellValues true)).length
        = ((pre.flatMap (cellValues true)).map u32).length := by simp
    rw [h1, List.drop_left, ← hlen, List.take_left, cellValues_wire p hn]

/-- Witness for C7: a strip of five points between two other strips. -/
theorem C7_wireframe_strip_doubling_witness :
    ([10, 11, 12, 13, 14] ++ evensReversed [10, 11, 12, 13, 14]
        ++ oddsForward [10, 11, 12, 13, 14]).length = 2 * 5
    ∧ (evensReversed [10, 11, 12, 13, 14]).length = (5 - 1) / 2 + 1
    ∧ (CreateMultiIndexBuffer ([[0, 1, 2]] ++ [10, 11, 12, 13, 14] :: [[3, 4, 5, 6]])
        true).elementCountArray[1]? = some (2 * 5)
    ∧ ∃ off,
        (CreateMultiIndexBuffer ([[0, 1, 2]] ++ [10, 11, 12, 13, 14] :: [[3, 4, 5, 6]])
          true).memoryOffsetArray[1]? = some (4 * off)
        ∧ (((CreateMultiIndexBuffer ([[0, 1, 2]] ++ [10, 11, 12, 13, 14] :: [[3, 4, 5, 6]])
            true).indexArray.drop off).take (2 * 5))
          = [10, 11, 12, 13, 14] ++ evensReversed [10, 11, 12, 13, 14]
            ++ oddsForward [10, 11, 12, 13, 14] :=
  C7_wireframe_strip_doubling [[0, 1, 2]] [[3, 4, 5, 6]] [10, 11, 12, 13, 14]
    (by decide) (by decide) (by decide)

theorem getD_cellOffsets (wire : Bool) :
    ∀ (cells : List (List Nat)) (start i : Nat), i < cells.length →
      (cellOffsets wire start cells).getD i 0
        = u32 (start + ((cells.take i).flatMap (cellValues wire)).length) * 4 := by
  intro cells
  induction cells with
  | nil => intro start i hi; simp at hi
  | cons c cs ih =>
    intro start i hi
    cases i with
    | zero => simp [cellOffsets]
    | succ j =>
      have hj : j < cs.length := by simpa using hi
      rw [cellOffsets, List.getD_cons_succ, ih _ _ hj, List.take_succ_cons,
        List.flatMap_cons, List.length_append, Nat.add_assoc]

theorem length_flatMap_eq_sum {α β : Type} (f : α → List β) (l : List α) :
    (l.flatMap f).length = (l.map (fun c => (f c).length)).sum := by
  rw [List.length_flatMap]
  rfl

theorem sum_take_succ (ks : List Nat) (i : Nat) (hi : i < ks.length) :
    (ks.take (i + 1)).sum = (ks.take i).sum + ks.getD i 0 := by
  rw [List.take_succ, List.sum_append, List.getD_eq_getElem?_getD,
    List.getElem?_eq_getElem hi]
  simp

theorem sum_take_le (ks : List Nat) (i : Nat) : (ks.take i).sum ≤ ks.sum := by
  have := List.sum_take_add_sum_drop ks i
  omega

/-- Number of indices emitted for a cell equals the recorded element count,
when doubling is off or the cell is not empty. -/
theorem cellCount_eq (wire : Bool) (c : List Nat) (h : wire = false ∨ c ≠ [])
    (hfit : (cellValues wire c).length < 2 ^ 32) :
    u32 (if wire then c.length * 2 else c.length) = (cellValues wire c).length := by
  cases wire
  · rw [length_cellValues_plain] at hfit ⊢
    simpa using u32_of_lt hfit
  · have hn : 1 ≤ c.length := by
      rcases h with h | h
      · cases h
      · exact List.length_pos.mpr h
    rw [length_cellValues_wire c hn] at hfit ⊢
    simp only [if_true]
    rw [u32_of_lt (by omega), Nat.mul_comm]

theorem length_cellValues_le_total (wire : Bool) :
    ∀ (cells : List (List Nat)) (c : List Nat), c ∈ cells →
      (cellValues wire c).length ≤ (cells.flatMap (cellValues wire)).length := by
  intro cells c hc
  obtain ⟨pre, post, rfl⟩ := List.append_of_mem hc
  have := length_flatMap_le_of_append wire pre post c
  omega

/-- C8: `CreateMultiIndexBuffer` (doubling off, or doubling on with every cell
non-empty) records exactly one (byte offset, count) pair per cell; the first
offset is 0, each next offset is the previous offset plus 4 times the previous
count, offset `i` is 4 times the sum of the counts before it, and the returned
index count is the length of the index array and the sum of all counts, so the
per-cell ranges partition the index array.  With doubling off every count is
the cell size and the index array is the flattened connectivity.  The returned
index count (and, for the last part, the ids) are assumed to fit an
`unsigned int`. -/
theorem C8_offsets_and_counts (cells : List (List Nat)) (wire : Bool)
    (hcase : wire = false ∨ ∀ c ∈ cells, c ≠ [])
    (hcount : (CreateMultiIndexBuffer cells wire).size < 2 ^ 32) :
    (CreateMultiIndexBuffer cells wire).memoryOffsetArray.length = cells.length
    ∧ (CreateMultiIndexBuffer cells wire).elementCountArray.length = cells.length
    ∧ (cells ≠ [] → (CreateMultiIndexBuffer cells wire).memoryOffsetArray[0]? = some 0)
    ∧ (∀ i, i + 1 < cells.length →
        (CreateMultiIndexBuffer cells wire).memoryOffsetArray.getD (i + 1) 0
          = (CreateMultiIndexBuffer cells wire).memoryOffsetArray.getD i 0
            + 4 * (CreateMultiIndexBuffer cells wire).elementCountArray.getD i 0)
    ∧ (∀ i, i < cells.length →
        (CreateMultiIndexBuffer cells wire).memoryOffsetArray.getD i 0
          = 4 * ((CreateMultiIndexBuffer cells wire).elementCountArray.take i).sum)
    ∧ (CreateMultiIndexBuffer cells wire).size
        = (CreateMultiIndexBuffer cells wire).indexArray.length
    ∧ (CreateMultiIndexBuffer cells wire).size
        = (CreateMultiIndexBuffer cells wire).elementCountArray.sum
    ∧ (wire = false →
        (CreateMultiIndexBuffer cells wire).elementCountArray = cells.map List.length
        ∧ ((∀ c ∈ cells, ∀ a ∈ c, a < 2 ^ 32) →
            (CreateMultiIndexBuffer cells wire).indexArray = cells.flatten)) := by
  rw [CreateMultiIndexBuffer_eq] at hcount ⊢
  simp only at hcount ⊢
  have hec : cells.map (fun c => u32 (if wire then c.length * 2 else c.length))
      = cells.map (fun c => (cellValues wire c).length) := by
    apply List.map_congr_left
    intro c hc
    apply cellCount_eq wire c
    · rcases hcase with h | h
      · exact Or.inl h
      · exact Or.inr (h c hc)
    · have := length_cellValues_le_total wire cells c hc
      omega
  have hoff : ∀ i, i < cells.length →
      (cellOffsets wire 0 cells).getD i 0
        = 4 * ((cells.map (fun c => (cellValues wire c).length)).take i).sum := by
    intro i hi
    rw [getD_cellOffsets wire cells 0 i hi, Nat.zero_add, ← List.map_take,
      ← length_flatMap_eq_sum, Nat.mul_comm]
    congr 1
    apply u32_of_lt
    have h1 := sum_take_le (cells.map (fun c => (cellValues wire c).length)) i
    rw [← List.map_take, ← length_flatMap_eq_sum, ← length_flatMap_eq_sum] at h1
    omega
  rw [hec]
  refine ⟨length_cellOffsets wire cells 0, by simp, ?_, ?_, hoff, by simp,
    length_flatMap_eq_sum _ _, ?_⟩
  · intro hne
    cases cells with
    | nil => exact absurd rfl hne
    | cons c cs => simp [cellOffsets, u32]
  · intro i hi
    rw [hoff i (by omega), hoff (i + 1) hi, sum_take_succ _ _ (by simpa using by omega)]
    ring
  · intro hw
    subst hw
    refine ⟨?_, ?_⟩
    · apply List.map_congr_left
      intro c _
      exact length_cellValues_plain c
    · intro hid
      have h1 : ∀ c ∈ cells, (cellValues false c).map u32 = c := by
        intro c hc
        rw [map_u32_cellValues false c (hid c hc), cellValues_plain]
      rw [List.flatten_eq_flatMap, List.map_flatMap]
      exact List.flatMap_congr h1

/-- Witness for C8: three line cells with doubling off. -/
theorem C8_offsets_and_counts_witness :
    (CreateMultiIndexBuffer [[0, 1], [1, 2, 3], [3, 0]] false).memoryOffsetArray
        = [0, 8, 20]
    ∧ (CreateMultiIndexBuffer [[0, 1], [1, 2, 3], [3, 0]] false).elementCountArray
        = [2, 3, 2]
    ∧ (CreateMultiIndexBuffer [[0, 1], [1, 2, 3], [3, 0]] false).size = 7
    ∧ (CreateMultiIndexBuffer [[0, 1], [1, 2, 3], [3, 0]] false).indexArray
        = [0, 1, 1, 2, 3, 3, 0] := by
  have h := C8_offsets_and_counts [[0, 1], [1, 2, 3], [3, 0]] false (Or.inl rfl)
    (by decide)
  obtain ⟨_, _, _, _, _, _, _, h8⟩ := h
  obtain ⟨hcnt, hidx⟩ := h8 rfl
  refine ⟨by decide, hcnt, by decide, hidx (by decide)⟩

/-! ### Cell explosion: vector lemmas -/

theorem getD_set_nat (l : List Nat) (i j v : Nat) :
    (l.set i v).getD j 0 = if i = j ∧ i < l.length then v else l.getD j 0 := by
  rw [List.getD_eq_getElem?_getD, List.getElem?_set, List.getD_eq_getElem?_getD]
  by_cases hij : i = j
  · subst hij
    by_cases hi : i < l.length
    · simp [hi]
    · simp [hi, List.getElem?_eq_none (Nat.le_of_not_lt hi)]
  · simp [hij]

theorem length_resize {α : Type} (l : List α) (n : Nat) (z : α) :
    (resize l n z).length = n := by
  simp only [resize, List.length_append, List.length_take, List.length_replicate]
  omega

theorem getD_resize_ge (l : List Nat) (n j : Nat) (h : l.length ≤ n) :
    (resize l n 0).getD j 0 = l.getD j 0 := by
  rw [resize, List.take_of_length_le h, List.getD_eq_getElem?_getD,
    List.getD_eq_getElem?_getD]
  by_cases hj : j < l.length
  · rw [List.getElem?_append_left hj]
  · rw [List.getElem?_append_right (Nat.le_of_not_lt hj),
      List.getElem?_eq_none (Nat.le_of_not_lt hj)]
    by_cases hk : j - l.length < n - l.length
    · simp [List.getElem?_replicate, hk]
    · simp [List.getElem?_replicate, hk]

theorem getD_resize_le (l : List Nat) (n j : Nat) (h : n ≤ l.length) (hj : j < n) :
    (resize l n 0).getD j 0 = l.getD j 0 := by
  rw [resize, Nat.sub_eq_zero_of_le h, List.replicate_zero, List.append_nil,
    List.getD_eq_getElem?_getD, List.getD_eq_getElem?_getD, List.getElem?_take_of_lt hj]

theorem count_resize_ge (l : List Nat) (n a : Nat) (h : l.length ≤ n) (ha : a ≠ 0) :
    (resize l n 0).count a = l.count a := by
  rw [resize, List.take_of_length_le h, List.count_append, List.count_replicate]
  simp [Ne.symm ha]

theorem count_take_of_zero (l : List Nat) (n a : Nat)
    (hz : ∀ e, n ≤ e → l.getD e 0 = 0) (ha : a ≠ 0) :
    (l.take n).count a = l.count a := by
  have hdrop : (l.drop n).count a = 0 := by
    rw [List.count_eq_zero]
    intro hmem
    obtain ⟨k, hk, hka⟩ := List.getElem_of_mem hmem
    rw [List.getElem_drop] at hka
    have hlt : n + k < l.length := by
      rw [List.length_drop] at hk
      omega
    have := hz (n + k) (Nat.le_add_right _ _)
    rw [List.getD_eq_getElem _ _ hlt] at this
    exact ha (hka ▸ this)
  have := List.count_append a (l.take n) (l.drop n)
  rw [List.take_append_drop, hdrop] at this
  omega

theorem count_set_zero (l : List Nat) (i v a : Nat) (hi : i < l.length)
    (h0 : l.getD i 0 = 0) (ha : a ≠ 0) :
    (l.set i v).count a = l.count a + if v = a then 1 else 0 := by
  rw [List.count_set _ _ _ _ hi]
  rw [List.getD_eq_getElem _ _ hi] at h0
  have : ¬ (l[i] == a) = true := by
    rw [h0]
    simpa using Ne.symm ha
  simp [this]

/-! ### Cell explosion: one point reference -/

/-- Writing the entry of a fresh id `e` for the point `idx` into (possibly grown)
maps re-establishes the invariant and extends the history by one reference. -/
theorem reach_of_write (N : Nat) (st : CellSupport) (idx e nid : Nat)
    (cpm0 pcm0 : List Nat) (hinv : SupportInv N st)
    (hget : ∀ j, cpm0.getD j 0 = st.cellPointMap.getD j 0)
    (hgetp : ∀ j, pcm0.getD j 0 = st.pointCellMap.getD j 0)
    (hcnt : ∀ a, a ≠ 0 → cpm0.count a = st.cellPointMap.count a)
    (hlen0 : st.cellPointMap.length ≤ cpm0.length) (hleneq : pcm0.length = cpm0.length)
    (he : e < cpm0.length) (hfresh : st.cellPointMap.getD e 0 = 0)
    (hnid1 : st.nextId ≤ nid) (hnid2 : nid ≤ st.nextId + 1) (henid : e < nid)
    (hnidlen : nid ≤ cpm0.length) :
    SupportInv N ⟨cpm0.set e (idx + 1), pcm0.set e st.cellCount, nid, st.cellCount⟩
    ∧ Reach st ⟨cpm0.set e (idx + 1), pcm0.set e st.cellCount, nid, st.cellCount⟩
        [idx] [e]
    ∧ (pcm0.set e st.cellCount).getD e 0 = st.cellCount := by
  have hset : ∀ j, (cpm0.set e (idx + 1)).getD j 0
      = if e = j then idx + 1 else st.cellPointMap.getD j 0 := by
    intro j
    rw [getD_set_nat, ← hget j]
    by_cases hej : e = j
    · subst hej
      simp [he]
    · simp [hej]
  have hsetp : ∀ j, (pcm0.set e st.cellCount).getD j 0
      = if e = j then st.cellCount else st.pointCellMap.getD j 0 := by
    intro j
    rw [getD_set_nat, ← hgetp j]
    by_cases hej : e = j
    · subst hej
      simp [hleneq, he]
    · simp [hej]
  refine ⟨⟨?_, ?_, ?_, ?_⟩, ⟨?_, ?_, ?_, ?_, ?_, ?_, ?_, ?_, ?_⟩, ?_⟩
  · simp [hleneq]
  · exact Nat.le_trans hinv.n_le hnid1
  · simpa using hnidlen
  · intro j hj
    have hj1 : nid ≤ j := hj
    show (cpm0.set e (idx + 1)).getD j 0 = 0
    rw [hset j, if_neg (by omega)]
    exact hinv.zero_above j (by omega)
  · exact hnid1
  · simpa using hnid2
  · simpa using hlen0
  · intro x hx
    rw [List.mem_singleton] at hx
    subst hx
    refine ⟨henid, hfresh, ?_⟩
    show (cpm0.set x (idx + 1)).getD x 0 ≠ 0
    rw [hset x, if_pos rfl]
    omega
  · simp
  · intro j hj
    have hne : e ≠ j := by
      intro h
      exact hj (h ▸ hfresh)
    exact ⟨by show (cpm0.set e (idx + 1)).getD j 0 = _; rw [hset j, if_neg hne],
      by show (pcm0.set e st.cellCount).getD j 0 = _; rw [hsetp j, if_neg hne]⟩
  · intro j hj
    by_cases hej : e = j
    · exact Or.inr (by simp [hej])
    · left
      have : (cpm0.set e (idx + 1)).getD j 0 ≠ 0 := hj
      rwa [hset j, if_neg hej] at this
  · intro P
    show (cpm0.set e (idx + 1)).count (P + 1) = _
    rw [count_set_zero cpm0 e (idx + 1) (P + 1) he (by rw [hget e]; exact hfresh)
      (Nat.succ_ne_zero P), hcnt _ (Nat.succ_ne_zero P)]
    by_cases hp : idx = P
    · simp [hp]
    · have : ¬ idx + 1 = P + 1 := by omega
      rw [if_neg this, List.count_cons, List.count_nil]
      simp [hp]
  · show [(cpm0.set e (idx + 1)).getD e 0] = [idx + 1]
    rw [hset e, if_pos rfl]
  · rw [hsetp e, if_pos rfl]

theorem supportPoint_spec (N : Nat) (st : CellSupport) (idx : Nat)
    (hinv : SupportInv N st) (hidx : idx < N) (hfit : st.nextId + 1 < 2 ^ 32)
    (hlen : 2 ≤ st.cellPointMap.length) :
    SupportInv N (supportPoint st idx).1
    ∧ Reach st (supportPoint st idx).1 [idx] [(supportPoint st idx).2]
    ∧ (supportPoint st idx).1.cellCount = st.cellCount
    ∧ (supportPoint st idx).1.pointCellMap.getD (supportPoint st idx).2 0
        = st.cellCount := by
  have hn := hinv.n_le
  have hnl := hinv.next_le
  have hu : u32 (idx + 1) = idx + 1 := u32_of_lt (by omega)
  have hun : u32 (st.nextId + 1) = st.nextId + 1 := u32_of_lt hfit
  by_cases h0 : st.cellPointMap.getD idx 0 = 0
  · have hsp : supportPoint st idx
        = (⟨st.cellPointMap.set idx (idx + 1), st.pointCellMap.set idx st.cellCount,
            st.nextId, st.cellCount⟩, idx) := by
      simp only [supportPoint, h0, ↓reduceIte, hu]
    rw [hsp]
    have h := reach_of_write N st idx idx st.nextId st.cellPointMap st.pointCellMap hinv
      (fun _ => rfl) (fun _ => rfl) (fun _ _ => rfl) (Nat.le_refl _) hinv.len_eq
      (by omega) h0 (Nat.le_refl _) (Nat.le_succ _) (by omega) hnl
    exact ⟨h.1, h.2.1, rfl, h.2.2⟩
  · have hz := hinv.zero_above st.nextId (Nat.le_refl _)
    by_cases hg : st.nextId ≥ st.cellPointMap.length
    · have hgrow : st.cellPointMap.length ≤ st.nextId * 3 / 2 := by omega
      have hgrowp : st.pointCellMap.length ≤ st.nextId * 3 / 2 := by
        rw [hinv.len_eq]; exact hgrow
      have hsp : supportPoint st idx
          = (⟨(resize st.cellPointMap (st.nextId * 3 / 2) 0).set st.nextId (idx + 1),
              (resize st.pointCellMap (st.nextId * 3 / 2) 0).set st.nextId st.cellCount,
              st.nextId + 1, st.cellCount⟩, st.nextId) := by
        simp only [supportPoint, h0, ↓reduceIte, hg, hu, hun]
      rw [hsp]
      have h := reach_of_write N st idx st.nextId (st.nextId + 1)
        (resize st.cellPointMap (st.nextId * 3 / 2) 0)
        (resize st.pointCellMap (st.nextId * 3 / 2) 0) hinv
        (fun j => getD_resize_ge _ _ j hgrow) (fun j => getD_resize_ge _ _ j hgrowp)
        (fun a ha => count_resize_ge _ _ a hgrow ha)
        (by rw [length_resize]; exact hgrow) (by rw [length_resize, length_resize])
        (by rw [length_resize]; omega) hz (Nat.le_succ _) (Nat.le_refl _)
        (Nat.lt_succ_self _) (by rw [length_resize]; omega)
      exact ⟨h.1, h.2.1, rfl, h.2.2⟩
    · have hsp : supportPoint st idx
          = (⟨st.cellPointMap.set st.nextId (idx + 1),
              st.pointCellMap.set st.nextId st.cellCount,
              st.nextId + 1, st.cellCount⟩, st.nextId) := by
        simp only [supportPoint, h0, ↓reduceIte, hg, hu, hun]
      rw [hsp]
      have h := reach_of_write N st idx st.nextId (st.nextId + 1)
        st.cellPointMap st.pointCellMap hinv
        (fun _ => rfl) (fun _ => rfl) (fun _ _ => rfl) (Nat.le_refl _) hinv.len_eq
        (by omega) hz (Nat.le_succ _) (Nat.le_refl _) (Nat.lt_succ_self _) (by omega)
      exact ⟨h.1, h.2.1, rfl, h.2.2⟩

/-! ### Cell explosion: composing references -/

theorem reach_refl (st : CellSupport) : Reach st st [] [] :=
  ⟨Nat.le_refl _, Nat.le_refl _, Nat.le_refl _, by simp, List.nodup_nil,
    fun _ _ => ⟨rfl, rfl⟩, fun _ h => Or.inl h, by simp, rfl⟩

theorem reach_trans {st st1 st2 : CellSupport} {a b o1 o2 : List Nat}
    (h1 : Reach st st1 a o1) (h2 : Reach st1 st2 b o2) :
    Reach st st2 (a ++ b) (o1 ++ o2) := by
  have hkeep : ∀ e ∈ o1, st2.cellPointMap.getD e 0 = st1.cellPointMap.getD e 0 :=
    fun e he => (h2.frame e (h1.fresh e he).2.2).1
  refine ⟨?_, ?_, ?_, ?_, ?_, ?_, ?_, ?_, ?_⟩
  · exact Nat.le_trans h1.next_mono h2.next_mono
  · have := h1.next_le
    have := h2.next_le
    rw [List.length_append]
    omega
  · exact Nat.le_trans h1.len_mono h2.len_mono
  · intro e he
    rcases List.mem_append.mp he with he | he
    · obtain ⟨hlt, hz, hnz⟩ := h1.fresh e he
      exact ⟨Nat.lt_of_lt_of_le hlt h2.next_mono, hz, by rw [hkeep e he]; exact hnz⟩
    · obtain ⟨hlt, hz, hnz⟩ := h2.fresh e he
      refine ⟨hlt, ?_, hnz⟩
      by_contra hne
      exact hne (by rw [← (h1.frame e hne).1]; exact hz)
  · rw [List.nodup_append]
    refine ⟨h1.nodup, h2.nodup, ?_⟩
    intro e he1 he2
    exact (h1.fresh e he1).2.2 (h2.fresh e he2).2.1
  · intro e he
    obtain ⟨hc, hp⟩ := h1.frame e he
    obtain ⟨hc2, hp2⟩ := h2.frame e (by rw [hc]; exact he)
    exact ⟨hc2.trans hc, hp2.trans hp⟩
  · intro e he
    rcases h2.covered e he with h | h
    · rcases h1.covered e h with h | h
      · exact Or.inl h
      · exact Or.inr (List.mem_append_left _ h)
    · exact Or.inr (List.mem_append_right _ h)
  · intro P
    rw [h2.counts, h1.counts, List.count_append, Nat.add_assoc]
  · rw [List.map_append, List.map_append, ← h1.resolve, ← h2.resolve]
    congr 1
    exact List.map_congr_left hkeep

theorem supportInv_bump {N : Nat} {st : CellSupport} (h : SupportInv N st) (c : Nat) :
    SupportInv N { st with cellCount := c } :=
  ⟨h.len_eq, h.n_le, h.next_le, h.zero_above⟩

theorem reach_bump {st st1 : CellSupport} {a o : List Nat} (h : Reach st st1 a o)
    (c : Nat) : Reach st { st1 with cellCount := c } a o :=
  ⟨h.next_mono, h.next_le, h.len_mono, h.fresh, h.nodup, h.frame, h.covered, h.counts,
    h.resolve⟩

theorem supportPoints_spec (N : Nat) :
    ∀ (cell : List Nat) (st : CellSupport), SupportInv N st →
      (∀ i ∈ cell, i < N) → st.nextId + cell.length < 2 ^ 32 →
      (cell ≠ [] → 2 ≤ st.cellPointMap.length) →
      SupportInv N (supportPoints st cell).1
      ∧ Reach st (supportPoints st cell).1 cell (supportPoints st cell).2
      ∧ (supportPoints st cell).1.cellCount = st.cellCount
      ∧ ∀ e ∈ (supportPoints st cell).2,
          (supportPoints st cell).1.pointCellMap.getD e 0 = st.cellCount := by
  intro cell
  induction cell with
  | nil =>
    intro st hinv _ _ _
    exact ⟨hinv, reach_refl st, rfl, by simp [supportPoints]⟩
  | cons idx rest ih =>
    intro st hinv hidx hfit hlen
    have hlen2 := hlen (List.cons_ne_nil _ _)
    rw [List.length_cons] at hfit
    obtain ⟨hinv1, hr1, hc1, hp1⟩ := supportPoint_spec N st idx hinv
      (hidx idx (List.mem_cons_self _ _)) (by omega) hlen2
    have hn1 := hr1.next_le
    simp only [List.length_singleton] at hn1
    obtain ⟨hinv2, hr2, hc2, hp2⟩ := ih (supportPoint st idx).1 hinv1
      (fun i hi => hidx i (List.mem_cons_of_mem _ hi)) (by omega)
      (fun _ => Nat.le_trans hlen2 hr1.len_mono)
    refine ⟨hinv2, reach_trans hr1 hr2, hc2.trans hc1, ?_⟩
    intro e he
    rcases List.mem_cons.mp he with rfl | he
    · have hnz := (hr1.fresh _ (List.mem_singleton_self _)).2.2
      exact ((hr2.frame _ hnz).2).trans hp1
    · exact (hp2 e he).trans hc1

theorem supportCells_cons (st : CellSupport) (c : List Nat) (rest : List (List Nat)) :
    supportCells st (c :: rest)
      = ((supportCells { (supportPoints st c).1 with
            cellCount := u32 ((supportPoints st c).1.cellCount + 1) } rest).1,
          (supportPoints st c).2 ::
            (supportCells { (supportPoints st c).1 with
              cellCount := u32 ((supportPoints st c).1.cellCount + 1) } rest).2) := rfl

theorem supportCells_spec (N : Nat) :
    ∀ (cells : List (List Nat)) (st : CellSupport), SupportInv N st →
      (∀ c ∈ cells, ∀ i ∈ c, i < N) →
      st.nextId + cells.flatten.length < 2 ^ 32 →
      st.cellCount + cells.length < 2 ^ 32 →
      (cells.flatten ≠ [] → 2 ≤ st.cellPointMap.length) →
      SupportInv N (supportCells st cells).1
      ∧ Reach st (supportCells st cells).1 cells.flatten (supportCells st cells).2.flatten
      ∧ (supportCells st cells).1.cellCount = st.cellCount + cells.length
      ∧ (supportCells st cells).2.map
            (List.map (fun e => (supportCells st cells).1.cellPointMap.getD e 0))
          = cells.map (List.map (fun i => i + 1))
      ∧ ∀ k, ∀ e ∈ (supportCells st cells).2.getD k [],
          (supportCells st cells).1.pointCellMap.getD e 0 = st.cellCount + k := by
  intro cells
  induction cells with
  | nil =>
    intro st hinv _ _ _ _
    exact ⟨hinv, reach_refl st, rfl, rfl, by simp [supportCells]⟩
  | cons c rest ih =>
    intro st hinv hidx hfit hcells hlen
    rw [List.flatten_cons, List.length_append] at hfit
    rw [List.length_cons] at hcells
    obtain ⟨hinvr, hrr, hcr, hpr⟩ := supportPoints_spec N c st hinv
      (hidx c (List.mem_cons_self _ _)) (by omega)
      (fun hne => hlen (by rw [List.flatten_cons]; simp [hne]))
    have hbump : u32 ((supportPoints st c).1.cellCount + 1) = st.cellCount + 1 := by
      rw [hcr]
      exact u32_of_lt (by omega)
    have hnext := hrr.next_le
    obtain ⟨hinvs, hrs, hcs, hms, hps⟩ := ih
      { (supportPoints st c).1 with
        cellCount := u32 ((supportPoints st c).1.cellCount + 1) }
      (supportInv_bump hinvr _)
      (fun d hd => hidx d (List.mem_cons_of_mem _ hd))
      (by show (supportPoints st c).1.nextId + rest.flatten.length < 2 ^ 32; omega)
      (by
        show u32 ((supportPoints st c).1.cellCount + 1) + rest.length < 2 ^ 32
        rw [hbump]; omega)
      (fun hne => Nat.le_trans
        (hlen (by rw [List.flatten_cons]; simp [hne])) hrr.len_mono)
    rw [supportCells_cons]
    have hkeep : ∀ e ∈ (supportPoints st c).2,
        (supportCells { (supportPoints st c).1 with
            cellCount := u32 ((supportPoints st c).1.cellCount + 1) } rest).1.cellPointMap.getD e 0
          = (supportPoints st c).1.cellPointMap.getD e 0
        ∧ (supportCells { (supportPoints st c).1 with
            cellCount := u32 ((supportPoints st c).1.cellCount + 1) } rest).1.pointCellMap.getD e 0
          = (supportPoints st c).1.pointCellMap.getD e 0 :=
      fun e he => hrs.frame e (hrr.fresh e he).2.2
    refine ⟨hinvs, ?_, ?_, ?_, ?_⟩
    · rw [List.flatten_cons, List.flatten_cons]
      exact reach_trans (reach_bump hrr _) hrs
    · rw [hcs]
      show u32 ((supportPoints st c).1.cellCount + 1) + rest.length = _
      rw [hbump, List.length_cons]
      omega
    · rw [List.map_cons, List.map_cons, hms, ← hrr.resolve]
      congr 1
      exact List.map_congr_left (fun e he => (hkeep e he).1)
    · intro k e he
      cases k with
      | zero =>
        rw [List.getD_cons_zero] at he
        rw [(hkeep e he).2, Nat.add_zero]
        exact hpr e he
      | succ k =>
        rw [List.getD_cons_succ] at he
        rw [hps k e he]
        show u32 ((supportPoints st c).1.cellCount + 1) + k = _
        rw [hbump]
        omega

theorem supportCells_append :
    ∀ (a b : List (List Nat)) (st : CellSupport),
      supportCells st (a ++ b)
        = ((supportCells (supportCells st a).1 b).1,
            (supportCells st a).2 ++ (supportCells (supportCells st a).1 b).2) := by
  intro a
  induction a with
  | nil => intro b st; rfl
  | cons c rest ih =>
    intro b st
    rw [List.cons_append, supportCells_cons, ih, supportCells_cons]
    rfl

theorem length_supportCells :
    ∀ (cells : List (List Nat)) (st : CellSupport),
      (supportCells st cells).2.length = cells.length := by
  intro cells
  induction cells with
  | nil => intro st; rfl
  | cons c rest ih =>
    intro st
    rw [supportCells_cons, List.length_cons, List.length_cons, ih]

/-! ### Cell explosion: the whole traversal -/

theorem connectivityEntries_append (a b : List (List Nat)) :
    connectivityEntries (a ++ b) = connectivityEntries a + connectivityEntries b := by
  simp [connectivityEntries]

theorem connectivityEntries_eq (cells : List (List Nat)) :
    connectivityEntries cells = cells.flatten.length + cells.length := by
  induction cells with
  | nil => rfl
  | cons c rest ih =>
    simp only [connectivityEntries, List.map_cons, List.sum_cons, List.flatten_cons,
      List.length_append, List.length_cons] at ih ⊢
    omega

theorem supportInit_nil (N total : Nat) (hN : N < 2 ^ 32) :
    supportInit N total [] []
      = ⟨List.replicate (max total N) 0, List.replicate (max total N) 0, N, 0⟩ := by
  simp only [supportInit, resize_nil, u32_of_lt hN, List.length_replicate]
  by_cases h : total < N
  · rw [if_pos h, Nat.max_eq_right (Nat.le_of_lt h)]
    simp [resize, List.take_replicate, Nat.min_eq_right (Nat.le_of_lt h),
      ← List.replicate_add, Nat.add_sub_cancel' (Nat.le_of_lt h)]
  · rw [if_neg h, Nat.max_eq_left (Nat.le_of_not_lt h)]

theorem getD_replicate_zero (n e : Nat) : (List.replicate n 0).getD e 0 = 0 := by
  rw [List.getD_eq_getElem?_getD, List.getElem?_replicate]
  split <;> rfl

theorem supportInv_init (N total : Nat) :
    SupportInv N ⟨List.replicate (max total N) 0, List.replicate (max total N) 0, N, 0⟩ :=
  ⟨rfl, Nat.le_refl _, by simp, fun e _ => getD_replicate_zero _ e⟩

theorem CreateCellSupportArrays_eq (N : Nat) (v l p s : CellArray)
    (cpm pcm : List Nat) :
    (CreateCellSupportArrays N v l p s cpm pcm).allCells
        = (supportCells (supportInit N (v.size + l.size + p.size + s.size) cpm pcm)
            (v.cells ++ l.cells ++ p.cells ++ s.cells)).2
    ∧ (CreateCellSupportArrays N v l p s cpm pcm).cellPointMap
        = resize (supportCells (supportInit N (v.size + l.size + p.size + s.size) cpm pcm)
            (v.cells ++ l.cells ++ p.cells ++ s.cells)).1.cellPointMap
          (supportCells (supportInit N (v.size + l.size + p.size + s.size) cpm pcm)
            (v.cells ++ l.cells ++ p.cells ++ s.cells)).1.nextId 0
    ∧ (CreateCellSupportArrays N v l p s cpm pcm).pointCellMap
        = resize (supportCells (supportInit N (v.size + l.size + p.size + s.size) cpm pcm)
            (v.cells ++ l.cells ++ p.cells ++ s.cells)).1.pointCellMap
          (supportCells (supportInit N (v.size + l.size + p.size + s.size) cpm pcm)
            (v.cells ++ l.cells ++ p.cells ++ s.cells)).1.nextId 0
    ∧ (CreateCellSupportArrays N v l p s cpm pcm).verts.length = v.cells.length
    ∧ (CreateCellSupportArrays N v l p s cpm pcm).lines.length = l.cells.length
    ∧ (CreateCellSupportArrays N v l p s cpm pcm).polys.length = p.cells.length
    ∧ (CreateCellSupportArrays N v l p s cpm pcm).strips.length = s.cells.length := by
  simp [supportCells_append, CreateCellSupportArrays, SupportArrays.allCells,
    length_supportCells]

theorem getD_mem_of_mem {α : Type} (L : List (List α)) (k : Nat) (e : α)
    (he : e ∈ L.getD k []) : L.getD k [] ∈ L := by
  by_cases hk : k < L.length
  · rw [List.getD_eq_getElem _ _ hk]
    exact List.getElem_mem _
  · rw [List.getD_eq_default _ _ (Nat.le_of_not_lt hk)] at he
    simp at he

theorem getD_resize_of_zero (l : List Nat) (n : Nat) (hn : n ≤ l.length)
    (hz : ∀ e, n ≤ e → l.getD e 0 = 0) (e : Nat) :
    (resize l n 0).getD e 0 = l.getD e 0 := by
  by_cases he : e < n
  · exact getD_resize_le l n e hn he
  · rw [hz e (Nat.le_of_not_lt he),
      List.getD_eq_default _ _ (by rw [length_resize]; exact Nat.le_of_not_lt he)]

theorem count_resize_le (l : List Nat) (n a : Nat) (hn : n ≤ l.length)
    (hz : ∀ e, n ≤ e → l.getD e 0 = 0) (ha : a ≠ 0) :
    (resize l n 0).count a = l.count a := by
  rw [resize, Nat.sub_eq_zero_of_le hn, List.replicate_zero, List.append_nil]
  exact count_take_of_zero l n a hz ha

/-- Summary of `CreateCellSupportArrays` on a well-formed mesh, called with
empty vectors: the rewritten cells resolve position by position to the original
ids, every new id is below the length of the maps, no id is inserted twice,
every mapped id was inserted, the number of ids mapped to `P` is the number of
references to `P`, and every id inserted into the cell with global index `k` is
owned by `k`. -/
theorem CreateCellSupportArrays_spec (N : Nat) (v l p s : CellArray)
    (hidx : ∀ c ∈ v.cells ++ l.cells ++ p.cells ++ s.cells, ∀ i ∈ c, i < N)
    (hsize : connectivityEntries v.cells ≤ v.size ∧ connectivityEntries l.cells ≤ l.size
      ∧ connectivityEntries p.cells ≤ p.size ∧ connectivityEntries s.cells ≤ s.size)
    (hfit : N + connectivityEntries (v.cells ++ l.cells ++ p.cells ++ s.cells) < 2 ^ 32) :
    (CreateCellSupportArrays N v l p s [] []).pointCellMap.length
        = (CreateCellSupportArrays N v l p s [] []).cellPointMap.length
    ∧ (CreateCellSupportArrays N v l p s [] []).allCells.map
          (List.map (fun e =>
            (CreateCellSupportArrays N v l p s [] []).cellPointMap.getD e 0))
        = (v.cells ++ l.cells ++ p.cells ++ s.cells).map (List.map (fun i => i + 1))
    ∧ (∀ e ∈ (CreateCellSupportArrays N v l p s [] []).allCells.flatten,
        e < (CreateCellSupportArrays N v l p s [] []).cellPointMap.length)
    ∧ (CreateCellSupportArrays N v l p s [] []).allCells.flatten.Nodup
    ∧ (∀ e, (CreateCellSupportArrays N v l p s [] []).cellPointMap.getD e 0 ≠ 0 →
        e ∈ (CreateCellSupportArrays N v l p s [] []).allCells.flatten)
    ∧ (∀ P, (CreateCellSupportArrays N v l p s [] []).cellPointMap.count (P + 1)
        = (v.cells ++ l.cells ++ p.cells ++ s.cells).flatten.count P)
    ∧ (∀ k, ∀ e ∈ (CreateCellSupportArrays N v l p s [] []).allCells.getD k [],
        (CreateCellSupportArrays N v l p s [] []).pointCellMap.getD e 0 = k) := by
  obtain ⟨hall, hcpm, hpcm, -⟩ := CreateCellSupportArrays_eq N v l p s [] []
  have hent := connectivityEntries_eq (v.cells ++ l.cells ++ p.cells ++ s.cells)
  have hentsum : connectivityEntries (v.cells ++ l.cells ++ p.cells ++ s.cells)
      ≤ v.size + l.size + p.size + s.size := by
    rw [connectivityEntries_append, connectivityEntries_append, connectivityEntries_append]
    omega
  rw [supportInit_nil N _ (by omega)] at hall hcpm hpcm
  obtain ⟨hinv, hreach, -, hmap, hown⟩ := supportCells_spec N
    (v.cells ++ l.cells ++ p.cells ++ s.cells)
    ⟨List.replicate (max (v.size + l.size + p.size + s.size) N) 0,
      List.replicate (max (v.size + l.size + p.size + s.size) N) 0, N, 0⟩
    (supportInv_init N _) hidx (by show N + _ < 2 ^ 32; omega)
    (by show 0 + _ < 2 ^ 32; omega)
    (by
      intro hne
      have h1 : 1 ≤ (v.cells ++ l.cells ++ p.cells ++ s.cells).flatten.length :=
        List.length_pos.mpr hne
      have h2 : 1 ≤ (v.cells ++ l.cells ++ p.cells ++ s.cells).length := by
        rcases Nat.eq_zero_or_pos (v.cells ++ l.cells ++ p.cells ++ s.cells).length
          with h0 | hpos
        · rw [List.length_eq_zero.mp h0] at hne
          exact absurd rfl hne
        · exact hpos
      show 2 ≤ (List.replicate _ 0).length
      rw [List.length_replicate]
      have := Nat.le_max_left (v.size + l.size + p.size + s.size) N
      omega)
  rw [hall, hcpm, hpcm]
  have hget := getD_resize_of_zero _ _ hinv.next_le hinv.zero_above
  have hgetfun : (fun e => (resize _ _ 0).getD e 0) = _ := funext hget
  refine ⟨?_, ?_, ?_, hreach.nodup, ?_, ?_, ?_⟩
  · rw [length_resize, length_resize]
  · rw [hgetfun]
    exact hmap
  · intro e he
    rw [length_resize]
    exact (hreach.fresh e he).1
  · intro e he
    rw [hget e] at he
    rcases hreach.covered e he with h | h
    · exact absurd (getD_replicate_zero _ e) h
    · exact h
  · intro P
    rw [count_resize_le _ _ _ hinv.next_le hinv.zero_above (Nat.succ_ne_zero P),
      hreach.counts P]
    show (List.replicate _ 0).count (P + 1) + _ = _
    rw [List.count_replicate]
    simp
  · intro k e he
    have helt : e < _ := (hreach.fresh e
      (List.mem_flatten.mpr ⟨_, getD_mem_of_mem _ k e he, he⟩)).1
    rw [getD_resize_le _ _ _ (by rw [hinv.len_eq]; exact hinv.next_le) helt, hown k e he]
    simp

/-! ### Cell explosion: the claims -/

theorem nested_index (g h : Nat → Nat) (A B : List (List Nat))
    (H : A.map (List.map g) = B.map (List.map h)) (k j : Nat) :
    ((A.getD k [])[j]?).map g = ((B.getD k [])[j]?).map h := by
  have h1 : (A.map (List.map g)).getD k [] = (B.map (List.map h)).getD k [] := by rw [H]
  have hA : (A.map (List.map g)).getD k [] = (A.getD k []).map g :=
    List.getD_map A [] (List.map g)
  have hB : (B.map (List.map h)).getD k [] = (B.getD k []).map h :=
    List.getD_map B [] (List.map h)
  rw [hA, hB] at h1
  have h2 := congrArg (fun L => L[j]?) h1
  simpa [List.getElem?_map] using h2

theorem unshift_nested (g : Nat → Nat) (A B : List (List Nat))
    (H : A.map (List.map g) = B.map (List.map (fun i => i + 1))) :
    A.map (List.map (fun e => g e - 1)) = B ∧ A.map List.length = B.map List.length := by
  constructor
  · have h1 := congrArg (List.map (List.map (fun x => x - 1))) H
    simp only [List.map_map] at h1
    have hid : (List.map (fun x => x - 1) ∘ List.map fun i => i + 1) = id := by
      funext c
      simp [List.map_map, Function.comp_def]
    rw [hid, List.map_id] at h1
    rw [← h1]
    apply List.map_congr_left
    intro c _
    simp [List.map_map, Function.comp_def]
  · have h1 := congrArg (List.map List.length) H
    simpa [List.map_map, Function.comp_def] using h1

/-- C10: on a mesh whose connectivity ids are all below `N`,
`CreateCellSupportArrays` produces four rewritten lists with the same number of
cells and the same cell sizes as the inputs; every rewritten id is below the
final length of `cellPointMap` (which is also the length of `pointCellMap`), and
`cellPointMap[e] - 1` is the original id at the same position of the same cell.
The function is called with empty vectors, as in `UpdateVBO`.
Assumed: `GetSize()` of each cell array is at least its number of connectivity
entries, and the point count plus the number of connectivity entries fits an
`unsigned int`. -/
theorem C10_rewritten_connectivity (N : Nat) (v l p s : CellArray)
    (hidx : ∀ c ∈ v.cells ++ l.cells ++ p.cells ++ s.cells, ∀ i ∈ c, i < N)
    (hsize : connectivityEntries v.cells ≤ v.size ∧ connectivityEntries l.cells ≤ l.size
      ∧ connectivityEntries p.cells ≤ p.size ∧ connectivityEntries s.cells ≤ s.size)
    (hfit : N + connectivityEntries (v.cells ++ l.cells ++ p.cells ++ s.cells) < 2 ^ 32) :
    ((CreateCellSupportArrays N v l p s [] []).verts.map
        (List.map (fun e =>
          (CreateCellSupportArrays N v l p s [] []).cellPointMap.getD e 0 - 1)) = v.cells
      ∧ (CreateCellSupportArrays N v l p s [] []).lines.map
        (List.map (fun e =>
          (CreateCellSupportArrays N v l p s [] []).cellPointMap.getD e 0 - 1)) = l.cells
      ∧ (CreateCellSupportArrays N v l p s [] []).polys.map
        (List.map (fun e =>
          (CreateCellSupportArrays N v l p s [] []).cellPointMap.getD e 0 - 1)) = p.cells
      ∧ (CreateCellSupportArrays N v l p s [] []).strips.map
        (List.map (fun e =>
          (CreateCellSupportArrays N v l p s [] []).cellPointMap.getD e 0 - 1)) = s.cells)
    ∧ ((CreateCellSupportArrays N v l p s [] []).verts.map List.length
        = v.cells.map List.length
      ∧ (CreateCellSupportArrays N v l p s [] []).lines.map List.length
        = l.cells.map List.length
      ∧ (CreateCellSupportArrays N v l p s [] []).polys.map List.length
        = p.cells.map List.length
      ∧ (CreateCellSupportArrays N v l p s [] []).strips.map List.length
        = s.cells.map List.length)
    ∧ (∀ e ∈ (CreateCellSupportArrays N v l p s [] []).allCells.flatten,
        e < (CreateCellSupportArrays N v l p s [] []).cellPointMap.length)
    ∧ (CreateCellSupportArrays N v l p s [] []).pointCellMap.length
        = (CreateCellSupportArrays N v l p s [] []).cellPointMap.length := by
  obtain ⟨hA, hB, hC, -⟩ := CreateCellSupportArrays_spec N v l p s hidx hsize hfit
  obtain ⟨-, -, -, hlv, hll, hlp, hls⟩ := CreateCellSupportArrays_eq N v l p s [] []
  simp only [SupportArrays.allCells, List.map_append] at hB
  obtain ⟨h123, h4⟩ := List.append_inj hB (by simp [hlv, hll, hlp])
  obtain ⟨h12, h3⟩ := List.append_inj h123 (by simp [hlv, hll])
  obtain ⟨h1, h2⟩ := List.append_inj h12 (by simp [hlv])
  have u1 := unshift_nested _ _ _ h1
  have u2 := unshift_nested _ _ _ h2
  have u3 := unshift_nested _ _ _ h3
  have u4 := unshift_nested _ _ _ h4
  exact ⟨⟨u1.1, u2.1, u3.1, u4.1⟩, ⟨u1.2, u2.2, u3.2, u4.2⟩, hC, hA⟩

/-- Witness for C10: four points and three triangles that share point 0. -/
theorem C10_rewritten_connectivity_witness :
    (CreateCellSupportArrays 4 ⟨[], 0⟩ ⟨[], 0⟩ ⟨[[0, 1, 2], [0, 2, 3], [0, 3, 1]], 12⟩
        ⟨[], 0⟩ [] []).polys.map
      (List.map (fun e =>
        (CreateCellSupportArrays 4 ⟨[], 0⟩ ⟨[], 0⟩
          ⟨[[0, 1, 2], [0, 2, 3], [0, 3, 1]], 12⟩ ⟨[], 0⟩ [] []).cellPointMap.getD e 0 - 1))
      = [[0, 1, 2], [0, 2, 3], [0, 3, 1]] :=
  (C10_rewritten_connectivity 4 ⟨[], 0⟩ ⟨[], 0⟩ ⟨[[0, 1, 2], [0, 2, 3], [0, 3, 1]], 12⟩
    ⟨[], 0⟩ (by decide) (by decide) (by decide)).1.2.2.1

theorem exists_index_of_mem_flatten (L : List (List Nat)) (e : Nat)
    (he : e ∈ L.flatten) : ∃ k j : Nat, (L.getD k [])[j]? = some e := by
  obtain ⟨cell, hcell, hmem⟩ := List.mem_flatten.mp he
  obtain ⟨k, hk, rfl⟩ := List.getElem_of_mem hcell
  obtain ⟨j, hj, rfl⟩ := List.getElem_of_mem hmem
  exact ⟨k, j, by rw [List.getD_eq_getElem _ _ hk, List.getElem?_eq_getElem hj]⟩

theorem mem_getD_of_getElem? (L : List (List Nat)) (k j e : Nat)
    (h : (L.getD k [])[j]? = some e) : e ∈ L.getD k [] :=
  List.getElem?_mem h

/-- C9: on a mesh whose connectivity ids are all below `N`, for an original
point `P` referenced `r` times across the four connectivity lists (`r >= 1`
included), after `CreateCellSupportArrays` exactly `r` entries of
`cellPointMap` equal `P + 1`;
each id `e` with `cellPointMap[e] = P + 1` occurs exactly once in the rewritten
connectivity, at a position where the original connectivity has `P`, and
`pointCellMap[e]` is the global index of the cell of that occurrence; and every
reference to `P`, in the cell with global index `k`, has its own id that
resolves to `P` and is owned by `k` (ids of different references differ because
no id occurs twice).  The function is called with empty vectors, as in
`UpdateVBO`.  Assumed: `GetSize()` of each cell array is at least its
number of connectivity entries, and the point count plus the number of
connectivity entries fits an `unsigned int`. -/
theorem C9_exploded_point_ids (N : Nat) (v l p s : CellArray)
    (hidx : ∀ c ∈ v.cells ++ l.cells ++ p.cells ++ s.cells, ∀ i ∈ c, i < N)
    (hsize : connectivityEntries v.cells ≤ v.size ∧ connectivityEntries l.cells ≤ l.size
      ∧ connectivityEntries p.cells ≤ p.size ∧ connectivityEntries s.cells ≤ s.size)
    (hfit : N + connectivityEntries (v.cells ++ l.cells ++ p.cells ++ s.cells) < 2 ^ 32)
    (P : Nat) :
    (CreateCellSupportArrays N v l p s [] []).cellPointMap.count (P + 1)
        = (v.cells ++ l.cells ++ p.cells ++ s.cells).flatten.count P
    ∧ (∀ e, e < (CreateCellSupportArrays N v l p s [] []).cellPointMap.length →
        (CreateCellSupportArrays N v l p s [] []).cellPointMap.getD e 0 = P + 1 →
        (CreateCellSupportArrays N v l p s [] []).allCells.flatten.count e = 1
        ∧ ∃ k j : Nat,
            ((CreateCellSupportArrays N v l p s [] []).allCells.getD k [])[j]? = some e
            ∧ ((v.cells ++ l.cells ++ p.cells ++ s.cells).getD k [])[j]? = some P
            ∧ (CreateCellSupportArrays N v l p s [] []).pointCellMap.getD e 0 = k)
    ∧ (∀ k j : Nat, ((v.cells ++ l.cells ++ p.cells ++ s.cells).getD k [])[j]? = some P →
        ∃ e, ((CreateCellSupportArrays N v l p s [] []).allCells.getD k [])[j]? = some e
          ∧ e < (CreateCellSupportArrays N v l p s [] []).cellPointMap.length
          ∧ (CreateCellSupportArrays N v l p s [] []).cellPointMap.getD e 0 = P + 1
          ∧ (CreateCellSupportArrays N v l p s [] []).pointCellMap.getD e 0 = k)
    ∧ (CreateCellSupportArrays N v l p s [] []).allCells.flatten.Nodup := by
  obtain ⟨-, hB, hC, hD, hE, hF, hG⟩ :=
    CreateCellSupportArrays_spec N v l p s hidx hsize hfit
  refine ⟨hF P, ?_, ?_, hD⟩
  · intro e _ hcpm
    have hmem := hE e (by rw [hcpm]; exact Nat.succ_ne_zero P)
    refine ⟨List.count_eq_one_of_mem hD hmem, ?_⟩
    obtain ⟨k, j, hkj⟩ := exists_index_of_mem_flatten _ e hmem
    refine ⟨k, j, hkj, ?_, hG k e (mem_getD_of_getElem? _ k j e hkj)⟩
    have hn := nested_index _ _ _ _ hB k j
    rw [hkj, Option.map_some', hcpm] at hn
    cases hq : ((v.cells ++ l.cells ++ p.cells ++ s.cells).getD k [])[j]? with
    | none => rw [hq] at hn; simp at hn
    | some q =>
      rw [hq, Option.map_some'] at hn
      have : q = P := by
        have := Option.some.inj hn
        omega
      rw [this]
  · intro k j hkj
    have hn := nested_index _ _ _ _ hB k j
    rw [hkj, Option.map_some'] at hn
    cases hq : ((CreateCellSupportArrays N v l p s [] []).allCells.getD k [])[j]? with
    | none => rw [hq] at hn; simp at hn
    | some e =>
      rw [hq, Option.map_some'] at hn
      have hmem := mem_getD_of_getElem? _ k j e hq
      exact ⟨e, rfl,
        hC e (List.mem_flatten.mpr ⟨_, getD_mem_of_mem _ k e hmem, hmem⟩),
        Option.some.inj hn, hG k e hmem⟩

/-- Witness for C9: point 0 is referenced by three triangles, so exactly three
entries of `cellPointMap` resolve to it. -/
theorem C9_exploded_point_ids_witness :
    (CreateCellSupportArrays 4 ⟨[], 0⟩ ⟨[], 0⟩ ⟨[[0, 1, 2], [0, 2, 3], [0, 3, 1]], 12⟩
        ⟨[], 0⟩ [] []).cellPointMap.count (0 + 1)
      = (([] : List (List Nat)) ++ [] ++ [[0, 1, 2], [0, 2, 3], [0, 3, 1]]
          ++ []).flatten.count 0 :=
  (C9_exploded_point_ids 4 ⟨[], 0⟩ ⟨[], 0⟩ ⟨[[0, 1, 2], [0, 2, 3], [0, 3, 1]], 12⟩
    ⟨[], 0⟩ (by decide) (by decide) (by decide) 0).1

/-! ### Buffer refresh -/

/-- The scalar types of a point array that `CreateVBO` packs: `VTK_FLOAT`,
`VTK_DOUBLE` and the further types that `vtkTemplateMacro` dispatches on. -/
theorem CreateVBO_plain_layout {V F : Type} [Zero F] (env : Env V F)
    (points : DataArray V) (n cc : Nat) (cpm pcm : Option (Nat → Nat))
    (htype : points.dataType = .VTK_FLOAT ∨ points.dataType = .VTK_DOUBLE
      ∨ ∃ code, points.dataType = .VTK_OTHER code ∧ env.templateMacro code = true) :
    (CreateVBO env points n none none none cc cpm pcm).1.Stride = 12
    ∧ (CreateVBO env points n none none none cc cpm pcm).1.VertexCount = n := by
  rcases htype with h | h | ⟨code, h, hm⟩
  · simp [CreateVBO, h, sizeofFloat]
  · simp [CreateVBO, h, TemplatedCreateVBO, TemplatedCreateVBO2, TemplatedCreateVBO3,
      blockLayout, sizeofFloat]
  · simp [CreateVBO, h, hm, TemplatedCreateVBO, TemplatedCreateVBO2, TemplatedCreateVBO3,
      blockLayout, sizeofFloat]

/-- C20: for the unit-quad mesh (4 points, one polygon cell `(0,1,2,3)`, no
normals, texture coordinates or colours) in surface representation, `UpdateVBO`
returns with a vertex layout of stride 12 and vertex count 4, the triangle index
buffer `0,1,2,0,2,3` with index count 6, and index count 0 for the point, line
and strip slots.  The point array has a scalar type that `CreateVBO` packs. -/
theorem C20_unit_quad {F V D : Type} [Zero F] (env : Env V F)
    (Triangulate : List Nat → List Nat) (m : Mapper F) (mapped : MappedScalars V)
    (poly : PolyData V) (act : Actor D)
    (hN : poly.NumberOfPoints = 4) (hpolys : poly.Polys.cells = [[0, 1, 2, 3]])
    (hverts : poly.Verts.cells = []) (hlines : poly.Lines.cells = [])
    (hstrips : poly.Strips.cells = [])
    (hnormals : poly.Normals = none) (htc : poly.TCoords = none)
    (hcolors : mapped.Colors = none) (hcoords : mapped.ColorCoordinates = none)
    (hrep : act.Property.Representation = .VTK_SURFACE)
    (htype : poly.Points.dataType = .VTK_FLOAT ∨ poly.Points.dataType = .VTK_DOUBLE
      ∨ ∃ code, poly.Points.dataType = .VTK_OTHER code ∧ env.templateMacro code = true) :
    ∃ m1, UpdateVBO env Triangulate m mapped (some poly) act = .ok m1
      ∧ m1.layout.Stride = 12 ∧ m1.layout.VertexCount = 4
      ∧ m1.tris.ibo = [0, 1, 2, 0, 2, 3] ∧ m1.tris.indexCount = 6
      ∧ m1.points.indexCount = 0 ∧ m1.lines.indexCount = 0
      ∧ m1.triStrips.indexCount = 0 := by
  have hprims : ∀ m0 : Mapper F,
      explodedPrims poly (cellScalars m0 poly mapped.Colors.isSome)
        = ⟨[], [], [[0, 1, 2, 3]], [], [], []⟩ := by
    intro m0
    simp [explodedPrims, cellScalars, hcolors, hpolys, hverts, hlines, hstrips]
  have hpack : ∀ m0 : Mapper F,
      (packVertices env m0 mapped poly act ⟨[], [], [[0, 1, 2, 3]], [], [], []⟩).1.Stride = 12
      ∧ (packVertices env m0 mapped poly act
          ⟨[], [], [[0, 1, 2, 3]], [], [], []⟩).1.VertexCount = 4 := by
    intro m0
    have hnorm : (if act.Property.Interpolation ≠ .VTK_FLAT then poly.Normals else none)
        = none := by
      rw [hnormals]; split <;> rfl
    have htcn : chosenTCoords m0 mapped poly act = none := by
      simp [chosenTCoords, hcoords, htc]
    have hu : u32 4 = 4 := by decide
    simp only [packVertices, hnorm, htcn, hcolors, hN, List.length_nil, Nat.lt_irrefl,
      gt_iff_lt, if_false, Option.map_none', hu]
    exact CreateVBO_plain_layout env poly.Points 4 0 none none htype
  have htri : CreateTriangleIndexBuffer Triangulate [[0, 1, 2, 3]]
      = .ok ([0, 1, 2, 0, 2, 3], 6) := by
    simp [CreateTriangleIndexBuffer, triangleLoop, u32]
  simp only [UpdateVBO, hprims, hrep, htri]
  refine ⟨_, rfl, ?_⟩
  simp [hpack, CreatePointIndexBuffer, CreateMultiIndexBuffer]

/-- Witness for C20: the unit quad with `float` points. -/
theorem C20_unit_quad_witness :
    ∃ m1, UpdateVBO (F := Int) (V := Int) (D := Int)
        ⟨fun _ x => x, fun _ => true, ⟨0, 0, 0, 0, 0, 0, 0, 0⟩⟩ (fun _ => [])
        ⟨⟨none, 0, 0, 0, [], [], []⟩, ⟨none, 0, 0, 0, [], [], []⟩,
          ⟨none, 0, 0, 0, [], [], []⟩, ⟨none, 0, 0, 0, [], [], []⟩,
          ⟨0, 0, 0, 0, 0, 0, 0, 0⟩, none, true, .VTK_SCALAR_MODE_DEFAULT,
          .VTK_MATERIALMODE_DEFAULT, false, false, -1, false, 0, 0, 0, 0, 0, none, 1⟩
        ⟨none, none, false⟩
        (some ⟨⟨.VTK_FLOAT, 3, fun j => (j : Int)⟩, 4, none, none, false,
          ⟨[], 0⟩, ⟨[], 0⟩, ⟨[[0, 1, 2, 3]], 5⟩, ⟨[], 0⟩, 1⟩)
        ⟨⟨.VTK_SURFACE, .VTK_GOURAUD, true, 0, 1, 0⟩, false, 1⟩ = .ok m1
      ∧ m1.layout.Stride = 12 ∧ m1.layout.VertexCount = 4
      ∧ m1.tris.ibo = [0, 1, 2, 0, 2, 3] ∧ m1.tris.indexCount = 6
      ∧ m1.points.indexCount = 0 ∧ m1.lines.indexCount = 0
      ∧ m1.triStrips.indexCount = 0 :=
  C20_unit_quad _ _ _ _ _ _ rfl rfl rfl rfl rfl rfl rfl rfl rfl rfl (Or.inl rfl)

theorem CreateCellSupportArrays_length (N : Nat) (v l p s : CellArray)
    (hidx : ∀ c ∈ v.cells ++ l.cells ++ p.cells ++ s.cells, ∀ i ∈ c, i < N)
    (hsize : connectivityEntries v.cells ≤ v.size ∧ connectivityEntries l.cells ≤ l.size
      ∧ connectivityEntries p.cells ≤ p.size ∧ connectivityEntries s.cells ≤ s.size)
    (hfit : N + connectivityEntries (v.cells ++ l.cells ++ p.cells ++ s.cells) < 2 ^ 32) :
    N ≤ (CreateCellSupportArrays N v l p s [] []).cellPointMap.length
    ∧ (CreateCellSupportArrays N v l p s [] []).cellPointMap.length
        ≤ N + (v.cells ++ l.cells ++ p.cells ++ s.cells).flatten.length := by
  obtain ⟨-, hcpm, -, -⟩ := CreateCellSupportArrays_eq N v l p s [] []
  have hent := connectivityEntries_eq (v.cells ++ l.cells ++ p.cells ++ s.cells)
  have hentsum : connectivityEntries (v.cells ++ l.cells ++ p.cells ++ s.cells)
      ≤ v.size + l.size + p.size + s.size := by
    rw [connectivityEntries_append, connectivityEntries_append, connectivityEntries_append]
    omega
  rw [supportInit_nil N _ (by omega)] at hcpm
  obtain ⟨hinv, hreach, -, -, -⟩ := supportCells_spec N
    (v.cells ++ l.cells ++ p.cells ++ s.cells)
    ⟨List.replicate (max (v.size + l.size + p.size + s.size) N) 0,
      List.replicate (max (v.size + l.size + p.size + s.size) N) 0, N, 0⟩
    (supportInv_init N _) hidx (by show N + _ < 2 ^ 32; omega)
    (by show 0 + _ < 2 ^ 32; omega)
    (by
      intro hne
      have h1 : 1 ≤ (v.cells ++ l.cells ++ p.cells ++ s.cells).flatten.length :=
        List.length_pos.mpr hne
      have h2 : 1 ≤ (v.cells ++ l.cells ++ p.cells ++ s.cells).length := by
        rcases Nat.eq_zero_or_pos (v.cells ++ l.cells ++ p.cells ++ s.cells).length
          with h0 | hpos
        · rw [List.length_eq_zero.mp h0] at hne
          exact absurd rfl hne
        · exact hpos
      show 2 ≤ (List.replicate _ 0).length
      rw [List.length_replicate]
      have := Nat.le_max_left (v.size + l.size + p.size + s.size) N
      omega)
  rw [hcpm, length_resize]
  exact ⟨hinv.n_le, hreach.next_le⟩

/-- With colours present and dispatchable scalar types, `CreateVBO` is the
general packing path `TemplatedCreateVBO3`, instantiated at the scalar types of
the three arrays. -/
theorem CreateVBO_general {V F : Type} [Zero F] (env : Env V F)
    (points : DataArray V) (n : Nat) (normals tcoords : Option (DataArray V))
    (col : Nat → Nat) (cc : Nat) (cpm pcm : Option (Nat → Nat))
    (hp : points.dataType = .VTK_FLOAT ∨ points.dataType = .VTK_DOUBLE
      ∨ ∃ code, points.dataType = .VTK_OTHER code ∧ env.templateMacro code = true)
    (hn : arrayType normals = .VTK_FLOAT ∨ arrayType normals = .VTK_DOUBLE)
    (ht : arrayType tcoords = .VTK_FLOAT ∨ arrayType tcoords = .VTK_DOUBLE) :
    CreateVBO env points n normals tcoords (some col) cc cpm pcm
      = ((TemplatedCreateVBO3 (env.toFloat points.dataType)
            (env.toFloat (arrayType normals)) (env.toFloat (arrayType tcoords))
            points.data (normals.map (fun a => a.data)) n
            (tcoords.map (fun a => a.data)) (arrayComponents tcoords)
            (some col) cc cpm pcm).1,
         some (TemplatedCreateVBO3 (env.toFloat points.dataType)
            (env.toFloat (arrayType normals)) (env.toFloat (arrayType tcoords))
            points.data (normals.map (fun a => a.data)) n
            (tcoords.map (fun a => a.data)) (arrayComponents tcoords)
            (some col) cc cpm pcm).2) := by
  rcases hp with h | h | ⟨code, h, hm⟩
  · rcases hn with hn | hn <;> rcases ht with ht | ht <;> cases normals <;>
      cases tcoords <;>
      simp_all [CreateVBO, TemplatedCreateVBO, TemplatedCreateVBO2, arrayType,
        arrayComponents]
  · rcases hn with hn | hn <;> rcases ht with ht | ht <;> cases normals <;>
      cases tcoords <;>
      simp_all [CreateVBO, TemplatedCreateVBO, TemplatedCreateVBO2, arrayType,
        arrayComponents]
  · rcases hn with hn | hn <;> rcases ht with ht | ht <;> cases normals <;>
      cases tcoords <;>
      simp_all [CreateVBO, TemplatedCreateVBO, TemplatedCreateVBO2, arrayType,
        arrayComponents]

theorem lt_length_of_getElem?_getD (L : List (List Nat)) (c j P : Nat)
    (h : (L.getD c [])[j]? = some P) : c < L.length := by
  by_contra hc
  rw [List.getD_eq_default _ _ (Nat.le_of_not_lt hc)] at h
  simp at h

/-- C11: for a mesh with per-cell colours (`cellScalars` holds), after
`CreateCellSupportArrays` followed by `CreateVBO` with the resulting maps, as
`UpdateVBO` calls them, for every cell with global index `c` and every position
`j` of that cell with original point `P`, the packed record at the rewritten id
carries the position (and normal and texture coordinates) of `P` and the colour
tuple of cell `c`; and an id that occurs in two cells occurs in the same cell, so
two cells never share a packed vertex.  Assumed: ids below the point count,
`GetSize()` of each cell array at least its connectivity entries, scalar types
that `CreateVBO` dispatches on, and the offsets computed in `unsigned int`
(three times the point count, texture components times the point count, colour
components times the cell count, point count plus connectivity entries) fit. -/
theorem C11_exploded_records {F V D : Type} [Zero F] (env : Env V F) (m : Mapper F)
    (mapped : MappedScalars V) (poly : PolyData V) (act : Actor D) (col : ScalarColors)
    (hcolors : mapped.Colors = some col)
    (hcs : cellScalars m poly true = true)
    (hidx : ∀ c ∈ poly.Verts.cells ++ poly.Lines.cells ++ poly.Polys.cells
      ++ poly.Strips.cells, ∀ i ∈ c, i < poly.NumberOfPoints)
    (hsize : connectivityEntries poly.Verts.cells ≤ poly.Verts.size
      ∧ connectivityEntries poly.Lines.cells ≤ poly.Lines.size
      ∧ connectivityEntries poly.Polys.cells ≤ poly.Polys.size
      ∧ connectivityEntries poly.Strips.cells ≤ poly.Strips.size)
    (hfit : poly.NumberOfPoints + connectivityEntries (poly.Verts.cells
      ++ poly.Lines.cells ++ poly.Polys.cells ++ poly.Strips.cells) < 2 ^ 32)
    (hp : poly.Points.dataType = .VTK_FLOAT ∨ poly.Points.dataType = .VTK_DOUBLE
      ∨ ∃ code, poly.Points.dataType = .VTK_OTHER code ∧ env.templateMacro code = true)
    (hn : arrayType (if act.Property.Interpolation ≠ .VTK_FLAT then poly.Normals
        else none) = .VTK_FLOAT
      ∨ arrayType (if act.Property.Interpolation ≠ .VTK_FLAT then poly.Normals
        else none) = .VTK_DOUBLE)
    (ht : arrayType (chosenTCoords m mapped poly act) = .VTK_FLOAT
      ∨ arrayType (chosenTCoords m mapped poly act) = .VTK_DOUBLE)
    (hfit3 : poly.NumberOfPoints * 3 < 2 ^ 32)
    (hfitk : poly.NumberOfPoints * arrayComponents (chosenTCoords m mapped poly act)
      < 2 ^ 32)
    (hfitc : (poly.Verts.cells ++ poly.Lines.cells ++ poly.Polys.cells
      ++ poly.Strips.cells).length * col.numberOfComponents < 2 ^ 32) :
    (∀ c j P : Nat,
      ((poly.Verts.cells ++ poly.Lines.cells ++ poly.Polys.cells
        ++ poly.Strips.cells).getD c [])[j]? = some P →
      ∃ e buf,
        ((explodedPrims poly (cellScalars m poly mapped.Colors.isSome)).allCells.getD
          c [])[j]? = some e
        ∧ (packVertices env m mapped poly act
            (explodedPrims poly (cellScalars m poly mapped.Colors.isSome))).2 = some buf
        ∧ recordOfVertex buf
            (packVertices env m mapped poly act
              (explodedPrims poly (cellScalars m poly mapped.Colors.isSome))).1 e
          = recordOfPointAndCell env poly.Points
              (if act.Property.Interpolation ≠ .VTK_FLAT then poly.Normals else none)
              (chosenTCoords m mapped poly act) col P c)
    ∧ (∀ c1 c2 j1 j2 e : Nat,
        ((explodedPrims poly (cellScalars m poly mapped.Colors.isSome)).allCells.getD
          c1 [])[j1]? = some e →
        ((explodedPrims poly (cellScalars m poly mapped.Colors.isSome)).allCells.getD
          c2 [])[j2]? = some e →
        c1 = c2) := by
  have hprims : explodedPrims poly (cellScalars m poly mapped.Colors.isSome)
      = CreateCellSupportArrays poly.NumberOfPoints poly.Verts poly.Lines poly.Polys
          poly.Strips [] [] := by
    simp [explodedPrims, hcolors, hcs]
  rw [hprims]
  obtain ⟨hA, hB, hC, -, -, -, hG⟩ := CreateCellSupportArrays_spec poly.NumberOfPoints
    poly.Verts poly.Lines poly.Polys poly.Strips hidx hsize hfit
  obtain ⟨-, hlen⟩ := CreateCellSupportArrays_length poly.NumberOfPoints
    poly.Verts poly.Lines poly.Polys poly.Strips hidx hsize hfit
  have hent := connectivityEntries_eq (poly.Verts.cells ++ poly.Lines.cells
    ++ poly.Polys.cells ++ poly.Strips.cells)
  constructor
  · intro c j P hP
    have hn1 := nested_index _ _ _ _ hB c j
    rw [hP, Option.map_some'] at hn1
    cases hq : ((CreateCellSupportArrays poly.NumberOfPoints poly.Verts poly.Lines
        poly.Polys poly.Strips [] []).allCells.getD c [])[j]? with
    | none => rw [hq] at hn1; simp at hn1
    | some e =>
      rw [hq, Option.map_some'] at hn1
      have hcpm : (CreateCellSupportArrays poly.NumberOfPoints poly.Verts poly.Lines
          poly.Polys poly.Strips [] []).cellPointMap.getD e 0 = P + 1 :=
        Option.some.inj hn1
      have hmem := mem_getD_of_getElem? _ c j e hq
      have helt := hC e (List.mem_flatten.mpr ⟨_, getD_mem_of_mem _ c e hmem, hmem⟩)
      have hpcm := hG c e hmem
      have hclt := lt_length_of_getElem?_getD _ c j P hP
      have hPlt : P < poly.NumberOfPoints :=
        hidx _ (getD_mem_of_mem _ c P (List.getElem?_mem hP)) P (List.getElem?_mem hP)
      have hlen0 : 0 < (CreateCellSupportArrays poly.NumberOfPoints poly.Verts
          poly.Lines poly.Polys poly.Strips [] []).cellPointMap.length := by omega
      have hlen0p : 0 < (CreateCellSupportArrays poly.NumberOfPoints poly.Verts
          poly.Lines poly.Polys poly.Strips [] []).pointCellMap.length := by
        rw [hA]; exact hlen0
      have hu : u32 (CreateCellSupportArrays poly.NumberOfPoints poly.Verts
          poly.Lines poly.Polys poly.Strips [] []).cellPointMap.length
          = (CreateCellSupportArrays poly.NumberOfPoints poly.Verts
          poly.Lines poly.Polys poly.Strips [] []).cellPointMap.length :=
        u32_of_lt (by omega)
      have hcc : (match mapped.Colors with
          | some c => c.numberOfComponents
          | none => 0) = col.numberOfComponents := by rw [hcolors]
      have hpackeq : packVertices env m mapped poly act
          (CreateCellSupportArrays poly.NumberOfPoints poly.Verts poly.Lines poly.Polys
            poly.Strips [] [])
          = CreateVBO env poly.Points
              (CreateCellSupportArrays poly.NumberOfPoints poly.Verts poly.Lines
                poly.Polys poly.Strips [] []).cellPointMap.length
              (if act.Property.Interpolation ≠ .VTK_FLAT then poly.Normals else none)
              (chosenTCoords m mapped poly act) (some col.data) col.numberOfComponents
              (some (fun i => (CreateCellSupportArrays poly.NumberOfPoints poly.Verts
                poly.Lines poly.Polys poly.Strips [] []).cellPointMap.getD i 0))
              (some (fun i => (CreateCellSupportArrays poly.NumberOfPoints poly.Verts
                poly.Lines poly.Polys poly.Strips [] []).pointCellMap.getD i 0)) := by
        simp only [packVertices, hcc, gt_iff_lt, hlen0, hlen0p, if_true, hu]
        rw [hcolors]
        rfl
      rw [hpackeq, CreateVBO_general env poly.Points _ _ _ col.data col.numberOfComponents
        _ _ hp hn ht]
      refine ⟨e, _, rfl, rfl, ?_⟩
      simp only [recordOfVertex, recordOfPointAndCell]
      rw [TemplatedCreateVBO3_stride, TemplatedCreateVBO3_buffer]
      have hs := slice_flatMap_range (fun i =>
          recordAt (env.toFloat poly.Points.dataType)
            (env.toFloat (arrayType (if act.Property.Interpolation ≠ .VTK_FLAT
              then poly.Normals else none)))
            (env.toFloat (arrayType (chosenTCoords m mapped poly act)))
            poly.Points.data
            (Option.map (fun a => a.data) (if act.Property.Interpolation ≠ .VTK_FLAT
              then poly.Normals else none))
            (Option.map (fun a => a.data) (chosenTCoords m mapped poly act))
            (arrayComponents (chosenTCoords m mapped poly act))
            (some col.data) col.numberOfComponents
            (pointOffset (some (fun i => (CreateCellSupportArrays poly.NumberOfPoints
              poly.Verts poly.Lines poly.Polys poly.Strips [] []).cellPointMap.getD i 0)) i)
            (tcoordOffset (some (fun i => (CreateCellSupportArrays poly.NumberOfPoints
              poly.Verts poly.Lines poly.Polys poly.Strips [] []).cellPointMap.getD i 0))
              (arrayComponents (chosenTCoords m mapped poly act)) i)
            (colorOffset (some (fun i => (CreateCellSupportArrays poly.NumberOfPoints
              poly.Verts poly.Lines poly.Polys poly.Strips [] []).pointCellMap.getD i 0))
              col.numberOfComponents i))
        _ _ (fun i _ => recordAt_length ..) e helt
      rw [hs]
      have h3 : P * 3 < 2 ^ 32 :=
        Nat.lt_of_le_of_lt (Nat.mul_le_mul_right 3 (Nat.le_of_lt hPlt)) hfit3
      have hk : P * arrayComponents (chosenTCoords m mapped poly act) < 2 ^ 32 :=
        Nat.lt_of_le_of_lt (Nat.mul_le_mul_right _ (Nat.le_of_lt hPlt)) hfitk
      have hc : c * col.numberOfComponents < 2 ^ 32 :=
        Nat.lt_of_le_of_lt (Nat.mul_le_mul_right _ (Nat.le_of_lt hclt)) hfitc
      have e1 : pointOffset (some (fun i => (CreateCellSupportArrays poly.NumberOfPoints
          poly.Verts poly.Lines poly.Polys poly.Strips [] []).cellPointMap.getD i 0)) e
          = P * 3 := by
        simp only [pointOffset, hcpm, Nat.succ_pos, gt_iff_lt, if_true,
          Nat.add_sub_cancel]
        exact u32_of_lt h3
      have e2 : tcoordOffset (some (fun i => (CreateCellSupportArrays
          poly.NumberOfPoints poly.Verts poly.Lines poly.Polys poly.Strips [] []
          ).cellPointMap.getD i 0))
          (arrayComponents (chosenTCoords m mapped poly act)) e
          = P * arrayComponents (chosenTCoords m mapped poly act) := by
        simp only [tcoordOffset, hcpm, Nat.succ_pos, gt_iff_lt, if_true,
          Nat.add_sub_cancel]
        exact u32_of_lt hk
      have e3 : colorOffset (some (fun i => (CreateCellSupportArrays
          poly.NumberOfPoints poly.Verts poly.Lines poly.Polys poly.Strips [] []
          ).pointCellMap.getD i 0)) col.numberOfComponents e
          = c * col.numberOfComponents := by
        simp only [colorOffset, hpcm]
        exact u32_of_lt hc
      simp only [e1, e2, e3]
  · intro c1 c2 j1 j2 e h1 h2
    have g1 := hG c1 e (mem_getD_of_getElem? _ c1 j1 e h1)
    have g2 := hG c2 e (mem_getD_of_getElem? _ c2 j2 e h2)
    omega

theorem C11_exploded_records_witness :
    ∃ e buf,
      ((explodedPrims sampleTwoTriangles
          (cellScalars sampleCellDataMapper sampleTwoTriangles
            (MappedScalars.mk (V := Int) (some sampleCellColors) none false
              ).Colors.isSome)).allCells.getD 1 [])[0]? = some e
      ∧ (packVertices sampleEnv sampleCellDataMapper
          ⟨some sampleCellColors, none, false⟩ sampleTwoTriangles sampleActor
          (explodedPrims sampleTwoTriangles
            (cellScalars sampleCellDataMapper sampleTwoTriangles
              (MappedScalars.mk (V := Int) (some sampleCellColors) none false
                ).Colors.isSome))).2 = some buf
      ∧ recordOfVertex buf
          (packVertices sampleEnv sampleCellDataMapper
            ⟨some sampleCellColors, none, false⟩ sampleTwoTriangles sampleActor
            (explodedPrims sampleTwoTriangles
              (cellScalars sampleCellDataMapper sampleTwoTriangles
                (MappedScalars.mk (V := Int) (some sampleCellColors) none false
                  ).Colors.isSome))).1 e
        = recordOfPointAndCell sampleEnv sampleTwoTriangles.Points
            (if sampleActor.Property.Interpolation ≠ .VTK_FLAT
              then sampleTwoTriangles.Normals else none)
            (chosenTCoords sampleCellDataMapper ⟨some sampleCellColors, none, false⟩
              sampleTwoTriangles sampleActor) sampleCellColors 0 1 :=
  (C11_exploded_records sampleEnv sampleCellDataMapper
    ⟨some sampleCellColors, none, false⟩ sampleTwoTriangles sampleActor
    sampleCellColors rfl rfl (by decide) (by decide) (by decide) (Or.inl rfl)
    (Or.inl rfl) (Or.inl rfl) (by decide) (by decide) (by decide)).1 1 0 0 rfl

/-! ### Shader cache -/

theorem keeps_refl (c : ShaderCache) : ShaderCache.Keeps c c :=
  ⟨fun _ _ h => h, fun _ e h => ⟨e, h, rfl, rfl, rfl, rfl, fun h => h⟩⟩

theorem keeps_trans {c1 c2 c3 : ShaderCache} (h12 : ShaderCache.Keeps c1 c2)
    (h23 : ShaderCache.Keeps c2 c3) : ShaderCache.Keeps c1 c3 := by
  refine ⟨fun key p h => h23.1 key p (h12.1 key p h), fun p e h => ?_⟩
  obtain ⟨e2, he2, a1, a2, a3, a4, a5⟩ := h12.2 p e h
  obtain ⟨e3, he3, b1, b2, b3, b4, b5⟩ := h23.2 p e2 he2
  exact ⟨e3, he3, b1.trans a1, b2.trans a2, b3.trans a3, b4.trans a4, fun h => b5 (a5 h)⟩

theorem keeps_of_eq {c1 c2 : ShaderCache} (hh : c2.heap = c1.heap)
    (hm : c2.ShaderPrograms = c1.ShaderPrograms) : ShaderCache.Keeps c1 c2 := by
  refine ⟨fun key p h => by rw [hm]; exact h, fun p e h => ⟨e, by rw [hh]; exact h, ?_⟩⟩
  exact ⟨rfl, rfl, rfl, rfl, fun h => h⟩

/-- C15: `BindShader(s)` when `s` is already the last-bound program records
nothing but its own call (no release, no bind) and leaves heap, map and last-bound
pointer unchanged; otherwise it releases the previously bound program if there
is one, then binds `s`, and records `s` as last-bound, heap and map unchanged;
in both cases it returns 1. -/
theorem C15_bind_shader (c : ShaderCache) (s : Nat) :
    (BindShader c s).2 = 1
    ∧ (BindShader c s).1.heap = c.heap
    ∧ (BindShader c s).1.ShaderPrograms = c.ShaderPrograms
    ∧ (BindShader c s).1.LastShaderBound = some s
    ∧ (c.LastShaderBound = some s →
        (BindShader c s).1.LastShaderBound = c.LastShaderBound
        ∧ (BindShader c s).1.calls = c.calls ++ [.BindShader s])
    ∧ (∀ last, c.LastShaderBound = some last → last ≠ s →
        (BindShader c s).1.calls
          = c.calls ++ [.BindShader s, .Release last, .Bind s])
    ∧ (c.LastShaderBound = none →
        (BindShader c s).1.calls = c.calls ++ [.BindShader s, .Bind s]) := by
  refine ⟨?_, ?_, ?_, ?_, ?_, ?_, ?_⟩
  · unfold BindShader; simp only [ShaderCache.call]; split <;> rfl
  · unfold BindShader; simp only [ShaderCache.call]; split
    · rfl
    · cases c.LastShaderBound <;> rfl
  · unfold BindShader; simp only [ShaderCache.call]; split
    · rfl
    · cases c.LastShaderBound <;> rfl
  · unfold BindShader; simp only [ShaderCache.call]; split
    · assumption
    · rfl
  · intro h
    simp [BindShader, ShaderCache.call, h]
  · intro last h hne
    simp [BindShader, ShaderCache.call, h, hne]
  · intro h
    simp [BindShader, ShaderCache.call, h]

theorem keeps_set_compiled {c c1 : ShaderCache} {s : Nat} {sps : CachedShaderProgram}
    (h : c.heap[s]? = some sps)
    (hh : c1.heap = c.heap.set s { sps with Compiled := true })
    (hm : c1.ShaderPrograms = c.ShaderPrograms) : ShaderCache.Keeps c c1 := by
  refine ⟨fun key p hk => by rw [hm]; exact hk, fun p e hp => ?_⟩
  rw [hh, List.getElem?_set]
  by_cases hps : s = p
  · subst hps
    have hlt : s < c.heap.length := by
      by_contra hn
      rw [List.getElem?_eq_none (Nat.le_of_not_lt hn)] at h
      cases h
    rw [h] at hp
    cases hp
    simp [hlt]
  · simp [hps, hp]

/-- What `CompileShader` does on an entry: the map and the last-bound pointer
stay, the calls recorded contain no release and no bind, and either all steps
succeed, the result is 1 and the entry is marked compiled, or a step fails, the
result is 0 and the heap stays. -/
theorem CompileShader_spec (gl : CompileOutcome) (c : ShaderCache) (s : Nat)
    (sps : CachedShaderProgram) (h : c.heap[s]? = some sps) :
    ∃ c1 r t, CompileShader gl c s = some (c1, r)
      ∧ c1.ShaderPrograms = c.ShaderPrograms
      ∧ c1.LastShaderBound = c.LastShaderBound
      ∧ c1.calls = c.calls ++ t
      ∧ (∀ e ∈ t, e.isBindOrRelease = false ∧ e ≠ CacheCall.GetShader)
      ∧ ((gl.ok = true ∧ r = 1 ∧ c1.heap = c.heap.set s { sps with Compiled := true })
        ∨ (gl.ok = false ∧ r = 0 ∧ c1.heap = c.heap)) := by
  rcases gl with ⟨_ | _, _ | _, _ | _, _ | _, _ | _⟩ <;>
    simp [CompileShader, h, ShaderCache.call, CompileOutcome.ok] <;>
    exact ⟨_, _, ⟨rfl, rfl⟩, rfl, rfl, _, rfl, by simp [CacheCall.isBindOrRelease], rfl, rfl⟩

theorem BindShader_spec (c : ShaderCache) (s : Nat) :
    ∃ t, BindShader c s
        = (⟨c.heap, c.ShaderPrograms, some s, c.calls ++ t⟩, 1)
      ∧ CacheCall.BindShader s ∈ t
      ∧ (∀ e ∈ t, e.isCompile = false)
      ∧ (∀ e ∈ t, e ≠ CacheCall.GetShader) := by
  unfold BindShader
  simp only [ShaderCache.call]
  split
  · rename_i heq
    refine ⟨[.BindShader s], ?_, by simp, by simp [CacheCall.isCompile], by simp⟩
    simp [heq]
  · cases hl : c.LastShaderBound with
    | none =>
      exact ⟨[.BindShader s, .Bind s], by simp, by simp, by simp [CacheCall.isCompile],
        by simp⟩
    | some last =>
      exact ⟨[.BindShader s, .Release last, .Bind s], by simp, by simp,
        by simp [CacheCall.isCompile], by simp⟩

/-- What the pointer overload of `ReadyShader` does on an entry: a compiled entry
is bound and returned without a compile step; an uncompiled entry whose steps all
succeed is marked compiled, bound and returned; an uncompiled entry with a failing
step gives `NULL` with heap and last-bound pointer as before and no release or
bind. -/
theorem ReadyShaderCached_spec (gl : CompileOutcome) (c : ShaderCache) (s : Nat)
    (sps : CachedShaderProgram) (h : c.heap[s]? = some sps) :
    ∃ c1 r t, ReadyShaderCached gl c s = some (c1, r)
      ∧ c1.ShaderPrograms = c.ShaderPrograms
      ∧ c1.calls = c.calls ++ t
      ∧ (∀ e ∈ t, e ≠ CacheCall.GetShader)
      ∧ ((sps.Compiled = true ∧ r = some s ∧ c1.heap = c.heap
            ∧ c1.LastShaderBound = some s ∧ CacheCall.BindShader s ∈ t
            ∧ (∀ e ∈ t, e.isCompile = false))
        ∨ (sps.Compiled = false ∧ gl.ok = true ∧ r = some s
            ∧ c1.heap = c.heap.set s { sps with Compiled := true }
            ∧ c1.LastShaderBound = some s)
        ∨ (sps.Compiled = false ∧ gl.ok = false ∧ r = none ∧ c1.heap = c.heap
            ∧ c1.LastShaderBound = c.LastShaderBound
            ∧ (∀ e ∈ t, e.isBindOrRelease = false))) := by
  unfold ReadyShaderCached
  rw [h]
  cases hc : sps.Compiled with
  | true =>
    obtain ⟨t, hb, hmem, hnc, hng⟩ := BindShader_spec c s
    simp only [hc, if_true, hb]
    exact ⟨_, _, t, rfl, rfl, rfl, hng, Or.inl ⟨trivial, rfl, rfl, rfl, hmem, hnc⟩⟩
  | false =>
    obtain ⟨c1, r, t, hcs, hsp, hlb, hcalls, hnb, hok | hfail⟩ :=
      CompileShader_spec gl c s sps h
    · obtain ⟨hok, hr, hheap⟩ := hok
      obtain ⟨t2, hb, -, -, hng⟩ := BindShader_spec c1 s
      subst hr
      simp only [hc, Bool.false_eq_true, if_false, hcs, hb]
      refine ⟨_, _, t ++ t2, rfl, hsp, by simp [hcalls], ?_, Or.inr (Or.inl
        ⟨trivial, hok, rfl, hheap, rfl⟩)⟩
      intro e he
      rcases List.mem_append.mp he with he | he
      · exact (hnb e he).2
      · exact hng e he
    · obtain ⟨hok, hr, hheap⟩ := hfail
      subst hr
      simp only [hc, Bool.false_eq_true, if_false, hcs]
      exact ⟨_, _, t, rfl, hsp, hcalls, fun e he => (hnb e he).2, Or.inr (Or.inr
        ⟨trivial, hok, rfl, hheap, hlb, fun e he => (hnb e he).1⟩)⟩

theorem ReadyShader_eq (md5 : List Char → List Char) (gl : CompileOutcome)
    (c : ShaderCache) (vs fs gs : List Char) :
    ReadyShader md5 gl c vs fs gs
      = ReadyShaderCached gl (GetShader md5 c vs fs gs).1 (GetShader md5 c vs fs gs).2 :=
  rfl

theorem lookup_mem (l : List (List Char × Nat)) (k : List Char) (p : Nat)
    (h : l.lookup k = some p) : (k, p) ∈ l := by
  induction l with
  | nil => simp at h
  | cons a l ih =>
    obtain ⟨k2, p2⟩ := a
    by_cases hk : k = k2
    · subst hk
      simp [List.lookup] at h
      simp [h]
    · have hb : (k == k2) = false := by simpa using hk
      simp only [List.lookup, hb] at h
      exact List.mem_cons_of_mem _ (ih h)

theorem validPointers_iff (c : ShaderCache) :
    c.validPointers = true ↔ ∀ e ∈ c.ShaderPrograms, e.2 < c.heap.length := by
  simp [ShaderCache.validPointers, List.all_eq_true]

theorem GetShader_absent (md5 : List Char → List Char) (c : ShaderCache)
    (vs fs gs : List Char)
    (h : c.ShaderPrograms.lookup (ComputeMD5 md5 vs fs gs) = none) :
    GetShader md5 c vs fs gs
      = (⟨c.heap ++ [⟨vs, fs, gs, false, ComputeMD5 md5 vs fs gs⟩],
          (ComputeMD5 md5 vs fs gs, c.heap.length) :: c.ShaderPrograms,
          c.LastShaderBound, c.calls ++ [.GetShader]⟩, c.heap.length) := by
  simp [GetShader, ShaderCache.call, h]

theorem GetShader_present (md5 : List Char → List Char) (c : ShaderCache)
    (vs fs gs : List Char) (p : Nat)
    (h : c.ShaderPrograms.lookup (ComputeMD5 md5 vs fs gs) = some p) :
    GetShader md5 c vs fs gs
      = (⟨c.heap, c.ShaderPrograms, c.LastShaderBound, c.calls ++ [.GetShader]⟩, p) := by
  simp [GetShader, ShaderCache.call, h]

/-- What `GetShader` returns on a cache with valid pointers: a pointer to an entry,
which the map holds under the hash of the sources. -/
theorem GetShader_spec (md5 : List Char → List Char) (c : ShaderCache)
    (vs fs gs : List Char) (hv : c.validPointers = true) :
    ∃ sps, (GetShader md5 c vs fs gs).1.heap[(GetShader md5 c vs fs gs).2]? = some sps
      ∧ (GetShader md5 c vs fs gs).1.ShaderPrograms.lookup (ComputeMD5 md5 vs fs gs)
          = some (GetShader md5 c vs fs gs).2
      ∧ (GetShader md5 c vs fs gs).1.LastShaderBound = c.LastShaderBound
      ∧ (GetShader md5 c vs fs gs).1.calls = c.calls ++ [.GetShader]
      ∧ (GetShader md5 c vs fs gs).1.validPointers = true
      ∧ (c.ShaderPrograms.lookup (ComputeMD5 md5 vs fs gs) = none →
          sps = ⟨vs, fs, gs, false, ComputeMD5 md5 vs fs gs⟩)
      ∧ (∀ p, c.ShaderPrograms.lookup (ComputeMD5 md5 vs fs gs) = some p →
          c.heap[p]? = some sps) := by
  cases h : c.ShaderPrograms.lookup (ComputeMD5 md5 vs fs gs) with
  | none =>
    rw [GetShader_absent md5 c vs fs gs h]
    refine ⟨⟨vs, fs, gs, false, ComputeMD5 md5 vs fs gs⟩, by simp, by simp [List.lookup],
      rfl, rfl, ?_, fun _ => rfl, fun p hp => by cases hp⟩
    rw [validPointers_iff] at hv ⊢
    intro e he
    simp only [List.mem_cons] at he
    rcases he with he | he
    · subst he; simp
    · have := hv e he
      simp only [List.length_append, List.length_singleton]
      omega
  | some p =>
    rw [GetShader_present md5 c vs fs gs p h]
    have hlt : p < c.heap.length :=
      (validPointers_iff c).mp hv _ (lookup_mem _ _ _ h)
    refine ⟨c.heap[p], by simp [hlt], h, rfl, rfl, ?_, fun hn => (by cases hn), ?_⟩
    · rw [validPointers_iff] at hv ⊢
      exact hv
    · intro q hq
      cases hq
      simp [hlt]

theorem GetShader_keeps (md5 : List Char → List Char) (c : ShaderCache)
    (vs fs gs : List Char) : ShaderCache.Keeps c (GetShader md5 c vs fs gs).1 := by
  cases h : c.ShaderPrograms.lookup (ComputeMD5 md5 vs fs gs) with
  | none =>
    rw [GetShader_absent md5 c vs fs gs h]
    refine ⟨fun key p hk => ?_, fun p e hp => ⟨e, ?_, rfl, rfl, rfl, rfl, fun h => h⟩⟩
    · have hne : key ≠ ComputeMD5 md5 vs fs gs := by
        intro heq
        rw [heq, h] at hk
        cases hk
      have hb : (key == ComputeMD5 md5 vs fs gs) = false := by simpa using hne
      simp only [List.lookup, hb]
      exact hk
    · have hlt : p < c.heap.length := by
        by_contra hn
        rw [List.getElem?_eq_none (Nat.le_of_not_lt hn)] at hp
        cases hp
      simp only
      rw [List.getElem?_append_left hlt]
      exact hp
  | some p =>
    rw [GetShader_present md5 c vs fs gs p h]
    exact keeps_of_eq rfl rfl

theorem ReadyShaderCached_keeps (gl : CompileOutcome) (c : ShaderCache) (s : Nat)
    (r : ShaderCache × Option Nat) (h : ReadyShaderCached gl c s = some r) :
    ShaderCache.Keeps c r.1 := by
  cases hs : c.heap[s]? with
  | none => simp [ReadyShaderCached, hs] at h
  | some sps =>
    obtain ⟨c1, r1, t, heq, hsp, -, -, hcase⟩ := ReadyShaderCached_spec gl c s sps hs
    rw [heq] at h
    cases h
    rcases hcase with ⟨-, -, hh, -⟩ | ⟨-, -, -, hh, -⟩ | ⟨-, -, -, hh, -⟩
    · exact keeps_of_eq hh hsp
    · exact keeps_set_compiled hs hh hsp
    · exact keeps_of_eq hh hsp

/-- C13: `GetShader` on sources whose hash is not a key of the map adds one entry
at the end of the heap (the given sources, `Compiled = false`, `md5Hash` the hash)
and one pair (hash, pointer to that entry) to the map, nothing else of heap, map
and last-bound pointer changing; on a hash that is a key it returns the stored
pointer with heap, map and last-bound pointer unchanged; and each of `GetShader`,
both overloads of `ReadyShader`, `CompileShader` and `BindShader` keeps every key
with its pointer and every entry with its sources and hash. -/
theorem C13_cache_grows (md5 : List Char → List Char) (gl : CompileOutcome)
    (c : ShaderCache) (vs fs gs : List Char) (s : Nat) :
    (c.ShaderPrograms.lookup (ComputeMD5 md5 vs fs gs) = none →
      GetShader md5 c vs fs gs
        = (⟨c.heap ++ [⟨vs, fs, gs, false, ComputeMD5 md5 vs fs gs⟩],
            (ComputeMD5 md5 vs fs gs, c.heap.length) :: c.ShaderPrograms,
            c.LastShaderBound, c.calls ++ [.GetShader]⟩, c.heap.length))
    ∧ (∀ p, c.ShaderPrograms.lookup (ComputeMD5 md5 vs fs gs) = some p →
        GetShader md5 c vs fs gs
          = (⟨c.heap, c.ShaderPrograms, c.LastShaderBound, c.calls ++ [.GetShader]⟩, p))
    ∧ ShaderCache.Keeps c (GetShader md5 c vs fs gs).1
    ∧ (∀ r, ReadyShader md5 gl c vs fs gs = some r → ShaderCache.Keeps c r.1)
    ∧ (∀ r, ReadyShaderCached gl c s = some r → ShaderCache.Keeps c r.1)
    ∧ (∀ r, CompileShader gl c s = some r → ShaderCache.Keeps c r.1)
    ∧ ShaderCache.Keeps c (BindShader c s).1 := by
  refine ⟨GetShader_absent md5 c vs fs gs, GetShader_present md5 c vs fs gs,
    GetShader_keeps md5 c vs fs gs, ?_, ReadyShaderCached_keeps gl c s, ?_, ?_⟩
  · intro r hr
    rw [ReadyShader_eq] at hr
    exact keeps_trans (GetShader_keeps md5 c vs fs gs) (ReadyShaderCached_keeps _ _ _ r hr)
  · intro r hr
    cases hs : c.heap[s]? with
    | none => simp [CompileShader, hs] at hr
    | some sps =>
      obtain ⟨c1, r1, t, heq, hsp, -, -, -, hcase⟩ := CompileShader_spec gl c s sps hs
      rw [heq] at hr
      cases hr
      rcases hcase with ⟨-, -, hh⟩ | ⟨-, -, hh⟩
      · exact keeps_set_compiled hs hh hsp
      · exact keeps_of_eq hh hsp
  · obtain ⟨t, hb, -⟩ := BindShader_spec c s
    rw [hb]
    exact keeps_of_eq rfl rfl

theorem ok_false_of_step (gl : CompileOutcome)
    (hfail : gl.vsCompile = false ∨ gl.fsCompile = false ∨ gl.attachVS = false
      ∨ gl.attachFS = false ∨ gl.link = false) : gl.ok = false := by
  rcases gl with ⟨_ | _, _ | _, _ | _, _ | _, _ | _⟩ <;> simp [CompileOutcome.ok] at *

/-- C14: when one of the five steps of `CompileShader` fails (compile of the
vertex stage, compile of the fragment stage, attaching either, link), `ReadyShader`
on sources whose entry is new or uncompiled returns `NULL`; the entry is in the
map and the heap with `Compiled = false`, the last-bound pointer is as before and
the calls made contain no release and no bind.  The same holds for the pointer
overload on an uncompiled entry.  The pointers of the map point to entries. -/
theorem C14_compile_failure (md5 : List Char → List Char) (gl : CompileOutcome)
    (c : ShaderCache) (vs fs gs : List Char) (hv : c.validPointers = true)
    (hfail : gl.vsCompile = false ∨ gl.fsCompile = false ∨ gl.attachVS = false
      ∨ gl.attachFS = false ∨ gl.link = false)
    (hunc : ∀ p sps, c.ShaderPrograms.lookup (ComputeMD5 md5 vs fs gs) = some p →
      c.heap[p]? = some sps → sps.Compiled = false) :
    (∃ c1 t sps, ReadyShader md5 gl c vs fs gs = some (c1, none)
      ∧ c1.ShaderPrograms.lookup (ComputeMD5 md5 vs fs gs)
          = some (GetShader md5 c vs fs gs).2
      ∧ c1.heap[(GetShader md5 c vs fs gs).2]? = some sps ∧ sps.Compiled = false
      ∧ c1.LastShaderBound = c.LastShaderBound
      ∧ c1.calls = c.calls ++ t ∧ (∀ e ∈ t, e.isBindOrRelease = false))
    ∧ (∀ s sps, c.heap[s]? = some sps → sps.Compiled = false →
        ∃ c1 t, ReadyShaderCached gl c s = some (c1, none)
          ∧ c1.heap = c.heap ∧ c1.ShaderPrograms = c.ShaderPrograms
          ∧ c1.LastShaderBound = c.LastShaderBound
          ∧ c1.calls = c.calls ++ t ∧ (∀ e ∈ t, e.isBindOrRelease = false)) := by
  have hok := ok_false_of_step gl hfail
  constructor
  · obtain ⟨sps, hget, hlook, hlsb, hcalls, -, habs, hpres⟩ :=
      GetShader_spec md5 c vs fs gs hv
    have hcomp : sps.Compiled = false := by
      cases hl : c.ShaderPrograms.lookup (ComputeMD5 md5 vs fs gs) with
      | none => rw [habs hl]
      | some p => exact hunc p sps hl (hpres p hl)
    obtain ⟨c1, r, t, heq, hsp, hc1, -, hcase⟩ :=
      ReadyShaderCached_spec gl _ _ sps hget
    rcases hcase with ⟨h1, -⟩ | ⟨-, h1, -⟩ | ⟨-, -, hr, hh, hl, hnb⟩
    · rw [hcomp] at h1; cases h1
    · rw [hok] at h1; cases h1
    · subst hr
      refine ⟨c1, CacheCall.GetShader :: t, sps, by rw [ReadyShader_eq]; exact heq, ?_, ?_,
        hcomp, by rw [hl, hlsb], by rw [hc1, hcalls]; simp, ?_⟩
      · rw [hsp]; exact hlook
      · rw [hh]; exact hget
      · intro e he
        rcases List.mem_cons.mp he with he | he
        · subst he; rfl
        · exact hnb e he
  · intro s sps hs hcomp
    obtain ⟨c1, r, t, heq, hsp, hc1, -, hcase⟩ := ReadyShaderCached_spec gl c s sps hs
    rcases hcase with ⟨h1, -⟩ | ⟨-, h1, -⟩ | ⟨-, -, hr, hh, hl, hnb⟩
    · rw [hcomp] at h1; cases h1
    · rw [hok] at h1; cases h1
    · subst hr
      exact ⟨c1, t, heq, hh, hsp, hl, hc1, hnb⟩

theorem C14_compile_failure_witness :
    (∃ c1 t sps, ReadyShader id ⟨true, true, true, true, false⟩ sampleCache
          ['v'] ['f'] [] = some (c1, none)
      ∧ c1.ShaderPrograms.lookup (ComputeMD5 id ['v'] ['f'] [])
          = some (GetShader id sampleCache ['v'] ['f'] []).2
      ∧ c1.heap[(GetShader id sampleCache ['v'] ['f'] []).2]? = some sps
      ∧ sps.Compiled = false
      ∧ c1.LastShaderBound = sampleCache.LastShaderBound
      ∧ c1.calls = sampleCache.calls ++ t ∧ (∀ e ∈ t, e.isBindOrRelease = false))
    ∧ (∀ s sps, sampleCache.heap[s]? = some sps → sps.Compiled = false →
        ∃ c1 t, ReadyShaderCached ⟨true, true, true, true, false⟩ sampleCache s
            = some (c1, none)
          ∧ c1.heap = sampleCache.heap
          ∧ c1.ShaderPrograms = sampleCache.ShaderPrograms
          ∧ c1.LastShaderBound = sampleCache.LastShaderBound
          ∧ c1.calls = sampleCache.calls ++ t
          ∧ (∀ e ∈ t, e.isBindOrRelease = false)) :=
  C14_compile_failure id ⟨true, true, true, true, false⟩ sampleCache ['v'] ['f'] []
    rfl (Or.inr (Or.inr (Or.inr (Or.inr rfl))))
    (by
      intro p sps h1 h2
      have hp : p = 0 := by
        simpa [sampleCache, ComputeMD5, List.lookup] using h1.symm
      subst hp
      have hs : sps = ⟨['v'], ['f'], [], false, ['v', 'f']⟩ := by
        simpa [sampleCache] using h2.symm
      rw [hs])

/-- C12: on a cache whose map pointers point to entries, a second `GetShader`
with the same three sources returns the pointer of the first and leaves heap and
map as the first left them; and of two consecutive `ReadyShader` calls with the
same sources (whatever the back end answers), both return, the second finds the
entry of the first, leaves the map and the number of entries unchanged, returns the
program that the first returned, returns no other program than that entry, and
when the entry is compiled after the first call it makes no `CompileShader` call
and no compile, attach or link step and leaves the heap unchanged. -/
theorem C12_ready_twice (md5 : List Char → List Char) (gl1 gl2 : CompileOutcome)
    (c : ShaderCache) (vs fs gs : List Char) (hv : c.validPointers = true) :
    (GetShader md5 (GetShader md5 c vs fs gs).1 vs fs gs).2 = (GetShader md5 c vs fs gs).2
    ∧ (GetShader md5 (GetShader md5 c vs fs gs).1 vs fs gs).1.heap
        = (GetShader md5 c vs fs gs).1.heap
    ∧ (GetShader md5 (GetShader md5 c vs fs gs).1 vs fs gs).1.ShaderPrograms
        = (GetShader md5 c vs fs gs).1.ShaderPrograms
    ∧ ∃ c1 r1 c2 r2 t,
        ReadyShader md5 gl1 c vs fs gs = some (c1, r1)
        ∧ ReadyShader md5 gl2 c1 vs fs gs = some (c2, r2)
        ∧ (GetShader md5 c1 vs fs gs).2 = (GetShader md5 c vs fs gs).2
        ∧ c2.ShaderPrograms = c1.ShaderPrograms
        ∧ c2.heap.length = c1.heap.length
        ∧ c2.calls = c1.calls ++ t
        ∧ (∀ p, r1 = some p → r2 = some p)
        ∧ (∀ p, r2 = some p → p = (GetShader md5 c vs fs gs).2)
        ∧ (∀ sps, c1.heap[(GetShader md5 c vs fs gs).2]? = some sps →
            sps.Compiled = true →
            r2 = some (GetShader md5 c vs fs gs).2 ∧ c2.heap = c1.heap
            ∧ (∀ e ∈ t, e.isCompile = false)) := by
  obtain ⟨sps, hget, hlook, hlsb, hcalls, hv1, -, -⟩ := GetShader_spec md5 c vs fs gs hv
  have hg2 := GetShader_present md5 _ vs fs gs _ hlook
  refine ⟨by rw [hg2], by rw [hg2], by rw [hg2], ?_⟩
  obtain ⟨c1, r1, t1, heq1, hsp1, hc1, -, hcase1⟩ := ReadyShaderCached_spec gl1 _ _ sps hget
  have hlook1 : c1.ShaderPrograms.lookup (ComputeMD5 md5 vs fs gs)
      = some (GetShader md5 c vs fs gs).2 := by rw [hsp1]; exact hlook
  have hg3 := GetShader_present md5 c1 vs fs gs _ hlook1
  -- the entry after the first call
  have hent : ∃ sps1, c1.heap[(GetShader md5 c vs fs gs).2]? = some sps1
      ∧ c1.heap.length = (GetShader md5 c vs fs gs).1.heap.length
      ∧ (∀ p, r1 = some p → sps1.Compiled = true) := by
    have hlt : (GetShader md5 c vs fs gs).2 < (GetShader md5 c vs fs gs).1.heap.length := by
      by_contra hn
      rw [List.getElem?_eq_none (Nat.le_of_not_lt hn)] at hget
      cases hget
    rcases hcase1 with ⟨hcomp, -, hh, -⟩ | ⟨-, -, -, hh, -⟩ | ⟨-, -, hr, hh, -⟩
    · exact ⟨sps, by rw [hh]; exact hget, by rw [hh], fun _ _ => hcomp⟩
    · refine ⟨{ sps with Compiled := true }, ?_, by rw [hh]; simp, fun _ _ => rfl⟩
      rw [hh, List.getElem?_set]
      simp [hlt]
    · exact ⟨sps, by rw [hh]; exact hget, by rw [hh], fun p hp => by
        rw [hr] at hp; cases hp⟩
  obtain ⟨sps1, hget1, hlen1, hcomp1⟩ := hent
  obtain ⟨c2, r2, t2, heq2, hsp2, hc2, -, hcase2⟩ :=
    ReadyShaderCached_spec gl2 (GetShader md5 c1 vs fs gs).1
      (GetShader md5 c1 vs fs gs).2 sps1 (by rw [hg3]; exact hget1)
  rw [hg3] at heq2 hsp2 hc2 hcase2
  simp only at heq2 hsp2 hc2 hcase2
  have hr1 : r1 = none ∨ r1 = some (GetShader md5 c vs fs gs).2 := by
    rcases hcase1 with ⟨-, hr, -⟩ | ⟨-, -, hr, -⟩ | ⟨-, -, hr, -⟩
    · exact Or.inr hr
    · exact Or.inr hr
    · exact Or.inl hr
  refine ⟨c1, r1, c2, r2, CacheCall.GetShader :: t2, by rw [ReadyShader_eq]; exact heq1,
    by rw [ReadyShader_eq, hg3]; exact heq2, by rw [hg3], hsp2, ?_,
    by rw [hc2]; simp, ?_, ?_, ?_⟩
  · rcases hcase2 with ⟨-, -, hh, -⟩ | ⟨-, -, -, hh, -⟩ | ⟨-, -, -, hh, -⟩
    · rw [hh]
    · rw [hh]; simp
    · rw [hh]
  · intro p hp
    have hcomp := hcomp1 p hp
    rcases hr1 with hr | hr
    · rw [hr] at hp; cases hp
    · rw [hr] at hp
      cases hp
      rcases hcase2 with ⟨-, hr2, -⟩ | ⟨h1, -⟩ | ⟨h1, -⟩
      · exact hr2
      · rw [hcomp] at h1; cases h1
      · rw [hcomp] at h1; cases h1
  · intro p hp
    rcases hcase2 with ⟨-, hr2, -⟩ | ⟨-, -, hr2, -⟩ | ⟨-, -, hr2, -⟩
    · rw [hr2] at hp; cases hp; rfl
    · rw [hr2] at hp; cases hp; rfl
    · rw [hr2] at hp; cases hp
  · intro sps2 hs2 hcomp
    rw [hget1] at hs2
    cases hs2
    rcases hcase2 with ⟨-, hr2, hh, -, -, hnc⟩ | ⟨h1, -⟩ | ⟨h1, -⟩
    · refine ⟨hr2, hh, ?_⟩
      intro e he
      rcases List.mem_cons.mp he with he | he
      · subst he; rfl
      · exact hnc e he
    · rw [hcomp] at h1; cases h1
    · rw [hcomp] at h1; cases h1

theorem C12_ready_twice_witness :
    (GetShader id (GetShader id sampleCache ['v'] ['f'] []).1 ['v'] ['f'] []).2
      = (GetShader id sampleCache ['v'] ['f'] []).2
    ∧ (GetShader id (GetShader id sampleCache ['v'] ['f'] []).1 ['v'] ['f'] []).1.heap
        = (GetShader id sampleCache ['v'] ['f'] []).1.heap
    ∧ (GetShader id (GetShader id sampleCache ['v'] ['f'] []).1 ['v'] ['f'] []
        ).1.ShaderPrograms
        = (GetShader id sampleCache ['v'] ['f'] []).1.ShaderPrograms
    ∧ ∃ c1 r1 c2 r2 t,
        ReadyShader id ⟨true, true, true, true, true⟩ sampleCache ['v'] ['f'] []
          = some (c1, r1)
        ∧ ReadyShader id ⟨false, false, false, false, false⟩ c1 ['v'] ['f'] []
          = some (c2, r2)
        ∧ (GetShader id c1 ['v'] ['f'] []).2 = (GetShader id sampleCache ['v'] ['f'] []).2
        ∧ c2.ShaderPrograms = c1.ShaderPrograms
        ∧ c2.heap.length = c1.heap.length
        ∧ c2.calls = c1.calls ++ t
        ∧ (∀ p, r1 = some p → r2 = some p)
        ∧ (∀ p, r2 = some p → p = (GetShader id sampleCache ['v'] ['f'] []).2)
        ∧ (∀ sps, c1.heap[(GetShader id sampleCache ['v'] ['f'] []).2]? = some sps →
            sps.Compiled = true →
            r2 = some (GetShader id sampleCache ['v'] ['f'] []).2 ∧ c2.heap = c1.heap
            ∧ (∀ e ∈ t, e.isCompile = false)) :=
  C12_ready_twice id ⟨true, true, true, true, true⟩ ⟨false, false, false, false, false⟩
    sampleCache ['v'] ['f'] [] rfl

/-! ### Shader source -/

theorem startsWith_eq (search : List Char) :
    ∀ s : List Char, startsWith s search = true → s = search ++ s.drop search.length := by
  induction search with
  | nil => intro s _; simp
  | cons d t ih =>
    intro s h
    cases s with
    | nil => simp [startsWith] at h
    | cons c s =>
      simp only [startsWith, Bool.and_eq_true, decide_eq_true_eq] at h
      obtain ⟨hc, hs⟩ := h
      subst hc
      have := ih s hs
      simp only [List.length_cons, List.drop_succ_cons, List.cons_append]
      rw [← this]

theorem find_eq (search : List Char) :
    ∀ (s : List Char) (pos : Nat), find search s = some pos →
      s = s.take pos ++ search ++ s.drop (pos + search.length) := by
  intro s
  induction s with
  | nil =>
    intro pos h
    by_cases hs : search = []
    · subst hs; simp
    · simp [find, hs] at h
  | cons c s ih =>
    intro pos h
    simp only [find] at h
    by_cases hp : startsWith (c :: s) search = true
    · simp only [hp, if_true, Option.some.injEq] at h
      subst h
      simpa using startsWith_eq search (c :: s) hp
    · simp only [hp, if_false, Bool.false_eq_true, Option.map_eq_some'] at h
      obtain ⟨q, hq, rfl⟩ := h
      have := ih q hq
      have e : q + 1 + search.length = (q + search.length) + 1 := by omega
      rw [e]
      simp only [List.take_succ_cons, List.drop_succ_cons, List.cons_append]
      rw [← this]

theorem dslash_append (a b : List Char) :
    dslash (a ++ b) = dslash a + dslash b
      + (if a.getLast? = some '/' ∧ b.head? = some '/' then 1 else 0) := by
  induction a with
  | nil => simp [dslash]
  | cons c a ih =>
    cases a with
    | nil =>
      simp only [List.cons_append, List.nil_append, dslash, List.head?_nil,
        List.getLast?_singleton, Option.some.injEq]
      simp
      omega
    | cons d a =>
      simp only [List.cons_append, List.getLast?_cons_cons] at ih ⊢
      rw [dslash, ih]
      simp only [List.head?_cons]
      rw [dslash.eq_2 c (d :: a)]
      simp only [List.head?_cons]
      omega

theorem dslash_replace_lt (pre post search r : List Char)
    (hm : 1 ≤ dslash search) (hr : Tame r = true) :
    dslash (pre ++ r ++ post) < dslash (pre ++ search ++ post) := by
  simp only [Tame, decide_eq_true_eq] at hr
  obtain ⟨hne, hh, hl, hd⟩ := hr
  have hlast : (pre ++ r).getLast? = r.getLast? := by
    rw [List.getLast?_append]
    cases hr2 : r.getLast? with
    | none =>
      rw [List.getLast?_eq_none_iff] at hr2
      exact absurd hr2 hne
    | some x => simp
  rw [dslash_append (pre ++ r) post, dslash_append pre r, dslash_append (pre ++ search) post,
    dslash_append pre search, hlast, hd]
  simp only [hh, hl, false_and, and_false, if_false]
  omega

theorem replaceLoop_terminates (search r : List Char) (all : Bool)
    (hm : 1 ≤ dslash search) (hr : Tame r = true) :
    ∀ (fuel : Nat) (first : Bool) (s : List Char), dslash s < fuel →
      ∃ s2, replaceLoop search r all fuel first s = some s2 ∧ dslash s2 ≤ dslash s := by
  intro fuel
  induction fuel with
  | zero => intro _ s h; omega
  | succ fuel ih =>
    intro first s h
    simp only [replaceLoop]
    cases hf : find search s with
    | none => exact ⟨s, rfl, le_refl _⟩
    | some pos =>
      have hdec := find_eq search s pos hf
      have hlt : dslash (s.take pos ++ r ++ s.drop (pos + search.length)) < dslash s := by
        conv => rhs; rw [hdec]
        exact dslash_replace_lt _ _ _ _ hm hr
      simp only
      obtain ⟨s2, h2, hle⟩ := ih false
        (s.take pos ++ r ++ s.drop (pos + search.length)) (by omega)
      cases first <;> cases all
      · simp only [Bool.false_eq_true, if_false]
        exact ⟨s2, h2, by omega⟩
      · simp only [Bool.false_eq_true, if_false]
        exact ⟨s2, h2, by omega⟩
      · simp only [if_true, Bool.not_false]
        exact ⟨_, rfl, by omega⟩
      · simp only [if_true, Bool.not_true, Bool.false_eq_true, if_false]
        exact ⟨s2, h2, by omega⟩

theorem replace_terminates (search r : List Char) (all : Bool) (fuel : Nat)
    (s : List Char) (hm : 1 ≤ dslash search) (hr : Tame r = true)
    (hf : dslash s < fuel) :
    ∃ s2, replace fuel s search r all = some s2 ∧ dslash s2 ≤ dslash s :=
  replaceLoop_terminates search r all hm hr fuel true s hf

set_option maxRecDepth 100000 in
theorem colorStage_terminates {F D : Type} [LT D] [LE D]
    [DecidableRel (fun a b : D => a < b)] [DecidableRel (fun a b : D => a ≤ b)]
    (h : ShaderHeaders) (fuel : Nat) (m : Mapper F) (actor : Actor D)
    (VS FS : List Char) (hv : dslash VS < fuel) (hf : dslash FS < fuel) :
    ∃ r, colorStage h fuel m actor VS FS = some r
      ∧ dslash r.1 ≤ dslash VS ∧ dslash r.2 ≤ dslash FS := by
  unfold colorStage
  split
  · obtain ⟨v1, hv1, lv1⟩ := replace_terminates "//VTK::Color::Dec".toList
      "attribute vec4 scalarColor; varying vec4 vertexColor;".toList h.all fuel VS
      (by decide) (by decide) hv
    obtain ⟨v2, hv2, lv2⟩ := replace_terminates "//VTK::Color::Impl".toList
      "vertexColor =  scalarColor;".toList h.all fuel v1
      (by decide) (by decide) (by omega)
    obtain ⟨f1, hf1, lf1⟩ := replace_terminates "//VTK::Color::Dec".toList
      "varying vec4 vertexColor;".toList h.all fuel FS
      (by decide) (by decide) hf
    simp only [hv1, hv2, hf1, Option.bind_eq_bind, Option.some_bind]
    split
    · obtain ⟨f2, hf2, lf2⟩ := replace_terminates "//VTK::Color::Impl".toList
        "vec3 ambientColor = vertexColor.rgb; vec3 diffuseColor = diffuseColorUniform.rgb; float opacity = vertexColor.a;".toList
        h.all fuel f1 (by decide) (by decide) (by omega)
      simp only [hf2, Option.some_bind]
      exact ⟨_, rfl, by show dslash v2 ≤ _; omega, by show dslash f2 ≤ _; omega⟩
    · split
      · obtain ⟨f2, hf2, lf2⟩ := replace_terminates "//VTK::Color::Impl".toList
          "vec3 diffuseColor = vertexColor.rgb; vec3 ambientColor = ambientColorUniform; float opacity = vertexColor.a;".toList
          h.all fuel f1 (by decide) (by decide) (by omega)
        simp only [hf2, Option.some_bind]
        exact ⟨_, rfl, by show dslash v2 ≤ _; omega, by show dslash f2 ≤ _; omega⟩
      · obtain ⟨f2, hf2, lf2⟩ := replace_terminates "//VTK::Color::Impl".toList
          "vec3 diffuseColor = vertexColor.rgb; vec3 ambientColor = vertexColor.rgb; float opacity = vertexColor.a;".toList
          h.all fuel f1 (by decide) (by decide) (by omega)
        simp only [hf2, Option.some_bind]
        exact ⟨_, rfl, by show dslash v2 ≤ _; omega, by show dslash f2 ≤ _; omega⟩
  · obtain ⟨f2, hf2, lf2⟩ := replace_terminates "//VTK::Color::Impl".toList
      "vec3 ambientColor = ambientColorUniform; vec3 diffuseColor = diffuseColorUniform; float opacity = opacityUniform;".toList
      h.all fuel FS (by decide) (by decide) hf
    simp only [hf2, Option.bind_eq_bind, Option.some_bind]
    exact ⟨_, rfl, le_refl _, lf2⟩

set_option maxRecDepth 100000 in
theorem normalStage_terminates {F D : Type} (h : ShaderHeaders) (fuel : Nat)
    (m : Mapper F) (actor : Actor D) (VS FS : List Char)
    (hv : dslash VS < fuel) (hf : dslash FS < fuel) :
    ∃ r, normalStage h fuel m actor VS FS = some r
      ∧ dslash r.1 ≤ dslash VS ∧ dslash r.2 ≤ dslash FS := by
  unfold normalStage
  split
  · obtain ⟨v1, hv1, lv1⟩ := replace_terminates "//VTK::Normal::Dec".toList
      "attribute vec3 normalMC; varying vec3 normalVCVarying;".toList h.all fuel VS
      (by decide) (by decide) hv
    obtain ⟨v2, hv2, lv2⟩ := replace_terminates "//VTK::Normal::Impl".toList
      "normalVCVarying = normalMatrix * normalMC;".toList h.all fuel v1
      (by decide) (by decide) (by omega)
    obtain ⟨f1, hf1, lf1⟩ := replace_terminates "//VTK::Normal::Dec".toList
      "varying vec3 normalVCVarying;".toList h.all fuel FS
      (by decide) (by decide) hf
    obtain ⟨f2, hf2, lf2⟩ := replace_terminates "//VTK::Normal::Impl".toList
      "vec3 normalVC; if (!gl_FrontFacing) \x7b normalVC = -normalVCVarying; \x7d else \x7b normalVC = normalVCVarying; \x7d".toList
      h.all fuel f1 (by decide) (by decide) (by omega)
    simp only [hv1, hv2, hf1, hf2, Option.bind_eq_bind, Option.some_bind]
    exact ⟨_, rfl, by show dslash v2 ≤ _; omega, by show dslash f2 ≤ _; omega⟩
  · split
    · obtain ⟨f2, hf2, lf2⟩ := replace_terminates "//VTK::Normal::Impl".toList
        ("vec3 normalVC;\n"
          ++ "if (abs(dot(dFdx(vertexVC.xyz),vec3(1,1,1))) > abs(dot(dFdy(vertexVC.xyz),vec3(1,1,1))))\n"
          ++ " \x7b normalVC = normalize(cross(cross(dFdx(vertexVC.xyz), vec3(0,0,1)), dFdx(vertexVC.xyz))); \x7d\n"
          ++ "else \x7b normalVC = normalize(cross(cross(dFdy(vertexVC.xyz), vec3(0,0,1)), dFdy(vertexVC.xyz)));\x7d").toList
        h.all fuel FS (by decide) (by decide) hf
      simp only [hf2, Option.bind_eq_bind, Option.some_bind]
      exact ⟨_, rfl, le_refl _, lf2⟩
    · obtain ⟨f2, hf2, lf2⟩ := replace_terminates "//VTK::Normal::Impl".toList
        ("vec3 normalVC = normalize(cross(dFdx(vertexVC.xyz), dFdy(vertexVC.xyz)));\n"
          ++ "if (normalVC.z < 0) \x7b normalVC = -1.0*normalVC; \x7d").toList
        h.all fuel FS (by decide) (by decide) hf
      simp only [hf2, Option.bind_eq_bind, Option.some_bind]
      exact ⟨_, rfl, le_refl _, lf2⟩

set_option maxRecDepth 100000 in
theorem tcoordStage_terminates {F : Type} (h : ShaderHeaders) (fuel : Nat)
    (m : Mapper F) (VS FS : List Char)
    (hv : dslash VS < fuel) (hf : dslash FS < fuel) :
    ∃ r, tcoordStage h fuel m VS FS = some r
      ∧ dslash r.1 ≤ dslash VS ∧ dslash r.2 ≤ dslash FS := by
  unfold tcoordStage
  split
  · split
    · obtain ⟨v1, hv1, lv1⟩ := replace_terminates "//VTK::TCoord::Dec".toList
        "attribute float tcoordMC; varying float tcoordVC;".toList h.all fuel VS
        (by decide) (by decide) hv
      obtain ⟨v2, hv2, lv2⟩ := replace_terminates "//VTK::TCoord::Impl".toList
        "tcoordVC = tcoordMC;".toList h.all fuel v1
        (by decide) (by decide) (by omega)
      obtain ⟨f1, hf1, lf1⟩ := replace_terminates "//VTK::TCoord::Dec".toList
        "varying float tcoordVC; uniform sampler2D texture1;".toList h.all fuel FS
        (by decide) (by decide) hf
      obtain ⟨f2, hf2, lf2⟩ := replace_terminates "//VTK::TCoord::Impl".toList
        "gl_FragColor = gl_FragColor*texture2D(texture1, vec2(tcoordVC,0));".toList
        h.all fuel f1 (by decide) (by decide) (by omega)
      simp only [hv1, hv2, hf1, hf2, Option.bind_eq_bind, Option.some_bind]
      exact ⟨_, rfl, by show dslash v2 ≤ _; omega, by show dslash f2 ≤ _; omega⟩
    · obtain ⟨v1, hv1, lv1⟩ := replace_terminates "//VTK::TCoord::Dec".toList
        "attribute vec2 tcoordMC; varying vec2 tcoordVC;".toList h.all fuel VS
        (by decide) (by decide) hv
      obtain ⟨v2, hv2, lv2⟩ := replace_terminates "//VTK::TCoord::Impl".toList
        "tcoordVC = tcoordMC;".toList h.all fuel v1
        (by decide) (by decide) (by omega)
      obtain ⟨f1, hf1, lf1⟩ := replace_terminates "//VTK::TCoord::Dec".toList
        "varying vec2 tcoordVC; uniform sampler2D texture1;".toList h.all fuel FS
        (by decide) (by decide) hf
      obtain ⟨f2, hf2, lf2⟩ := replace_terminates "//VTK::TCoord::Impl".toList
        "gl_FragColor = gl_FragColor*texture2D(texture1, tcoordVC.st);".toList
        h.all fuel f1 (by decide) (by decide) (by omega)
      simp only [hv1, hv2, hf1, hf2, Option.bind_eq_bind, Option.some_bind]
      exact ⟨_, rfl, by show dslash v2 ≤ _; omega, by show dslash f2 ≤ _; omega⟩
  · exact ⟨_, rfl, le_refl _, le_refl _⟩

set_option maxRecDepth 100000 in
theorem pickingStage_terminates {D : Type} (h : ShaderHeaders) (fuel : Nat)
    (ren : Renderer D) (FS : List Char) (hf : dslash FS < fuel) :
    ∃ r, pickingStage h fuel ren FS = some r ∧ dslash r ≤ dslash FS := by
  unfold pickingStage
  simp only
  split
  · obtain ⟨f1, hf1, lf1⟩ := replace_terminates "//VTK::Picking::Dec".toList
      "uniform vec3 mapperIndex;".toList h.all fuel FS (by decide) (by decide) hf
    obtain ⟨f2, hf2, lf2⟩ := replace_terminates "//VTK::Picking::Impl".toList
      ("if (mapperIndex == vec3(0,0,0))  \x7b "
        ++ "  int idx = gl_PrimitiveID + 1;"
        ++ "  gl_FragColor = vec4((idx%256)/255.0, ((idx/256)%256)/255.0, (idx/65536)/255.0, 1.0);"
        ++ "  \x7d "
        ++ "else \x7b "
        ++ "  gl_FragColor = vec4(mapperIndex,1.0);"
        ++ "  \x7d").toList
      h.all fuel f1 (by decide) (by decide) (by omega)
    simp only [hf1, hf2, Option.bind_eq_bind, Option.some_bind]
    exact ⟨_, rfl, by show dslash f2 ≤ _; omega⟩
  · exact ⟨_, rfl, le_refl _⟩

set_option maxRecDepth 100000 in
theorem depthPeelingStage_terminates {D : Type} (h : ShaderHeaders) (fuel : Nat)
    (ren : Renderer D) (FS : List Char) (hf : dslash FS < fuel) :
    ∃ r, depthPeelingStage h fuel ren FS = some r ∧ dslash r ≤ dslash FS := by
  unfold depthPeelingStage
  split
  · obtain ⟨f1, hf1, lf1⟩ := replace_terminates "//VTK::DepthPeeling::Dec".toList
      ("uniform sampler2DRect opaqueZTexture;"
        ++ "uniform sampler2DRect translucentZTexture;").toList
      h.all fuel FS (by decide) (by decide) hf
    obtain ⟨f2, hf2, lf2⟩ := replace_terminates "//VTK::DepthPeeling::Impl".toList
      ("float odepth = texture2DRect(opaqueZTexture, gl_FragCoord.xy).r; "
        ++ "if (gl_FragCoord.z >= odepth) \x7b discard; \x7d "
        ++ "float tdepth = texture2DRect(translucentZTexture, gl_FragCoord.xy).r; "
        ++ "if (gl_FragCoord.z <= tdepth) \x7b discard; \x7d ").toList
      h.all fuel f1 (by decide) (by decide) (by omega)
    simp only [hf1, hf2, Option.bind_eq_bind, Option.some_bind]
    exact ⟨_, rfl, by show dslash f2 ≤ _; omega⟩
  · exact ⟨_, rfl, le_refl _⟩

/-- Termination of `BuildShader`: it returns whenever the fuel of each `replace`
exceeds the number of double slashes of the two base texts. -/
theorem BuildShader_terminates {F D : Type} [LT D] [LE D]
    [DecidableRel (fun a b : D => a < b)] [DecidableRel (fun a b : D => a ≤ b)]
    (h : ShaderHeaders) (fuel : Nat) (m : Mapper F) (VS FS : List Char) (lc : Int)
    (ren : Renderer D) (actor : Actor D)
    (hv : dslash (baseSources h VS FS lc).1 < fuel)
    (hf : dslash (baseSources h VS FS lc).2 < fuel) :
    ∃ r, BuildShader h fuel m VS FS lc ren actor = some r := by
  obtain ⟨r1, h1, a1, b1⟩ := colorStage_terminates h fuel m actor _ _ hv hf
  obtain ⟨r2, h2, a2, b2⟩ := normalStage_terminates h fuel m actor r1.1 r1.2
    (by omega) (by omega)
  obtain ⟨r3, h3, a3, b3⟩ := tcoordStage_terminates h fuel m r2.1 r2.2
    (by omega) (by omega)
  obtain ⟨r4, h4, b4⟩ := pickingStage_terminates h fuel ren r3.2 (by omega)
  obtain ⟨r5, h5, b5⟩ := depthPeelingStage_terminates h fuel ren r4 (by omega)
  refine ⟨(r3.1, r5, []), ?_⟩
  simp only [BuildShader, h1, h2, h3, h4, h5, Option.bind_eq_bind, Option.some_bind]
  rfl

/-- C18: two invocations of `BuildShader` with the same templates and light
complexity that agree on whether the layout has colours, on the material mode
and the outcome of both comparisons of the ambient with the diffuse intensity, on
whether the layout has normals, on whether the representation is wireframe, on
the number of texture-coordinate components, on the picking flag and on the
depth-peeling flag return, and return the same vertex, fragment and geometry
text, whatever else differs in mapper, renderer and actor.  The light complexity
is one of the four cases 0..3 of the `switch` (or the texts on entry agree), and
the fuel of each `replace` exceeds the number of double slashes of the base
texts. -/
theorem C18_build_shader_features {F D : Type} [LT D] [LE D]
    [DecidableRel (fun a b : D => a < b)] [DecidableRel (fun a b : D => a ≤ b)]
    (h : ShaderHeaders) (fuel : Nat) (m m2 : Mapper F) (VS FS VS2 FS2 : List Char)
    (lc : Int) (ren ren2 : Renderer D) (actor actor2 : Actor D)
    (hbase : (0 ≤ lc ∧ lc ≤ 3) ∨ (VS2 = VS ∧ FS2 = FS))
    (hcolors : m.layout.ColorComponents ≠ 0 ↔ m2.layout.ColorComponents ≠ 0)
    (hmode : m.ScalarMaterialMode = m2.ScalarMaterialMode)
    (hgt : actor.Property.Ambient > actor.Property.Diffuse
      ↔ actor2.Property.Ambient > actor2.Property.Diffuse)
    (hle : actor.Property.Ambient ≤ actor.Property.Diffuse
      ↔ actor2.Property.Ambient ≤ actor2.Property.Diffuse)
    (hnormals : m.layout.NormalOffset ≠ 0 ↔ m2.layout.NormalOffset ≠ 0)
    (hwire : actor.Property.Representation = .VTK_WIREFRAME
      ↔ actor2.Property.Representation = .VTK_WIREFRAME)
    (htc : m.layout.TCoordComponents = m2.layout.TCoordComponents)
    (hpick : (ren.RenderWindowIsPicking || ren.Selector)
      = (ren2.RenderWindowIsPicking || ren2.Selector))
    (hpeel : ren.LastRenderingUsedDepthPeeling ≠ 0
      ↔ ren2.LastRenderingUsedDepthPeeling ≠ 0)
    (hv : dslash (baseSources h VS FS lc).1 < fuel)
    (hf : dslash (baseSources h VS FS lc).2 < fuel) :
    ∃ r, BuildShader h fuel m VS FS lc ren actor = some r
      ∧ BuildShader h fuel m2 VS2 FS2 lc ren2 actor2 = some r := by
  obtain ⟨r, hr⟩ := BuildShader_terminates h fuel m VS FS lc ren actor hv hf
  refine ⟨r, hr, ?_⟩
  rw [← hr]
  have e0 : baseSources h VS2 FS2 lc = baseSources h VS FS lc := by
    rcases hbase with ⟨h0, h3⟩ | ⟨h1, h2⟩
    · have : lc = 0 ∨ lc = 1 ∨ lc = 2 ∨ lc = 3 := by omega
      rcases this with h | h | h | h <;> simp [baseSources, h]
    · rw [h1, h2]
  have e1 : ∀ a b, colorStage h fuel m2 actor2 a b = colorStage h fuel m actor a b := by
    intro a b
    unfold colorStage
    simp only [hmode, hgt, hle, hcolors]
  have e2 : ∀ a b, normalStage h fuel m2 actor2 a b = normalStage h fuel m actor a b := by
    intro a b
    unfold normalStage
    simp only [hnormals, hwire]
  have e3 : ∀ a b, tcoordStage h fuel m2 a b = tcoordStage h fuel m a b := by
    intro a b
    unfold tcoordStage
    simp only [htc]
  have e4 : ∀ a, pickingStage h fuel ren2 a = pickingStage h fuel ren a := by
    intro a
    unfold pickingStage
    simp only [hpick]
  have e5 : ∀ a, depthPeelingStage h fuel ren2 a = depthPeelingStage h fuel ren a := by
    intro a
    unfold depthPeelingStage
    simp only [hpeel]
  simp only [BuildShader, e0, e1, e2, e3, e4, e5]

theorem C18_build_shader_features_witness :
    ∃ r, BuildShader sampleHeaders 8 sampleCellDataMapper [] [] 0 sampleRenderer
          sampleActor = some r
      ∧ BuildShader sampleHeaders 8
          { sampleCellDataMapper with ScalarVisibility := false, MTime := 7 }
          ['x'] ['y'] 0 ⟨[], true, false, false, 0⟩
          ⟨⟨.VTK_SURFACE, .VTK_FLAT, false, 2, 5, 3⟩, true, 9⟩ = some r :=
  C18_build_shader_features sampleHeaders 8 sampleCellDataMapper
    { sampleCellDataMapper with ScalarVisibility := false, MTime := 7 }
    [] [] ['x'] ['y'] 0 sampleRenderer ⟨[], true, false, false, 0⟩ sampleActor
    ⟨⟨.VTK_SURFACE, .VTK_FLAT, false, 2, 5, 3⟩, true, 9⟩
    (Or.inl ⟨by decide, by decide⟩) (by decide) rfl (by decide) (by decide) (by decide)
    (by decide) rfl rfl (by decide) (by decide) (by decide)

set_option maxRecDepth 100000 in
/-- C19: when the layout has colours, the colour stage of `BuildShader` puts one
of the three formulas `ambientColorImpl`, `diffuseColorImpl`, `bothColorImpl` in
the place of `//VTK::Color::Impl` in the fragment text (after the `Color::Dec`
substitution): the ambient formula exactly when the mode is AMBIENT, or DEFAULT
with ambient > diffuse; the diffuse formula exactly when the mode is DIFFUSE, or
DEFAULT with ambient <= diffuse; the formula for both for every other mode; when
the layout has no colours it puts `uniformColorImpl` there and leaves the vertex
text.  The two comparisons `>` and `<=` do not both hold, and the fuel of each
`replace` exceeds the number of double slashes of the texts. -/
theorem C19_color_formula {F D : Type} [LT D] [LE D]
    [DecidableRel (fun a b : D => a < b)] [DecidableRel (fun a b : D => a ≤ b)]
    (h : ShaderHeaders) (fuel : Nat) (m : Mapper F) (actor : Actor D)
    (VS FS : List Char)
    (hcmp : ¬ (actor.Property.Ambient > actor.Property.Diffuse
      ∧ actor.Property.Ambient ≤ actor.Property.Diffuse))
    (hv : dslash VS < fuel) (hf : dslash FS < fuel) :
    (m.layout.ColorComponents ≠ 0 →
      ∃ VS1 VS2 FS1 FS2 text,
        replace fuel VS "//VTK::Color::Dec".toList
          "attribute vec4 scalarColor; varying vec4 vertexColor;".toList h.all = some VS1
        ∧ replace fuel VS1 "//VTK::Color::Impl".toList
          "vertexColor =  scalarColor;".toList h.all = some VS2
        ∧ replace fuel FS "//VTK::Color::Dec".toList
          "varying vec4 vertexColor;".toList h.all = some FS1
        ∧ replace fuel FS1 "//VTK::Color::Impl".toList text h.all = some FS2
        ∧ colorStage h fuel m actor VS FS = some (VS2, FS2)
        ∧ (text = ambientColorImpl ∨ text = diffuseColorImpl ∨ text = bothColorImpl)
        ∧ (text = ambientColorImpl ↔
            m.ScalarMaterialMode = .VTK_MATERIALMODE_AMBIENT
            ∨ (m.ScalarMaterialMode = .VTK_MATERIALMODE_DEFAULT
              ∧ actor.Property.Ambient > actor.Property.Diffuse))
        ∧ (text = diffuseColorImpl ↔
            m.ScalarMaterialMode = .VTK_MATERIALMODE_DIFFUSE
            ∨ (m.ScalarMaterialMode = .VTK_MATERIALMODE_DEFAULT
              ∧ actor.Property.Ambient ≤ actor.Property.Diffuse))
        ∧ ((∃ code, m.ScalarMaterialMode = .VTK_MATERIALMODE_OTHER code) →
            text = bothColorImpl))
    ∧ (m.layout.ColorComponents = 0 →
      ∃ FS2, replace fuel FS "//VTK::Color::Impl".toList uniformColorImpl h.all = some FS2
        ∧ colorStage h fuel m actor VS FS = some (VS, FS2)) := by
  have dad : ambientColorImpl ≠ diffuseColorImpl := by decide
  have dab : ambientColorImpl ≠ bothColorImpl := by decide
  have ddb : diffuseColorImpl ≠ bothColorImpl := by decide
  constructor
  · intro hc
    obtain ⟨v1, hv1, lv1⟩ := replace_terminates "//VTK::Color::Dec".toList
      "attribute vec4 scalarColor; varying vec4 vertexColor;".toList h.all fuel VS
      (by decide) (by decide) hv
    obtain ⟨v2, hv2, lv2⟩ := replace_terminates "//VTK::Color::Impl".toList
      "vertexColor =  scalarColor;".toList h.all fuel v1
      (by decide) (by decide) (by omega)
    obtain ⟨f1, hf1, lf1⟩ := replace_terminates "//VTK::Color::Dec".toList
      "varying vec4 vertexColor;".toList h.all fuel FS
      (by decide) (by decide) hf
    by_cases c1 : m.ScalarMaterialMode = .VTK_MATERIALMODE_AMBIENT
        ∨ (m.ScalarMaterialMode = .VTK_MATERIALMODE_DEFAULT
          ∧ actor.Property.Ambient > actor.Property.Diffuse)
    · obtain ⟨f2, hf2, -⟩ := replace_terminates "//VTK::Color::Impl".toList
        ambientColorImpl h.all fuel f1 (by decide) (by decide) (by omega)
      refine ⟨v1, v2, f1, f2, ambientColorImpl, hv1, hv2, hf1, hf2, ?_, Or.inl rfl,
        ⟨fun _ => c1, fun _ => rfl⟩, ⟨fun e => absurd e dad, fun c2 => ?_⟩, ?_⟩
      · have hf2b := hf2
        unfold ambientColorImpl at hf2b
        simp only [colorStage, hc, hv1, hv2, hf1, hf2b, c1, ne_eq, not_false_eq_true,
          if_true, Option.bind_eq_bind, Option.some_bind]
        rfl
      · exfalso
        rcases c1 with c1 | ⟨c1, g⟩ <;> rcases c2 with c2 | ⟨c2, l⟩
        · rw [c1] at c2; cases c2
        · rw [c1] at c2; cases c2
        · rw [c1] at c2; cases c2
        · exact hcmp ⟨g, l⟩
      · rintro ⟨code, hcode⟩
        exfalso
        rcases c1 with c1 | ⟨c1, -⟩ <;> (rw [c1] at hcode; cases hcode)
    · by_cases c2 : m.ScalarMaterialMode = .VTK_MATERIALMODE_DIFFUSE
          ∨ (m.ScalarMaterialMode = .VTK_MATERIALMODE_DEFAULT
            ∧ actor.Property.Ambient ≤ actor.Property.Diffuse)
      · obtain ⟨f2, hf2, -⟩ := replace_terminates "//VTK::Color::Impl".toList
          diffuseColorImpl h.all fuel f1 (by decide) (by decide) (by omega)
        refine ⟨v1, v2, f1, f2, diffuseColorImpl, hv1, hv2, hf1, hf2, ?_,
          Or.inr (Or.inl rfl), ⟨fun e => absurd e.symm dad, fun c => absurd c c1⟩,
          ⟨fun _ => c2, fun _ => rfl⟩, ?_⟩
        · have hf2b := hf2
          unfold diffuseColorImpl at hf2b
          simp only [colorStage, hc, hv1, hv2, hf1, hf2b, c1, c2, ne_eq,
            not_false_eq_true, if_true, if_false, Option.bind_eq_bind, Option.some_bind]
          rfl
        · rintro ⟨code, hcode⟩
          exfalso
          rcases c2 with c2 | ⟨c2, -⟩ <;> (rw [c2] at hcode; cases hcode)
      · obtain ⟨f2, hf2, -⟩ := replace_terminates "//VTK::Color::Impl".toList
          bothColorImpl h.all fuel f1 (by decide) (by decide) (by omega)
        refine ⟨v1, v2, f1, f2, bothColorImpl, hv1, hv2, hf1, hf2, ?_,
          Or.inr (Or.inr rfl), ⟨fun e => absurd e.symm dab, fun c => absurd c c1⟩,
          ⟨fun e => absurd e.symm ddb, fun c => absurd c c2⟩, fun _ => rfl⟩
        have hf2b := hf2
        unfold bothColorImpl at hf2b
        simp only [colorStage, hc, hv1, hv2, hf1, hf2b, c1, c2, ne_eq,
          not_false_eq_true, if_true, if_false, Option.bind_eq_bind, Option.some_bind]
        rfl
  · intro hc
    obtain ⟨f2, hf2, -⟩ := replace_terminates "//VTK::Color::Impl".toList
      uniformColorImpl h.all fuel FS (by decide) (by decide) hf
    refine ⟨f2, hf2, ?_⟩
    have hf2b := hf2
    unfold uniformColorImpl at hf2b
    simp only [colorStage, hc, hf2b, ne_eq, not_true_eq_false, if_false,
      Option.bind_eq_bind, Option.some_bind]
    rfl

theorem C19_color_formula_witness :
    (sampleColoredMapper.layout.ColorComponents ≠ 0 →
      ∃ VS1 VS2 FS1 FS2 text,
        replace 8 sampleHeaders.vtkglPolyDataVSNoLighting "//VTK::Color::Dec".toList
          "attribute vec4 scalarColor; varying vec4 vertexColor;".toList
          sampleHeaders.all = some VS1
        ∧ replace 8 VS1 "//VTK::Color::Impl".toList
          "vertexColor =  scalarColor;".toList sampleHeaders.all = some VS2
        ∧ replace 8 sampleHeaders.vtkglPolyDataFS "//VTK::Color::Dec".toList
          "varying vec4 vertexColor;".toList sampleHeaders.all = some FS1
        ∧ replace 8 FS1 "//VTK::Color::Impl".toList text sampleHeaders.all = some FS2
        ∧ colorStage sampleHeaders 8 sampleColoredMapper sampleActor
            sampleHeaders.vtkglPolyDataVSNoLighting sampleHeaders.vtkglPolyDataFS
          = some (VS2, FS2)
        ∧ (text = ambientColorImpl ∨ text = diffuseColorImpl ∨ text = bothColorImpl)
        ∧ (text = ambientColorImpl ↔
            sampleColoredMapper.ScalarMaterialMode = .VTK_MATERIALMODE_AMBIENT
            ∨ (sampleColoredMapper.ScalarMaterialMode = .VTK_MATERIALMODE_DEFAULT
              ∧ sampleActor.Property.Ambient > sampleActor.Property.Diffuse))
        ∧ (text = diffuseColorImpl ↔
            sampleColoredMapper.ScalarMaterialMode = .VTK_MATERIALMODE_DIFFUSE
            ∨ (sampleColoredMapper.ScalarMaterialMode = .VTK_MATERIALMODE_DEFAULT
              ∧ sampleActor.Property.Ambient ≤ sampleActor.Property.Diffuse))
        ∧ ((∃ code, sampleColoredMapper.ScalarMaterialMode
              = .VTK_MATERIALMODE_OTHER code) →
            text = bothColorImpl))
    ∧ (sampleColoredMapper.layout.ColorComponents = 0 →
      ∃ FS2, replace 8 sampleHeaders.vtkglPolyDataFS "//VTK::Color::Impl".toList
          uniformColorImpl sampleHeaders.all = some FS2
        ∧ colorStage sampleHeaders 8 sampleColoredMapper sampleActor
            sampleHeaders.vtkglPolyDataVSNoLighting sampleHeaders.vtkglPolyDataFS
          = some (sampleHeaders.vtkglPolyDataVSNoLighting, FS2)) :=
  C19_color_formula sampleHeaders 8 sampleColoredMapper sampleActor
    sampleHeaders.vtkglPolyDataVSNoLighting sampleHeaders.vtkglPolyDataFS
    (by decide) (by decide) (by decide)

/-! ### Shader update -/

theorem GetNeedToRebuildShader_fixed {F V D : Type} [One D] [DecidableEq D]
    (s : RenderState F) (poly : PolyData V) (slot : Slot) (ren : Renderer D)
    (actor : Actor D)
    (hl : s.mapper.LastLightComplexity = computeLightComplexity poly slot ren actor)
    (hd : s.mapper.LastDepthPeeling = ren.LastRenderingUsedDepthPeeling)
    (hp : s.mapper.LastSelectionState = (ren.IsPicking || ren.Selector)) :
    (GetNeedToRebuildShader s poly slot ren actor).1 = s := by
  simp [GetNeedToRebuildShader, hl, hd, hp]

/-- The state after `GetNeedToRebuildShader`: cache, recorded calls, slots, layout
and `MTime` are as before, the three `Last...` fields hold the current values, the
clock has not gone back, and the three change stamps are at most the clock if they
were. -/
theorem GetNeedToRebuildShader_state {F V D : Type} [One D] [DecidableEq D]
    (s : RenderState F) (poly : PolyData V) (slot : Slot) (ren : Renderer D)
    (actor : Actor D) :
    (GetNeedToRebuildShader s poly slot ren actor).1.cache = s.cache
    ∧ (GetNeedToRebuildShader s poly slot ren actor).1.calls = s.calls
    ∧ s.clock ≤ (GetNeedToRebuildShader s poly slot ren actor).1.clock
    ∧ (GetNeedToRebuildShader s poly slot ren actor).1.mapper.MTime = s.mapper.MTime
    ∧ (∀ sl, (GetNeedToRebuildShader s poly slot ren actor).1.mapper.slot sl
        = s.mapper.slot sl)
    ∧ (GetNeedToRebuildShader s poly slot ren actor).1.mapper.LastLightComplexity
        = computeLightComplexity poly slot ren actor
    ∧ (GetNeedToRebuildShader s poly slot ren actor).1.mapper.LastDepthPeeling
        = ren.LastRenderingUsedDepthPeeling
    ∧ (GetNeedToRebuildShader s poly slot ren actor).1.mapper.LastSelectionState
        = (ren.IsPicking || ren.Selector)
    ∧ (s.mapper.LightComplexityChanged ≤ s.clock →
        (GetNeedToRebuildShader s poly slot ren actor).1.mapper.LightComplexityChanged
          ≤ (GetNeedToRebuildShader s poly slot ren actor).1.clock)
    ∧ (s.mapper.DepthPeelingChanged ≤ s.clock →
        (GetNeedToRebuildShader s poly slot ren actor).1.mapper.DepthPeelingChanged
          ≤ (GetNeedToRebuildShader s poly slot ren actor).1.clock)
    ∧ (s.mapper.SelectionStateChanged ≤ s.clock →
        (GetNeedToRebuildShader s poly slot ren actor).1.mapper.SelectionStateChanged
          ≤ (GetNeedToRebuildShader s poly slot ren actor).1.clock) := by
  simp only [GetNeedToRebuildShader]
  refine ⟨?_, ?_, ?_, ?_, ?_, ?_, ?_, ?_, ?_, ?_, ?_⟩
  · split_ifs <;> rfl
  · split_ifs <;> rfl
  · split_ifs <;> (try simp only []) <;> omega
  · split_ifs <;> rfl
  · intro sl
    split_ifs <;> cases sl <;> rfl
  · split_ifs <;> simp_all
  · split_ifs <;> simp_all
  · split_ifs <;> simp_all
  · intro h
    split_ifs <;> (try simp only []) <;> omega
  · intro h
    split_ifs <;> (try simp only []) <;> omega
  · intro h
    split_ifs <;> (try simp only []) <;> omega

/-- C16: `GetNeedToRebuildShader` returns true exactly when the `ShaderSourceTime`
of the slot is less than the mapper's `MTime`, the actor's `MTime`, the input's
`MTime`, or one of `SelectionStateChanged`, `DepthPeelingChanged`,
`LightComplexityChanged` as they are after the call; the call leaves each of
these three stamps alone when the recorded picking state, depth-peeling state or
light complexity equals the current one, and gives it a new value, later than
the clock before the call, when it differs. -/
theorem C16_need_rebuild {F V D : Type} [One D] [DecidableEq D] (s : RenderState F)
    (poly : PolyData V) (slot : Slot) (ren : Renderer D) (actor : Actor D) :
    ((GetNeedToRebuildShader s poly slot ren actor).2 = true ↔
      (s.mapper.slot slot).ShaderSourceTime < s.mapper.MTime
      ∨ (s.mapper.slot slot).ShaderSourceTime < actor.MTime
      ∨ (s.mapper.slot slot).ShaderSourceTime < poly.MTime
      ∨ (s.mapper.slot slot).ShaderSourceTime
          < (GetNeedToRebuildShader s poly slot ren actor).1.mapper.SelectionStateChanged
      ∨ (s.mapper.slot slot).ShaderSourceTime
          < (GetNeedToRebuildShader s poly slot ren actor).1.mapper.DepthPeelingChanged
      ∨ (s.mapper.slot slot).ShaderSourceTime
          < (GetNeedToRebuildShader s poly slot ren actor).1.mapper.LightComplexityChanged)
    ∧ (s.mapper.LastSelectionState = (ren.IsPicking || ren.Selector) →
        (GetNeedToRebuildShader s poly slot ren actor).1.mapper.SelectionStateChanged
          = s.mapper.SelectionStateChanged)
    ∧ (s.mapper.LastSelectionState ≠ (ren.IsPicking || ren.Selector) →
        s.clock
          < (GetNeedToRebuildShader s poly slot ren actor).1.mapper.SelectionStateChanged)
    ∧ (s.mapper.LastDepthPeeling = ren.LastRenderingUsedDepthPeeling →
        (GetNeedToRebuildShader s poly slot ren actor).1.mapper.DepthPeelingChanged
          = s.mapper.DepthPeelingChanged)
    ∧ (s.mapper.LastDepthPeeling ≠ ren.LastRenderingUsedDepthPeeling →
        s.clock
          < (GetNeedToRebuildShader s poly slot ren actor).1.mapper.DepthPeelingChanged)
    ∧ (s.mapper.LastLightComplexity = computeLightComplexity poly slot ren actor →
        (GetNeedToRebuildShader s poly slot ren actor).1.mapper.LightComplexityChanged
          = s.mapper.LightComplexityChanged)
    ∧ (s.mapper.LastLightComplexity ≠ computeLightComplexity poly slot ren actor →
        s.clock
          < (GetNeedToRebuildShader s poly slot ren actor).1.mapper.LightComplexityChanged)
    := by
  obtain ⟨-, -, -, hm, hslot, -⟩ := GetNeedToRebuildShader_state s poly slot ren actor
  refine ⟨?_, ?_, ?_, ?_, ?_, ?_, ?_⟩
  · rw [← hm, ← hslot slot]
    simp only [GetNeedToRebuildShader, decide_eq_true_eq]
  · intro h
    simp only [GetNeedToRebuildShader]
    split_ifs <;> simp_all
  · intro h
    simp only [GetNeedToRebuildShader]
    split_ifs <;> (try simp only []) <;> omega
  · intro h
    simp only [GetNeedToRebuildShader]
    split_ifs <;> simp_all
  · intro h
    simp only [GetNeedToRebuildShader]
    split_ifs <;> (try simp only []) <;> omega
  · intro h
    simp only [GetNeedToRebuildShader]
    split_ifs <;> simp_all
  · intro h
    simp only [GetNeedToRebuildShader]
    split_ifs <;> (try simp only []) <;> omega

theorem framed_refl {F : Type} (s : RenderState F) : RenderState.Framed s s :=
  ⟨rfl, le_refl _, rfl, rfl, rfl, rfl, rfl, rfl, rfl, rfl, rfl, fun _ => rfl,
    fun _ => rfl, fun _ => rfl, rfl⟩

theorem framed_trans {F : Type} {s1 s2 s3 : RenderState F}
    (h12 : RenderState.Framed s1 s2) (h23 : RenderState.Framed s2 s3) :
    RenderState.Framed s1 s3 := by
  obtain ⟨a1, a2, a3, a4, a5, a6, a7, a8, a9, a10, a11, a12, a13, a14, a15⟩ := h12
  obtain ⟨b1, b2, b3, b4, b5, b6, b7, b8, b9, b10, b11, b12, b13, b14, b15⟩ := h23
  exact ⟨b1.trans a1, le_trans a2 b2, b3.trans a3, b4.trans a4, b5.trans a5, b6.trans a6,
    b7.trans a7, b8.trans a8, b9.trans a9, b10.trans a10, b11.trans a11,
    fun sl => (b12 sl).trans (a12 sl), fun sl => (b13 sl).trans (a13 sl),
    fun sl => (b14 sl).trans (a14 sl), b15.trans a15⟩

theorem useProgram_framed {F : Type} (s : RenderState F) (st : Setter) (slot : Slot) :
    RenderState.Framed s (useProgram s st slot) := by
  refine ⟨rfl, le_refl _, rfl, rfl, rfl, rfl, rfl, rfl, rfl, rfl, rfl, fun _ => rfl,
    fun _ => rfl, fun _ => rfl, ?_⟩
  simp [useProgram, RenderState.call, List.countP_append, MapperCall.isBuildShader]

theorem framed_ite {F : Type} (s : RenderState F) (c : Prop) [Decidable c]
    (a b : RenderState F) (ha : RenderState.Framed s a) (hb : RenderState.Framed s b) :
    RenderState.Framed s (if c then a else b) := by
  split
  · exact ha
  · exact hb

theorem stampAttributes_framed {F : Type} (a : RenderState F) (slot : Slot) :
    RenderState.Framed a
      { a with clock := a.clock + 1,
               mapper := a.mapper.setSlot slot
                 { a.mapper.slot slot with attributeUpdateTime := a.clock + 1 } } := by
  refine ⟨rfl, Nat.le_succ _, ?_, ?_, ?_, ?_, ?_, ?_, ?_, ?_, ?_, ?_, ?_, ?_, rfl⟩ <;>
    first
    | (cases slot <;> rfl)
    | (intro sl; cases slot <;> cases sl <;> rfl)

theorem SetMapperShaderParameters_framed {F D : Type} (s : RenderState F) (slot : Slot)
    (ren : Renderer D) : RenderState.Framed s (SetMapperShaderParameters s slot ren) := by
  have up : ∀ a, RenderState.Framed s a →
      RenderState.Framed s (useProgram a .SetMapperShaderParameters slot) :=
    fun a ha => framed_trans ha (useProgram_framed a _ slot)
  have ite : ∀ (c : Prop) [Decidable c] (a : RenderState F), RenderState.Framed s a →
      RenderState.Framed s
        (if c then useProgram a .SetMapperShaderParameters slot else a) :=
    fun c _ a ha => framed_ite s c _ _ (up a ha) ha
  unfold SetMapperShaderParameters
  lift_lets
  intro layout a1 a2 a3 a4 src s1 s2 s3
  have g1 : RenderState.Framed s a1 := up s (framed_refl s)
  have g2 : RenderState.Framed s a2 := ite _ a1 g1
  have g3 : RenderState.Framed s a3 := ite _ a2 g2
  have g4 : RenderState.Framed s a4 := ite _ a3 g3
  have h1 : RenderState.Framed s s1 :=
    framed_ite s _ _ _ (framed_trans g4 (stampAttributes_framed a4 slot)) (framed_refl s)
  have h2 : RenderState.Framed s s2 := ite _ s1 h1
  have h3 : RenderState.Framed s s3 :=
    framed_ite s _ _ _ (up _ (up _ h2)) h2
  exact ite _ s3 h3

theorem uploadParameters_framed {F D : Type} (s : RenderState F) (slot : Slot)
    (ren : Renderer D) : RenderState.Framed s (uploadParameters s slot ren) := by
  have h1 := SetMapperShaderParameters_framed s slot ren
  have h2 := framed_trans h1 (useProgram_framed _ .SetPropertyShaderParameters slot)
  have h3 := framed_trans h2 (useProgram_framed _ .SetCameraShaderParameters slot)
  have h4 : RenderState.Framed s
      (SetLightingShaderParameters (SetCameraShaderParameters
        (SetPropertyShaderParameters (SetMapperShaderParameters s slot ren) slot) slot)
        slot) := by
    unfold SetLightingShaderParameters
    split
    · exact h3
    · exact framed_trans h3 (useProgram_framed _ .SetLightingShaderParameters slot)
  refine framed_trans h4 ?_
  refine ⟨rfl, le_refl _, rfl, rfl, rfl, rfl, rfl, rfl, rfl, rfl, rfl, ?_, ?_, ?_, rfl⟩ <;>
    (intro sl; cases sl <;> rfl)

theorem storeProgram_spec {F : Type} (s : RenderState F) (slot : Slot)
    (newShader : Option Nat) :
    (storeProgram s slot newShader).cache = s.cache
    ∧ (storeProgram s slot newShader).calls = s.calls
    ∧ (storeProgram s slot newShader).clock = s.clock + 1
    ∧ ((storeProgram s slot newShader).mapper.slot slot).CachedProgram = newShader
    ∧ ((storeProgram s slot newShader).mapper.slot slot).ShaderSourceTime = s.clock + 1
    ∧ (storeProgram s slot newShader).mapper.MTime = s.mapper.MTime
    ∧ (storeProgram s slot newShader).mapper.LastLightComplexity
        = s.mapper.LastLightComplexity
    ∧ (storeProgram s slot newShader).mapper.LastDepthPeeling = s.mapper.LastDepthPeeling
    ∧ (storeProgram s slot newShader).mapper.LastSelectionState
        = s.mapper.LastSelectionState
    ∧ (storeProgram s slot newShader).mapper.LightComplexityChanged
        = s.mapper.LightComplexityChanged
    ∧ (storeProgram s slot newShader).mapper.DepthPeelingChanged
        = s.mapper.DepthPeelingChanged
    ∧ (storeProgram s slot newShader).mapper.SelectionStateChanged
        = s.mapper.SelectionStateChanged := by
  unfold storeProgram
  by_cases hc : newShader ≠ (s.mapper.slot slot).CachedProgram
  · simp only []
    rw [if_pos hc]
    refine ⟨rfl, rfl, rfl, ?_, ?_, ?_, ?_, ?_, ?_, ?_, ?_, ?_⟩ <;> cases slot <;> rfl
  · simp only []
    rw [if_neg hc]
    have hc2 : (s.mapper.slot slot).CachedProgram = newShader := by
      by_contra hne
      exact hc (fun e => hne e.symm)
    refine ⟨rfl, rfl, rfl, ?_, ?_, ?_, ?_, ?_, ?_, ?_, ?_, ?_⟩ <;> cases slot <;>
      first | rfl | exact hc2

theorem ReadyShaderCached_some (gl : CompileOutcome) (c c1 : ShaderCache) (s p : Nat)
    (hr : ReadyShaderCached gl c s = some (c1, some p)) :
    p = s ∧ c1.LastShaderBound = some p
      ∧ ∃ e, c1.heap[p]? = some e ∧ e.Compiled = true := by
  cases hs : c.heap[s]? with
  | none => simp [ReadyShaderCached, hs] at hr
  | some sps =>
    have hlt : s < c.heap.length := by
      by_contra hn
      rw [List.getElem?_eq_none (Nat.le_of_not_lt hn)] at hs
      cases hs
    obtain ⟨c2, r, t, heq, -, -, -, hcase⟩ := ReadyShaderCached_spec gl c s sps hs
    rw [heq] at hr
    cases hr
    rcases hcase with ⟨hc, hr, hh, hl, -⟩ | ⟨-, -, hr, hh, hl⟩ | ⟨-, -, hr, -⟩
    · cases hr
      exact ⟨rfl, hl, sps, by rw [hh]; exact hs, hc⟩
    · cases hr
      refine ⟨rfl, hl, { sps with Compiled := true }, ?_, rfl⟩
      rw [hh, List.getElem?_set]
      simp [hlt]
    · cases hr

theorem ReadyShader_some (md5 : List Char → List Char) (gl : CompileOutcome)
    (c c1 : ShaderCache) (vs fs gs : List Char) (p : Nat)
    (hr : ReadyShader md5 gl c vs fs gs = some (c1, some p)) :
    c1.LastShaderBound = some p ∧ ∃ e, c1.heap[p]? = some e ∧ e.Compiled = true := by
  rw [ReadyShader_eq] at hr
  exact (ReadyShaderCached_some gl _ c1 _ p hr).2

theorem GetNeedToRebuildShader_result {F V D : Type} [One D] [DecidableEq D]
    (s : RenderState F) (poly : PolyData V) (slot : Slot) (ren : Renderer D)
    (actor : Actor D) :
    (GetNeedToRebuildShader s poly slot ren actor).2
      = decide (
        ((GetNeedToRebuildShader s poly slot ren actor).1.mapper.slot slot).ShaderSourceTime
          < (GetNeedToRebuildShader s poly slot ren actor).1.mapper.MTime
        ∨ ((GetNeedToRebuildShader s poly slot ren actor).1.mapper.slot slot).ShaderSourceTime
          < actor.MTime
        ∨ ((GetNeedToRebuildShader s poly slot ren actor).1.mapper.slot slot).ShaderSourceTime
          < poly.MTime
        ∨ ((GetNeedToRebuildShader s poly slot ren actor).1.mapper.slot slot).ShaderSourceTime
          < (GetNeedToRebuildShader s poly slot ren actor).1.mapper.SelectionStateChanged
        ∨ ((GetNeedToRebuildShader s poly slot ren actor).1.mapper.slot slot).ShaderSourceTime
          < (GetNeedToRebuildShader s poly slot ren actor).1.mapper.DepthPeelingChanged
        ∨ ((GetNeedToRebuildShader s poly slot ren actor).1.mapper.slot slot).ShaderSourceTime
          < (GetNeedToRebuildShader s poly slot ren actor).1.mapper.LightComplexityChanged) :=
  rfl

/-- After a rebuilding `UpdateShader` the slot holds the program that `ReadyShader`
returned, the cache is the one `ReadyShader` left, `ShaderSourceTime` is the value
after the clock of the rebuild decision, and the stamps and `Last...` fields are
those of the rebuild decision. -/
theorem UpdateShader_rebuild {F V D : Type} [LT D] [LE D]
    [DecidableRel (fun a b : D => a < b)] [DecidableRel (fun a b : D => a ≤ b)]
    [One D] [DecidableEq D] (h : ShaderHeaders) (md5 : List Char → List Char)
    (fuel : Nat) (gl : CompileOutcome) (s s1 : RenderState F) (poly : PolyData V)
    (slot : Slot) (ren : Renderer D) (actor : Actor D)
    (hneed : (GetNeedToRebuildShader s poly slot ren actor).2 = true)
    (hfirst : UpdateShader h md5 fuel gl s poly slot ren actor = some s1) :
    ∃ sources ready s2,
      BuildShader h fuel (GetNeedToRebuildShader s poly slot ren actor).1.mapper [] []
          (GetNeedToRebuildShader s poly slot ren actor).1.mapper.LastLightComplexity
          ren actor = some sources
      ∧ ReadyShader md5 gl (GetNeedToRebuildShader s poly slot ren actor).1.cache
          sources.1 sources.2.1 sources.2.2 = some ready
      ∧ s2 = storeProgram
          { (GetNeedToRebuildShader s poly slot ren actor).1.call (.BuildShader slot)
            with cache := ready.1 } slot ready.2
      ∧ s1 = uploadParameters s2 slot ren := by
  unfold UpdateShader at hfirst
  simp only [hneed, if_true, Option.bind_eq_bind, Option.pure_def,
    Option.bind_eq_some] at hfirst
  obtain ⟨s2, hreb, hup⟩ := hfirst
  unfold rebuildShader at hreb
  simp only [Option.bind_eq_bind, Option.pure_def, Option.bind_eq_some] at hreb
  obtain ⟨sources, hb, ready, hr, hst⟩ := hreb
  exact ⟨sources, ready, s2, hb, hr, (Option.some.inj hst).symm, (Option.some.inj hup).symm⟩

/-- C17: let `UpdateShader` rebuild the shader of a slot and leave a program in
the slot (time stamps being at most the clock, and the map pointers of the cache
pointing to entries).  If the actor and the input keep their `MTime` and the
computed light complexity, picking state and depth-peeling state equal the
recorded ones, then for the next `UpdateShader` on the slot
`GetNeedToRebuildShader` returns false, the call returns, it adds no call of
`BuildShader`, of `GetShader`, of `CompileShader` or of a compile, attach or link
step, it calls `BindShader` on the slot's program, and its `ReadyShader` returns
that program, which is then the last bound one and still the slot's program. -/
theorem C17_no_rebuild_when_unchanged {F V D : Type} [LT D] [LE D]
    [DecidableRel (fun a b : D => a < b)] [DecidableRel (fun a b : D => a ≤ b)]
    [One D] [DecidableEq D] (h : ShaderHeaders) (md5 : List Char → List Char)
    (fuel : Nat) (gl1 gl2 : CompileOutcome) (s s1 : RenderState F)
    (poly poly2 : PolyData V) (slot : Slot) (ren ren2 : Renderer D)
    (actor actor2 : Actor D) (p : Nat)
    (hclock : s.mapper.MTime ≤ s.clock ∧ actor.MTime ≤ s.clock ∧ poly.MTime ≤ s.clock
      ∧ s.mapper.SelectionStateChanged ≤ s.clock
      ∧ s.mapper.DepthPeelingChanged ≤ s.clock
      ∧ s.mapper.LightComplexityChanged ≤ s.clock)
    (hneed : (GetNeedToRebuildShader s poly slot ren actor).2 = true)
    (hfirst : UpdateShader h md5 fuel gl1 s poly slot ren actor = some s1)
    (hprog : (s1.mapper.slot slot).CachedProgram = some p)
    (hactor : actor2.MTime = actor.MTime) (hpoly : poly2.MTime = poly.MTime)
    (hlc : computeLightComplexity poly2 slot ren2 actor2 = s1.mapper.LastLightComplexity)
    (hpick : (ren2.IsPicking || ren2.Selector) = s1.mapper.LastSelectionState)
    (hpeel : ren2.LastRenderingUsedDepthPeeling = s1.mapper.LastDepthPeeling) :
    (GetNeedToRebuildShader s1 poly2 slot ren2 actor2).2 = false
    ∧ ∃ s2, UpdateShader h md5 fuel gl2 s1 poly2 slot ren2 actor2 = some s2
      ∧ ReadyShaderCached gl2 s1.cache p = some (s2.cache, some p)
      ∧ s2.calls.countP MapperCall.isBuildShader
          = s1.calls.countP MapperCall.isBuildShader
      ∧ s2.cache.calls.countP CacheCall.isGetShader
          = s1.cache.calls.countP CacheCall.isGetShader
      ∧ s2.cache.calls.countP CacheCall.isCompile
          = s1.cache.calls.countP CacheCall.isCompile
      ∧ s1.cache.calls.count (.BindShader p) < s2.cache.calls.count (.BindShader p)
      ∧ s2.cache.LastShaderBound = some p
      ∧ (s2.mapper.slot slot).CachedProgram = some p := by
  obtain ⟨hc1, hc2, hc3, hc4, hc5, hc6⟩ := hclock
  obtain ⟨-, -, gclock, gmt, -, -, -, -, glc, gdp, gss⟩ :=
    GetNeedToRebuildShader_state s poly slot ren actor
  obtain ⟨sources, ready, s2, -, hready, hs2, hs1⟩ :=
    UpdateShader_rebuild h md5 fuel gl1 s s1 poly slot ren actor hneed hfirst
  obtain ⟨f1, f2, f3, -, -, f6, f7, f8, f9, f10, f11, f12, f13, -, -⟩ :=
    hs1 ▸ uploadParameters_framed s2 slot ren
  obtain ⟨t1, -, t3, t4, t5, t6, t7, t8, t9, t10, t11, t12⟩ :=
    storeProgram_spec
      { (GetNeedToRebuildShader s poly slot ren actor).1.call (.BuildShader slot)
        with cache := ready.1 } slot ready.2
  rw [← hs2] at t1 t3 t4 t5 t6 t7 t8 t9 t10 t11 t12
  -- the program of the slot is the one `ReadyShader` returned
  have hr2 : ready.2 = some p := by rw [← t4, ← f12 slot]; exact hprog
  have hcache : s1.cache = ready.1 := by rw [f1, t1]
  obtain ⟨hlast, e, he, hecomp⟩ := ReadyShader_some md5 gl1 _ ready.1 _ _ _ p
    (by rw [hready, ← hr2])
  -- the second decision
  have hfix := GetNeedToRebuildShader_fixed s1 poly2 slot ren2 actor2 hlc.symm hpeel.symm
    hpick.symm
  have hsst : (s1.mapper.slot slot).ShaderSourceTime
      = (GetNeedToRebuildShader s poly slot ren actor).1.clock + 1 := by
    rw [f13 slot, t5]; rfl
  have hno : (GetNeedToRebuildShader s1 poly2 slot ren2 actor2).2 = false := by
    rw [GetNeedToRebuildShader_result, hfix, decide_eq_false_iff_not, hsst, f3, t6, f11,
      t12, f10, t11, f9, t10, hactor, hpoly]
    have a1 := glc hc6
    have a2 := gdp hc5
    have a3 := gss hc4
    have a4 : (GetNeedToRebuildShader s poly slot ren actor).1.mapper.MTime
        = s.mapper.MTime := gmt
    simp only [RenderState.call] at *
    omega
  refine ⟨hno, ?_⟩
  obtain ⟨c2, r, t, heq, -, hcalls, hng, hcase⟩ :=
    ReadyShaderCached_spec gl2 s1.cache p e (by rw [hcache]; exact he)
  rcases hcase with ⟨-, hr, hheap, hl, hmem, hnc⟩ | ⟨hcf, -⟩ | ⟨hcf, -⟩
  · subst hr
    obtain ⟨u1, -, -, -, -, -, -, -, -, -, -, u12, -, -, u15⟩ :=
      uploadParameters_framed { s1 with cache := c2 } slot ren2
    refine ⟨uploadParameters { s1 with cache := c2 } slot ren2, ?_, ?_, u15, ?_, ?_, ?_,
      ?_, ?_⟩
    · unfold UpdateShader
      simp only [hno, hfix, Bool.false_eq_true, if_false, readyCachedProgram, hprog, heq,
        Option.bind_eq_bind, Option.pure_def, Option.some_bind]
    · rw [u1]; exact heq
    · have hz : t.countP CacheCall.isGetShader = 0 := by
        rw [List.countP_eq_zero]
        intro x hx hx2
        have := hng x hx
        cases x <;> simp_all [CacheCall.isGetShader]
      rw [u1]
      show c2.calls.countP _ = _
      rw [hcalls, List.countP_append, hz, Nat.add_zero]
    · have hz : t.countP CacheCall.isCompile = 0 := by
        rw [List.countP_eq_zero]
        intro x hx hx2
        rw [hnc x hx] at hx2
        cases hx2
      rw [u1]
      show c2.calls.countP _ = _
      rw [hcalls, List.countP_append, hz, Nat.add_zero]
    · rw [u1]
      show _ < c2.calls.count _
      rw [hcalls, List.count_append]
      have := List.count_pos_iff.mpr hmem
      omega
    · rw [u1]; exact hl
    · rw [u12 slot]; exact hprog
  · rw [hecomp] at hcf; cases hcf
  · rw [hecomp] at hcf; cases hcf

set_option maxRecDepth 100000 in
theorem C17_no_rebuild_when_unchanged_witness :
    (GetNeedToRebuildShader sampleAfterUpdate sampleTwoTriangles .tris sampleRenderer
        sampleActor).2 = false
    ∧ ∃ s2, UpdateShader sampleHeaders id 8 ⟨false, false, false, false, false⟩
          sampleAfterUpdate sampleTwoTriangles .tris sampleRenderer sampleActor = some s2
      ∧ ReadyShaderCached ⟨false, false, false, false, false⟩ sampleAfterUpdate.cache 0
          = some (s2.cache, some 0)
      ∧ s2.calls.countP MapperCall.isBuildShader
          = sampleAfterUpdate.calls.countP MapperCall.isBuildShader
      ∧ s2.cache.calls.countP CacheCall.isGetShader
          = sampleAfterUpdate.cache.calls.countP CacheCall.isGetShader
      ∧ s2.cache.calls.countP CacheCall.isCompile
          = sampleAfterUpdate.cache.calls.countP CacheCall.isCompile
      ∧ sampleAfterUpdate.cache.calls.count (.BindShader 0)
          < s2.cache.calls.count (.BindShader 0)
      ∧ s2.cache.LastShaderBound = some 0
      ∧ (s2.mapper.slot .tris).CachedProgram = some 0 :=
  C17_no_rebuild_when_unchanged sampleHeaders id 8 ⟨true, true, true, true, true⟩
    ⟨false, false, false, false, false⟩ sampleRenderState sampleAfterUpdate
    sampleTwoTriangles sampleTwoTriangles .tris sampleRenderer sampleRenderer
    sampleActor sampleActor 0 (by decide) rfl rfl rfl rfl rfl rfl rfl rfl

/-! ### Point index buffer -/

theorem foldl_pushIndex (indices : List Nat) :
    ∀ acc : List Nat,
      indices.foldl (fun indexArray idx => indexArray ++ [u32 idx]) acc
        = acc ++ indices.map u32 := by
  induction indices with
  | nil => intro acc; simp
  | cons a rest ih => intro acc; simp [ih]

theorem CreatePointIndexBuffer_eq (cells : List (List Nat)) :
    CreatePointIndexBuffer cells
      = (cells.flatten.map u32, (cells.map List.length).sum) := by
  have h : ∀ (cs : List (List Nat)) (acc : List Nat),
      cs.foldl (fun indexArray indices =>
        indices.foldl (fun indexArray idx => indexArray ++ [u32 idx]) indexArray) acc
        = acc ++ cs.flatten.map u32 := by
    intro cs
    induction cs with
    | nil => intro acc; simp
    | cons c rest ih =>
      intro acc
      rw [List.foldl_cons, ih, foldl_pushIndex]
      simp
  simp only [CreatePointIndexBuffer, h, List.nil_append, List.length_map,
    List.length_flatten]

/-- C30: for every cell list whose point ids fit `unsigned int`,
`CreatePointIndexBuffer` uploads the concatenation of the cells' index tuples in
traversal order, each index unchanged, and returns the sum of the cell sizes. -/
theorem C30_point_index_buffer (cells : List (List Nat))
    (hfit : ∀ c ∈ cells, ∀ a ∈ c, a < 2 ^ 32) :
    CreatePointIndexBuffer cells = (cells.flatten, (cells.map List.length).sum) := by
  have hid : cells.flatten.map u32 = cells.flatten.map id := by
    apply List.map_congr_left
    intro a ha
    obtain ⟨c, hc, hac⟩ := List.mem_flatten.mp ha
    exact u32_of_lt (hfit c hc a hac)
  rw [CreatePointIndexBuffer_eq, hid, List.map_id]

theorem C30_point_index_buffer_witness :
    CreatePointIndexBuffer [[4], [2, 0], [], [1, 3, 5]] = ([4, 2, 0, 1, 3, 5], 6) :=
  C30_point_index_buffer [[4], [2, 0], [], [1, 3, 5]] (by decide)

/-! ### Polygon triangulation -/

theorem triangleLoop_append (Triangulate : List Nat → List Nat) :
    ∀ (a b : List (List Nat)) (acc : List Nat),
      triangleLoop Triangulate (a ++ b) acc
        = match triangleLoop Triangulate a acc with
          | .ok x => triangleLoop Triangulate b x
          | .error code => .error code := by
  intro a
  induction a with
  | nil => intro b acc; simp [triangleLoop]
  | cons c rest ih =>
    intro b acc
    simp only [List.cons_append, triangleLoop]
    split_ifs <;> simp [ih]

theorem triangleLoop_ok (Triangulate : List Nat → List Nat) :
    ∀ (cells : List (List Nat)), (∀ d ∈ cells, 3 ≤ d.length) →
      ∃ out, ∀ acc, triangleLoop Triangulate cells acc = .ok (acc ++ out) := by
  intro cells
  induction cells with
  | nil => intro _; exact ⟨[], fun acc => by simp [triangleLoop]⟩
  | cons c rest ih =>
    intro h
    obtain ⟨out, hout⟩ := ih (fun d hd => h d (List.mem_cons_of_mem _ hd))
    have hc : ¬ c.length < 3 := by
      have := h c (List.mem_cons_self _ _)
      omega
    simp only [triangleLoop, hc, if_false]
    split_ifs
    · exact ⟨_, fun acc => by rw [hout, List.append_assoc]⟩
    · exact ⟨_, fun acc => by rw [hout, List.append_assoc]⟩
    · exact ⟨_, fun acc => by rw [hout, List.append_assoc]⟩

/-- C29: in a cell list none of whose cells has fewer than 3 points, for a polygon
cell `c` with more than 4 points whose ids fit `unsigned int`,
`CreateTriangleIndexBuffer` returns, and between the indices of the cells before
and after it uploads, for each local index `t` returned by the triangulation
routine in order, the point id at position `t` of the cell.  So for the pentagon
cell `(0,1,2,3,4)` and a routine that returns 9 local indices below 5 (3
triangles) among which every local index occurs, the index array has 9 entries,
those of the routine, and its set of entries is `{0,1,2,3,4}`. -/
theorem C29_polygon_triangulation (Triangulate : List Nat → List Nat)
    (pre post : List (List Nat)) (c : List Nat) (hc : 4 < c.length)
    (hpre : ∀ d ∈ pre, 3 ≤ d.length) (hpost : ∀ d ∈ post, 3 ≤ d.length)
    (hfit : ∀ a ∈ c, a < 2 ^ 32) :
    (∃ before after,
      CreateTriangleIndexBuffer Triangulate pre = .ok (before, before.length)
      ∧ CreateTriangleIndexBuffer Triangulate (pre ++ c :: post)
        = .ok (before ++ (Triangulate c).map (fun t => c.getD t 0) ++ after,
            before.length + (Triangulate c).length + after.length))
    ∧ ((Triangulate [0, 1, 2, 3, 4]).length = 9 →
        (∀ t ∈ Triangulate [0, 1, 2, 3, 4], t < 5) →
        (∀ t, t < 5 → t ∈ Triangulate [0, 1, 2, 3, 4]) →
        ∃ indexArray,
          CreateTriangleIndexBuffer Triangulate [[0, 1, 2, 3, 4]] = .ok (indexArray, 9)
          ∧ indexArray = Triangulate [0, 1, 2, 3, 4]
          ∧ indexArray.length = 3 * 3
          ∧ ∀ v, v ∈ indexArray ↔ v ∈ [0, 1, 2, 3, 4]) := by
  have hu : ∀ t, u32 (c.getD t 0) = c.getD t 0 := by
    intro t
    by_cases ht : t < c.length
    · rw [List.getD_eq_getElem _ _ ht]
      exact u32_of_lt (hfit _ (List.getElem_mem _))
    · rw [List.getD_eq_default _ _ (Nat.le_of_not_lt ht)]
      rfl
  constructor
  · obtain ⟨before, hb⟩ := triangleLoop_ok Triangulate pre hpre
    obtain ⟨after, ha⟩ := triangleLoop_ok Triangulate post hpost
    refine ⟨before, after, ?_, ?_⟩
    · simp [CreateTriangleIndexBuffer, hb]
    · have h3 : ¬ c.length < 3 := by omega
      have h4 : c.length > 3 := by omega
      have h5 : ¬ c.length = 4 := by omega
      simp only [CreateTriangleIndexBuffer, triangleLoop_append, hb, List.nil_append,
        triangleLoop, h3, h4, h5, if_false, if_true, ha, hu, List.length_append,
        List.length_map]
  · intro hlen hlt hall
    have hmap : (Triangulate [0, 1, 2, 3, 4]).map
        (fun t => u32 (([0, 1, 2, 3, 4] : List Nat).getD t 0))
        = Triangulate [0, 1, 2, 3, 4] := by
      have : (Triangulate [0, 1, 2, 3, 4]).map
          (fun t => u32 (([0, 1, 2, 3, 4] : List Nat).getD t 0))
          = (Triangulate [0, 1, 2, 3, 4]).map id := by
        apply List.map_congr_left
        intro t ht
        have h5 := hlt t ht
        interval_cases t <;> rfl
      rw [this, List.map_id]
    refine ⟨Triangulate [0, 1, 2, 3, 4], ?_, rfl, hlen, ?_⟩
    · unfold CreateTriangleIndexBuffer
      simp only [triangleLoop]
      rw [if_neg (by decide), if_pos (by decide), if_neg (by decide)]
      simp only [List.nil_append, hmap, hlen]
    · intro v
      constructor
      · intro hv
        have := hlt v hv
        simp only [List.mem_cons, List.mem_singleton, List.not_mem_nil, or_false]
        omega
      · intro hv
        apply hall
        simp only [List.mem_cons, List.mem_singleton, List.not_mem_nil, or_false] at hv
        omega

theorem C29_polygon_triangulation_witness :
    (∃ before after,
      CreateTriangleIndexBuffer sampleFan [[7, 8, 9]] = .ok (before, before.length)
      ∧ CreateTriangleIndexBuffer sampleFan ([[7, 8, 9]] ++ [0, 1, 2, 3, 4] :: [[5, 6, 7, 8]])
        = .ok (before ++ (sampleFan [0, 1, 2, 3, 4]).map
              (fun t => ([0, 1, 2, 3, 4] : List Nat).getD t 0) ++ after,
            before.length + (sampleFan [0, 1, 2, 3, 4]).length + after.length))
    ∧ ((sampleFan [0, 1, 2, 3, 4]).length = 9 →
        (∀ t ∈ sampleFan [0, 1, 2, 3, 4], t < 5) →
        (∀ t, t < 5 → t ∈ sampleFan [0, 1, 2, 3, 4]) →
        ∃ indexArray,
          CreateTriangleIndexBuffer sampleFan [[0, 1, 2, 3, 4]] = .ok (indexArray, 9)
          ∧ indexArray = sampleFan [0, 1, 2, 3, 4]
          ∧ indexArray.length = 3 * 3
          ∧ ∀ v, v ∈ indexArray ↔ v ∈ [0, 1, 2, 3, 4]) :=
  C29_polygon_triangulation sampleFan [[7, 8, 9]] [[5, 6, 7, 8]] [0, 1, 2, 3, 4]
    (by decide) (by decide) (by decide) (by decide)

/-! ### Offsets from one cell to the next -/

theorem length_take_flatMap_succ (wire : Bool) (cells : List (List Nat)) (i : Nat)
    (hi : i < cells.length) :
    ((cells.take (i + 1)).flatMap (cellValues wire)).length
      = ((cells.take i).flatMap (cellValues wire)).length
        + (cellValues wire (cells.getD i [])).length := by
  rw [List.take_succ, List.flatMap_append, List.length_append,
    List.getD_eq_getElem _ _ hi, List.getElem?_eq_getElem hi]
  simp

theorem length_take_flatMap_le (wire : Bool) (cells : List (List Nat)) (i : Nat) :
    ((cells.take i).flatMap (cellValues wire)).length
      ≤ (cells.flatMap (cellValues wire)).length := by
  conv => rhs; rw [← List.take_append_drop i cells, List.flatMap_append, List.length_append]
  exact Nat.le_add_right _ _

theorem length_le_cellValues (wire : Bool) (c : List Nat) :
    c.length ≤ (cellValues wire c).length := by
  simp [cellValues]

/-- C21 (as amended): for every cell list without an empty cell whose total
number of indices fits `unsigned int`, the byte offsets that
`CreateMultiIndexBuffer` records are strictly increasing from one cell to the
next. -/
theorem C21_offsets_increasing (cells : List (List Nat)) (wire : Bool)
    (hne : ∀ c ∈ cells, c ≠ [])
    (hcount : (CreateMultiIndexBuffer cells wire).size < 2 ^ 32) :
    ∀ i, i + 1 < cells.length →
      (CreateMultiIndexBuffer cells wire).memoryOffsetArray.getD i 0
        < (CreateMultiIndexBuffer cells wire).memoryOffsetArray.getD (i + 1) 0 := by
  rw [CreateMultiIndexBuffer_eq] at hcount ⊢
  simp only at hcount ⊢
  intro i hi
  have hi0 : i < cells.length := by omega
  rw [getD_cellOffsets wire cells 0 i hi0, getD_cellOffsets wire cells 0 (i + 1) hi,
    length_take_flatMap_succ wire cells i hi0]
  have hle := length_take_flatMap_le wire cells (i + 1)
  rw [length_take_flatMap_succ wire cells i hi0] at hle
  have hmem : cells.getD i [] ∈ cells := by
    rw [List.getD_eq_getElem _ _ hi0]
    exact List.getElem_mem _
  have hpos : 1 ≤ (cells.getD i []).length := by
    have := hne _ hmem
    cases hc : cells.getD i [] with
    | nil => exact absurd hc this
    | cons a l => simp
  have hcv := length_le_cellValues wire (cells.getD i [])
  rw [u32_of_lt (by omega), u32_of_lt (by omega)]
  omega

theorem C21_offsets_increasing_witness :
    (CreateMultiIndexBuffer [[5, 6], [7], [8, 9, 3]] true).memoryOffsetArray.getD 1 0
      < (CreateMultiIndexBuffer [[5, 6], [7], [8, 9, 3]] true).memoryOffsetArray.getD
          (1 + 1) 0 :=
  C21_offsets_increasing [[5, 6], [7], [8, 9, 3]] true (by decide) (by decide) 1
    (by decide)

/-- C21 (counterexample): with doubling off, the empty cell in the cell list
`(), (7)` leaves the offset of the next cell equal to its own: both offsets are
0. -/
theorem C21_equal_offsets_counterexample :
    (CreateMultiIndexBuffer [[], [7]] false).memoryOffsetArray = [0, 0] := by
  decide

/-! ### Wireframe of a strip of six points -/

theorem strip_slice (pre post : List (List Nat)) (p : List Nat)
    (hn : 1 ≤ p.length) (hid : ∀ a ∈ p, a < 2 ^ 32)
    (hcount : (CreateMultiIndexBuffer (pre ++ p :: post) true).size < 2 ^ 32) :
    (CreateMultiIndexBuffer (pre ++ p :: post) true).memoryOffsetArray[pre.length]?
        = some (4 * (pre.flatMap (cellValues true)).length)
    ∧ (((CreateMultiIndexBuffer (pre ++ p :: post) true).indexArray.drop
          (pre.flatMap (cellValues true)).length).take (2 * p.length))
        = cellValues true p := by
  rw [CreateMultiIndexBuffer_eq] at hcount ⊢
  simp only at hcount ⊢
  have hle := length_flatMap_le_of_append true pre post p
  have hlen := length_cellValues_wire p hn
  have hpre : (pre.flatMap (cellValues true)).length < 2 ^ 32 := by omega
  constructor
  · rw [cellOffsets_append, List.getElem?_append_right (by rw [length_cellOffsets]),
      length_cellOffsets, Nat.sub_self]
    simp only [cellOffsets, Nat.zero_add, List.getElem?_cons_zero]
    rw [u32_of_lt hpre, Nat.mul_comm]
  · rw [List.flatMap_append, List.flatMap_cons, List.map_append, List.map_append,
      map_u32_cellValues true p hid]
    have h1 : (pre.flatMap (cellValues true)).length
        = ((pre.flatMap (cellValues true)).map u32).length := by simp
    conv => lhs; rw [h1, List.drop_left, ← hlen, List.take_left]

/-- C22 (as amended): for a strip of six distinct points `a b c d e f` with
wireframe doubling on, the 12 indices emitted for the strip, from its recorded
byte offset on, are `a b c d e f e c a b d f`; drawn as a line strip, as
`RenderPieceDraw` draws them, they give 11 segments, which visit the edges
`{a,b}` and `{e,f}` twice and each of the other seven edges `{p[i],p[i+1]}`,
`{p[i],p[i+2]}` of the strip once; drawn as a line loop they give these segments
and the closing segment from `f` to `a`.  The ids and the returned index count fit
`unsigned int`. -/
theorem C22_strip_wireframe (pre post : List (List Nat)) (a b c d e f : Nat)
    (hd : [a, b, c, d, e, f].Nodup) (hid : ∀ x ∈ [a, b, c, d, e, f], x < 2 ^ 32)
    (hcount : (CreateMultiIndexBuffer (pre ++ [a, b, c, d, e, f] :: post) true).size
      < 2 ^ 32) :
    ∃ off,
      (CreateMultiIndexBuffer (pre ++ [a, b, c, d, e, f] :: post) true
        ).memoryOffsetArray[pre.length]? = some (4 * off)
      ∧ (((CreateMultiIndexBuffer (pre ++ [a, b, c, d, e, f] :: post) true
          ).indexArray.drop off).take 12) = [a, b, c, d, e, f, e, c, a, b, d, f]
      ∧ (lineStripSegments [a, b, c, d, e, f, e, c, a, b, d, f]).length = 11
      ∧ visits (lineStripSegments [a, b, c, d, e, f, e, c, a, b, d, f]) a b = 2
      ∧ visits (lineStripSegments [a, b, c, d, e, f, e, c, a, b, d, f]) b c = 1
      ∧ visits (lineStripSegments [a, b, c, d, e, f, e, c, a, b, d, f]) c d = 1
      ∧ visits (lineStripSegments [a, b, c, d, e, f, e, c, a, b, d, f]) d e = 1
      ∧ visits (lineStripSegments [a, b, c, d, e, f, e, c, a, b, d, f]) e f = 2
      ∧ visits (lineStripSegments [a, b, c, d, e, f, e, c, a, b, d, f]) a c = 1
      ∧ visits (lineStripSegments [a, b, c, d, e, f, e, c, a, b, d, f]) b d = 1
      ∧ visits (lineStripSegments [a, b, c, d, e, f, e, c, a, b, d, f]) c e = 1
      ∧ visits (lineStripSegments [a, b, c, d, e, f, e, c, a, b, d, f]) d f = 1
      ∧ lineLoopSegments [a, b, c, d, e, f, e, c, a, b, d, f]
          = lineStripSegments [a, b, c, d, e, f, e, c, a, b, d, f] ++ [(f, a)] := by
  obtain ⟨hoff, hslice⟩ := strip_slice pre post [a, b, c, d, e, f] (by simp) hid hcount
  have hcv : cellValues true [a, b, c, d, e, f]
      = [a, b, c, d, e, f, e, c, a, b, d, f] := by
    rw [cellValues_wire _ (by simp)]
    simp [evensReversed, oddsForward, List.range_succ, List.filter]
  simp only [List.nodup_cons, List.mem_cons, List.mem_singleton, List.not_mem_nil,
    not_or, or_false, List.nodup_nil, and_true, not_false_eq_true] at hd
  obtain ⟨⟨hab, hac, had, hae, haf⟩, ⟨hbc, hbd, hbe, hbf⟩, ⟨hcd, hce, hcf⟩, ⟨hde, hdf⟩,
    hef⟩ := hd
  refine ⟨_, hoff, by rw [← hcv]; exact hslice, rfl, ?_, ?_, ?_, ?_, ?_, ?_, ?_, ?_, ?_,
    rfl⟩ <;>
    simp [visits, lineStripSegments, List.countP_cons, hab, hac, had, hae, haf, hbc, hbd,
      hbe, hbf, hcd, hce, hcf, hde, hdf, hef, Ne.symm hab, Ne.symm hac, Ne.symm had,
      Ne.symm hae, Ne.symm haf, Ne.symm hbc, Ne.symm hbd, Ne.symm hbe, Ne.symm hbf,
      Ne.symm hcd, Ne.symm hce, Ne.symm hcf, Ne.symm hde, Ne.symm hdf, Ne.symm hef]

theorem C22_strip_wireframe_witness :
    ∃ off,
      (CreateMultiIndexBuffer ([[7, 8, 9]] ++ [0, 1, 2, 3, 4, 5] :: [[6, 7]]) true
        ).memoryOffsetArray[([[7, 8, 9]] : List (List Nat)).length]? = some (4 * off)
      ∧ (((CreateMultiIndexBuffer ([[7, 8, 9]] ++ [0, 1, 2, 3, 4, 5] :: [[6, 7]]) true
          ).indexArray.drop off).take 12) = [0, 1, 2, 3, 4, 5, 4, 2, 0, 1, 3, 5]
      ∧ (lineStripSegments [0, 1, 2, 3, 4, 5, 4, 2, 0, 1, 3, 5]).length = 11
      ∧ visits (lineStripSegments [0, 1, 2, 3, 4, 5, 4, 2, 0, 1, 3, 5]) 0 1 = 2
      ∧ visits (lineStripSegments [0, 1, 2, 3, 4, 5, 4, 2, 0, 1, 3, 5]) 1 2 = 1
      ∧ visits (lineStripSegments [0, 1, 2, 3, 4, 5, 4, 2, 0, 1, 3, 5]) 2 3 = 1
      ∧ visits (lineStripSegments [0, 1, 2, 3, 4, 5, 4, 2, 0, 1, 3, 5]) 3 4 = 1
      ∧ visits (lineStripSegments [0, 1, 2, 3, 4, 5, 4, 2, 0, 1, 3, 5]) 4 5 = 2
      ∧ visits (lineStripSegments [0, 1, 2, 3, 4, 5, 4, 2, 0, 1, 3, 5]) 0 2 = 1
      ∧ visits (lineStripSegments [0, 1, 2, 3, 4, 5, 4, 2, 0, 1, 3, 5]) 1 3 = 1
      ∧ visits (lineStripSegments [0, 1, 2, 3, 4, 5, 4, 2, 0, 1, 3, 5]) 2 4 = 1
      ∧ visits (lineStripSegments [0, 1, 2, 3, 4, 5, 4, 2, 0, 1, 3, 5]) 3 5 = 1
      ∧ lineLoopSegments [0, 1, 2, 3, 4, 5, 4, 2, 0, 1, 3, 5]
          = lineStripSegments [0, 1, 2, 3, 4, 5, 4, 2, 0, 1, 3, 5] ++ [(5, 0)] :=
  C22_strip_wireframe [[7, 8, 9]] [[6, 7]] 0 1 2 3 4 5 (by decide) (by decide) (by decide)

/-- C22 (counterexample): the 12 indices emitted for the strip `0 1 2 3 4 5`,
drawn as a line loop, visit the edge `{0,1}` twice, and the loop has the segment
from 5 back to 0, which is no edge of the strip. -/
theorem C22_edge_visited_twice_counterexample :
    visits (lineLoopSegments (CreateMultiIndexBuffer [[0, 1, 2, 3, 4, 5]] true).indexArray)
        0 1 = 2
    ∧ visits (lineLoopSegments
        (CreateMultiIndexBuffer [[0, 1, 2, 3, 4, 5]] true).indexArray) 5 0 = 1 := by
  decide

/-! ### Distinct sources -/

theorem keyedByHash_iff (c : ShaderCache) :
    c.keyedByHash = true
      ↔ ∀ e ∈ c.ShaderPrograms, ∃ sps, c.heap[e.2]? = some sps ∧ sps.md5Hash = e.1 := by
  simp only [ShaderCache.keyedByHash, List.all_eq_true]
  constructor
  · intro h e he
    have := h e he
    cases hs : c.heap[e.2]? with
    | none => rw [hs] at this; cases this
    | some sps =>
      rw [hs] at this
      exact ⟨sps, rfl, by simpa using this⟩
  · intro h e he
    obtain ⟨sps, hs, hk⟩ := h e he
    rw [hs]
    simpa using hk

theorem validPointers_of_keyedByHash (c : ShaderCache) (h : c.keyedByHash = true) :
    c.validPointers = true := by
  rw [validPointers_iff]
  intro e he
  obtain ⟨sps, hs, -⟩ := (keyedByHash_iff c).mp h e he
  by_contra hn
  rw [List.getElem?_eq_none (Nat.le_of_not_lt hn)] at hs
  cases hs

theorem GetShader_keyedByHash (md5 : List Char → List Char) (c : ShaderCache)
    (vs fs gs : List Char) (h : c.keyedByHash = true) :
    (GetShader md5 c vs fs gs).1.keyedByHash = true := by
  cases hl : c.ShaderPrograms.lookup (ComputeMD5 md5 vs fs gs) with
  | none =>
    rw [GetShader_absent md5 c vs fs gs hl, keyedByHash_iff]
    intro e he
    simp only [List.mem_cons] at he
    rcases he with he | he
    · subst he
      exact ⟨⟨vs, fs, gs, false, ComputeMD5 md5 vs fs gs⟩, by simp, rfl⟩
    · obtain ⟨sps, hs, hk⟩ := (keyedByHash_iff c).mp h e he
      have hlt : e.2 < c.heap.length := by
        by_contra hn
        rw [List.getElem?_eq_none (Nat.le_of_not_lt hn)] at hs
        cases hs
      exact ⟨sps, by simp only; rw [List.getElem?_append_left hlt]; exact hs, hk⟩
  | some p =>
    rw [GetShader_present md5 c vs fs gs p hl]
    rw [keyedByHash_iff] at h ⊢
    exact h

theorem GetShader_entry (md5 : List Char → List Char) (c : ShaderCache)
    (vs fs gs : List Char) (h : c.keyedByHash = true) :
    ∃ sps, (GetShader md5 c vs fs gs).1.heap[(GetShader md5 c vs fs gs).2]? = some sps
      ∧ sps.md5Hash = ComputeMD5 md5 vs fs gs := by
  obtain ⟨sps, hget, hlook, -⟩ :=
    GetShader_spec md5 c vs fs gs (validPointers_of_keyedByHash c h)
  obtain ⟨sps2, hs2, hk⟩ := (keyedByHash_iff _).mp (GetShader_keyedByHash md5 c vs fs gs h)
    _ (lookup_mem _ _ _ hlook)
  rw [hget] at hs2
  cases hs2
  exact ⟨sps, hget, hk⟩

/-- C23: let two source triples differ in one of the three texts (as they do when
one character of a text is changed, added or removed), and let the digest not
collide on the two concatenated texts (`NoCollision`).  Then on a cache whose map pairs point to
entries stored under their own hash, `GetShader` for the first triple and then
for the second returns pointers to two different entries, both in the cache, and
the stored hashes of the two entries, each the digest of its triple, differ. -/
theorem C23_distinct_entries (md5 : List Char → List Char) (c : ShaderCache)
    (vs fs gs vs2 fs2 gs2 : List Char) (hk : c.keyedByHash = true)
    (hdiff : (vs ≠ vs2 ∧ fs = fs2 ∧ gs = gs2) ∨ (vs = vs2 ∧ fs ≠ fs2 ∧ gs = gs2)
      ∨ (vs = vs2 ∧ fs = fs2 ∧ gs ≠ gs2))
    (hcol : NoCollision md5 (vs ++ fs ++ gs) (vs2 ++ fs2 ++ gs2)) :
    ∃ e1 e2,
      (GetShader md5 (GetShader md5 c vs fs gs).1 vs2 fs2 gs2).1.heap[
          (GetShader md5 c vs fs gs).2]? = some e1
      ∧ (GetShader md5 (GetShader md5 c vs fs gs).1 vs2 fs2 gs2).1.heap[
          (GetShader md5 (GetShader md5 c vs fs gs).1 vs2 fs2 gs2).2]? = some e2
      ∧ (GetShader md5 c vs fs gs).2
          ≠ (GetShader md5 (GetShader md5 c vs fs gs).1 vs2 fs2 gs2).2
      ∧ e1.md5Hash = ComputeMD5 md5 vs fs gs
      ∧ e2.md5Hash = ComputeMD5 md5 vs2 fs2 gs2
      ∧ e1.md5Hash ≠ e2.md5Hash := by
  have hne : vs ++ fs ++ gs ≠ vs2 ++ fs2 ++ gs2 := by
    rcases hdiff with ⟨h1, h2, h3⟩ | ⟨h1, h2, h3⟩ | ⟨h1, h2, h3⟩
    · subst h2 h3
      intro he
      rw [List.append_assoc, List.append_assoc] at he
      exact h1 (List.append_cancel_right he)
    · subst h1 h3
      intro he
      exact h2 (List.append_cancel_left (List.append_cancel_right he))
    · subst h1 h2
      intro he
      exact h3 (List.append_cancel_left he)
  have hhash : ComputeMD5 md5 vs fs gs ≠ ComputeMD5 md5 vs2 fs2 gs2 :=
    fun he => hne (hcol he)
  have hk1 := GetShader_keyedByHash md5 c vs fs gs hk
  obtain ⟨e1, hget1, hh1⟩ := GetShader_entry md5 c vs fs gs hk
  obtain ⟨e2, hget2, hh2⟩ := GetShader_entry md5 _ vs2 fs2 gs2 hk1
  obtain ⟨e1b, hget1b, -, -, -, hh1b, -⟩ :=
    (GetShader_keeps md5 (GetShader md5 c vs fs gs).1 vs2 fs2 gs2).2 _ e1 hget1
  refine ⟨e1b, e2, hget1b, hget2, ?_, hh1b.trans hh1, hh2, ?_⟩
  · intro hp
    rw [hp, hget2] at hget1b
    cases hget1b
    exact hhash (hh1.symm.trans (hh1b.symm.trans hh2))
  · rw [hh1b, hh1, hh2]
    exact hhash

theorem C23_distinct_entries_witness :
    ∃ e1 e2,
      (GetShader id (GetShader id sampleCache ['v'] ['f'] []).1 ['w'] ['f'] []).1.heap[
          (GetShader id sampleCache ['v'] ['f'] []).2]? = some e1
      ∧ (GetShader id (GetShader id sampleCache ['v'] ['f'] []).1 ['w'] ['f'] []).1.heap[
          (GetShader id (GetShader id sampleCache ['v'] ['f'] []).1 ['w'] ['f'] []).2]?
          = some e2
      ∧ (GetShader id sampleCache ['v'] ['f'] []).2
          ≠ (GetShader id (GetShader id sampleCache ['v'] ['f'] []).1 ['w'] ['f'] []).2
      ∧ e1.md5Hash = ComputeMD5 id ['v'] ['f'] []
      ∧ e2.md5Hash = ComputeMD5 id ['w'] ['f'] []
      ∧ e1.md5Hash ≠ e2.md5Hash :=
  C23_distinct_entries id sampleCache ['v'] ['f'] [] ['w'] ['f'] [] rfl
    (Or.inl ⟨by decide, rfl, rfl⟩) (fun h => h)

/-! ### The unlit quad -/

theorem replace_absent (fuel : Nat) (source search r : List Char) (all : Bool)
    (hfind : find search source = none) (hfuel : 0 < fuel) :
    replace fuel source search r all = some source := by
  cases fuel with
  | zero => omega
  | succ n => simp [replace, replaceLoop, hfind]

set_option maxRecDepth 100000 in
/-- C27 (as amended): with lighting off, `GetNeedToRebuildShader` computes light
complexity 0; and for a layout without colours, normals and texture coordinates,
surface representation, no picking and no depth peeling, `BuildShader` with that
complexity returns the no-lighting vertex template unchanged and the no-lighting
fragment template in which `uniformColorImpl` has been put in the place of
`//VTK::Color::Impl` and then `derivativeNormalImpl` in the place of
`//VTK::Normal::Impl`; the fragment text is the template itself when the template
has neither marker.  The fuel of each `replace` exceeds the number of double
slashes of the fragment template. -/
theorem C27_unlit_quad {F V D : Type} [LT D] [LE D]
    [DecidableRel (fun a b : D => a < b)] [DecidableRel (fun a b : D => a ≤ b)]
    [One D] [DecidableEq D] (h : ShaderHeaders) (fuel : Nat) (m : Mapper F)
    (poly : PolyData V) (slot : Slot) (ren : Renderer D) (actor : Actor D)
    (VS FS : List Char)
    (hlight : actor.Property.Lighting = false)
    (hrep : actor.Property.Representation = .VTK_SURFACE)
    (hcol : m.layout.ColorComponents = 0) (hnorm : m.layout.NormalOffset = 0)
    (htc : m.layout.TCoordComponents = 0)
    (hpick : ren.RenderWindowIsPicking = false ∧ ren.Selector = false)
    (hpeel : ren.LastRenderingUsedDepthPeeling = 0)
    (hf : dslash h.vtkglPolyDataFS < fuel) :
    computeLightComplexity poly slot ren actor = 0
    ∧ ∃ fs1 fs2,
        replace fuel h.vtkglPolyDataFS "//VTK::Color::Impl".toList uniformColorImpl h.all
          = some fs1
        ∧ replace fuel fs1 "//VTK::Normal::Impl".toList derivativeNormalImpl h.all
          = some fs2
        ∧ BuildShader h fuel m VS FS (computeLightComplexity poly slot ren actor) ren actor
          = some (h.vtkglPolyDataVSNoLighting, fs2, [])
        ∧ (find "//VTK::Color::Impl".toList h.vtkglPolyDataFS = none →
            find "//VTK::Normal::Impl".toList h.vtkglPolyDataFS = none →
            fs2 = h.vtkglPolyDataFS) := by
  have hlc : computeLightComplexity poly slot ren actor = 0 := by
    simp [computeLightComplexity, hlight]
  refine ⟨hlc, ?_⟩
  obtain ⟨fs1, h1, l1⟩ := replace_terminates "//VTK::Color::Impl".toList
    uniformColorImpl h.all fuel h.vtkglPolyDataFS (by decide) (by decide) hf
  obtain ⟨fs2, h2, -⟩ := replace_terminates "//VTK::Normal::Impl".toList
    derivativeNormalImpl h.all fuel fs1 (by decide) (by decide) (by omega)
  refine ⟨fs1, fs2, h1, h2, ?_, ?_⟩
  · have h1b := h1
    have h2b := h2
    unfold uniformColorImpl at h1b
    unfold derivativeNormalImpl at h2b
    have hw : ¬ actor.Property.Representation = .VTK_WIREFRAME := by
      rw [hrep]; decide
    simp only [BuildShader, hlc, baseSources, colorStage, normalStage, tcoordStage,
      pickingStage, depthPeelingStage, hcol, hnorm, htc, hpick.1, hpick.2, hpeel, hw, h1b,
      h2b, if_true, if_false, ne_eq, not_true_eq_false, Bool.or_self,
      Bool.false_eq_true, Option.bind_eq_bind, Option.some_bind, Option.pure_def]
  · intro c1 c2
    have hfuel : 0 < fuel := by omega
    rw [replace_absent fuel _ _ _ _ c1 hfuel] at h1
    cases h1
    rw [replace_absent fuel _ _ _ _ c2 hfuel] at h2
    cases h2
    rfl

set_option maxRecDepth 100000 in
theorem C27_unlit_quad_witness :
    computeLightComplexity sampleQuad .tris sampleRenderer sampleUnlitActor = 0
    ∧ ∃ fs1 fs2,
        replace 8 sampleHeaders.vtkglPolyDataFS "//VTK::Color::Impl".toList
          uniformColorImpl sampleHeaders.all = some fs1
        ∧ replace 8 fs1 "//VTK::Normal::Impl".toList derivativeNormalImpl
          sampleHeaders.all = some fs2
        ∧ BuildShader sampleHeaders 8 sampleQuadMapper [] []
            (computeLightComplexity sampleQuad .tris sampleRenderer sampleUnlitActor)
            sampleRenderer sampleUnlitActor
          = some (sampleHeaders.vtkglPolyDataVSNoLighting, fs2, [])
        ∧ (find "//VTK::Color::Impl".toList sampleHeaders.vtkglPolyDataFS = none →
            find "//VTK::Normal::Impl".toList sampleHeaders.vtkglPolyDataFS = none →
            fs2 = sampleHeaders.vtkglPolyDataFS) :=
  C27_unlit_quad sampleHeaders 8 sampleQuadMapper sampleQuad .tris sampleRenderer
    sampleUnlitActor [] [] rfl rfl rfl rfl rfl ⟨rfl, rfl⟩ rfl (by decide)

set_option maxRecDepth 100000 in
/-- C27 (counterexample): for the unit quad with lighting off and the sample
templates, whose no-lighting fragment template has the insertion points
`//VTK::Color::Impl` and `//VTK::Normal::Impl`, the fragment text that
`BuildShader` returns holds the uniform colour formula at position 32 and the
derivative normal formula at position 147. -/
theorem C27_text_substituted_counterexample :
    (BuildShader sampleHeaders 8 sampleQuadMapper [] []
        (computeLightComplexity sampleQuad .tris sampleRenderer sampleUnlitActor)
        sampleRenderer sampleUnlitActor).map
      (fun r => (find uniformColorImpl r.2.1, find derivativeNormalImpl r.2.1))
      = some (some 32, some 147) := by
  decide

/-! ### Switched-off lights -/

/-- C28 (failing input): the collections `headlight` and `headlight, switched-off
positional light` contain the same switched-on lights, and for the triangle slot
of a lit surface actor `GetNeedToRebuildShader` computes light complexity 1 for
the first and 3 for the second. -/
theorem C28_switched_off_light_counts :
    [sampleHeadlight, sampleOffPositional].filter (fun l => decide (l.Switch > 0))
      = [sampleHeadlight].filter (fun l => decide (l.Switch > 0))
    ∧ computeLightComplexity sampleTwoTriangles .tris
        ⟨[sampleHeadlight], false, false, false, 0⟩ sampleActor = 1
    ∧ computeLightComplexity sampleTwoTriangles .tris
        ⟨[sampleHeadlight, sampleOffPositional], false, false, false, 0⟩ sampleActor = 3 :=
  ⟨rfl, rfl, rfl⟩

/-! ### A failed compilation -/

set_option maxRecDepth 100000 in
/-- C24 (counterexample): `UpdateShader` on the triangle slot of `sampleDrawState`
with a failing compilation of the vertex stage returns `sampleAfterFailure`: the
entry of the cache is not compiled and the slot holds no program, yet
`ShaderSourceTime` of the slot has gone from 0 to 12.  With nothing changed,
`GetNeedToRebuildShader` then returns false, and the next `UpdateShader` adds no
call of `BuildShader`, `GetShader` or `CompileShader` to the one of each made
before: it hands the null program of the slot to `ReadyShader`. -/
theorem C24_build_time_advances_counterexample :
    UpdateShader sampleHeaders id 8 ⟨false, true, true, true, true⟩ sampleDrawState
        sampleTwoTriangles .tris sampleRenderer sampleActor = some sampleAfterFailure
    ∧ sampleAfterFailure.cache.heap.map (fun e => e.Compiled) = [false]
    ∧ (sampleAfterFailure.mapper.slot .tris).CachedProgram = none
    ∧ (sampleDrawState.mapper.slot .tris).ShaderSourceTime = 0
    ∧ (sampleAfterFailure.mapper.slot .tris).ShaderSourceTime = 12
    ∧ (GetNeedToRebuildShader sampleAfterFailure sampleTwoTriangles .tris sampleRenderer
        sampleActor).2 = false
    ∧ (sampleAfterFailure.calls.countP MapperCall.isBuildShader,
        sampleAfterFailure.cache.calls.countP CacheCall.isGetShader,
        sampleAfterFailure.cache.calls.count (.CompileShader 0)) = (1, 1, 1)
    ∧ (UpdateShader sampleHeaders id 8 ⟨true, true, true, true, true⟩ sampleAfterFailure
        sampleTwoTriangles .tris sampleRenderer sampleActor).map
        (fun s => (s.calls.countP MapperCall.isBuildShader,
          s.cache.calls.countP CacheCall.isGetShader,
          s.cache.calls.count (.CompileShader 0),
          s.calls.count (.ReadyNull .tris)))
      = some (1, 1, 1, 1) :=
  ⟨rfl, rfl, rfl, rfl, rfl, rfl, rfl, rfl⟩

set_option maxRecDepth 100000 in
/-- C25 (failing input): in the `UpdateShader` on the triangle slot of
`sampleDrawState` with a failing compilation of the vertex stage, `ReadyShader`
returns no program, the slot holds the null pointer, and after `BuildShader` the
methods `SetMapperShaderParameters`, `SetPropertyShaderParameters` and
`SetCameraShaderParameters` each evaluate `cellBO.CachedProgram->Program` on that
null pointer. -/
theorem C25_setters_use_null_program :
    (UpdateShader sampleHeaders id 8 ⟨false, true, true, true, true⟩ sampleDrawState
        sampleTwoTriangles .tris sampleRenderer sampleActor).map
        (fun s => ((s.mapper.slot .tris).CachedProgram, s.calls))
      = some (none,
          [.BuildShader .tris, .Program .SetMapperShaderParameters none,
            .Program .SetPropertyShaderParameters none,
            .Program .SetCameraShaderParameters none]) :=
  rfl

set_option maxRecDepth 100000 in
/-- C26 (failing input): two frames of `RenderPieceDraw` on `sampleMixedState`
(a line and a triangle, lighting on, no normals, one headlight), nothing changing
in between and every compilation succeeding: the first frame calls `BuildShader`
twice, and the second frame calls it twice again, once for the line slot and once
for the triangle slot; the light complexity recorded after each frame is that
of the triangle slot, 1, while the line slot computes 0. -/
theorem C26_mixed_slots_rebuild :
    (RenderPieceDraw sampleHeaders id 8 (fun _ => ⟨true, true, true, true, true⟩)
        sampleMixedState sampleLineAndTriangle sampleHeadlightRenderer sampleActor).bind
      (fun s1 =>
        (RenderPieceDraw sampleHeaders id 8 (fun _ => ⟨true, true, true, true, true⟩)
          s1 sampleLineAndTriangle sampleHeadlightRenderer sampleActor).map
        (fun s2 => (s1.calls.countP MapperCall.isBuildShader,
          s2.calls.countP MapperCall.isBuildShader,
          s2.calls.count (.BuildShader .lines), s2.calls.count (.BuildShader .tris),
          s1.mapper.LastLightComplexity,
          computeLightComplexity sampleLineAndTriangle .lines sampleHeadlightRenderer
            sampleActor)))
      = some (2, 4, 2, 2, 1, 0) :=
  rfl

/-- After a rebuilding `UpdateShader`, with time stamps at most the clock before
it and nothing changed since: the slot holds what `ReadyShader` returned, its
`ShaderSourceTime` is later than the clock before the call, and the next
`GetNeedToRebuildShader` leaves the state alone and returns false. -/
theorem UpdateShader_then_unchanged {F V D : Type} [LT D] [LE D]
    [DecidableRel (fun a b : D => a < b)] [DecidableRel (fun a b : D => a ≤ b)]
    [One D] [DecidableEq D] (h : ShaderHeaders) (md5 : List Char → List Char)
    (fuel : Nat) (gl : CompileOutcome) (s s1 : RenderState F)
    (poly poly2 : PolyData V) (slot : Slot) (ren ren2 : Renderer D)
    (actor actor2 : Actor D)
    (hclock : s.mapper.MTime ≤ s.clock ∧ actor.MTime ≤ s.clock ∧ poly.MTime ≤ s.clock
      ∧ s.mapper.SelectionStateChanged ≤ s.clock
      ∧ s.mapper.DepthPeelingChanged ≤ s.clock
      ∧ s.mapper.LightComplexityChanged ≤ s.clock)
    (hneed : (GetNeedToRebuildShader s poly slot ren actor).2 = true)
    (hfirst : UpdateShader h md5 fuel gl s poly slot ren actor = some s1)
    (hactor : actor2.MTime = actor.MTime) (hpoly : poly2.MTime = poly.MTime)
    (hlc : computeLightComplexity poly2 slot ren2 actor2 = s1.mapper.LastLightComplexity)
    (hpick : (ren2.IsPicking || ren2.Selector) = s1.mapper.LastSelectionState)
    (hpeel : ren2.LastRenderingUsedDepthPeeling = s1.mapper.LastDepthPeeling) :
    ∃ sources ready,
      BuildShader h fuel (GetNeedToRebuildShader s poly slot ren actor).1.mapper [] []
          (GetNeedToRebuildShader s poly slot ren actor).1.mapper.LastLightComplexity
          ren actor = some sources
      ∧ ReadyShader md5 gl (GetNeedToRebuildShader s poly slot ren actor).1.cache
          sources.1 sources.2.1 sources.2.2 = some ready
      ∧ s1.cache = ready.1
      ∧ (s1.mapper.slot slot).CachedProgram = ready.2
      ∧ s.clock < (s1.mapper.slot slot).ShaderSourceTime
      ∧ (GetNeedToRebuildShader s1 poly2 slot ren2 actor2).1 = s1
      ∧ (GetNeedToRebuildShader s1 poly2 slot ren2 actor2).2 = false := by
  obtain ⟨hc1, hc2, hc3, hc4, hc5, hc6⟩ := hclock
  obtain ⟨-, -, gclock, gmt, -, -, -, -, glc, gdp, gss⟩ :=
    GetNeedToRebuildShader_state s poly slot ren actor
  obtain ⟨sources, ready, s2, hbuild, hready, hs2, hs1⟩ :=
    UpdateShader_rebuild h md5 fuel gl s s1 poly slot ren actor hneed hfirst
  obtain ⟨f1, f2, f3, -, -, f6, f7, f8, f9, f10, f11, f12, f13, -, -⟩ :=
    hs1 ▸ uploadParameters_framed s2 slot ren
  obtain ⟨t1, -, t3, t4, t5, t6, t7, t8, t9, t10, t11, t12⟩ :=
    storeProgram_spec
      { (GetNeedToRebuildShader s poly slot ren actor).1.call (.BuildShader slot)
        with cache := ready.1 } slot ready.2
  rw [← hs2] at t1 t3 t4 t5 t6 t7 t8 t9 t10 t11 t12
  have hfix := GetNeedToRebuildShader_fixed s1 poly2 slot ren2 actor2 hlc.symm hpeel.symm
    hpick.symm
  have hsst : (s1.mapper.slot slot).ShaderSourceTime
      = (GetNeedToRebuildShader s poly slot ren actor).1.clock + 1 := by
    rw [f13 slot, t5]; rfl
  refine ⟨sources, ready, hbuild, hready, by rw [f1, t1], by rw [f12 slot, t4],
    by rw [hsst]; omega, hfix, ?_⟩
  rw [GetNeedToRebuildShader_result, hfix, decide_eq_false_iff_not, hsst, f3, t6, f11,
    t12, f10, t11, f9, t10, hactor, hpoly]
  have a1 := glc hc6
  have a2 := gdp hc5
  have a3 := gss hc4
  have a4 : (GetNeedToRebuildShader s poly slot ren actor).1.mapper.MTime
      = s.mapper.MTime := gmt
  simp only [RenderState.call] at *
  omega

/-- C24 (as amended): let `UpdateShader` rebuild the shader of a slot and
`ReadyShader` return no program, so that the slot holds the null pointer
afterwards (time stamps, that of the slot included, being at most the clock
before).  Then `ShaderSourceTime` of the slot has advanced all the same, and with
the actor and the input keeping their `MTime` and the computed light complexity,
picking state and depth-peeling state equal to the recorded ones,
`GetNeedToRebuildShader` returns false for the slot on the next `UpdateShader`,
which returns, adds no call of `BuildShader` and leaves the cache as it is: no
`GetShader` and no `CompileShader` is made. -/
theorem C24_failed_build_not_retried {F V D : Type} [LT D] [LE D]
    [DecidableRel (fun a b : D => a < b)] [DecidableRel (fun a b : D => a ≤ b)]
    [One D] [DecidableEq D] (h : ShaderHeaders) (md5 : List Char → List Char)
    (fuel : Nat) (gl1 gl2 : CompileOutcome) (s s1 : RenderState F)
    (poly poly2 : PolyData V) (slot : Slot) (ren ren2 : Renderer D)
    (actor actor2 : Actor D)
    (hclock : s.mapper.MTime ≤ s.clock ∧ actor.MTime ≤ s.clock ∧ poly.MTime ≤ s.clock
      ∧ s.mapper.SelectionStateChanged ≤ s.clock
      ∧ s.mapper.DepthPeelingChanged ≤ s.clock
      ∧ s.mapper.LightComplexityChanged ≤ s.clock)
    (hslot : (s.mapper.slot slot).ShaderSourceTime ≤ s.clock)
    (hneed : (GetNeedToRebuildShader s poly slot ren actor).2 = true)
    (hfirst : UpdateShader h md5 fuel gl1 s poly slot ren actor = some s1)
    (hnull : (s1.mapper.slot slot).CachedProgram = none)
    (hactor : actor2.MTime = actor.MTime) (hpoly : poly2.MTime = poly.MTime)
    (hlc : computeLightComplexity poly2 slot ren2 actor2 = s1.mapper.LastLightComplexity)
    (hpick : (ren2.IsPicking || ren2.Selector) = s1.mapper.LastSelectionState)
    (hpeel : ren2.LastRenderingUsedDepthPeeling = s1.mapper.LastDepthPeeling) :
    (∃ sources ready,
      BuildShader h fuel (GetNeedToRebuildShader s poly slot ren actor).1.mapper [] []
          (GetNeedToRebuildShader s poly slot ren actor).1.mapper.LastLightComplexity
          ren actor = some sources
      ∧ ReadyShader md5 gl1 (GetNeedToRebuildShader s poly slot ren actor).1.cache
          sources.1 sources.2.1 sources.2.2 = some ready
      ∧ ready.2 = none)
    ∧ (s.mapper.slot slot).ShaderSourceTime < (s1.mapper.slot slot).ShaderSourceTime
    ∧ (GetNeedToRebuildShader s1 poly2 slot ren2 actor2).2 = false
    ∧ ∃ s2, UpdateShader h md5 fuel gl2 s1 poly2 slot ren2 actor2 = some s2
      ∧ s2.calls.countP MapperCall.isBuildShader
          = s1.calls.countP MapperCall.isBuildShader
      ∧ s2.cache = s1.cache
      ∧ (s2.mapper.slot slot).CachedProgram = none := by
  obtain ⟨sources, ready, hbuild, hready, -, hprog, hsst, hfix, hno⟩ :=
    UpdateShader_then_unchanged h md5 fuel gl1 s s1 poly poly2 slot ren ren2 actor actor2
      hclock hneed hfirst hactor hpoly hlc hpick hpeel
  refine ⟨⟨sources, ready, hbuild, hready, by rw [← hprog]; exact hnull⟩, by omega, hno,
    ?_⟩
  obtain ⟨u1, -, -, -, -, -, -, -, -, -, -, u12, -, -, u15⟩ :=
    uploadParameters_framed (s1.call (.ReadyNull slot)) slot ren2
  refine ⟨uploadParameters (s1.call (.ReadyNull slot)) slot ren2, ?_, ?_, u1, ?_⟩
  · unfold UpdateShader
    simp only [hno, hfix, Bool.false_eq_true, if_false, readyCachedProgram, hnull,
      Option.bind_eq_bind, Option.pure_def, Option.some_bind]
  · rw [u15]
    simp [RenderState.call, List.countP_append, MapperCall.isBuildShader]
  · rw [u12 slot]
    exact hnull

set_option maxRecDepth 100000 in
theorem C24_failed_build_not_retried_witness :
    (∃ sources ready,
      BuildShader sampleHeaders 8
          (GetNeedToRebuildShader sampleDrawState sampleTwoTriangles .tris sampleRenderer
            sampleActor).1.mapper [] []
          (GetNeedToRebuildShader sampleDrawState sampleTwoTriangles .tris sampleRenderer
            sampleActor).1.mapper.LastLightComplexity
          sampleRenderer sampleActor = some sources
      ∧ ReadyShader id ⟨false, true, true, true, true⟩
          (GetNeedToRebuildShader sampleDrawState sampleTwoTriangles .tris sampleRenderer
            sampleActor).1.cache
          sources.1 sources.2.1 sources.2.2 = some ready
      ∧ ready.2 = none)
    ∧ (sampleDrawState.mapper.slot .tris).ShaderSourceTime
        < (sampleAfterFailure.mapper.slot .tris).ShaderSourceTime
    ∧ (GetNeedToRebuildShader sampleAfterFailure sampleTwoTriangles .tris sampleRenderer
        sampleActor).2 = false
    ∧ ∃ s2, UpdateShader sampleHeaders id 8 ⟨true, true, true, true, true⟩
          sampleAfterFailure sampleTwoTriangles .tris sampleRenderer sampleActor = some s2
      ∧ s2.calls.countP MapperCall.isBuildShader
          = sampleAfterFailure.calls.countP MapperCall.isBuildShader
      ∧ s2.cache = sampleAfterFailure.cache
      ∧ (s2.mapper.slot .tris).CachedProgram = none :=
  C24_failed_build_not_retried sampleHeaders id 8 ⟨false, true, true, true, true⟩
    ⟨true, true, true, true, true⟩ sampleDrawState sampleAfterFailure
    sampleTwoTriangles sampleTwoTriangles .tris sampleRenderer sampleRenderer
    sampleActor sampleActor (by decide) (by decide) rfl rfl rfl rfl rfl rfl rfl rfl

/-! ### Results of `ReadyShader` and the key of the cache -/

/-- C31: in a cache whose map holds pointers to entries, `ReadyShader` on three
source texts returns; when it returns a program, the entry is marked compiled and
is `LastShaderBound`; when it returns no program, the entry that `GetShader` gave
was not compiled and `CompileShader` returned 0 for it, one of the five back-end
steps having failed.  The same holds of `ReadyShader` on a pointer to an entry. -/
theorem C31_ready_shader_result (md5 : List Char → List Char) (gl : CompileOutcome)
    (c : ShaderCache) (vs fs gs : List Char) (hv : c.validPointers = true) :
    (∃ c1 r, ReadyShader md5 gl c vs fs gs = some (c1, r)
      ∧ (∀ p, r = some p →
          p = (GetShader md5 c vs fs gs).2 ∧ c1.LastShaderBound = some p
          ∧ ∃ e, c1.heap[p]? = some e ∧ e.Compiled = true)
      ∧ (r = none →
          gl.ok = false
          ∧ (∃ sps, (GetShader md5 c vs fs gs).1.heap[(GetShader md5 c vs fs gs).2]?
              = some sps ∧ sps.Compiled = false)
          ∧ ∃ c2, CompileShader gl (GetShader md5 c vs fs gs).1
              (GetShader md5 c vs fs gs).2 = some (c2, 0)))
    ∧ (∀ s sps, c.heap[s]? = some sps →
        ∃ c1 r, ReadyShaderCached gl c s = some (c1, r)
          ∧ (∀ p, r = some p →
              p = s ∧ c1.LastShaderBound = some p
              ∧ ∃ e, c1.heap[p]? = some e ∧ e.Compiled = true)
          ∧ (r = none →
              gl.ok = false ∧ sps.Compiled = false
              ∧ ∃ c2, CompileShader gl c s = some (c2, 0))) := by
  have key : ∀ (c : ShaderCache) (s : Nat) (sps : CachedShaderProgram),
      c.heap[s]? = some sps →
      ∃ c1 r, ReadyShaderCached gl c s = some (c1, r)
        ∧ (∀ p, r = some p →
            p = s ∧ c1.LastShaderBound = some p
            ∧ ∃ e, c1.heap[p]? = some e ∧ e.Compiled = true)
        ∧ (r = none →
            gl.ok = false ∧ sps.Compiled = false
            ∧ ∃ c2, CompileShader gl c s = some (c2, 0)) := by
    intro c s sps hs
    obtain ⟨c1, r, t, hr, -, -, -, hcase⟩ := ReadyShaderCached_spec gl c s sps hs
    refine ⟨c1, r, hr, ?_, ?_⟩
    · intro p hp
      subst hp
      exact ReadyShaderCached_some gl c c1 s p hr
    · intro hn
      rcases hcase with ⟨-, h2, -⟩ | ⟨-, -, h2, -⟩ | ⟨h1, h2, -, -⟩
      · rw [hn] at h2; cases h2
      · rw [hn] at h2; cases h2
      · refine ⟨h2, h1, ?_⟩
        obtain ⟨c2, r2, t2, hc, -, -, -, -, hres⟩ := CompileShader_spec gl c s sps hs
        rcases hres with ⟨hok, -, -⟩ | ⟨-, hr0, -⟩
        · rw [h2] at hok; cases hok
        · exact ⟨c2, by rw [hc, hr0]⟩
  refine ⟨?_, key c⟩
  obtain ⟨sps, hsps, -⟩ := GetShader_spec md5 c vs fs gs hv
  obtain ⟨c1, r, hr, h1, h2⟩ := key _ _ sps hsps
  refine ⟨c1, r, by rw [ReadyShader_eq]; exact hr, h1, ?_⟩
  intro hn
  obtain ⟨a, b, d⟩ := h2 hn
  exact ⟨a, ⟨sps, hsps, b⟩, d⟩

set_option maxRecDepth 100000 in
theorem C31_ready_shader_result_witness :
    (∃ c1 r, ReadyShader id ⟨false, true, true, true, true⟩ sampleCache ['v'] ['f'] []
        = some (c1, r)
      ∧ (∀ p, r = some p →
          p = (GetShader id sampleCache ['v'] ['f'] []).2 ∧ c1.LastShaderBound = some p
          ∧ ∃ e, c1.heap[p]? = some e ∧ e.Compiled = true)
      ∧ (r = none →
          (⟨false, true, true, true, true⟩ : CompileOutcome).ok = false
          ∧ (∃ sps, (GetShader id sampleCache ['v'] ['f'] []).1.heap[
              (GetShader id sampleCache ['v'] ['f'] []).2]?
              = some sps ∧ sps.Compiled = false)
          ∧ ∃ c2, CompileShader ⟨false, true, true, true, true⟩
              (GetShader id sampleCache ['v'] ['f'] []).1
              (GetShader id sampleCache ['v'] ['f'] []).2 = some (c2, 0)))
    ∧ (∀ s sps, sampleCache.heap[s]? = some sps →
        ∃ c1 r, ReadyShaderCached ⟨false, true, true, true, true⟩ sampleCache s
            = some (c1, r)
          ∧ (∀ p, r = some p →
              p = s ∧ c1.LastShaderBound = some p
              ∧ ∃ e, c1.heap[p]? = some e ∧ e.Compiled = true)
          ∧ (r = none →
              (⟨false, true, true, true, true⟩ : CompileOutcome).ok = false
              ∧ sps.Compiled = false
              ∧ ∃ c2, CompileShader ⟨false, true, true, true, true⟩ sampleCache s
                  = some (c2, 0))) :=
  C31_ready_shader_result id ⟨false, true, true, true, true⟩ sampleCache ['v'] ['f'] []
    (by decide)

/-- C39: `GetShader` looks the entry up under the digest of `vs ++ fs ++ gs`.  When
two triples of texts have the same concatenation, a `GetShader` for the second
after one for the first returns the pointer that the first returned and leaves
the entries and the map as they are; and when the first call found no entry under
the key, the entry returned by the second call is the one the first call created,
with the vertex, fragment and geometry texts of the first call. -/
theorem C39_concatenation_key (md5 : List Char → List Char) (c : ShaderCache)
    (vs fs gs vs2 fs2 gs2 : List Char) (hv : c.validPointers = true)
    (hcat : vs ++ fs ++ gs = vs2 ++ fs2 ++ gs2) :
    ComputeMD5 md5 vs2 fs2 gs2 = ComputeMD5 md5 vs fs gs
    ∧ (GetShader md5 (GetShader md5 c vs fs gs).1 vs2 fs2 gs2).2
        = (GetShader md5 c vs fs gs).2
    ∧ (GetShader md5 (GetShader md5 c vs fs gs).1 vs2 fs2 gs2).1.heap
        = (GetShader md5 c vs fs gs).1.heap
    ∧ (GetShader md5 (GetShader md5 c vs fs gs).1 vs2 fs2 gs2).1.ShaderPrograms
        = (GetShader md5 c vs fs gs).1.ShaderPrograms
    ∧ (c.ShaderPrograms.lookup (ComputeMD5 md5 vs fs gs) = none →
        (GetShader md5 c vs fs gs).2 = c.heap.length
        ∧ (GetShader md5 (GetShader md5 c vs fs gs).1 vs2 fs2 gs2).1.heap[
            (GetShader md5 (GetShader md5 c vs fs gs).1 vs2 fs2 gs2).2]?
          = some ⟨vs, fs, gs, false, ComputeMD5 md5 vs fs gs⟩) := by
  have hkey : ComputeMD5 md5 vs2 fs2 gs2 = ComputeMD5 md5 vs fs gs := by
    simp only [ComputeMD5, hcat]
  obtain ⟨sps, hsps, hlook, -, -, -, hnew, -⟩ := GetShader_spec md5 c vs fs gs hv
  have h2 := GetShader_present md5 (GetShader md5 c vs fs gs).1 vs2 fs2 gs2
    (GetShader md5 c vs fs gs).2 (by rw [hkey]; exact hlook)
  refine ⟨hkey, by rw [h2], by rw [h2], by rw [h2], ?_⟩
  intro hnone
  refine ⟨by rw [GetShader_absent md5 c vs fs gs hnone], ?_⟩
  rw [h2]
  simp only []
  rw [hsps, hnew hnone]

set_option maxRecDepth 100000 in
theorem C39_concatenation_key_witness :
    ComputeMD5 id "a".toList "bc".toList [] = ComputeMD5 id "ab".toList "c".toList []
    ∧ (GetShader id (GetShader id ShaderCache.new "ab".toList "c".toList []).1
        "a".toList "bc".toList []).2
        = (GetShader id ShaderCache.new "ab".toList "c".toList []).2
    ∧ (GetShader id (GetShader id ShaderCache.new "ab".toList "c".toList []).1
        "a".toList "bc".toList []).1.heap
        = (GetShader id ShaderCache.new "ab".toList "c".toList []).1.heap
    ∧ (GetShader id (GetShader id ShaderCache.new "ab".toList "c".toList []).1
        "a".toList "bc".toList []).1.ShaderPrograms
        = (GetShader id ShaderCache.new "ab".toList "c".toList []).1.ShaderPrograms
    ∧ (ShaderCache.new.ShaderPrograms.lookup
          (ComputeMD5 id "ab".toList "c".toList []) = none →
        (GetShader id ShaderCache.new "ab".toList "c".toList []).2
          = ShaderCache.new.heap.length
        ∧ (GetShader id (GetShader id ShaderCache.new "ab".toList "c".toList []).1
            "a".toList "bc".toList []).1.heap[
            (GetShader id (GetShader id ShaderCache.new "ab".toList "c".toList []).1
              "a".toList "bc".toList []).2]?
          = some ⟨"ab".toList, "c".toList, [], false,
              ComputeMD5 id "ab".toList "c".toList []⟩) :=
  C39_concatenation_key id ShaderCache.new "ab".toList "c".toList [] "a".toList
    "bc".toList [] (by decide) (by decide)

/-! ### The light complexity in closed form -/

/-- The loop over the lights started with complexity 2: it ends with 3 if a light is
positional and with 2 otherwise. -/
theorem lightLoop_two {D : Type} [One D] [DecidableEq D] :
    ∀ (lights : List (Light D)) (n : Nat),
      lightLoop lights 2 n = if lights.any (fun l => l.Positional) then 3 else 2 := by
  intro lights
  induction lights with
  | nil => intro n; rfl
  | cons l rest ih =>
    intro n
    simp only [lightLoop, List.any_cons]
    by_cases hp : l.Positional = true
    · simp [hp]
    · simp [hp, ih]

/-- The loop over the lights started with complexity 1 and `n` lights counted. -/
theorem lightLoop_one {D : Type} [One D] [DecidableEq D] :
    ∀ (lights : List (Light D)) (n : Nat),
      lightLoop lights 1 n
        = if lights.any (fun l => l.Positional) then 3
          else if (0 < lights.length
                ∧ 2 ≤ n + (lights.filter (fun l => decide (l.Switch > 0))).length)
              ∨ lights.any (fun l => decide (l.Intensity ≠ 1
                  ∨ l.LightType ≠ .VTK_LIGHT_TYPE_HEADLIGHT)) = true then 2
          else 1 := by
  intro lights
  induction lights with
  | nil => intro n; simp [lightLoop]
  | cons l rest ih =>
    intro n
    have hlen : (rest.filter (fun l => decide (l.Switch > 0))).length ≤ rest.length :=
      List.length_filter_le _ _
    simp only [lightLoop, List.any_cons, List.filter_cons]
    by_cases hp : l.Positional = true
    · have hlt : ∀ (P : Prop) [Decidable P], (if P then (2 : Int) else 1) < 3 := by
        intro P _; split_ifs <;> decide
      simp only [hp, and_true, hlt, if_true, Bool.true_or]
    · simp only [hp, and_false, if_false, Bool.false_or, true_and, Bool.false_eq_true]
      by_cases hs : l.Switch > 0
      · simp only [hs, if_true, decide_True, List.length_cons, ↓reduceIte]
        by_cases hq : l.Intensity ≠ 1 ∨ l.LightType ≠ .VTK_LIGHT_TYPE_HEADLIGHT
        · simp [hq, lightLoop_two]
        · by_cases hn : n + 1 > 1
          · have h2 : 2 ≤ n + ((rest.filter (fun l => decide (l.Switch > 0))).length + 1) := by
              omega
            simp [hq, hn, lightLoop_two, h2]
          · have hn0 : n = 0 := by omega
            subst hn0
            simp only [hq, hn, or_self, if_false, ih, decide_False, Bool.false_or]
            have e : (0 < rest.length + 1
                  ∧ 2 ≤ 0 + ((rest.filter (fun l => decide (l.Switch > 0))).length + 1))
                ↔ (0 < rest.length
                  ∧ 2 ≤ 0 + 1 + (rest.filter (fun l => decide (l.Switch > 0))).length) := by
              constructor <;> intro h <;> omega
            simp only [e]
      · simp only [hs, if_false, decide_False, List.length_cons, ↓reduceIte,
          Bool.false_eq_true]
        by_cases hq : l.Intensity ≠ 1 ∨ l.LightType ≠ .VTK_LIGHT_TYPE_HEADLIGHT
        · simp [hq, lightLoop_two]
        · by_cases hn : n > 1
          · have h2 : 2 ≤ n + (rest.filter (fun l => decide (l.Switch > 0))).length := by
              omega
            simp [hq, hn, lightLoop_two, h2]
          · simp only [hq, hn, or_self, if_false, ih, decide_False, Bool.false_or]
            have e : (0 < rest.length + 1
                  ∧ 2 ≤ n + (rest.filter (fun l => decide (l.Switch > 0))).length)
                ↔ (0 < rest.length
                  ∧ 2 ≤ n + (rest.filter (fun l => decide (l.Switch > 0))).length) := by
              constructor <;> intro h <;> omega
            simp only [e]

/-- C36: lighting is needed for a slot when, in points representation, the
interpolation is not flat and the input has point normals, and otherwise when the
slot is the triangle or the strip slot or the interpolation is not flat and the
input has point normals.  The light complexity that `GetNeedToRebuildShader`
computes is 0 exactly when the lighting of the actor is off or lighting is not
needed; otherwise it is 3 if a light of the collection is positional, else 2 if at
least two lights are switched on or a light has an intensity other than 1 or is
not a headlight, else 1 (so 1 for the empty collection). -/
theorem C36_light_complexity {V D : Type} [One D] [DecidableEq D] (poly : PolyData V)
    (slot : Slot) (ren : Renderer D) (actor : Actor D) :
    (needLighting poly slot actor = true
      ↔ if actor.Property.Representation = .VTK_POINTS then
          actor.Property.Interpolation ≠ .VTK_FLAT ∧ poly.Normals.isSome = true
        else
          (slot = .tris ∨ slot = .triStrips)
          ∨ (actor.Property.Interpolation ≠ .VTK_FLAT ∧ poly.Normals.isSome = true))
    ∧ (computeLightComplexity poly slot ren actor = 0
      ↔ actor.Property.Lighting = false ∨ needLighting poly slot actor = false)
    ∧ (actor.Property.Lighting = true → needLighting poly slot actor = true →
        computeLightComplexity poly slot ren actor
          = if ren.Lights.any (fun l => l.Positional) then 3
            else if 2 ≤ (ren.Lights.filter (fun l => decide (l.Switch > 0))).length
                ∨ ren.Lights.any (fun l => decide (l.Intensity ≠ 1
                    ∨ l.LightType ≠ .VTK_LIGHT_TYPE_HEADLIGHT)) = true then 2
            else 1)
    ∧ (actor.Property.Lighting = true → needLighting poly slot actor = true →
        ren.Lights = [] → computeLightComplexity poly slot ren actor = 1) := by
  have hlen : (ren.Lights.filter (fun l => decide (l.Switch > 0))).length
      ≤ ren.Lights.length := List.length_filter_le _ _
  have hval : actor.Property.Lighting = true → needLighting poly slot actor = true →
      computeLightComplexity poly slot ren actor
        = if ren.Lights.any (fun l => l.Positional) then 3
          else if 2 ≤ (ren.Lights.filter (fun l => decide (l.Switch > 0))).length
              ∨ ren.Lights.any (fun l => decide (l.Intensity ≠ 1
                  ∨ l.LightType ≠ .VTK_LIGHT_TYPE_HEADLIGHT)) = true then 2
          else 1 := by
    intro h1 h2
    have e : (0 < ren.Lights.length
          ∧ 2 ≤ 0 + (ren.Lights.filter (fun l => decide (l.Switch > 0))).length)
        ↔ 2 ≤ (ren.Lights.filter (fun l => decide (l.Switch > 0))).length := by
      constructor <;> intro h <;> omega
    simp only [computeLightComplexity, h1, h2, Bool.and_self, if_true, lightLoop_one, e]
  refine ⟨?_, ?_, hval, ?_⟩
  · unfold needLighting
    by_cases hr : actor.Property.Representation = .VTK_POINTS
    · simp [hr]
    · simp only [hr, if_false]
      by_cases hs : slot = .tris ∨ slot = .triStrips
      · simp [hs]
      · simp [hs]
  · constructor
    · intro h0
      by_contra hcon
      have h1 : actor.Property.Lighting = true := by
        cases h : actor.Property.Lighting
        · exact absurd (Or.inl h) hcon
        · rfl
      have h2 : needLighting poly slot actor = true := by
        cases h : needLighting poly slot actor
        · exact absurd (Or.inr h) hcon
        · rfl
      rw [hval h1 h2] at h0
      split_ifs at h0 <;> cases h0
    · intro h
      rcases h with h | h <;> simp [computeLightComplexity, h]
  · intro h1 h2 h3
    rw [hval h1 h2, h3]
    rfl

/-! ### The fast path against the general path -/

/-- Triples read at `3*i`, `3*i + 1`, `3*i + 2` for `i < n` are the first `3*n`
elements in order. -/
theorem flatMap_triples {α : Type} (f : Nat → α) :
    ∀ n : Nat, (List.range n).flatMap (fun i => [f (i * 3), f (i * 3 + 1), f (i * 3 + 2)])
      = (List.range (3 * n)).map f := by
  intro n
  induction n with
  | zero => rfl
  | succ n ih =>
    have e : 3 * (n + 1) = 3 * n + 1 + 1 + 1 := by omega
    rw [List.range_succ, List.flatMap_append, ih, e, List.range_succ, List.range_succ,
      List.range_succ]
    simp [Nat.mul_comm]

/-- C40: for points of type `VTK_FLOAT`, no normals, no texture coordinates, no
colours and no cell-to-point map, with `3*N` below 2^32, the fast path of
`CreateVBO` returns the layout and uploads the buffer that the general path
returns and uploads on the same input: the call of `TemplatedCreateVBO` that the
slower path makes for `VTK_FLOAT`, which is `TemplatedCreateVBO3` with null
normals and texture coordinates and 0 texture components. -/
theorem C40_fast_path_refines {V F : Type} [Zero F] (env : Env V F)
    (points : DataArray V) (N colorComponents : Nat)
    (pointCellMap : Option (Nat → Nat))
    (hfloat : points.dataType = .VTK_FLOAT) (hfit : N * 3 < 2 ^ 32) :
    CreateVBO env points N none none none colorComponents none pointCellMap
      = TemplatedCreateVBO env (env.toFloat .VTK_FLOAT) points.data none N none none
          colorComponents none pointCellMap
    ∧ TemplatedCreateVBO env (env.toFloat .VTK_FLOAT) points.data none N none none
          colorComponents none pointCellMap
      = ((TemplatedCreateVBO3 (env.toFloat .VTK_FLOAT) (env.toFloat .VTK_FLOAT)
            (env.toFloat .VTK_FLOAT) points.data (none : Option (Nat → V)) N
            (none : Option (Nat → V)) 0 none colorComponents none pointCellMap).1,
          some (TemplatedCreateVBO3 (env.toFloat .VTK_FLOAT) (env.toFloat .VTK_FLOAT)
            (env.toFloat .VTK_FLOAT) points.data (none : Option (Nat → V)) N
            (none : Option (Nat → V)) 0 none colorComponents none pointCellMap).2) := by
  have hgen : TemplatedCreateVBO env (env.toFloat .VTK_FLOAT) points.data none N none none
          colorComponents none pointCellMap
      = ((TemplatedCreateVBO3 (env.toFloat .VTK_FLOAT) (env.toFloat .VTK_FLOAT)
            (env.toFloat .VTK_FLOAT) points.data (none : Option (Nat → V)) N
            (none : Option (Nat → V)) 0 none colorComponents none pointCellMap).1,
          some (TemplatedCreateVBO3 (env.toFloat .VTK_FLOAT) (env.toFloat .VTK_FLOAT)
            (env.toFloat .VTK_FLOAT) points.data (none : Option (Nat → V)) N
            (none : Option (Nat → V)) 0 none colorComponents none pointCellMap).2) := rfl
  refine ⟨?_, hgen⟩
  have h3 : u32 (N * 3) = 3 * N := by
    rw [u32, Nat.mod_eq_of_lt hfit, Nat.mul_comm]
  have hfast : CreateVBO env points N none none none colorComponents none pointCellMap
      = ({ VertexCount := N, Stride := 12, VertexOffset := 0, NormalOffset := 0,
           TCoordOffset := 0, TCoordComponents := 0, ColorOffset := 0,
           ColorComponents := 0 },
         some ((List.range (3 * N)).map
           (fun j => .val (env.toFloat .VTK_FLOAT (points.data j))))) := by
    simp [CreateVBO, hfloat, h3, sizeofFloat]
  have hlay : (TemplatedCreateVBO3 (env.toFloat .VTK_FLOAT) (env.toFloat .VTK_FLOAT)
        (env.toFloat .VTK_FLOAT) points.data (none : Option (Nat → V)) N
        (none : Option (Nat → V)) 0 none colorComponents none pointCellMap).1
      = { VertexCount := N, Stride := 12, VertexOffset := 0, NormalOffset := 0,
          TCoordOffset := 0, TCoordComponents := 0, ColorOffset := 0,
          ColorComponents := 0 } := by
    simp [TemplatedCreateVBO3, blockLayout, sizeofFloat]
  rw [hgen, hfast, TemplatedCreateVBO3_buffer, hlay]
  simp only [recordAt, pointOffset, List.append_nil]
  rw [flatMap_triples (fun j => VBOWord.val (env.toFloat .VTK_FLOAT (points.data j))) N]

/-- Witness for C40: the four float points of `sampleTwoTriangles`. -/
theorem C40_fast_path_refines_witness :
    CreateVBO sampleEnv sampleTwoTriangles.Points 4 none none none 0 none none
      = TemplatedCreateVBO sampleEnv (sampleEnv.toFloat .VTK_FLOAT)
          sampleTwoTriangles.Points.data none 4 none none 0 none none
    ∧ TemplatedCreateVBO sampleEnv (sampleEnv.toFloat .VTK_FLOAT)
          sampleTwoTriangles.Points.data none 4 none none 0 none none
      = ((TemplatedCreateVBO3 (sampleEnv.toFloat .VTK_FLOAT) (sampleEnv.toFloat .VTK_FLOAT)
            (sampleEnv.toFloat .VTK_FLOAT) sampleTwoTriangles.Points.data
            (none : Option (Nat → Int)) 4 (none : Option (Nat → Int)) 0 none 0 none
            none).1,
          some (TemplatedCreateVBO3 (sampleEnv.toFloat .VTK_FLOAT)
            (sampleEnv.toFloat .VTK_FLOAT) (sampleEnv.toFloat .VTK_FLOAT)
            sampleTwoTriangles.Points.data (none : Option (Nat → Int)) 4
            (none : Option (Nat → Int)) 0 none 0 none none).2) :=
  C40_fast_path_refines sampleEnv sampleTwoTriangles.Points 4 0 none rfl (by decide)

/-! ### Occurrences of the marker and `replace` -/

theorem startsWith_append_self (m : List Char) :
    ∀ post : List Char, startsWith (m ++ post) m = true := by
  induction m with
  | nil => intro post; cases post <;> rfl
  | cons c m ih => intro post; simp [startsWith, ih]

/-- A text in which the marker occurs: `find` returns a position. -/
theorem find_isSome_of_occurrence (m : List Char) :
    ∀ pre post : List Char, (find m (pre ++ m ++ post)).isSome = true := by
  intro pre
  induction pre with
  | nil =>
    intro post
    cases hm : m ++ post with
    | nil =>
      obtain ⟨h1, h2⟩ := List.append_eq_nil.mp hm
      subst h1 h2
      rfl
    | cons c s =>
      have h := startsWith_append_self m post
      rw [hm] at h
      simp [hm, find, h]
  | cons c pre ih =>
    intro post
    have h := ih post
    simp only [List.cons_append, find]
    split
    · rfl
    · simpa using h

/-- No position is returned by `find` exactly when the marker does not occur. -/
theorem find_eq_none_iff (m s : List Char) :
    find m s = none ↔ ∀ pre post : List Char, s ≠ pre ++ m ++ post := by
  constructor
  · intro h pre post hs
    have := find_isSome_of_occurrence m pre post
    rw [← hs, h] at this
    cases this
  · intro h
    cases hf : find m s with
    | none => rfl
    | some pos => exact absurd (find_eq m s pos hf) (h _ _)

/-- The loop of `replace` in all-occurrences mode returns only a text without the
marker. -/
theorem replaceLoop_all_result (m r : List Char) :
    ∀ (fuel : Nat) (first : Bool) (s t : List Char),
      replaceLoop m r true fuel first s = some t → find m t = none := by
  intro fuel
  induction fuel with
  | zero => intro first s t h; cases h
  | succ fuel ih =>
    intro first s t h
    simp only [replaceLoop] at h
    cases hf : find m s with
    | none =>
      rw [hf] at h
      simp only [Option.some.injEq] at h
      rw [← h]; exact hf
    | some pos =>
      rw [hf] at h
      cases first
      · exact ih _ _ _ h
      · exact ih _ _ _ h

/-- C32: when `replace` in all-occurrences mode returns a text for the source `s`,
the marker `m` and the replacement `r1`, the marker does not occur in the result,
and a second `replace` at the same marker, with any replacement and in either
mode, returns the result unchanged; for every source in which the marker does not
occur, `replace` returns the source. -/
theorem C32_second_insertion_dropped (fuel : Nat) (s m r1 t : List Char)
    (h : replace fuel s m r1 true = some t) :
    find m t = none
    ∧ (∀ pre post : List Char, t ≠ pre ++ m ++ post)
    ∧ (∀ (fuel2 : Nat) (r2 : List Char) (all : Bool), 0 < fuel2 →
        replace fuel2 t m r2 all = some t
        ∧ (replace fuel s m r1 true).bind (fun u => replace fuel2 u m r2 all)
            = replace fuel s m r1 true)
    ∧ (∀ (fuel2 : Nat) (source r : List Char) (all : Bool), 0 < fuel2 →
        (∀ pre post : List Char, source ≠ pre ++ m ++ post) →
        replace fuel2 source m r all = some source) := by
  have hnone : find m t = none := replaceLoop_all_result m r1 fuel true s t h
  refine ⟨hnone, (find_eq_none_iff m t).mp hnone, ?_, ?_⟩
  · intro fuel2 r2 all hf
    have h2 := replace_absent fuel2 t m r2 all hnone hf
    refine ⟨h2, ?_⟩
    rw [h]
    exact h2
  · intro fuel2 source r all hf hocc
    exact replace_absent fuel2 source m r all ((find_eq_none_iff m source).mpr hocc) hf

set_option maxRecDepth 100000 in
/-- Witness for C32: the two colour markers of a small template are replaced. -/
theorem C32_second_insertion_dropped_witness :
    find "//VTK::Color::Impl".toList "a x;  b x; ".toList = none
    ∧ (∀ pre post : List Char,
        "a x;  b x; ".toList ≠ pre ++ "//VTK::Color::Impl".toList ++ post)
    ∧ (∀ (fuel2 : Nat) (r2 : List Char) (all : Bool), 0 < fuel2 →
        replace fuel2 "a x;  b x; ".toList "//VTK::Color::Impl".toList r2 all
          = some "a x;  b x; ".toList
        ∧ (replace 3 "a //VTK::Color::Impl b //VTK::Color::Impl".toList
              "//VTK::Color::Impl".toList "x; ".toList true).bind
            (fun u => replace fuel2 u "//VTK::Color::Impl".toList r2 all)
            = replace 3 "a //VTK::Color::Impl b //VTK::Color::Impl".toList
                "//VTK::Color::Impl".toList "x; ".toList true)
    ∧ (∀ (fuel2 : Nat) (source r : List Char) (all : Bool), 0 < fuel2 →
        (∀ pre post : List Char, source ≠ pre ++ "//VTK::Color::Impl".toList ++ post) →
        replace fuel2 source "//VTK::Color::Impl".toList r all = some source) :=
  C32_second_insertion_dropped 3 "a //VTK::Color::Impl b //VTK::Color::Impl".toList
    "//VTK::Color::Impl".toList "x; ".toList "a x;  b x; ".toList (by decide)

/-! ### A replacement that holds its own marker -/

/-- In all-occurrences mode, with the marker in the source and in the replacement,
the loop of `replace` runs out of every amount of fuel. -/
theorem replaceLoop_diverges (m r : List Char) (hr : (find m r).isSome = true) :
    ∀ (fuel : Nat) (first : Bool) (s : List Char), (find m s).isSome = true →
      replaceLoop m r true fuel first s = none := by
  intro fuel
  induction fuel with
  | zero => intro first s _; rfl
  | succ fuel ih =>
    intro first s hs
    simp only [replaceLoop]
    cases hf : find m s with
    | none => rw [hf] at hs; cases hs
    | some pos =>
      obtain ⟨q, hq⟩ := Option.isSome_iff_exists.mp hr
      have hocc : (find m (s.take pos ++ r ++ s.drop (pos + m.length))).isSome = true := by
        have e := find_eq m r q hq
        have : s.take pos ++ r ++ s.drop (pos + m.length)
            = (s.take pos ++ r.take q) ++ m ++ (r.drop (q + m.length)
              ++ s.drop (pos + m.length)) := by
          conv_lhs => rw [e]
          simp only [List.append_assoc]
        rw [this]
        exact find_isSome_of_occurrence m _ _
      cases first
      · exact ih _ _ hocc
      · exact ih _ _ hocc

/-- C38: in all-occurrences mode, when the marker occurs in the source and in the
replacement text, the text that an iteration of the loop of `replace` leaves, the
replacement put at the first occurrence, holds the marker again, and `replace`
returns for no amount of fuel: the loop does not end. -/
theorem C38_replace_diverges (s m r : List Char) (hs : (find m s).isSome = true)
    (hr : (find m r).isSome = true) :
    (∀ pos, find m s = some pos →
        (find m (s.take pos ++ r ++ s.drop (pos + m.length))).isSome = true)
    ∧ (∀ (pre post : List Char), (find m (pre ++ r ++ post)).isSome = true)
    ∧ ∀ fuel : Nat, replace fuel s m r true = none := by
  have hocc : ∀ (pre post : List Char), (find m (pre ++ r ++ post)).isSome = true := by
    intro pre post
    obtain ⟨q, hq⟩ := Option.isSome_iff_exists.mp hr
    have e := find_eq m r q hq
    have : pre ++ r ++ post
        = (pre ++ r.take q) ++ m ++ (r.drop (q + m.length) ++ post) := by
      conv_lhs => rw [e]
      simp only [List.append_assoc]
    rw [this]
    exact find_isSome_of_occurrence m _ _
  exact ⟨fun pos _ => hocc _ _, hocc, fun fuel => replaceLoop_diverges m r hr fuel true s hs⟩

set_option maxRecDepth 100000 in
/-- Witness for C38: the replacement repeats the marker after a declaration. -/
theorem C38_replace_diverges_witness :
    (∀ pos, find "//VTK::Color::Dec".toList "//VTK::Color::Dec\nvoid".toList = some pos →
        (find "//VTK::Color::Dec".toList
          (("//VTK::Color::Dec\nvoid".toList).take pos
            ++ "varying vec4 c;\n//VTK::Color::Dec".toList
            ++ ("//VTK::Color::Dec\nvoid".toList).drop
                (pos + ("//VTK::Color::Dec".toList).length))).isSome = true)
    ∧ (∀ (pre post : List Char),
        (find "//VTK::Color::Dec".toList
          (pre ++ "varying vec4 c;\n//VTK::Color::Dec".toList ++ post)).isSome = true)
    ∧ ∀ fuel : Nat,
        replace fuel "//VTK::Color::Dec\nvoid".toList "//VTK::Color::Dec".toList
          "varying vec4 c;\n//VTK::Color::Dec".toList true = none :=
  C38_replace_diverges "//VTK::Color::Dec\nvoid".toList "//VTK::Color::Dec".toList
    "varying vec4 c;\n//VTK::Color::Dec".toList (by decide) (by decide)

/-! ### The doubled strip as a line strip -/

/-- The `k`-th value pushed for a strip with wireframe doubling on is the point at
position `stripPosition`. -/
theorem cellValues_wire_getElem (p : List Nat) (hn : 1 ≤ p.length) (k : Nat)
    (hk : k < 2 * p.length) :
    (cellValues true p)[k]? = some (p.getD (stripPosition p.length k) 0) := by
  have hstart := stripStart_toNat p.length hn
  simp only [cellValues, if_true, hstart, stripPosition]
  by_cases h1 : k < p.length
  · rw [List.getElem?_append_left (by simpa using h1)]
    simp [h1, List.getElem?_range h1]
  · rw [List.getElem?_append_right (by simpa using Nat.le_of_not_lt h1)]
    simp only [List.length_map, List.length_range, h1, if_false]
    by_cases h2 : k < p.length + ((p.length - 1) / 2 + 1)
    · rw [List.getElem?_append_left (by simp; omega)]
      simp only [h2, if_true, List.getElem?_map]
      rw [List.getElem?_reverse (by simp; omega)]
      rw [List.getElem?_range (by simp; omega)]
      simp only [List.length_range, Option.map_some', Option.some.injEq]
      congr 1
      omega
    · rw [List.getElem?_append_right (by simp; omega)]
      simp only [h2, if_false, List.length_map, List.length_reverse, List.length_range,
        List.getElem?_map]
      rw [List.getElem?_range (by omega)]
      simp only [Option.map_some', Option.some.injEq]

/-- The segments of a line strip are the pairs of consecutive indices. -/
theorem mem_lineStripSegments (s : List Nat) (x y : Nat) :
    (x, y) ∈ lineStripSegments s ↔ ∃ k, s[k]? = some x ∧ s[k + 1]? = some y := by
  unfold lineStripSegments
  rw [List.mem_iff_getElem?]
  constructor
  · rintro ⟨k, hk⟩
    rw [List.getElem?_zip_eq_some] at hk
    refine ⟨k, hk.1, ?_⟩
    have := hk.2
    rw [List.getElem?_tail] at this
    exact this
  · rintro ⟨k, h1, h2⟩
    refine ⟨k, ?_⟩
    rw [List.getElem?_zip_eq_some, List.getElem?_tail]
    exact ⟨h1, h2⟩

/-- Consecutive positions of the doubled sequence are equal or one or two apart, and
each is a position of the strip. -/
theorem stripPosition_step (n k : Nat) (hn : 2 ≤ n) (hk : k + 1 < 2 * n) :
    stripPosition n k < n ∧ stripPosition n (k + 1) < n
    ∧ (stripPosition n (k + 1) = stripPosition n k + 1
      ∨ stripPosition n k = stripPosition n (k + 1) + 1
      ∨ stripPosition n (k + 1) = stripPosition n k + 2
      ∨ stripPosition n k = stripPosition n (k + 1) + 2
      ∨ stripPosition n k = stripPosition n (k + 1)) := by
  unfold stripPosition
  split_ifs <;> omega

/-- C37: for a triangle strip `p` of `n ≥ 2` points with wireframe doubling on, the
`2*n` indices recorded for the strip are the points at the positions
`stripPosition n k`.  Every segment of the line strip drawn from them joins two
positions of the strip that are one or two apart, or is between two copies of one
position; and every edge of the strip, from position `i` to `i+1` and from `i` to
`i+2`, is one of the segments, in one direction or the other. -/
theorem C37_doubled_strip_edges (pre post : List (List Nat)) (p : List Nat)
    (hn : 2 ≤ p.length) (hid : ∀ a ∈ p, a < 2 ^ 32)
    (hcount : (CreateMultiIndexBuffer (pre ++ p :: post) true).size < 2 ^ 32) :
    ∃ off seq,
      (CreateMultiIndexBuffer (pre ++ p :: post) true).memoryOffsetArray[pre.length]?
        = some (4 * off)
      ∧ (CreateMultiIndexBuffer (pre ++ p :: post) true).elementCountArray[pre.length]?
        = some (2 * p.length)
      ∧ ((CreateMultiIndexBuffer (pre ++ p :: post) true).indexArray.drop off).take
          (2 * p.length) = seq
      ∧ seq = (List.range (2 * p.length)).map
          (fun k => p.getD (stripPosition p.length k) 0)
      ∧ (∀ e ∈ lineStripSegments seq, ∃ i j, i < p.length ∧ j < p.length
          ∧ e = (p.getD i 0, p.getD j 0)
          ∧ (j = i + 1 ∨ i = j + 1 ∨ j = i + 2 ∨ i = j + 2 ∨ i = j))
      ∧ (∀ i, i + 1 < p.length → (p.getD i 0, p.getD (i + 1) 0) ∈ lineStripSegments seq)
      ∧ (∀ i, i + 2 < p.length →
          (p.getD i 0, p.getD (i + 2) 0) ∈ lineStripSegments seq
          ∨ (p.getD (i + 2) 0, p.getD i 0) ∈ lineStripSegments seq) := by
  have hn1 : 1 ≤ p.length := by omega
  have hlen := length_cellValues_wire p hn1
  have hseq : cellValues true p = (List.range (2 * p.length)).map
      (fun k => p.getD (stripPosition p.length k) 0) := by
    apply List.ext_getElem?
    intro k
    by_cases hk : k < 2 * p.length
    · rw [cellValues_wire_getElem p hn1 k hk, List.getElem?_map, List.getElem?_range hk]
      rfl
    · rw [List.getElem?_eq_none (by omega), List.getElem?_eq_none (by simp; omega)]
  have hget : ∀ k, k < 2 * p.length →
      (cellValues true p)[k]? = some (p.getD (stripPosition p.length k) 0) :=
    fun k hk => cellValues_wire_getElem p hn1 k hk
  rw [CreateMultiIndexBuffer_eq] at hcount ⊢
  simp only at hcount ⊢
  have hle := length_flatMap_le_of_append true pre post p
  have hpre : (pre.flatMap (cellValues true)).length < 2 ^ 32 := by omega
  refine ⟨(pre.flatMap (cellValues true)).length, cellValues true p, ?_, ?_, ?_, hseq,
    ?_, ?_, ?_⟩
  · rw [cellOffsets_append, List.getElem?_append_right (by rw [length_cellOffsets]),
      length_cellOffsets, Nat.sub_self]
    simp only [cellOffsets, Nat.zero_add, List.getElem?_cons_zero]
    rw [u32_of_lt hpre, Nat.mul_comm]
  · rw [List.map_append, List.getElem?_append_right (by simp)]
    simp only [List.length_map, Nat.sub_self, List.map_cons, List.getElem?_cons_zero,
      if_true]
    rw [u32_of_lt (by omega), Nat.mul_comm]
  · rw [List.flatMap_append, List.flatMap_cons, List.map_append, List.map_append,
      map_u32_cellValues true p hid]
    have h1 : (pre.flatMap (cellValues true)).length
        = ((pre.flatMap (cellValues true)).map u32).length := by simp
    rw [h1, List.drop_left, ← hlen, List.take_left]
  · rintro ⟨x, y⟩ he
    obtain ⟨k, hx, hy⟩ := (mem_lineStripSegments _ x y).mp he
    have hk : k + 1 < 2 * p.length := by
      by_contra hcon
      rw [List.getElem?_eq_none (by omega)] at hy
      cases hy
    rw [hget k (by omega)] at hx
    rw [hget (k + 1) hk] at hy
    obtain ⟨b1, b2, b3⟩ := stripPosition_step p.length k hn hk
    refine ⟨stripPosition p.length k, stripPosition p.length (k + 1), b1, b2, ?_, b3⟩
    rw [Option.some.injEq] at hx hy
    rw [hx, hy]
  · intro i hi
    refine (mem_lineStripSegments _ _ _).mpr ⟨i, ?_, ?_⟩
    · rw [hget i (by omega)]
      simp only [stripPosition]
      rw [if_pos (by omega)]
    · rw [hget (i + 1) (by omega)]
      simp only [stripPosition]
      rw [if_pos (by omega)]
  · intro i hi
    rcases Nat.even_or_odd' i with ⟨t, ht | ht⟩
    · right
      refine (mem_lineStripSegments _ _ _).mpr
        ⟨p.length + ((p.length - 1) / 2 - (t + 1)), ?_, ?_⟩
      · rw [hget _ (by omega)]
        simp only [stripPosition]
        rw [if_neg (by omega), if_pos (by omega)]
        congr 2
        omega
      · rw [hget _ (by omega)]
        simp only [stripPosition]
        rw [if_neg (by omega), if_pos (by omega)]
        congr 2
        omega
    · left
      refine (mem_lineStripSegments _ _ _).mpr
        ⟨p.length + ((p.length - 1) / 2 + 1) + t, ?_, ?_⟩
      · rw [hget _ (by omega)]
        simp only [stripPosition]
        rw [if_neg (by omega), if_neg (by omega)]
        congr 2
        omega
      · rw [hget _ (by omega)]
        simp only [stripPosition]
        rw [if_neg (by omega), if_neg (by omega)]
        congr 2
        omega

set_option maxRecDepth 100000 in
/-- Witness for C37: a strip of five points between two other strips. -/
theorem C37_doubled_strip_edges_witness :
    ∃ off seq,
      (CreateMultiIndexBuffer ([[7, 8, 9]] ++ [10, 11, 12, 13, 14] :: [[1, 2]]) true
        ).memoryOffsetArray[[[7, 8, 9]].length]? = some (4 * off)
      ∧ (CreateMultiIndexBuffer ([[7, 8, 9]] ++ [10, 11, 12, 13, 14] :: [[1, 2]]) true
        ).elementCountArray[[[7, 8, 9]].length]? = some (2 * [10, 11, 12, 13, 14].length)
      ∧ ((CreateMultiIndexBuffer ([[7, 8, 9]] ++ [10, 11, 12, 13, 14] :: [[1, 2]]) true
          ).indexArray.drop off).take (2 * [10, 11, 12, 13, 14].length) = seq
      ∧ seq = (List.range (2 * [10, 11, 12, 13, 14].length)).map
          (fun k => [10, 11, 12, 13, 14].getD
            (stripPosition [10, 11, 12, 13, 14].length k) 0)
      ∧ (∀ e ∈ lineStripSegments seq, ∃ i j, i < [10, 11, 12, 13, 14].length
          ∧ j < [10, 11, 12, 13, 14].length
          ∧ e = ([10, 11, 12, 13, 14].getD i 0, [10, 11, 12, 13, 14].getD j 0)
          ∧ (j = i + 1 ∨ i = j + 1 ∨ j = i + 2 ∨ i = j + 2 ∨ i = j))
      ∧ (∀ i, i + 1 < [10, 11, 12, 13, 14].length →
          ([10, 11, 12, 13, 14].getD i 0, [10, 11, 12, 13, 14].getD (i + 1) 0)
            ∈ lineStripSegments seq)
      ∧ (∀ i, i + 2 < [10, 11, 12, 13, 14].length →
          ([10, 11, 12, 13, 14].getD i 0, [10, 11, 12, 13, 14].getD (i + 2) 0)
            ∈ lineStripSegments seq
          ∨ ([10, 11, 12, 13, 14].getD (i + 2) 0, [10, 11, 12, 13, 14].getD i 0)
            ∈ lineStripSegments seq) :=
  C37_doubled_strip_edges [[7, 8, 9]] [[1, 2]] [10, 11, 12, 13, 14] (by decide)
    (by decide) (by decide)

/-! ### The ids given by the cell explosion -/

theorem mem_seenAfter (x : Nat) :
    ∀ (refs seen : List Nat), x ∈ seenAfter seen refs ↔ x ∈ seen ∨ x ∈ refs := by
  intro refs
  induction refs with
  | nil => intro seen; simp [seenAfter]
  | cons i rest ih =>
    intro seen
    simp only [seenAfter]
    split
    · rename_i h
      rw [ih, List.mem_cons]
      constructor
      · rintro (h1 | h1)
        · exact Or.inl h1
        · exact Or.inr (Or.inr h1)
      · rintro (h1 | h1 | h1)
        · exact Or.inl h1
        · exact Or.inl (h1 ▸ h)
        · exact Or.inr h1
    · rw [ih, List.mem_cons, List.mem_cons]
      constructor
      · rintro ((h1 | h1) | h1)
        · exact Or.inr (Or.inl h1)
        · exact Or.inl h1
        · exact Or.inr (Or.inr h1)
      · rintro (h1 | h1 | h1)
        · exact Or.inl (Or.inr h1)
        · exact Or.inl (Or.inl h1)
        · exact Or.inr h1

theorem seenAfter_append :
    ∀ (a b seen : List Nat), seenAfter seen (a ++ b) = seenAfter (seenAfter seen a) b := by
  intro a
  induction a with
  | nil => intro b seen; rfl
  | cons i rest ih =>
    intro b seen
    rw [List.cons_append]
    simp only [seenAfter]
    split <;> exact ih _ _

theorem laterReferences_append :
    ∀ (a b seen : List Nat), laterReferences seen (a ++ b)
      = laterReferences seen a + laterReferences (seenAfter seen a) b := by
  intro a
  induction a with
  | nil => intro b seen; simp [laterReferences, seenAfter]
  | cons i rest ih =>
    intro b seen
    rw [List.cons_append]
    simp only [laterReferences, seenAfter]
    split
    · rw [ih]; omega
    · rw [ih]

theorem explodedIds_append :
    ∀ (a b seen : List Nat) (next : Nat), explodedIds next seen (a ++ b)
      = explodedIds next seen a
        ++ explodedIds (next + laterReferences seen a) (seenAfter seen a) b := by
  intro a
  induction a with
  | nil => intro b seen next; simp [explodedIds, laterReferences, seenAfter]
  | cons i rest ih =>
    intro b seen next
    rw [List.cons_append]
    simp only [explodedIds, laterReferences, seenAfter]
    split
    · rw [ih]
      simp only [List.cons_append, List.cons.injEq, true_and]
      congr 2
      omega
    · rw [ih]
      rfl

theorem length_explodedIds :
    ∀ (refs seen : List Nat) (next : Nat), (explodedIds next seen refs).length = refs.length := by
  intro refs
  induction refs with
  | nil => intro seen next; rfl
  | cons i rest ih =>
    intro seen next
    simp only [explodedIds]
    split <;> simp [ih]

/-- The id at each position of `explodedIds`: the point itself at its first
reference, and otherwise the next new id after those given to the later
references before the position. -/
theorem explodedIds_getElem :
    ∀ (refs seen : List Nat) (next t i : Nat), refs[t]? = some i →
      (explodedIds next seen refs)[t]?
        = some (if i ∈ seen ∨ i ∈ refs.take t then
            next + laterReferences seen (refs.take t) else i) := by
  intro refs
  induction refs with
  | nil => intro seen next t i h; simp at h
  | cons j rest ih =>
    intro seen next t i h
    cases t with
    | zero =>
      simp only [List.getElem?_cons_zero, Option.some.injEq] at h
      subst h
      simp only [explodedIds, List.take_zero, List.not_mem_nil, or_false, laterReferences,
        Nat.add_zero]
      split <;> simp
    | succ t =>
      simp only [List.getElem?_cons_succ] at h
      simp only [explodedIds, List.take_succ_cons, laterReferences, List.mem_cons]
      by_cases hj : j ∈ seen
      · simp only [hj, if_true, List.getElem?_cons_succ]
        rw [ih seen (next + 1) t i h]
        by_cases hi : i ∈ seen ∨ i ∈ rest.take t
        · have hi2 : i ∈ seen ∨ i = j ∨ i ∈ rest.take t := by
            rcases hi with h1 | h1
            · exact Or.inl h1
            · exact Or.inr (Or.inr h1)
          rw [if_pos hi, if_pos hi2]
          congr 1
          omega
        · have hi2 : ¬ (i ∈ seen ∨ i = j ∨ i ∈ rest.take t) := by
            rintro (h1 | h1 | h1)
            · exact hi (Or.inl h1)
            · exact hi (Or.inl (h1 ▸ hj))
            · exact hi (Or.inr h1)
          rw [if_neg hi, if_neg hi2]
      · simp only [hj, if_false, List.getElem?_cons_succ]
        rw [ih (j :: seen) next t i h]
        simp only [List.mem_cons]
        by_cases hi : (i = j ∨ i ∈ seen) ∨ i ∈ rest.take t
        · have hi2 : i ∈ seen ∨ i = j ∨ i ∈ rest.take t := by
            rcases hi with (h1 | h1) | h1
            · exact Or.inr (Or.inl h1)
            · exact Or.inl h1
            · exact Or.inr (Or.inr h1)
          rw [if_pos hi, if_pos hi2]
        · have hi2 : ¬ (i ∈ seen ∨ i = j ∨ i ∈ rest.take t) := by
            rintro (h1 | h1 | h1)
            · exact hi (Or.inl (Or.inr h1))
            · exact hi (Or.inl (Or.inl h1))
            · exact hi (Or.inr h1)
          rw [if_neg hi, if_neg hi2]

/-- The later references and the distinct points not seen before add up to the
number of references. -/
theorem laterReferences_add_card :
    ∀ (refs seen : List Nat),
      laterReferences seen refs + (refs.toFinset \ seen.toFinset).card = refs.length := by
  intro refs
  induction refs with
  | nil => intro seen; simp [laterReferences]
  | cons i rest ih =>
    intro seen
    simp only [laterReferences, List.toFinset_cons, List.length_cons]
    by_cases hi : i ∈ seen
    · rw [if_pos hi]
      have e : insert i rest.toFinset \ seen.toFinset = rest.toFinset \ seen.toFinset := by
        ext x
        simp only [Finset.mem_sdiff, Finset.mem_insert, List.mem_toFinset]
        constructor
        · rintro ⟨h1 | h1, h2⟩
          · exact absurd (h1 ▸ hi) h2
          · exact ⟨h1, h2⟩
        · rintro ⟨h1, h2⟩
          exact ⟨Or.inr h1, h2⟩
      rw [e]
      have := ih seen
      omega
    · rw [if_neg hi]
      have e : insert i rest.toFinset \ seen.toFinset
          = insert i (rest.toFinset \ (i :: seen).toFinset) := by
        ext x
        simp only [Finset.mem_sdiff, Finset.mem_insert, List.mem_toFinset, List.mem_cons]
        constructor
        · rintro ⟨h1 | h1, h2⟩
          · exact Or.inl h1
          · by_cases hx : x = i
            · exact Or.inl hx
            · exact Or.inr ⟨h1, fun h => h.elim hx h2⟩
        · rintro (h1 | ⟨h1, h2⟩)
          · exact ⟨Or.inl h1, h1 ▸ hi⟩
          · exact ⟨Or.inr h1, fun h => h2 (Or.inr h)⟩
      have hni : i ∉ rest.toFinset \ (i :: seen).toFinset := by
        simp
      rw [e, Finset.card_insert_of_not_mem hni]
      have := ih (i :: seen)
      omega

/-- With nothing seen before, the later references are the references less the
distinct points. -/
theorem laterReferences_nil (refs : List Nat) :
    laterReferences [] refs = refs.length - refs.dedup.length := by
  have h := laterReferences_add_card refs []
  simp only [List.toFinset_nil, Finset.sdiff_empty, List.card_toFinset] at h
  omega

/-- One point reference: the id that `supportPoint` inserts and the next new id
afterwards, when `seen` holds the points below `N` that are marked in
`cellPointMap`. -/
theorem supportPoint_ids (N : Nat) (st : CellSupport) (idx : Nat) (seen : List Nat)
    (hinv : SupportInv N st) (hidx : idx < N) (hfit : st.nextId + 1 < 2 ^ 32)
    (hlen : 2 ≤ st.cellPointMap.length)
    (hseen : ∀ P, P < N → (st.cellPointMap.getD P 0 ≠ 0 ↔ P ∈ seen)) :
    (supportPoint st idx).2 = (if idx ∈ seen then st.nextId else idx)
    ∧ (supportPoint st idx).1.nextId = (if idx ∈ seen then st.nextId + 1 else st.nextId)
    ∧ ∀ P, P < N → ((supportPoint st idx).1.cellPointMap.getD P 0 ≠ 0
        ↔ P ∈ (if idx ∈ seen then seen else idx :: seen)) := by
  obtain ⟨-, hreach, -, -⟩ := supportPoint_spec N st idx hinv hidx hfit hlen
  have hs := hseen idx hidx
  have h2 : (supportPoint st idx).2 = (if idx ∈ seen then st.nextId else idx) := by
    by_cases hi : idx ∈ seen
    · have hne : ¬ st.cellPointMap.getD idx 0 = 0 := hs.mpr hi
      simp only [supportPoint, hne, if_false, hi, if_true]
      split <;> rfl
    · have he : st.cellPointMap.getD idx 0 = 0 := by
        by_contra hcon
        exact hi (hs.mp hcon)
      simp only [supportPoint, he, if_true, hi, if_false]
  have h1 : (supportPoint st idx).1.nextId
      = (if idx ∈ seen then st.nextId + 1 else st.nextId) := by
    by_cases hi : idx ∈ seen
    · have hne : ¬ st.cellPointMap.getD idx 0 = 0 := hs.mpr hi
      simp only [supportPoint, hne, if_false, hi, if_true]
      split <;> exact u32_of_lt hfit
    · have he : st.cellPointMap.getD idx 0 = 0 := by
        by_contra hcon
        exact hi (hs.mp hcon)
      simp only [supportPoint, he, if_true, hi, if_false]
  refine ⟨h2, h1, ?_⟩
  intro P hP
  constructor
  · intro hne
    rcases hreach.covered P hne with h | h
    · have := (hseen P hP).mp h
      split
      · exact this
      · exact List.mem_cons_of_mem _ this
    · rw [List.mem_singleton, h2] at h
      by_cases hi : idx ∈ seen
      · rw [if_pos hi] at h
        have := hinv.n_le
        omega
      · rw [if_neg hi] at h
        rw [if_neg hi, h]
        exact List.mem_cons_self _ _
  · intro hmem
    by_cases hi : idx ∈ seen
    · rw [if_pos hi] at hmem
      have h0 := (hseen P hP).mpr hmem
      rw [(hreach.frame P h0).1]
      exact h0
    · rw [if_neg hi, List.mem_cons] at hmem
      rcases hmem with h | h
      · have hout : P ∈ [(supportPoint st idx).2] := by
          rw [h2, if_neg hi, h]
          exact List.mem_singleton_self _
        exact (hreach.fresh P hout).2.2
      · have h0 := (hseen P hP).mpr h
        rw [(hreach.frame P h0).1]
        exact h0

/-- The point references of one cell: the ids that `supportPoints` inserts are those
of `explodedIds`. -/
theorem supportPoints_ids (N : Nat) :
    ∀ (cell : List Nat) (st : CellSupport) (seen : List Nat), SupportInv N st →
      (∀ i ∈ cell, i < N) → st.nextId + cell.length < 2 ^ 32 →
      (cell ≠ [] → 2 ≤ st.cellPointMap.length) →
      (∀ P, P < N → (st.cellPointMap.getD P 0 ≠ 0 ↔ P ∈ seen)) →
      (supportPoints st cell).2 = explodedIds st.nextId seen cell
      ∧ (supportPoints st cell).1.nextId = st.nextId + laterReferences seen cell
      ∧ ∀ P, P < N → ((supportPoints st cell).1.cellPointMap.getD P 0 ≠ 0
          ↔ P ∈ seenAfter seen cell) := by
  intro cell
  induction cell with
  | nil =>
    intro st seen _ _ _ _ hseen
    exact ⟨rfl, rfl, hseen⟩
  | cons idx rest ih =>
    intro st seen hinv hidx hfit hlen hseen
    have hidx0 : idx < N := hidx idx (List.mem_cons_self _ _)
    have hlen2 : 2 ≤ st.cellPointMap.length := hlen (by simp)
    simp only [List.length_cons] at hfit
    obtain ⟨hinv1, hreach1, -, -⟩ :=
      supportPoint_spec N st idx hinv hidx0 (by omega) hlen2
    obtain ⟨a1, a2, a3⟩ := supportPoint_ids N st idx seen hinv hidx0 (by omega) hlen2 hseen
    have hnext : (supportPoint st idx).1.nextId ≤ st.nextId + 1 := by
      rw [a2]; split <;> omega
    obtain ⟨b1, b2, b3⟩ := ih (supportPoint st idx).1
      (if idx ∈ seen then seen else idx :: seen) hinv1
      (fun i hi => hidx i (List.mem_cons_of_mem _ hi)) (by omega)
      (fun _ => Nat.le_trans hlen2 hreach1.len_mono) a3
    simp only [supportPoints, explodedIds, laterReferences, seenAfter]
    by_cases hi : idx ∈ seen
    · simp only [hi, if_true] at a1 a2 b1 b2 b3 ⊢
      refine ⟨by rw [a1, b1, a2], by rw [b2, a2]; omega, b3⟩
    · simp only [hi, if_false] at a1 a2 b1 b2 b3 ⊢
      refine ⟨by rw [a1, b1, a2], by rw [b2, a2], b3⟩

/-- The point references of a cell array: the ids that `supportCells` inserts are
those of `explodedIds` for the references in traversal order. -/
theorem supportCells_ids (N : Nat) :
    ∀ (cells : List (List Nat)) (st : CellSupport) (seen : List Nat), SupportInv N st →
      (∀ c ∈ cells, ∀ i ∈ c, i < N) →
      st.nextId + cells.flatten.length < 2 ^ 32 →
      st.cellCount + cells.length < 2 ^ 32 →
      (cells.flatten ≠ [] → 2 ≤ st.cellPointMap.length) →
      (∀ P, P < N → (st.cellPointMap.getD P 0 ≠ 0 ↔ P ∈ seen)) →
      (supportCells st cells).2.flatten = explodedIds st.nextId seen cells.flatten
      ∧ (supportCells st cells).1.nextId = st.nextId + laterReferences seen cells.flatten
      ∧ ∀ P, P < N → ((supportCells st cells).1.cellPointMap.getD P 0 ≠ 0
          ↔ P ∈ seenAfter seen cells.flatten) := by
  intro cells
  induction cells with
  | nil =>
    intro st seen _ _ _ _ _ hseen
    exact ⟨rfl, rfl, hseen⟩
  | cons c rest ih =>
    intro st seen hinv hidx hfit hcc hlen hseen
    simp only [List.flatten_cons, List.length_append, List.length_cons] at hfit hcc
    have hlenc : c ≠ [] → 2 ≤ st.cellPointMap.length := by
      intro hc
      apply hlen
      simp only [List.flatten_cons, ne_eq, List.append_eq_nil, not_and]
      exact fun h => absurd h hc
    obtain ⟨hinv1, hreach1, -, -⟩ := supportPoints_spec N c st hinv
      (hidx c (List.mem_cons_self _ _)) (by omega) hlenc
    obtain ⟨a1, a2, a3⟩ := supportPoints_ids N c st seen hinv
      (hidx c (List.mem_cons_self _ _)) (by omega) hlenc hseen
    have hlater : laterReferences seen c ≤ c.length := by
      have := hreach1.next_le
      omega
    have hlenr : rest.flatten ≠ [] → 2 ≤ (supportPoints st c).1.cellPointMap.length := by
      intro hr
      have : 2 ≤ st.cellPointMap.length := by
        apply hlen
        simp only [List.flatten_cons, ne_eq, List.append_eq_nil, not_and]
        exact fun _ h => absurd h hr
      exact Nat.le_trans this hreach1.len_mono
    obtain ⟨b1, b2, b3⟩ := ih
      { (supportPoints st c).1 with
        cellCount := u32 ((supportPoints st c).1.cellCount + 1) }
      (seenAfter seen c)
      ⟨hinv1.len_eq, hinv1.n_le, hinv1.next_le, hinv1.zero_above⟩
      (fun d hd => hidx d (List.mem_cons_of_mem _ hd))
      (by show (supportPoints st c).1.nextId + _ < _; omega)
      (by
        show u32 _ + _ < _
        have : u32 ((supportPoints st c).1.cellCount + 1)
            ≤ (supportPoints st c).1.cellCount + 1 := Nat.mod_le _ _
        have hc := (supportPoints_spec N c st hinv
          (hidx c (List.mem_cons_self _ _)) (by omega) hlenc).2.2.1
        omega)
      hlenr a3
    simp only [supportCells, List.flatten_cons]
    rw [explodedIds_append, laterReferences_append, seenAfter_append]
    refine ⟨?_, ?_, b3⟩
    · rw [b1, a1]
      show _ ++ explodedIds (supportPoints st c).1.nextId _ _ = _
      rw [a2]
    · rw [b2]
      show (supportPoints st c).1.nextId + _ = _
      rw [a2]
      omega

/-- C33: `CreateCellSupportArrays` handles the point references of the four cell
arrays in the order verts, lines, polys, strips, and gives them the ids of
`explodedIds N []`: the first reference to a point keeps the point id, and its entry
of `cellPointMap` is the id plus 1; a later reference to a point gets the new id
`N + k`, with `k` the number of later references before it (the references before
it less the distinct points among them), and the entry of `cellPointMap` for the
new id is the point id plus 1.  The cells keep their sizes, both maps end with
length `N` plus the number of references less the number of distinct points
referenced, and the entry of a point below `N` that no cell references is 0. -/
theorem C33_explosion_ids (N : Nat) (v l p s : CellArray)
    (hidx : ∀ c ∈ v.cells ++ l.cells ++ p.cells ++ s.cells, ∀ i ∈ c, i < N)
    (hsize : connectivityEntries v.cells ≤ v.size ∧ connectivityEntries l.cells ≤ l.size
      ∧ connectivityEntries p.cells ≤ p.size ∧ connectivityEntries s.cells ≤ s.size)
    (hfit : N + connectivityEntries (v.cells ++ l.cells ++ p.cells ++ s.cells) < 2 ^ 32) :
    (CreateCellSupportArrays N v l p s [] []).allCells.flatten
        = explodedIds N [] (v.cells ++ l.cells ++ p.cells ++ s.cells).flatten
    ∧ (CreateCellSupportArrays N v l p s [] []).allCells.map List.length
        = (v.cells ++ l.cells ++ p.cells ++ s.cells).map List.length
    ∧ (∀ t i, (v.cells ++ l.cells ++ p.cells ++ s.cells).flatten[t]? = some i →
        i ∉ (v.cells ++ l.cells ++ p.cells ++ s.cells).flatten.take t →
        (CreateCellSupportArrays N v l p s [] []).allCells.flatten[t]? = some i
        ∧ (CreateCellSupportArrays N v l p s [] []).cellPointMap.getD i 0 = i + 1)
    ∧ (∀ t i, (v.cells ++ l.cells ++ p.cells ++ s.cells).flatten[t]? = some i →
        i ∈ (v.cells ++ l.cells ++ p.cells ++ s.cells).flatten.take t →
        (CreateCellSupportArrays N v l p s [] []).allCells.flatten[t]?
          = some (N + (t
              - ((v.cells ++ l.cells ++ p.cells ++ s.cells).flatten.take t).dedup.length))
        ∧ (CreateCellSupportArrays N v l p s [] []).cellPointMap.getD
            (N + (t
              - ((v.cells ++ l.cells ++ p.cells ++ s.cells).flatten.take t).dedup.length))
            0 = i + 1)
    ∧ (CreateCellSupportArrays N v l p s [] []).cellPointMap.length
        = N + ((v.cells ++ l.cells ++ p.cells ++ s.cells).flatten.length
            - (v.cells ++ l.cells ++ p.cells ++ s.cells).flatten.dedup.length)
    ∧ (CreateCellSupportArrays N v l p s [] []).pointCellMap.length
        = N + ((v.cells ++ l.cells ++ p.cells ++ s.cells).flatten.length
            - (v.cells ++ l.cells ++ p.cells ++ s.cells).flatten.dedup.length)
    ∧ (∀ P, P < N → P ∉ (v.cells ++ l.cells ++ p.cells ++ s.cells).flatten →
        (CreateCellSupportArrays N v l p s [] []).cellPointMap.getD P 0 = 0) := by
  obtain ⟨hleneq, hmap, -, -, hcov, -, -⟩ :=
    CreateCellSupportArrays_spec N v l p s hidx hsize hfit
  obtain ⟨hall, hcpm, -, -⟩ := CreateCellSupportArrays_eq N v l p s [] []
  have hent := connectivityEntries_eq (v.cells ++ l.cells ++ p.cells ++ s.cells)
  have hentsum : connectivityEntries (v.cells ++ l.cells ++ p.cells ++ s.cells)
      ≤ v.size + l.size + p.size + s.size := by
    rw [connectivityEntries_append, connectivityEntries_append, connectivityEntries_append]
    omega
  rw [supportInit_nil N _ (by omega)] at hall hcpm
  obtain ⟨hids, hnext, -⟩ := supportCells_ids N
    (v.cells ++ l.cells ++ p.cells ++ s.cells)
    ⟨List.replicate (max (v.size + l.size + p.size + s.size) N) 0,
      List.replicate (max (v.size + l.size + p.size + s.size) N) 0, N, 0⟩ []
    (supportInv_init N _) hidx (by show N + _ < 2 ^ 32; omega)
    (by show 0 + _ < 2 ^ 32; omega)
    (by
      intro hne
      have h1 : 1 ≤ (v.cells ++ l.cells ++ p.cells ++ s.cells).flatten.length :=
        List.length_pos.mpr hne
      have h2 : 1 ≤ (v.cells ++ l.cells ++ p.cells ++ s.cells).length := by
        rcases Nat.eq_zero_or_pos (v.cells ++ l.cells ++ p.cells ++ s.cells).length
          with h0 | hpos
        · rw [List.length_eq_zero.mp h0] at hne
          exact absurd rfl hne
        · exact hpos
      show 2 ≤ (List.replicate _ 0).length
      rw [List.length_replicate]
      have := Nat.le_max_left (v.size + l.size + p.size + s.size) N
      omega)
    (by
      intro P _
      show (List.replicate _ 0).getD P 0 ≠ 0 ↔ _
      rw [getD_replicate_zero]
      simp)
  have hflat : (CreateCellSupportArrays N v l p s [] []).allCells.flatten
      = explodedIds N [] (v.cells ++ l.cells ++ p.cells ++ s.cells).flatten := by
    rw [hall, hids]
  have hvals : (CreateCellSupportArrays N v l p s [] []).allCells.flatten.map
        (fun e => (CreateCellSupportArrays N v l p s [] []).cellPointMap.getD e 0)
      = (v.cells ++ l.cells ++ p.cells ++ s.cells).flatten.map (fun i => i + 1) := by
    have := congrArg List.flatten hmap
    rw [← List.map_flatten, ← List.map_flatten] at this
    exact this
  have hval : ∀ (t i e : Nat), (v.cells ++ l.cells ++ p.cells ++ s.cells).flatten[t]? = some i →
      (CreateCellSupportArrays N v l p s [] []).allCells.flatten[t]? = some e →
      (CreateCellSupportArrays N v l p s [] []).cellPointMap.getD e 0 = i + 1 := by
    intro t i e hi he
    have h1 := congrArg (fun L : List Nat => L[t]?) hvals
    simp only [List.getElem?_map, hi, he, Option.map_some', Option.some.injEq] at h1
    exact h1
  have hlenc : (CreateCellSupportArrays N v l p s [] []).cellPointMap.length
      = N + ((v.cells ++ l.cells ++ p.cells ++ s.cells).flatten.length
          - (v.cells ++ l.cells ++ p.cells ++ s.cells).flatten.dedup.length) := by
    rw [hcpm, length_resize, hnext, laterReferences_nil]
  refine ⟨hflat, ?_, ?_, ?_, hlenc, by rw [hleneq, hlenc], ?_⟩
  · have := congrArg (List.map List.length) hmap
    simpa [List.map_map, Function.comp_def] using this
  · intro t i hi hnot
    have he : (CreateCellSupportArrays N v l p s [] []).allCells.flatten[t]? = some i := by
      rw [hflat, explodedIds_getElem _ [] N t i hi, if_neg (by simpa using hnot)]
    exact ⟨he, hval t i i hi he⟩
  · intro t i hi hmem
    have he : (CreateCellSupportArrays N v l p s [] []).allCells.flatten[t]?
        = some (N + (t
            - ((v.cells ++ l.cells ++ p.cells ++ s.cells).flatten.take t).dedup.length)) := by
      rw [hflat, explodedIds_getElem _ [] N t i hi, if_pos (Or.inr hmem),
        laterReferences_nil, List.length_take]
      have ht : t < (v.cells ++ l.cells ++ p.cells ++ s.cells).flatten.length := by
        by_contra hcon
        rw [List.getElem?_eq_none (by omega)] at hi
        cases hi
      rw [Nat.min_eq_left (Nat.le_of_lt ht)]
    exact ⟨he, hval t i _ hi he⟩
  · intro P hP hnot
    by_contra hne
    have hin := hcov P hne
    rw [hflat] at hin
    obtain ⟨t, ht⟩ := List.mem_iff_getElem?.mp hin
    have htlen : t < (v.cells ++ l.cells ++ p.cells ++ s.cells).flatten.length := by
      by_contra hcon
      rw [List.getElem?_eq_none
        (by rw [length_explodedIds]; omega)] at ht
      cases ht
    obtain ⟨i, hi⟩ : ∃ i, (v.cells ++ l.cells ++ p.cells ++ s.cells).flatten[t]? = some i :=
      ⟨_, List.getElem?_eq_getElem htlen⟩
    rw [explodedIds_getElem _ [] N t i hi] at ht
    simp only [List.not_mem_nil, false_or, Option.some.injEq] at ht
    split at ht
    · omega
    · rw [← ht] at hnot
      exact hnot (List.mem_iff_getElem?.mpr ⟨t, hi⟩)

/-- Witness for C33: the two triangles `(0,1,2)` and `(0,2,3)` on four points. -/
theorem C33_explosion_ids_witness :
    (CreateCellSupportArrays 4 ⟨[], 0⟩ ⟨[], 0⟩ ⟨[[0, 1, 2], [0, 2, 3]], 8⟩ ⟨[], 0⟩ []
        []).allCells.flatten = explodedIds 4 [] [0, 1, 2, 0, 2, 3]
    ∧ (CreateCellSupportArrays 4 ⟨[], 0⟩ ⟨[], 0⟩ ⟨[[0, 1, 2], [0, 2, 3]], 8⟩ ⟨[], 0⟩ []
        []).cellPointMap.length = 4 + (6 - [0, 1, 2, 0, 2, 3].dedup.length)
    ∧ (CreateCellSupportArrays 4 ⟨[], 0⟩ ⟨[], 0⟩ ⟨[[0, 1, 2], [0, 2, 3]], 8⟩ ⟨[], 0⟩ []
        []).pointCellMap.length = 4 + (6 - [0, 1, 2, 0, 2, 3].dedup.length) :=
  ⟨(C33_explosion_ids 4 ⟨[], 0⟩ ⟨[], 0⟩ ⟨[[0, 1, 2], [0, 2, 3]], 8⟩ ⟨[], 0⟩
      (by decide) (by decide) (by decide)).1,
    (C33_explosion_ids 4 ⟨[], 0⟩ ⟨[], 0⟩ ⟨[[0, 1, 2], [0, 2, 3]], 8⟩ ⟨[], 0⟩
      (by decide) (by decide) (by decide)).2.2.2.2.1,
    (C33_explosion_ids 4 ⟨[], 0⟩ ⟨[], 0⟩ ⟨[[0, 1, 2], [0, 2, 3]], 8⟩ ⟨[], 0⟩
      (by decide) (by decide) (by decide)).2.2.2.2.2.1⟩

/-! ### Accesses of the two maps stay inside them -/

theorem supportCellsAccesses_append :
    ∀ (a b : List (List Nat)) (st : CellSupport),
      supportCellsAccesses st (a ++ b)
        = supportCellsAccesses st a ++ supportCellsAccesses (supportCells st a).1 b := by
  intro a
  induction a with
  | nil => intro b st; rfl
  | cons c rest ih =>
    intro b st
    rw [List.cons_append]
    simp only [supportCellsAccesses, supportCells, ih, List.append_assoc]

/-- The accesses for one point reference are inside the vectors, and a `resize` to
`nextId*3/2` of vectors of at least 2 elements makes room for `nextId`. -/
theorem supportPointAccesses_lt (N : Nat) (st : CellSupport) (idx : Nat)
    (hinv : SupportInv N st) (hidx : idx < N) (hlen : 2 ≤ st.cellPointMap.length) :
    ∀ a ∈ supportPointAccesses st idx, a.1 < a.2 := by
  have h1 := hinv.n_le
  have h2 := hinv.next_le
  have h3 := hinv.len_eq
  intro a ha
  simp only [supportPointAccesses, List.mem_cons] at ha
  rcases ha with ha | ha
  · rw [ha]; show idx < _; omega
  · split at ha
    · simp only [List.mem_cons, List.mem_singleton, List.not_mem_nil, or_false] at ha
      rcases ha with ha | ha <;> rw [ha] <;> show idx < _ <;> omega
    · by_cases hg : st.nextId ≥ st.cellPointMap.length
      · simp only [hg, if_true, length_resize, List.mem_cons, List.mem_singleton,
          List.not_mem_nil, or_false] at ha
        rcases ha with ha | ha <;> rw [ha] <;> show st.nextId < _ <;> omega
      · simp only [hg, if_false, List.mem_cons, List.mem_singleton, List.not_mem_nil,
          or_false] at ha
        rcases ha with ha | ha <;> rw [ha] <;> show st.nextId < _ <;> omega

theorem supportPointsAccesses_lt (N : Nat) :
    ∀ (cell : List Nat) (st : CellSupport), SupportInv N st →
      (∀ i ∈ cell, i < N) → st.nextId + cell.length < 2 ^ 32 →
      (cell ≠ [] → 2 ≤ st.cellPointMap.length) →
      ∀ a ∈ supportPointsAccesses st cell, a.1 < a.2 := by
  intro cell
  induction cell with
  | nil => intro st _ _ _ _ a ha; simp [supportPointsAccesses] at ha
  | cons idx rest ih =>
    intro st hinv hidx hfit hlen a ha
    have hidx0 : idx < N := hidx idx (List.mem_cons_self _ _)
    have hlen2 : 2 ≤ st.cellPointMap.length := hlen (by simp)
    simp only [List.length_cons] at hfit
    obtain ⟨hinv1, hreach1, -, -⟩ :=
      supportPoint_spec N st idx hinv hidx0 (by omega) hlen2
    simp only [supportPointsAccesses, List.mem_append] at ha
    rcases ha with ha | ha
    · exact supportPointAccesses_lt N st idx hinv hidx0 hlen2 a ha
    · have hn := hreach1.next_le
      simp only [List.length_singleton] at hn
      exact ih (supportPoint st idx).1 hinv1
        (fun i hi => hidx i (List.mem_cons_of_mem _ hi)) (by omega)
        (fun _ => Nat.le_trans hlen2 hreach1.len_mono) a ha

theorem supportCellsAccesses_lt (N : Nat) :
    ∀ (cells : List (List Nat)) (st : CellSupport), SupportInv N st →
      (∀ c ∈ cells, ∀ i ∈ c, i < N) →
      st.nextId + cells.flatten.length < 2 ^ 32 →
      st.cellCount + cells.length < 2 ^ 32 →
      (cells.flatten ≠ [] → 2 ≤ st.cellPointMap.length) →
      ∀ a ∈ supportCellsAccesses st cells, a.1 < a.2 := by
  intro cells
  induction cells with
  | nil => intro st _ _ _ _ _ a ha; simp [supportCellsAccesses] at ha
  | cons c rest ih =>
    intro st hinv hidx hfit hcc hlen a ha
    simp only [List.flatten_cons, List.length_append, List.length_cons] at hfit hcc
    have hlenc : c ≠ [] → 2 ≤ st.cellPointMap.length := by
      intro hc
      apply hlen
      simp only [List.flatten_cons, ne_eq, List.append_eq_nil, not_and]
      exact fun h => absurd h hc
    obtain ⟨hinv1, hreach1, hcount1, -⟩ := supportPoints_spec N c st hinv
      (hidx c (List.mem_cons_self _ _)) (by omega) hlenc
    simp only [supportCellsAccesses, List.mem_append] at ha
    rcases ha with ha | ha
    · exact supportPointsAccesses_lt N c st hinv (hidx c (List.mem_cons_self _ _))
        (by omega) hlenc a ha
    · have hn := hreach1.next_le
      refine ih
        { (supportPoints st c).1 with
          cellCount := u32 ((supportPoints st c).1.cellCount + 1) }
        ⟨hinv1.len_eq, hinv1.n_le, hinv1.next_le, hinv1.zero_above⟩
        (fun d hd => hidx d (List.mem_cons_of_mem _ hd))
        (by show (supportPoints st c).1.nextId + _ < _; omega)
        (by
          show u32 _ + _ < _
          have : u32 ((supportPoints st c).1.cellCount + 1)
              ≤ (supportPoints st c).1.cellCount + 1 := Nat.mod_le _ _
          omega)
        (by
          intro hr
          have : 2 ≤ st.cellPointMap.length := by
            apply hlen
            simp only [List.flatten_cons, ne_eq, List.append_eq_nil, not_and]
            exact fun _ h => absurd h hr
          exact Nat.le_trans this hreach1.len_mono) a ha

theorem length_supportPointsAccesses :
    ∀ (cell : List Nat) (st : CellSupport),
      (supportPointsAccesses st cell).length = 3 * cell.length := by
  intro cell
  induction cell with
  | nil => intro st; rfl
  | cons idx rest ih =>
    intro st
    simp only [supportPointsAccesses, List.length_append, ih, List.length_cons,
      supportPointAccesses]
    split <;> simp <;> omega

theorem length_supportCellsAccesses :
    ∀ (cells : List (List Nat)) (st : CellSupport),
      (supportCellsAccesses st cells).length = 3 * cells.flatten.length := by
  intro cells
  induction cells with
  | nil => intro st; rfl
  | cons c rest ih =>
    intro st
    simp only [supportCellsAccesses, List.length_append, ih, length_supportPointsAccesses,
      List.flatten_cons]
    omega

/-- C34: for cells whose point ids are below the number of points `N`, every
element access of `cellPointMap` and `pointCellMap` in the loop of
`CreateCellSupportArrays` is at a position below the length that the vector has at
that moment; and in every state of the loop in which the next new id has reached
the length of the maps, the `resize` to `nextId*3/2` gives a length above
`nextId`, the maps holding at least two elements. -/
theorem C34_accesses_in_bounds (N : Nat) (v l p s : CellArray)
    (hidx : ∀ c ∈ v.cells ++ l.cells ++ p.cells ++ s.cells, ∀ i ∈ c, i < N)
    (hsize : connectivityEntries v.cells ≤ v.size ∧ connectivityEntries l.cells ≤ l.size
      ∧ connectivityEntries p.cells ≤ p.size ∧ connectivityEntries s.cells ≤ s.size)
    (hfit : N + connectivityEntries (v.cells ++ l.cells ++ p.cells ++ s.cells) < 2 ^ 32) :
    (∀ a ∈ CreateCellSupportArraysAccesses N v l p s [] [], a.1 < a.2)
    ∧ (CreateCellSupportArraysAccesses N v l p s [] []).length
        = 3 * (v.cells ++ l.cells ++ p.cells ++ s.cells).flatten.length
    ∧ (∀ st : CellSupport, 2 ≤ st.cellPointMap.length →
        st.nextId ≥ st.cellPointMap.length →
        st.nextId < (resize st.cellPointMap (st.nextId * 3 / 2) 0).length
        ∧ st.nextId < (resize st.pointCellMap (st.nextId * 3 / 2) 0).length) := by
  have hacc : CreateCellSupportArraysAccesses N v l p s [] []
      = supportCellsAccesses (supportInit N (v.size + l.size + p.size + s.size) [] [])
          (v.cells ++ l.cells ++ p.cells ++ s.cells) := by
    simp only [CreateCellSupportArraysAccesses, supportCellsAccesses_append,
      supportCells_append, List.append_assoc]
  have hent := connectivityEntries_eq (v.cells ++ l.cells ++ p.cells ++ s.cells)
  have hentsum : connectivityEntries (v.cells ++ l.cells ++ p.cells ++ s.cells)
      ≤ v.size + l.size + p.size + s.size := by
    rw [connectivityEntries_append, connectivityEntries_append, connectivityEntries_append]
    omega
  rw [hacc, supportInit_nil N _ (by omega)]
  refine ⟨?_, ?_, ?_⟩
  · exact supportCellsAccesses_lt N _ _ (supportInv_init N _) hidx
      (by show N + _ < 2 ^ 32; omega) (by show 0 + _ < 2 ^ 32; omega)
      (by
        intro hne
        have h1 : 1 ≤ (v.cells ++ l.cells ++ p.cells ++ s.cells).flatten.length :=
          List.length_pos.mpr hne
        have h2 : 1 ≤ (v.cells ++ l.cells ++ p.cells ++ s.cells).length := by
          rcases Nat.eq_zero_or_pos (v.cells ++ l.cells ++ p.cells ++ s.cells).length
            with h0 | hpos
          · rw [List.length_eq_zero.mp h0] at hne
            exact absurd rfl hne
          · exact hpos
        show 2 ≤ (List.replicate _ 0).length
        rw [List.length_replicate]
        have := Nat.le_max_left (v.size + l.size + p.size + s.size) N
        omega)
  · exact length_supportCellsAccesses _ _
  · intro st h2 hge
    rw [length_resize, length_resize]
    omega

/-- Witness for C34: four points and the cell `(0,0)`, for which the maps grow from
4 to 6 elements before the new id 4 is written. -/
theorem C34_accesses_in_bounds_witness :
    (∀ a ∈ CreateCellSupportArraysAccesses 4 ⟨[], 0⟩ ⟨[], 0⟩ ⟨[[0, 0]], 3⟩ ⟨[], 0⟩ [] [],
        a.1 < a.2)
    ∧ CreateCellSupportArraysAccesses 4 ⟨[], 0⟩ ⟨[], 0⟩ ⟨[[0, 0]], 3⟩ ⟨[], 0⟩ [] []
        = [(0, 4), (0, 4), (0, 4), (0, 4), (4, 6), (4, 6)] :=
  ⟨(C34_accesses_in_bounds 4 ⟨[], 0⟩ ⟨[], 0⟩ ⟨[[0, 0]], 3⟩ ⟨[], 0⟩
      (by decide) (by decide) (by decide)).1, by decide⟩

/-! ### One-pass substitution -/

theorem startsWith_nil (s : List Char) : startsWith s [] = true := by
  cases s <;> rfl

theorem startsWith_append_of (m : List Char) :
    ∀ (a b : List Char), startsWith a m = true → startsWith (a ++ b) m = true := by
  induction m with
  | nil => intro a b _; exact startsWith_nil _
  | cons d m ih =>
    intro a b h
    cases a with
    | nil => simp [startsWith] at h
    | cons c a =>
      simp only [startsWith, Bool.and_eq_true, decide_eq_true_eq] at h
      simp only [List.cons_append, startsWith, Bool.and_eq_true, decide_eq_true_eq]
      exact ⟨h.1, ih a b h.2⟩

/-- A text that starts a longer text is comparable with every other start of it. -/
theorem startsWith_comparable (b : List Char) :
    ∀ (a y : List Char), startsWith (a ++ y) b = true →
      startsWith a b = true ∨ startsWith b a = true := by
  induction b with
  | nil => intro a y _; exact Or.inl (startsWith_nil _)
  | cons d b ih =>
    intro a y h
    cases a with
    | nil => exact Or.inr (startsWith_nil _)
    | cons c a =>
      simp only [List.cons_append, startsWith, Bool.and_eq_true, decide_eq_true_eq] at h
      rcases ih a y h.2 with h1 | h1
      · left
        simp only [startsWith, Bool.and_eq_true, decide_eq_true_eq]
        exact ⟨h.1, h1⟩
      · right
        simp only [startsWith, Bool.and_eq_true, decide_eq_true_eq]
        exact ⟨h.1.symm, h1⟩

theorem substFrom_inactive (m r : List Char) (all : Bool) :
    ∀ s : List Char, substFrom m r all 0 false s = s := by
  intro s
  induction s with
  | nil => rfl
  | cons c t ih => simp [substFrom, ih]

theorem substFrom_skip (m r : List Char) (all : Bool) (active : Bool) :
    ∀ (k : Nat) (s : List Char),
      substFrom m r all k active s = substFrom m r all 0 active (s.drop k) := by
  intro k
  induction k with
  | zero => intro s; rfl
  | succ k ih =>
    intro s
    cases s with
    | nil => rfl
    | cons c t => simp only [substFrom, List.drop_succ_cons]; exact ih t

theorem substFrom_hit (m r : List Char) (all : Bool) (s : List Char) (hm : m ≠ [])
    (h : startsWith s m = true) :
    substFrom m r all 0 true s = r ++ substFrom m r all 0 all (s.drop m.length) := by
  cases s with
  | nil =>
    cases m with
    | nil => exact absurd rfl hm
    | cons d m => simp [startsWith] at h
  | cons c t =>
    simp only [substFrom, h, Bool.and_self, if_true]
    rw [substFrom_skip]
    cases m with
    | nil => exact absurd rfl hm
    | cons d m => simp

theorem substFrom_miss (m r : List Char) (all : Bool) (c : Char) (t : List Char)
    (active : Bool) (h : startsWith (c :: t) m = false) :
    substFrom m r all 0 active (c :: t) = c :: substFrom m r all 0 active t := by
  simp [substFrom, h]

/-- A piece at the front of the text at none of whose positions the marker starts
is passed over unchanged. -/
theorem substFrom_pass (m r : List Char) (all : Bool) (active : Bool) (y : List Char) :
    ∀ x : List Char,
      (∀ x1 x2 : List Char, x = x1 ++ x2 → x2 ≠ [] → startsWith (x2 ++ y) m = false) →
      substFrom m r all 0 active (x ++ y) = x ++ substFrom m r all 0 active y := by
  intro x
  induction x with
  | nil => intro _; rfl
  | cons c x ih =>
    intro h
    have h0 := h [] (c :: x) rfl (by simp)
    rw [List.cons_append] at h0 ⊢
    rw [substFrom_miss m r all c (x ++ y) active h0, ih]
    · rfl
    · intro x1 x2 hx hne
      exact h (c :: x1) x2 (by rw [hx]; rfl) hne

theorem cleanMarker_form (m : List Char) (h : CleanMarker m = true) :
    ∃ w : List Char, m = '/' :: '/' :: w ∧ w ≠ [] ∧ '/' ∉ w := by
  simp only [CleanMarker, decide_eq_true_eq] at h
  refine ⟨m.drop 2, ?_, h.2.1, h.2.2⟩
  have := List.take_append_drop 2 m
  rw [h.1] at this
  exact this.symm

/-- A text whose first character is not a slash does not start with a marker. -/
theorem startsWith_marker_of_head (m : List Char) (hm : CleanMarker m = true) (c : Char)
    (t : List Char) (hc : c ≠ '/') : startsWith (c :: t) m = false := by
  obtain ⟨w, hw, -, -⟩ := cleanMarker_form m hm
  rw [hw]
  simp [startsWith, hc]

/-- A character of a text without slash, at the front of a piece of it, is no
slash. -/
theorem head_of_suffix_ne_slash (w x1 : List Char) (c : Char) (x2 : List Char)
    (hw : '/' ∉ w) (h : w = x1 ++ c :: x2) : c ≠ '/' := by
  intro hc
  apply hw
  rw [h, hc]
  simp

/-- No occurrence of a marker starts inside another marker, whatever follows. -/
theorem marker_pass (m1 m2 : List Char) (h1 : CleanMarker m1 = true)
    (h2 : CleanMarker m2 = true) (ha : Apart m1 m2 = true) (y : List Char) :
    ∀ x1 x2 : List Char, m1 = x1 ++ x2 → x2 ≠ [] → startsWith (x2 ++ y) m2 = false := by
  intro x1 x2 hx hne
  obtain ⟨w1, hw1, hne1, hs1⟩ := cleanMarker_form m1 h1
  simp only [Apart, Bool.and_eq_true, Bool.not_eq_true'] at ha
  rcases x1 with _ | ⟨a, _ | ⟨b, x1⟩⟩
  · simp only [List.nil_append] at hx
    subst hx
    by_contra hcon
    rcases startsWith_comparable m2 m1 y (by simpa using hcon) with h | h
    · rw [ha.1] at h; cases h
    · rw [ha.2] at h; cases h
  · rw [hw1] at hx
    simp only [List.cons_append, List.nil_append, List.cons.injEq] at hx
    obtain ⟨w2, hw2, -, -⟩ := cleanMarker_form m2 h2
    rw [← hx.2, hw2]
    cases w1 with
    | nil => exact absurd rfl hne1
    | cons c w1 =>
      have hc : c ≠ '/' := fun h => hs1 (by rw [h]; simp)
      simp [startsWith, hc]
  · rw [hw1] at hx
    simp only [List.cons_append, List.cons.injEq] at hx
    cases x2 with
    | nil => exact absurd rfl hne
    | cons c x2 =>
      exact startsWith_marker_of_head m2 h2 c _
        (head_of_suffix_ne_slash w1 x1 c x2 hs1 hx.2.2)

/-- No occurrence of a marker starts inside a tame replacement text, whatever
follows. -/
theorem tame_pass (m r : List Char) (hm : CleanMarker m = true) (hr : Tame r = true)
    (y : List Char) :
    ∀ x1 x2 : List Char, r = x1 ++ x2 → x2 ≠ [] → startsWith (x2 ++ y) m = false := by
  intro x1 x2 hx hne
  obtain ⟨w, hw, hnew, hsw⟩ := cleanMarker_form m hm
  simp only [Tame, decide_eq_true_eq] at hr
  obtain ⟨-, -, hlast, hds⟩ := hr
  by_contra hcon
  have hcon : startsWith (x2 ++ y) m = true := by simpa using hcon
  rcases x2 with _ | ⟨c, _ | ⟨c2, x2⟩⟩
  · exact hne rfl
  · rw [hw] at hcon
    simp only [List.cons_append, List.nil_append, startsWith, Bool.and_eq_true,
      decide_eq_true_eq] at hcon
    apply hlast
    rw [hx, hcon.1]
    simp
  · rw [hw] at hcon
    simp only [List.cons_append, startsWith, Bool.and_eq_true, decide_eq_true_eq] at hcon
    have hd : 1 ≤ dslash (c :: c2 :: x2) := by
      rw [hcon.1, hcon.2.1]
      simp [dslash]
    have := dslash_append x1 (c :: c2 :: x2)
    rw [← hx] at this
    omega

theorem inert_tame (m r : List Char) (h : Inert m r = true) : Tame r = true := by
  simp only [Inert, Bool.and_eq_true] at h
  exact h.1

/-- An inert replacement text followed by anything does not start with an end piece
of the marker. -/
theorem inert_front (m r : List Char) (h : Inert m r = true) (z : List Char) :
    ∀ u0 u : List Char, m = u0 ++ u → u ≠ [] → startsWith (r ++ z) u = false := by
  intro u0 u hu hne
  simp only [Inert, Bool.and_eq_true, List.all_eq_true, List.mem_range,
    Bool.not_eq_true'] at h
  have hk : u0.length < m.length := by
    rw [hu, List.length_append]
    have := List.length_pos.mpr hne
    omega
  have hd : m.drop u0.length = u := by rw [hu, List.drop_left]
  have := h.2 u0.length hk
  rw [hd] at this
  by_contra hcon
  rcases startsWith_comparable u r z (by simpa using hcon) with h1 | h1
  · rw [this.1] at h1; cases h1
  · rw [this.2] at h1; cases h1

/-- A marker followed by anything does not start with an end piece of another
marker. -/
theorem marker_front (m1 m2 : List Char) (h1 : CleanMarker m1 = true)
    (h2 : CleanMarker m2 = true) (ha : Apart m1 m2 = true) (y : List Char) :
    ∀ u0 u : List Char, m2 = u0 ++ u → u ≠ [] → startsWith (m1 ++ y) u = false := by
  intro u0 u hu hne
  obtain ⟨w1, hw1, hne1, hs1⟩ := cleanMarker_form m1 h1
  obtain ⟨w2, hw2, hne2, hs2⟩ := cleanMarker_form m2 h2
  simp only [Apart, Bool.and_eq_true, Bool.not_eq_true'] at ha
  rcases u0 with _ | ⟨a, _ | ⟨b, u0⟩⟩
  · simp only [List.nil_append] at hu
    subst hu
    by_contra hcon
    rcases startsWith_comparable m2 m1 y (by simpa using hcon) with h | h
    · rw [ha.1] at h; cases h
    · rw [ha.2] at h; cases h
  · rw [hw2] at hu
    simp only [List.cons_append, List.nil_append, List.cons.injEq] at hu
    rw [← hu.2, hw1]
    cases w2 with
    | nil => exact absurd rfl hne2
    | cons c w2 =>
      have hc : ¬ '/' = c := fun h => hs2 (by rw [← h]; simp)
      simp [startsWith, hc]
  · rw [hw2] at hu
    simp only [List.cons_append, List.cons.injEq] at hu
    cases u with
    | nil => exact absurd rfl hne
    | cons c u =>
      have hc : ¬ '/' = c := fun h =>
        head_of_suffix_ne_slash w2 u0 c u hs2 hu.2.2 h.symm
      rw [hw1]
      simp [startsWith, hc]

/-- A substitution at one marker with a text inert for another marker does not
change whether the text starts with an end piece of the other marker. -/
theorem startsWith_substFrom (m1 r1 m2 : List Char) (all : Bool)
    (h1 : CleanMarker m1 = true) (h2 : CleanMarker m2 = true) (ha : Apart m1 m2 = true)
    (hi : Inert m2 r1 = true) :
    ∀ (s u0 u : List Char) (active : Bool), m2 = u0 ++ u →
      startsWith (substFrom m1 r1 all 0 active s) u = startsWith s u := by
  have hm1 : m1 ≠ [] := by
    obtain ⟨w, hw, -, -⟩ := cleanMarker_form m1 h1
    rw [hw]; simp
  intro s
  induction s with
  | nil => intro u0 u active _; rfl
  | cons c t ih =>
    intro u0 u active hu
    cases u with
    | nil => rw [startsWith_nil, startsWith_nil]
    | cons d u =>
      cases active with
      | false => rw [substFrom_inactive]
      | true =>
        by_cases hs : startsWith (c :: t) m1 = true
        · rw [substFrom_hit m1 r1 all (c :: t) hm1 hs,
            inert_front m2 r1 hi _ u0 (d :: u) hu (by simp)]
          have e := startsWith_eq m1 (c :: t) hs
          rw [e, marker_front m1 m2 h1 h2 ha _ u0 (d :: u) hu (by simp)]
        · have hs : startsWith (c :: t) m1 = false := by simpa using hs
          rw [substFrom_miss m1 r1 all c t true hs]
          simp only [startsWith]
          rw [ih (u0 ++ [d]) u true (by rw [hu]; simp)]

/-- Substitutions at two markers that are apart, each with a text inert for the
other marker, can be made in either order. -/
theorem substFrom_comm (m1 r1 m2 r2 : List Char) (all1 all2 : Bool)
    (h1 : CleanMarker m1 = true) (h2 : CleanMarker m2 = true) (ha : Apart m1 m2 = true)
    (hi1 : Inert m2 r1 = true) (hi2 : Inert m1 r2 = true) :
    ∀ (n : Nat) (s : List Char), s.length ≤ n → ∀ a1 a2 : Bool,
      substFrom m1 r1 all1 0 a1 (substFrom m2 r2 all2 0 a2 s)
        = substFrom m2 r2 all2 0 a2 (substFrom m1 r1 all1 0 a1 s) := by
  have hm1 : m1 ≠ [] := by
    obtain ⟨w, hw, -, -⟩ := cleanMarker_form m1 h1
    rw [hw]; simp
  have hm2 : m2 ≠ [] := by
    obtain ⟨w, hw, -, -⟩ := cleanMarker_form m2 h2
    rw [hw]; simp
  have ha' : Apart m2 m1 = true := by
    simp only [Apart, Bool.and_eq_true] at ha ⊢
    exact ⟨ha.2, ha.1⟩
  intro n
  induction n with
  | zero =>
    intro s hs a1 a2
    have : s = [] := List.length_eq_zero.mp (Nat.le_zero.mp hs)
    subst this
    rfl
  | succ n ih =>
    intro s hs a1 a2
    cases s with
    | nil => rfl
    | cons c t =>
      cases a1 with
      | false => rw [substFrom_inactive, substFrom_inactive]
      | true =>
        cases a2 with
        | false => rw [substFrom_inactive, substFrom_inactive]
        | true =>
          by_cases hs1 : startsWith (c :: t) m1 = true
          · have e := startsWith_eq m1 (c :: t) hs1
            have hlen : ((c :: t).drop m1.length).length ≤ n := by
              have hpos := List.length_pos.mpr hm1
              rw [List.length_drop]
              simp only [List.length_cons] at hs ⊢
              omega
            rw [substFrom_hit m1 r1 all1 (c :: t) hm1 hs1]
            rw [substFrom_pass m2 r2 all2 true _ r1
              (tame_pass m2 r1 h2 (inert_tame m2 r1 hi1) _)]
            rw [← ih _ hlen all1 true]
            conv_lhs => rw [e]
            rw [substFrom_pass m2 r2 all2 true _ m1 (marker_pass m1 m2 h1 h2 ha _)]
            rw [substFrom_hit m1 r1 all1 _ hm1 (startsWith_append_self m1 _),
              List.drop_left]
          · have hs1 : startsWith (c :: t) m1 = false := by simpa using hs1
            by_cases hs2 : startsWith (c :: t) m2 = true
            · have e := startsWith_eq m2 (c :: t) hs2
              have hlen : ((c :: t).drop m2.length).length ≤ n := by
                have hpos := List.length_pos.mpr hm2
                rw [List.length_drop]
                simp only [List.length_cons] at hs ⊢
                omega
              rw [substFrom_hit m2 r2 all2 (c :: t) hm2 hs2]
              rw [substFrom_pass m1 r1 all1 true _ r2
                (tame_pass m1 r2 h1 (inert_tame m1 r2 hi2) _)]
              rw [ih _ hlen true all2]
              conv_rhs => rw [e]
              rw [substFrom_pass m1 r1 all1 true _ m2 (marker_pass m2 m1 h2 h1 ha' _)]
              rw [substFrom_hit m2 r2 all2 _ hm2 (startsWith_append_self m2 _),
                List.drop_left]
            · have hs2 : startsWith (c :: t) m2 = false := by simpa using hs2
              have hlen : t.length ≤ n := by
                simp only [List.length_cons] at hs
                omega
              rw [substFrom_miss m2 r2 all2 c t true hs2,
                substFrom_miss m1 r1 all1 c t true hs1]
              have k1 : startsWith (c :: substFrom m2 r2 all2 0 true t) m1 = false := by
                have := startsWith_substFrom m2 r2 m1 all2 h2 h1 ha' hi2 (c :: t) [] m1
                  true rfl
                rw [substFrom_miss m2 r2 all2 c t true hs2] at this
                rw [this]
                exact hs1
              have k2 : startsWith (c :: substFrom m1 r1 all1 0 true t) m2 = false := by
                have := startsWith_substFrom m1 r1 m2 all1 h1 h2 ha hi1 (c :: t) [] m2
                  true rfl
                rw [substFrom_miss m1 r1 all1 c t true hs1] at this
                rw [this]
                exact hs2
              rw [substFrom_miss m1 r1 all1 c _ true k1,
                substFrom_miss m2 r2 all2 c _ true k2, ih t hlen true true]

theorem subst_comm (m1 r1 m2 r2 : List Char) (all1 all2 : Bool)
    (h1 : CleanMarker m1 = true) (h2 : CleanMarker m2 = true) (ha : Apart m1 m2 = true)
    (hi1 : Inert m2 r1 = true) (hi2 : Inert m1 r2 = true) (s : List Char) :
    subst m1 r1 all1 (subst m2 r2 all2 s) = subst m2 r2 all2 (subst m1 r1 all1 s) :=
  substFrom_comm m1 r1 m2 r2 all1 all2 h1 h2 ha hi1 hi2 s.length s (Nat.le_refl _) true true

/-- Before the position that `find` returns the marker does not start. -/
theorem find_first (m : List Char) :
    ∀ (s : List Char) (pos : Nat), find m s = some pos →
      ∀ x1 x2 : List Char, s.take pos = x1 ++ x2 → x2 ≠ [] →
        startsWith (x2 ++ s.drop pos) m = false := by
  intro s
  induction s with
  | nil =>
    intro pos _ x1 x2 hx hne
    simp only [List.take_nil] at hx
    have := (List.append_eq_nil.mp hx.symm).2
    exact absurd this hne
  | cons c t ih =>
    intro pos h x1 x2 hx hne
    simp only [find] at h
    by_cases hs : startsWith (c :: t) m = true
    · rw [if_pos hs] at h
      simp only [Option.some.injEq] at h
      subst h
      simp only [List.take_zero] at hx
      exact absurd (List.append_eq_nil.mp hx.symm).2 hne
    · rw [if_neg hs] at h
      cases hf : find m t with
      | none => rw [hf] at h; cases h
      | some p =>
        rw [hf] at h
        simp only [Option.map_some', Option.some.injEq] at h
        subst h
        simp only [List.take_succ_cons, List.drop_succ_cons] at hx ⊢
        cases x1 with
        | nil =>
          simp only [List.nil_append] at hx
          rw [← hx]
          simp only [List.cons_append, List.take_append_drop]
          simpa using hs
        | cons a x1 =>
          simp only [List.cons_append, List.cons.injEq] at hx
          exact ih p hf x1 x2 hx.2 hne

/-- In a text without an occurrence of the marker it starts nowhere. -/
theorem find_none_pass (m s : List Char) (h : find m s = none) :
    ∀ x1 x2 : List Char, s = x1 ++ x2 → x2 ≠ [] → startsWith (x2 ++ []) m = false := by
  intro x1 x2 hx _
  by_contra hcon
  have hs : startsWith x2 m = true := by simpa using hcon
  have e := startsWith_eq m x2 hs
  exact (find_eq_none_iff m s).mp h x1 (x2.drop m.length) (by rw [hx, e]; simp)

/-- A piece of text in front of an inert replacement starts with an end piece of
the marker only if the piece alone does. -/
theorem startsWith_before_inert (m r : List Char) (hi : Inert m r = true) (z : List Char) :
    ∀ (x u0 u : List Char), m = u0 ++ u → startsWith (x ++ (r ++ z)) u = true →
      startsWith x u = true := by
  intro x
  induction x with
  | nil =>
    intro u0 u hu h
    cases u with
    | nil => rfl
    | cons d u =>
      rw [List.nil_append, inert_front m r hi z u0 (d :: u) hu (by simp)] at h
      cases h
  | cons c x ih =>
    intro u0 u hu h
    cases u with
    | nil => rfl
    | cons d u =>
      simp only [List.cons_append, startsWith, Bool.and_eq_true, decide_eq_true_eq] at h ⊢
      exact ⟨h.1, ih (u0 ++ [d]) u (by rw [hu]; simp) h.2⟩

/-- The loop of `replace` once the first replacement is made: with enough fuel it
returns the text of the one-pass substitution of all occurrences. -/
theorem replaceLoop_eq_substFrom (m r : List Char) (all : Bool)
    (hm : CleanMarker m = true) (hi : Inert m r = true) :
    ∀ (fuel : Nat) (s : List Char), dslash s < fuel →
      replaceLoop m r all fuel false s = some (substFrom m r true 0 true s) := by
  have hne : m ≠ [] := by
    obtain ⟨w, hw, -, -⟩ := cleanMarker_form m hm
    rw [hw]; simp
  have hds : 1 ≤ dslash m := by
    obtain ⟨w, hw, -, -⟩ := cleanMarker_form m hm
    rw [hw]; simp [dslash]
  have htame := inert_tame m r hi
  intro fuel
  induction fuel with
  | zero => intro s h; omega
  | succ fuel ih =>
    intro s hf
    simp only [replaceLoop]
    cases hfind : find m s with
    | none =>
      have := substFrom_pass m r true true [] s (find_none_pass m s hfind)
      simp only [List.append_nil, substFrom] at this
      rw [this]
    | some pos =>
      have e := find_eq m s pos hfind
      have hdrop : s.drop pos = m ++ s.drop (pos + m.length) := by
        have h1 : (s.take pos).length = pos := by
          rw [List.length_take]
          have : pos + m.length ≤ s.length := by
            have := congrArg List.length e
            have hpos := List.length_pos.mpr hne
            simp only [List.length_append, List.length_take, List.length_drop] at this
            omega
          omega
        conv_lhs => rw [e]
        rw [List.append_assoc, List.drop_left' h1]
      have hlt : dslash (s.take pos ++ r ++ s.drop (pos + m.length)) < dslash s := by
        have := dslash_replace_lt (s.take pos) (s.drop (pos + m.length)) m r hds htame
        rw [← e] at this
        exact this
      simp only [Bool.false_eq_true, if_false]
      rw [ih _ (by omega)]
      congr 1
      have hfirst := find_first m s pos hfind
      rw [hdrop] at hfirst
      have lhs : substFrom m r true 0 true
          (s.take pos ++ (r ++ s.drop (pos + m.length)))
          = s.take pos ++ (r ++ substFrom m r true 0 true (s.drop (pos + m.length))) := by
        rw [substFrom_pass m r true true _ (s.take pos)]
        · rw [substFrom_pass m r true true _ r (tame_pass m r hm htame _)]
        · intro x1 x2 hx hx2
          by_contra hcon
          have h1 := startsWith_before_inert m r hi _ x2 [] m rfl (by simpa using hcon)
          have h2 := startsWith_append_of m x2 (m ++ s.drop (pos + m.length)) h1
          rw [hfirst x1 x2 hx hx2] at h2
          cases h2
      have rhs : substFrom m r true 0 true s
          = s.take pos ++ (r ++ substFrom m r true 0 true (s.drop (pos + m.length))) := by
        conv_lhs => rw [e, List.append_assoc]
        rw [substFrom_pass m r true true _ (s.take pos) hfirst,
          substFrom_hit m r true _ hne (startsWith_append_self m _), List.drop_left]
      rw [List.append_assoc, lhs, rhs]

/-- With enough fuel `replace` returns the text of the one-pass substitution. -/
theorem replace_eq_subst (m r : List Char) (all : Bool) (hm : CleanMarker m = true)
    (hi : Inert m r = true) (fuel : Nat) (s : List Char) (hf : dslash s < fuel) :
    replace fuel s m r all = some (subst m r all s) := by
  have hne : m ≠ [] := by
    obtain ⟨w, hw, -, -⟩ := cleanMarker_form m hm
    rw [hw]; simp
  have hds : 1 ≤ dslash m := by
    obtain ⟨w, hw, -, -⟩ := cleanMarker_form m hm
    rw [hw]; simp [dslash]
  have htame := inert_tame m r hi
  cases fuel with
  | zero => omega
  | succ fuel =>
    simp only [replace, replaceLoop, subst]
    cases hfind : find m s with
    | none =>
      have := substFrom_pass m r all true [] s (find_none_pass m s hfind)
      simp only [List.append_nil, substFrom] at this
      rw [this]
    | some pos =>
      have e := find_eq m s pos hfind
      have hdrop : s.drop pos = m ++ s.drop (pos + m.length) := by
        have h1 : (s.take pos).length = pos := by
          rw [List.length_take]
          have : pos + m.length ≤ s.length := by
            have := congrArg List.length e
            have hpos := List.length_pos.mpr hne
            simp only [List.length_append, List.length_take, List.length_drop] at this
            omega
          omega
        conv_lhs => rw [e]
        rw [List.append_assoc, List.drop_left' h1]
      have hlt : dslash (s.take pos ++ r ++ s.drop (pos + m.length)) < dslash s := by
        have := dslash_replace_lt (s.take pos) (s.drop (pos + m.length)) m r hds htame
        rw [← e] at this
        exact this
      have hfirst := find_first m s pos hfind
      rw [hdrop] at hfirst
      have rhs : ∀ a : Bool, substFrom m r a 0 true s
          = s.take pos ++ (r ++ substFrom m r a 0 a (s.drop (pos + m.length))) := by
        intro a
        conv_lhs => rw [e, List.append_assoc]
        rw [substFrom_pass m r a true _ (s.take pos) hfirst,
          substFrom_hit m r a _ hne (startsWith_append_self m _), List.drop_left]
      simp only [if_true]
      cases all with
      | false =>
        simp only [Bool.not_false, if_true]
        rw [rhs false, substFrom_inactive, List.append_assoc]
      | true =>
        simp only [Bool.not_true, Bool.false_eq_true, if_false]
        rw [replaceLoop_eq_substFrom m r true hm hi fuel _ (by omega), rhs true]
        congr 1
        rw [List.append_assoc, substFrom_pass m r true true _ (s.take pos)]
        · rw [substFrom_pass m r true true _ r (tame_pass m r hm htame _)]
        · intro x1 x2 hx hx2
          by_contra hcon
          have h1 := startsWith_before_inert m r hi _ x2 [] m rfl (by simpa using hcon)
          have h2 := startsWith_append_of m x2 (m ++ s.drop (pos + m.length)) h1
          rw [hfirst x1 x2 hx hx2] at h2
          cases h2

/-- The one-pass substitution of a tame text does not raise the number of double
slashes. -/
theorem dslash_subst_le (m r : List Char) (all : Bool) (hm : CleanMarker m = true)
    (hi : Inert m r = true) (s : List Char) : dslash (subst m r all s) ≤ dslash s := by
  have hds : 1 ≤ dslash m := by
    obtain ⟨w, hw, -, -⟩ := cleanMarker_form m hm
    rw [hw]; simp [dslash]
  obtain ⟨s2, h2, hle⟩ := replace_terminates m r all (dslash s + 1) s hds
    (inert_tame m r hi) (Nat.lt_succ_self _)
  rw [replace_eq_subst m r all hm hi _ s (Nat.lt_succ_self _)] at h2
  simp only [Option.some.injEq] at h2
  rw [h2]
  exact hle

/-! ### The substitution groups of `BuildShader` -/

/-- Each group is its `replace` calls on the vertex source and its `replace` calls
on the fragment source. -/
theorem applyGroup_eq_applyRules {F D : Type} [LT D] [LE D]
    [DecidableRel (fun a b : D => a < b)] [DecidableRel (fun a b : D => a ≤ b)]
    (h : ShaderHeaders) (fuel : Nat) (m : Mapper F) (ren : Renderer D) (actor : Actor D)
    (g : Group) (src : List Char × List Char) :
    applyGroup h fuel m ren actor g src
      = (applyRules fuel h.all (vsRules m g) src.1).bind (fun vs =>
          (applyRules fuel h.all (fsRules m ren actor g) src.2).map (fun fs => (vs, fs))) := by
  cases g
  · simp only [applyGroup, colorStage, vsRules, fsRules]
    split_ifs <;>
      simp only [applyRules, Option.bind_eq_bind, Option.pure_def, Option.some_bind,
        Option.bind_assoc, Option.map_eq_bind, Function.comp_def, Option.bind_some]
  · simp only [applyGroup, normalStage, vsRules, fsRules]
    split_ifs <;>
      simp only [applyRules, Option.bind_eq_bind, Option.pure_def, Option.some_bind,
        Option.bind_assoc, Option.map_eq_bind, Function.comp_def, Option.bind_some]
  · simp only [applyGroup, tcoordStage, vsRules, fsRules]
    split_ifs <;>
      simp only [applyRules, Option.bind_eq_bind, Option.pure_def, Option.some_bind,
        Option.bind_assoc, Option.map_eq_bind, Function.comp_def, Option.bind_some]
  · simp only [applyGroup, pickingStage, vsRules, fsRules]
    split_ifs <;>
      simp only [applyRules, Option.bind_eq_bind, Option.pure_def, Option.some_bind,
        Option.bind_assoc, Option.map_eq_bind, Function.comp_def, Option.bind_some,
        Option.map_some']
  · simp only [applyGroup, depthPeelingStage, vsRules, fsRules]
    split_ifs <;>
      simp only [applyRules, Option.bind_eq_bind, Option.pure_def, Option.some_bind,
        Option.bind_assoc, Option.map_eq_bind, Function.comp_def, Option.bind_some,
        Option.map_some']

set_option maxRecDepth 1000000 in
theorem markers_clean : ∀ m ∈ markers, CleanMarker m = true := by decide

set_option maxRecDepth 1000000 in
theorem markers_apart :
    ∀ m1 ∈ markers, ∀ m2 ∈ markers, m1 ≠ m2 → Apart m1 m2 = true := by decide

set_option maxRecDepth 1000000 in
theorem insertedTexts_inert :
    ∀ r ∈ insertedTexts, ∀ m ∈ markers, Inert m r = true := by decide

set_option maxRecDepth 1000000 in
theorem groupMarkers_subset : ∀ (g : Group), ∀ m ∈ groupMarkers g, m ∈ markers := by
  intro g
  cases g <;> decide

set_option maxRecDepth 1000000 in
theorem groupMarkers_disjoint :
    ∀ (g1 g2 : Group), g1 ≠ g2 → ∀ m1 ∈ groupMarkers g1, ∀ m2 ∈ groupMarkers g2,
      m1 ≠ m2 := by
  intro g1 g2
  cases g1 <;> cases g2 <;> decide

set_option maxRecDepth 1000000 in
/-- The rules of a group on the vertex source search for markers of the group and
insert texts of the list. -/
theorem vsRules_valid {F : Type} (m : Mapper F) (g : Group) :
    ∀ rule ∈ vsRules m g, rule.1 ∈ groupMarkers g ∧ rule.2 ∈ insertedTexts := by
  cases g <;> simp only [vsRules] <;> (try split_ifs) <;> decide

set_option maxRecDepth 1000000 in
/-- The rules of a group on the fragment source search for markers of the group and
insert texts of the list. -/
theorem fsRules_valid {F D : Type} [LT D] [LE D] [DecidableRel (fun a b : D => a < b)]
    [DecidableRel (fun a b : D => a ≤ b)] (m : Mapper F) (ren : Renderer D)
    (actor : Actor D) (g : Group) :
    ∀ rule ∈ fsRules m ren actor g, rule.1 ∈ groupMarkers g ∧ rule.2 ∈ insertedTexts := by
  cases g <;> simp only [fsRules] <;> split_ifs <;> decide

/-- The `replace` calls for rules with clean markers and inert texts return the text
of the one-pass substitutions, given fuel above the number of double slashes. -/
theorem applyRules_eq_substRules (fuel : Nat) (all : Bool) :
    ∀ (rules : List (List Char × List Char)) (s : List Char),
      (∀ rule ∈ rules, CleanMarker rule.1 = true ∧ Inert rule.1 rule.2 = true) →
      dslash s < fuel →
      applyRules fuel all rules s = some (substRules all rules s)
      ∧ dslash (substRules all rules s) ≤ dslash s := by
  intro rules
  induction rules with
  | nil => intro s _ _; exact ⟨rfl, Nat.le_refl _⟩
  | cons rule rest ih =>
    intro s hv hf
    obtain ⟨hc, hi⟩ := hv rule (List.mem_cons_self _ _)
    have hle := dslash_subst_le rule.1 rule.2 all hc hi s
    obtain ⟨h1, h2⟩ := ih (subst rule.1 rule.2 all s)
      (fun r hr => hv r (List.mem_cons_of_mem _ hr)) (by omega)
    simp only [applyRules, substRules, List.foldl_cons]
    rw [replace_eq_subst rule.1 rule.2 all hc hi fuel s hf]
    exact ⟨h1, Nat.le_trans h2 hle⟩

/-- One substitution commutes with the substitutions of a list of rules for other
markers. -/
theorem subst_comm_substRules (all : Bool) (m1 r1 : List Char)
    (h1 : CleanMarker m1 = true) :
    ∀ (rules : List (List Char × List Char)) (s : List Char),
      (∀ rule ∈ rules, CleanMarker rule.1 = true ∧ Apart m1 rule.1 = true
        ∧ Inert rule.1 r1 = true ∧ Inert m1 rule.2 = true) →
      subst m1 r1 all (substRules all rules s) = substRules all rules (subst m1 r1 all s) := by
  intro rules
  induction rules with
  | nil => intro s _; rfl
  | cons rule rest ih =>
    intro s hv
    obtain ⟨a, b, c, d⟩ := hv rule (List.mem_cons_self _ _)
    simp only [substRules, List.foldl_cons]
    have := ih (subst rule.1 rule.2 all s) (fun r hr => hv r (List.mem_cons_of_mem _ hr))
    simp only [substRules] at this
    rw [this, subst_comm m1 r1 rule.1 rule.2 all all h1 a b c d s]

/-- The substitutions of two lists of rules commute when every marker of the one is
apart from every marker of the other and the texts are inert for them. -/
theorem substRules_comm (all : Bool) :
    ∀ (rules1 rules2 : List (List Char × List Char)) (s : List Char),
      (∀ a ∈ rules1, CleanMarker a.1 = true) →
      (∀ a ∈ rules1, ∀ b ∈ rules2, CleanMarker b.1 = true
        ∧ Apart a.1 b.1 = true ∧ Inert b.1 a.2 = true ∧ Inert a.1 b.2 = true) →
      substRules all rules1 (substRules all rules2 s)
        = substRules all rules2 (substRules all rules1 s) := by
  intro rules1
  induction rules1 with
  | nil => intro rules2 s _ _; rfl
  | cons rule rest ih =>
    intro rules2 s hc hv
    have h1 := subst_comm_substRules all rule.1 rule.2 (hc rule (List.mem_cons_self _ _))
      rules2 s (fun b hb => hv rule (List.mem_cons_self _ _) b hb)
    have h2 := ih rules2 (subst rule.1 rule.2 all s)
      (fun a ha => hc a (List.mem_cons_of_mem _ ha))
      (fun a ha b hb => hv a (List.mem_cons_of_mem _ ha) b hb)
    show substRules all rest (subst rule.1 rule.2 all (substRules all rules2 s)) = _
    rw [h1, h2]
    rfl

/-- A group returns the texts of its one-pass substitutions, given fuel above the
number of double slashes of either source. -/
theorem applyGroup_eq_substGroup {F D : Type} [LT D] [LE D]
    [DecidableRel (fun a b : D => a < b)] [DecidableRel (fun a b : D => a ≤ b)]
    (h : ShaderHeaders) (fuel : Nat) (m : Mapper F) (ren : Renderer D) (actor : Actor D)
    (g : Group) (src : List Char × List Char) (hv : dslash src.1 < fuel)
    (hf : dslash src.2 < fuel) :
    applyGroup h fuel m ren actor g src = some (substGroup h m ren actor src g)
    ∧ dslash (substGroup h m ren actor src g).1 ≤ dslash src.1
    ∧ dslash (substGroup h m ren actor src g).2 ≤ dslash src.2 := by
  have hvs : ∀ rule ∈ vsRules m g, CleanMarker rule.1 = true ∧ Inert rule.1 rule.2 = true := by
    intro rule hr
    obtain ⟨a, b⟩ := vsRules_valid m g rule hr
    have hm := groupMarkers_subset g rule.1 a
    exact ⟨markers_clean _ hm, insertedTexts_inert _ b _ hm⟩
  have hfs : ∀ rule ∈ fsRules m ren actor g,
      CleanMarker rule.1 = true ∧ Inert rule.1 rule.2 = true := by
    intro rule hr
    obtain ⟨a, b⟩ := fsRules_valid m ren actor g rule hr
    have hm := groupMarkers_subset g rule.1 a
    exact ⟨markers_clean _ hm, insertedTexts_inert _ b _ hm⟩
  obtain ⟨a1, a2⟩ := applyRules_eq_substRules fuel h.all (vsRules m g) src.1 hvs hv
  obtain ⟨b1, b2⟩ := applyRules_eq_substRules fuel h.all (fsRules m ren actor g) src.2 hfs hf
  refine ⟨?_, a2, b2⟩
  rw [applyGroup_eq_applyRules, a1, b1]
  rfl

/-- Two different groups can be applied in either order. -/
theorem substGroup_comm {F D : Type} [LT D] [LE D]
    [DecidableRel (fun a b : D => a < b)] [DecidableRel (fun a b : D => a ≤ b)]
    (h : ShaderHeaders) (m : Mapper F) (ren : Renderer D) (actor : Actor D)
    (g1 g2 : Group) (src : List Char × List Char) :
    substGroup h m ren actor (substGroup h m ren actor src g1) g2
      = substGroup h m ren actor (substGroup h m ren actor src g2) g1 := by
  by_cases hg : g1 = g2
  · rw [hg]
  · have key : ∀ (rules1 rules2 : List (List Char × List Char)),
        (∀ rule ∈ rules1, rule.1 ∈ groupMarkers g1 ∧ rule.2 ∈ insertedTexts) →
        (∀ rule ∈ rules2, rule.1 ∈ groupMarkers g2 ∧ rule.2 ∈ insertedTexts) →
        ∀ s, substRules h.all rules2 (substRules h.all rules1 s)
          = substRules h.all rules1 (substRules h.all rules2 s) := by
      intro rules1 rules2 v1 v2 s
      apply substRules_comm
      · intro a ha
        exact markers_clean _ (groupMarkers_subset g2 _ (v2 a ha).1)
      · intro a ha b hb
        obtain ⟨a1, a2⟩ := v2 a ha
        obtain ⟨b1, b2⟩ := v1 b hb
        have ma := groupMarkers_subset g2 _ a1
        have mb := groupMarkers_subset g1 _ b1
        have hne : a.1 ≠ b.1 := fun e =>
          groupMarkers_disjoint g1 g2 hg _ b1 _ a1 e.symm
        exact ⟨markers_clean _ mb, markers_apart _ ma _ mb hne,
          insertedTexts_inert _ a2 _ mb, insertedTexts_inert _ b2 _ ma⟩
    simp only [substGroup]
    rw [key _ _ (vsRules_valid m g1) (vsRules_valid m g2),
      key _ _ (fsRules_valid m ren actor g1) (fsRules_valid m ren actor g2)]

/-- The groups applied in the order of a list return the texts of their one-pass
substitutions in that order. -/
theorem applyGroups_eq_foldl {F D : Type} [LT D] [LE D]
    [DecidableRel (fun a b : D => a < b)] [DecidableRel (fun a b : D => a ≤ b)]
    (h : ShaderHeaders) (fuel : Nat) (m : Mapper F) (ren : Renderer D) (actor : Actor D) :
    ∀ (order : List Group) (src : List Char × List Char), dslash src.1 < fuel →
      dslash src.2 < fuel →
      applyGroups h fuel m ren actor order src
        = some (order.foldl (substGroup h m ren actor) src) := by
  intro order
  induction order with
  | nil => intro src _ _; rfl
  | cons g rest ih =>
    intro src hv hf
    obtain ⟨a, b, c⟩ := applyGroup_eq_substGroup h fuel m ren actor g src hv hf
    simp only [applyGroups, a, Option.some_bind, List.foldl_cons]
    exact ih _ (by omega) (by omega)

/-- The method `BuildShader` is the five groups in the order colour, normal,
texture coordinates, picking, depth peeling, applied to the base templates. -/
theorem BuildShader_eq_applyGroups {F D : Type} [LT D] [LE D]
    [DecidableRel (fun a b : D => a < b)] [DecidableRel (fun a b : D => a ≤ b)]
    (h : ShaderHeaders) (fuel : Nat) (m : Mapper F) (VSSource FSSource : List Char)
    (lightComplexity : Int) (ren : Renderer D) (actor : Actor D) :
    BuildShader h fuel m VSSource FSSource lightComplexity ren actor
      = (applyGroups h fuel m ren actor buildOrder
          (baseSources h VSSource FSSource lightComplexity)).map
        (fun r => (r.1, r.2, [])) := by
  simp only [BuildShader, applyGroups, buildOrder, applyGroup, Option.bind_eq_bind,
    Option.pure_def]
  cases colorStage h fuel m actor (baseSources h VSSource FSSource lightComplexity).1
      (baseSources h VSSource FSSource lightComplexity).2 with
  | none => rfl
  | some s1 =>
    simp only [Option.some_bind]
    cases normalStage h fuel m actor s1.1 s1.2 with
    | none => rfl
    | some s2 =>
      simp only [Option.some_bind]
      cases tcoordStage h fuel m s2.1 s2.2 with
      | none => rfl
      | some s3 =>
        simp only [Option.some_bind]
        cases pickingStage h fuel ren s3.2 with
        | none => rfl
        | some s4 =>
          simp only [Option.some_bind, Option.map_some']
          cases depthPeelingStage h fuel ren s4 with
          | none => rfl
          | some s5 => rfl

set_option maxRecDepth 1000000 in
/-- C35: no replacement text of `BuildShader` holds `//VTK::` or a marker, and each
is inert for every marker: it brings no two slashes in a row and cannot complete a
marker begun before it; every marker is two slashes followed by text without
slash, and no marker occurs in another or has an end piece that starts another.
Therefore, for every pair of source texts and fuel above their numbers of double
slashes, the five groups applied in any order return, and they return the texts
that the order of `BuildShader` gives.  Each group is the `replace` calls for its
pairs of marker and text, and `BuildShader` is the groups in its order applied to
the base templates. -/
theorem C35_order_independent {F D : Type} [LT D] [LE D]
    [DecidableRel (fun a b : D => a < b)] [DecidableRel (fun a b : D => a ≤ b)]
    (h : ShaderHeaders) (fuel : Nat) (m : Mapper F) (ren : Renderer D) (actor : Actor D)
    (VS FS : List Char) (order : List Group) (hperm : order.Perm buildOrder)
    (hv : dslash VS < fuel) (hf : dslash FS < fuel) :
    (∀ r ∈ insertedTexts, find "//VTK::".toList r = none ∧ Tame r = true
      ∧ ∀ mk ∈ markers, find mk r = none ∧ Inert mk r = true)
    ∧ (∀ m1 ∈ markers, CleanMarker m1 = true
      ∧ ∀ m2 ∈ markers, m1 ≠ m2 → find m1 m2 = none ∧ Apart m1 m2 = true
        ∧ ∀ k < m1.length, 0 < k → startsWith m2 (m1.drop k) = false)
    ∧ (∀ g, (∀ rule ∈ vsRules m g ++ fsRules m ren actor g,
          rule.1 ∈ markers ∧ rule.2 ∈ insertedTexts)
        ∧ ∀ src, applyGroup h fuel m ren actor g src
          = (applyRules fuel h.all (vsRules m g) src.1).bind (fun vs =>
              (applyRules fuel h.all (fsRules m ren actor g) src.2).map
                (fun fs => (vs, fs))))
    ∧ (∃ vs fs, applyGroups h fuel m ren actor order (VS, FS) = some (vs, fs)
      ∧ applyGroups h fuel m ren actor buildOrder (VS, FS) = some (vs, fs))
    ∧ (∀ (VSSource FSSource : List Char) (lightComplexity : Int),
        BuildShader h fuel m VSSource FSSource lightComplexity ren actor
          = (applyGroups h fuel m ren actor buildOrder
              (baseSources h VSSource FSSource lightComplexity)).map
            (fun r => (r.1, r.2, []))) := by
  refine ⟨by decide, by decide, ?_, ?_,
    fun a b c => BuildShader_eq_applyGroups h fuel m a b c ren actor⟩
  · intro g
    refine ⟨?_, fun src => applyGroup_eq_applyRules h fuel m ren actor g src⟩
    intro rule hr
    rcases List.mem_append.mp hr with hr | hr
    · obtain ⟨a, b⟩ := vsRules_valid m g rule hr
      exact ⟨groupMarkers_subset g _ a, b⟩
    · obtain ⟨a, b⟩ := fsRules_valid m ren actor g rule hr
      exact ⟨groupMarkers_subset g _ a, b⟩
  · refine ⟨(order.foldl (substGroup h m ren actor) (VS, FS)).1,
      (order.foldl (substGroup h m ren actor) (VS, FS)).2, ?_, ?_⟩
    · exact applyGroups_eq_foldl h fuel m ren actor order (VS, FS) hv hf
    · rw [applyGroups_eq_foldl h fuel m ren actor buildOrder (VS, FS) hv hf]
      congr 1
      exact (hperm.foldl_eq' (fun x _ y _ z => substGroup_comm h m ren actor x y z)
        (VS, FS)).symm

set_option maxRecDepth 1000000 in
/-- Witness for C35: the sample templates with colours, picking and depth peeling on,
the groups applied in the reverse of the order of `BuildShader`. -/
theorem C35_order_independent_witness :
    (∀ r ∈ insertedTexts, find "//VTK::".toList r = none ∧ Tame r = true
      ∧ ∀ mk ∈ markers, find mk r = none ∧ Inert mk r = true)
    ∧ (∀ m1 ∈ markers, CleanMarker m1 = true
      ∧ ∀ m2 ∈ markers, m1 ≠ m2 → find m1 m2 = none ∧ Apart m1 m2 = true
        ∧ ∀ k < m1.length, 0 < k → startsWith m2 (m1.drop k) = false)
    ∧ (∀ g, (∀ rule ∈ vsRules sampleColoredMapper g
            ++ fsRules sampleColoredMapper samplePeelingRenderer sampleActor g,
          rule.1 ∈ markers ∧ rule.2 ∈ insertedTexts)
        ∧ ∀ src, applyGroup sampleHeaders 8 sampleColoredMapper samplePeelingRenderer
            sampleActor g src
          = (applyRules 8 sampleHeaders.all (vsRules sampleColoredMapper g) src.1).bind
              (fun vs =>
                (applyRules 8 sampleHeaders.all
                  (fsRules sampleColoredMapper samplePeelingRenderer sampleActor g)
                  src.2).map (fun fs => (vs, fs))))
    ∧ (∃ vs fs, applyGroups sampleHeaders 8 sampleColoredMapper samplePeelingRenderer
          sampleActor [.depthPeeling, .picking, .tcoord, .normal, .color]
          (sampleTemplateVS, sampleTemplateFS) = some (vs, fs)
      ∧ applyGroups sampleHeaders 8 sampleColoredMapper samplePeelingRenderer
          sampleActor buildOrder (sampleTemplateVS, sampleTemplateFS) = some (vs, fs))
    ∧ (∀ (VSSource FSSource : List Char) (lightComplexity : Int),
        BuildShader sampleHeaders 8 sampleColoredMapper VSSource FSSource
            lightComplexity samplePeelingRenderer sampleActor
          = (applyGroups sampleHeaders 8 sampleColoredMapper samplePeelingRenderer
              sampleActor buildOrder
              (baseSources sampleHeaders VSSource FSSource lightComplexity)).map
            (fun r => (r.1, r.2, []))) :=
  C35_order_independent sampleHeaders 8 sampleColoredMapper samplePeelingRenderer
    sampleActor sampleTemplateVS sampleTemplateFS
    [.depthPeeling, .picking, .tcoord, .normal, .color] (by decide) (by decide) (by decide)

end vtkgl
